import Mathlib

/-!
# Matroska segment demuxer (`modules/demux/mkv/matroska_segment.cpp`)

A shallow embedding of the cue index, the block extractor `BlockGet`, the seek
engine `Seek`, `LoadCues`, `Preload`, `LoadSeekHeadItem` and the track
activation `Select`, with the properties proved about them.

Machine integers are `Nat` / `Int`; a conversion that can wrap is written with
`toUInt64` / `toInt64`.
-/

namespace Mkv

/-! ## Machine integers and VLC constants -/

/-- Value of an integer converted to `uint64_t`. -/
def toUInt64 (x : Int) : Nat := (x % 2 ^ 64).toNat

/-- Value of an integer converted to `int64_t` (two's complement). -/
def toInt64 (x : Int) : Int :=
  if toUInt64 x < 2 ^ 63 then (toUInt64 x : Int) else (toUInt64 x : Int) - 2 ^ 64

/-- Value of an integer converted to `int` (32 bits, two's complement). -/
def toInt32 (x : Int) : Int :=
  if (x % 2 ^ 32).toNat < 2 ^ 31 then ((x % 2 ^ 32).toNat : Int)
  else ((x % 2 ^ 32).toNat : Int) - 2 ^ 32

/-- Value of an integer converted to `uint8_t`. -/
def toUInt8 (x : Nat) : Nat := x % 256

/-- Return code `VLC_SUCCESS` of `vlc_common.h`. -/
def VLC_SUCCESS : Int := 0

/-- Return code `VLC_EGENERIC` of `vlc_common.h`. -/
def VLC_EGENERIC : Int := -1

/-- A FourCC, kept as its four characters. -/
abbrev vlc_fourcc_t := List Char

/-- The macro `VLC_FOURCC( a, b, c, d )`. -/
def VLC_FOURCC (a b c d : Char) : vlc_fourcc_t := [a, b, c, d]

/-- Modelled from the spec: the constant `VLC_CODEC_THEORA` of `vlc_fourcc.h`
(normalized codec "Theora"), which is not part of the source file. -/
def VLC_CODEC_THEORA : vlc_fourcc_t := VLC_FOURCC 't' 'h' 'e' 'o'

/-- Modelled from the spec: the constant `VLC_CODEC_MP4A` of `vlc_fourcc.h`
(normalized codec "MP4A"), which is not part of the source file. -/
def VLC_CODEC_MP4A : vlc_fourcc_t := VLC_FOURCC 'm' 'p' '4' 'a'

/-- Stream categories of `es_format_t::i_cat`. -/
inductive es_category where
  | UNKNOWN_ES | VIDEO_ES | AUDIO_ES | SPU_ES | NAV_ES
deriving DecidableEq, Repr

/-! ## Data model -/

/-- The fields of `es_format_t` that the segment code reads or writes. `p_extra`
holds the bytes of the extradata and `i_extra`, an `int`, their count as the
code sets it; the unsigned fields are naturals. -/
structure es_format_t where
  i_cat : es_category := es_category.UNKNOWN_ES
  i_codec : vlc_fourcc_t := []
  i_priority : Int := 0
  p_extra : List Nat := []
  audio_i_channels : Nat := 0
  audio_i_rate : Nat := 0
  audio_i_bitspersample : Nat := 0
  audio_i_blockalign : Nat := 0
  i_extra : Int := 0
  i_bitrate : Nat := 0
  b_packetized : Bool := true
  video_i_width : Nat := 0
  video_i_height : Nat := 0
  video_i_frame_rate : Nat := 0
  video_i_frame_rate_base : Nat := 0
  subs_psz_encoding : Option (List Char) := none
  subs_spu_i_original_frame_width : Int := 0
  subs_spu_i_original_frame_height : Int := 0
  subs_spu_palette : List Nat := []
deriving DecidableEq, Repr

/-- The interleaver state `Cook_PrivateTrackData` of a RealAudio track, as its
constructor receives it. -/
structure Cook_PrivateTrackData where
  i_sub_packet_h : Nat
  i_frame_size : Nat
  i_subpacket_size : Nat
deriving DecidableEq, Repr

/-- The fields of `mkv_track_t`. `psz_codec = none` is the null pointer;
`p_extra_data` is the codec-private blob (`i_extra_data` is its length). -/
structure mkv_track_t where
  i_number : Nat := 0
  fmt : es_format_t := {}
  b_enabled : Bool := true
  b_default : Bool := false
  b_forced : Bool := false
  b_silent : Bool := false
  psz_codec : Option (List Char) := none
  p_extra_data : List Nat := []
  i_original_rate : Nat := 0
  b_dts_only : Bool := false
  b_pts_only : Bool := false
  i_last_dts : Int := 0
  p_es : Option Nat := none
  p_sys : Option Cook_PrivateTrackData := none
deriving DecidableEq, Repr

/-- One slot of the cue index (`mkv_index_t`). -/
structure mkv_index_t where
  i_track : Int
  i_block_number : Int
  i_position : Int
  i_time : Int
  b_key : Bool
deriving DecidableEq, Repr

/-- What libmatroska gives for a `KaxBlock` / `KaxSimpleBlock` after `ReadData`:
track number, global timecode (ns), the two SimpleBlock header bits and the
first frame (`Buffer0 = none` is a null `Buffer()`). -/
structure KaxBlockData where
  TrackNum : Nat
  GlobalTimecode : Nat := 0
  IsKeyframe : Bool := false
  IsDiscardable : Bool := false
  Buffer0 : Option (List Nat) := none
deriving DecidableEq, Repr

/-- A block object as it is handed to the caller of `BlockGet`. -/
structure KaxBlock where
  ElementPosition : Nat
  hdr : KaxBlockData
deriving DecidableEq, Repr

/-- Class of an EBML element (what `MKV_IS_ID` tests), with the value that
`ReadData` yields for the leaf classes. -/
inductive EbmlId where
  | KaxSegment
  | KaxCluster
  | KaxCues
  | KaxClusterTimecode (v : Nat)
  | KaxClusterSilentTracks
  | KaxBlockGroup
  | KaxSimpleBlock (b : KaxBlockData)
  | KaxBlock (b : KaxBlockData)
  | KaxBlockDuration (v : Nat)
  | KaxReferenceBlock (v : Int)
  | KaxClusterSilentTrackNumber (v : Nat)
  | KaxCuePoint
  | KaxCueTime (v : Nat)
  | KaxCueTrackPositions
  | KaxCueTrack (v : Nat)
  | KaxCueClusterPosition (v : Nat)
  | KaxCueBlockNumber (v : Nat)
  | KaxSeekHead
  | KaxInfo
  | KaxTracks
  | KaxAttachments
  | KaxChapters
  | KaxTags
  | KaxTag
  | KaxTagSimple
  | KaxTagName (v : List Char)
  | KaxTagString (v : List Char)
  | KaxTagLangue (v : List Char)
  | KaxTagDefault (v : Nat)
  | EbmlVoid
  | Unknown
deriving DecidableEq, Repr

/-- An EBML element: class, absolute position in the file, children. -/
inductive EbmlElement where
  | mk (id : EbmlId) (pos : Nat) (children : List EbmlElement)

namespace EbmlElement

/-- Class of the element. -/
def id : EbmlElement → EbmlId
  | mk i _ _ => i

/-- The method `GetElementPosition()`. -/
def GetElementPosition : EbmlElement → Nat
  | mk _ p _ => p

/-- Children of a master element, in file order. -/
def children : EbmlElement → List EbmlElement
  | mk _ _ c => c

end EbmlElement

/-- The current cluster object: its position and the global timecode that
`InitTimecode` fixed. -/
structure KaxCluster where
  ElementPosition : Nat
  GlobalTimecode : Nat := 0
deriving DecidableEq, Repr

/-! ## Element traversal -/

/-- One frame of the level stack: the container and its children not yet
returned by `Get`. -/
structure Frame where
  container : EbmlElement
  rest : List EbmlElement

/-- Modelled from the spec: the class `EbmlParser` (`Ebml_parser.cpp` is not
part of the source file), a stack of frames over the element tree. The head of
`frames` is the top frame and the level is the number of frames. -/
structure EbmlParser where
  frames : List Frame
  got : Option EbmlElement := none

namespace EbmlParser

/-- Modelled from the spec: `Get()` returns the next child of the top frame,
or nothing when the frame is exhausted. -/
def Get (p : EbmlParser) : Option EbmlElement × EbmlParser :=
  match p.frames with
  | [] => (none, { p with got := none })
  | f :: fs =>
    match f.rest with
    | [] => (none, { p with got := none })
    | e :: r => (some e, { frames := { f with rest := r } :: fs, got := some e })

/-- Modelled from the spec: `Down()` pushes the most recently returned element
onto the stack. -/
def Down (p : EbmlParser) : EbmlParser :=
  match p.got with
  | none => p
  | some e => { frames := { container := e, rest := e.children } :: p.frames, got := none }

/-- Modelled from the spec: `Up()` pops the top frame. -/
def Up (p : EbmlParser) : EbmlParser :=
  { frames := p.frames.tail, got := none }

/-- Modelled from the spec: `Keep()` hands the most recent element over to the
caller; the position of the traversal is not changed. -/
def Keep (p : EbmlParser) : EbmlParser := p

/-- Modelled from the spec: `GetLevel()`, the depth of the level stack. -/
def GetLevel (p : EbmlParser) : Nat := p.frames.length

/-- Modelled from the spec: `IsTopPresent( cluster )`, whether the cluster is
one of the containers of the level stack. -/
def IsTopPresent (p : EbmlParser) (c : KaxCluster) : Bool :=
  p.frames.any fun f =>
    decide (f.container.id = EbmlId.KaxCluster) &&
      decide (f.container.GetElementPosition = c.ElementPosition)

end EbmlParser

/-- Modelled from the spec: `new EbmlParser( &es, segment, ... )`, a parser at
level 1 whose next elements are the given children of the segment. -/
def newEbmlParser (segment : EbmlElement) (rest : List EbmlElement) : EbmlParser :=
  { frames := [{ container := segment, rest := rest }], got := none }

/-- What the segment sends to the ES output: the queries of `es_out_Control` and
the descriptors handed over with `es_out_Add`. -/
inductive es_out_query where
  | ES_OUT_SET_PCR (v : Int)
  | ES_OUT_SET_NEXT_DISPLAY_TIME (v : Int)
  | ES_OUT_ADD (fmt : es_format_t)
  | ES_OUT_SET_ES_DEFAULT (p_es : Option Nat)
deriving DecidableEq, Repr

/-- The fields of `demux_sys_t` that the segment uses; `out` is the list of the
queries sent to `sys.demuxer.out`, oldest first. -/
structure demux_sys_t where
  i_pts : Int := 0
  i_pcr : Int := 0
  i_start_pts : Int := 0
  i_chapter_time : Int := 0
  out : List es_out_query := []
deriving DecidableEq, Repr

/-- A binary element of libebml (`EbmlBinary`, here a segment UID): its bytes.
The comparison `operator==` of the library compares the sizes and the bytes,
which is the equality of the byte lists. -/
structure EbmlBinary where
  Data : List Nat
deriving DecidableEq, Repr

/-- The fields of `matroska_segment_c` used by the index, the block extractor,
the seek engine and the preload. `p_indexes` holds the `i_index` slots in use,
`ep = none` is the null parser and `segment` is the segment element with the
elements of level 1 as children; the recorded positions start at -1 as in the
constructor. -/
structure matroska_segment_c where
  sys : demux_sys_t := {}
  segment : EbmlElement := EbmlElement.mk EbmlId.KaxSegment 0 []
  tracks : List mkv_track_t := []
  p_indexes : List mkv_index_t := []
  i_index_max : Nat := 1024
  i_timescale : Nat := 1000000
  cluster : Option KaxCluster := none
  i_block_pos : Int := 0
  i_cluster_pos : Int := 0
  i_start_pos : Int := 0
  i_start_time : Int := 0
  b_cues : Bool := false
  ep : Option EbmlParser := none
  i_seekhead_count : Int := 0
  i_seekhead_position : Int := -1
  i_cues_position : Int := -1
  i_tracks_position : Int := -1
  i_info_position : Int := -1
  i_chapters_position : Int := -1
  i_tags_position : Int := -1
  i_attachments_position : Int := -1
  b_preloaded : Bool := false
  p_segment_uid : Option EbmlBinary := none
  p_prev_segment_uid : Option EbmlBinary := none
  p_next_segment_uid : Option EbmlBinary := none

/-- The counter `i_index`: number of slots in use. -/
def matroska_segment_c.i_index (s : matroska_segment_c) : Nat := s.p_indexes.length

/-! ## Cue index -/

/-- The method `matroska_segment_c::IndexAppendCluster`: fill the slot `p_indexes[i_index]`
from the cluster, count it and grow the capacity by 1024 when it is reached. -/
def IndexAppendCluster (s : matroska_segment_c) (cluster : KaxCluster) : matroska_segment_c :=
  let idx : mkv_index_t :=
    { i_track := -1
      i_block_number := -1
      i_position := toInt64 cluster.ElementPosition
      i_time := toInt64 (cluster.GlobalTimecode / 1000)
      b_key := true }
  { s with
    p_indexes := s.p_indexes ++ [idx]
    i_index_max :=
      if s.p_indexes.length + 1 ≥ s.i_index_max then s.i_index_max + 1024 else s.i_index_max }

/-- The test that guards the synthetic append in `BlockGet` and in `Seek`:
`i_index == 0 || ( i_index > 0 && p_indexes[i_index - 1].i_position < pos )`. -/
def index_accepts (p_indexes : List mkv_index_t) (cluster : KaxCluster) : Bool :=
  match p_indexes.getLast? with
  | none => true
  | some last => decide (last.i_position < toInt64 cluster.ElementPosition)

/-! ## Block extractor -/

/-- The loop test of `BlockFindTrackIndex` for one track. -/
def track_matches (tk : mkv_track_t) (p_block p_simpleblock : Option KaxBlock) : Bool :=
  (match p_block with
    | some b => tk.i_number == b.hdr.TrackNum
    | none => false) ||
  (match p_simpleblock with
    | some b => tk.i_number == b.hdr.TrackNum
    | none => false)

/-- The method `matroska_segment_c::BlockFindTrackIndex`: index of the first track whose
number is the block's; `none` stands for the return code `VLC_EGENERIC`. -/
def BlockFindTrackIndex (tracks : List mkv_track_t)
    (p_block p_simpleblock : Option KaxBlock) : Option Nat :=
  let i_track := tracks.findIdx fun tk => track_matches tk p_block p_simpleblock
  if i_track ≥ tracks.length then none else some i_track

/-- The variables of one `BlockGet` call: the two block pointers and the three
output parameters. -/
structure BlockGet_vars where
  pp_block : Option KaxBlock := none
  pp_simpleblock : Option KaxBlock := none
  pb_key_picture : Bool := true
  pb_discardable_picture : Bool := false
  pi_duration : Int := 0
deriving DecidableEq, Repr

/-- Outcome of one pass through the body of the `for( ;; )` of `BlockGet`. -/
inductive BlockGet_pass where
  | ret (code : Int) (s : matroska_segment_c) (v : BlockGet_vars)
  | again (s : matroska_segment_c) (v : BlockGet_vars)

/-- The `case VLC_CODEC_THEORA` of `BlockGet`: value of the keyframe flag of a
BlockGroup block whose flag is still true. -/
def theora_key (i_codec : vlc_fourcc_t) (block : KaxBlock) : Bool :=
  if i_codec = VLC_CODEC_THEORA then
    match block.hdr.Buffer0 with
    | some (b0 :: _) => if b0 &&& 0x40 ≠ 0 then false else true
    | _ => false
  else true

/-- The `update the index` step of `BlockGet`: when the last slot has time -1
it takes the time of the block and the keyframe flag. -/
def update_index (p_indexes : List mkv_index_t) (GlobalTimecode : Nat) (key : Bool) :
    List mkv_index_t :=
  match p_indexes.getLast? with
  | none => p_indexes
  | some idx =>
    if idx.i_time = -1 then
      p_indexes.dropLast ++ [{ idx with i_time := toInt64 (GlobalTimecode / 1000), b_key := key }]
    else p_indexes

/-- The first `if` of the loop of `BlockGet`: a block is pending; check its
track, fix the flags, update the index and return, or drop the block. -/
def BlockGet_deliver (s : matroska_segment_c) (v : BlockGet_vars) : BlockGet_pass :=
  match BlockFindTrackIndex s.tracks v.pp_block v.pp_simpleblock with
  | none => .again s { v with pp_block := none, pp_simpleblock := none }
  | some i_tk =>
    let key : Bool :=
      match v.pp_simpleblock, v.pp_block with
      | some sb, _ => sb.hdr.IsKeyframe
      | none, some b =>
        if v.pb_key_picture then
          match s.tracks.get? i_tk with
          | some tk => theora_key tk.fmt.i_codec b
          | none => true
        else false
      | none, none => v.pb_key_picture
    let disc : Bool :=
      match v.pp_simpleblock with
      | some sb => sb.hdr.IsDiscardable
      | none => v.pb_discardable_picture
    let tc : Nat :=
      match v.pp_simpleblock, v.pp_block with
      | some sb, _ => sb.hdr.GlobalTimecode
      | none, some b => b.hdr.GlobalTimecode
      | none, none => 0
    .ret VLC_SUCCESS { s with p_indexes := update_index s.p_indexes tc key }
      { v with pb_key_picture := key, pb_discardable_picture := disc }

/-- The `case 1` of `BlockGet`: children of the segment. -/
def BlockGet_level1 (s : matroska_segment_c) (v : BlockGet_vars) (ep : EbmlParser)
    (el : EbmlElement) : BlockGet_pass :=
  match el.id with
  | .KaxCluster =>
    .again { s with
        cluster := some { ElementPosition := el.GetElementPosition }
        i_cluster_pos := toInt64 el.GetElementPosition
        tracks := s.tracks.map fun tk => { tk with b_silent := false }
        ep := some ep.Down } v
  | .KaxCues => .ret VLC_EGENERIC { s with ep := some ep } v
  | _ => .again { s with ep := some ep } v

/-- The `case 2` of `BlockGet`: children of the cluster. -/
def BlockGet_level2 (s : matroska_segment_c) (v : BlockGet_vars) (ep : EbmlParser)
    (cluster : KaxCluster) (el : EbmlElement) : BlockGet_pass :=
  match el.id with
  | .KaxClusterTimecode ctc =>
    let cluster : KaxCluster :=
      { cluster with GlobalTimecode := (ctc * s.i_timescale) % 2 ^ 64 }
    let s := { s with cluster := some cluster, ep := some ep }
    .again (if index_accepts s.p_indexes cluster then IndexAppendCluster s cluster else s) v
  | .KaxClusterSilentTracks => .again { s with ep := some ep.Down } v
  | .KaxBlockGroup =>
    .again { s with i_block_pos := toInt64 el.GetElementPosition, ep := some ep.Down } v
  | .KaxSimpleBlock b =>
    .again { s with ep := some ep }
      { v with pp_simpleblock := some { ElementPosition := el.GetElementPosition, hdr := b } }
  | _ => .again { s with ep := some ep } v

/-- The loop that marks the first track with the given number as silent. -/
def set_silent : List mkv_track_t → Nat → List mkv_track_t
  | [], _ => []
  | tk :: tks, n =>
    if tk.i_number = n then { tk with b_silent := true } :: tks
    else tk :: set_silent tks n

/-- The `case 3` of `BlockGet`: children of a BlockGroup or of SilentTracks. -/
def BlockGet_level3 (s : matroska_segment_c) (v : BlockGet_vars) (ep : EbmlParser)
    (el : EbmlElement) : BlockGet_pass :=
  match el.id with
  | .KaxBlock b =>
    .again { s with ep := some ep.Keep }
      { v with pp_block := some { ElementPosition := el.GetElementPosition, hdr := b } }
  | .KaxBlockDuration dur =>
    .again { s with ep := some ep } { v with pi_duration := toInt64 dur }
  | .KaxReferenceBlock ref =>
    .again { s with ep := some ep }
      (if v.pb_key_picture then { v with pb_key_picture := false }
       else if ref > 0 then { v with pb_discardable_picture := true }
       else v)
  | .KaxClusterSilentTrackNumber track_num =>
    .again { s with tracks := set_silent s.tracks (track_num % 2 ^ 32), ep := some ep } v
  | _ => .again { s with ep := some ep } v

/-- The part of the loop body of `BlockGet` after the first `if`: the element
`el` that `Get` returned is dispatched on the level. -/
def BlockGet_parse (s : matroska_segment_c) (v : BlockGet_vars) (ep : EbmlParser)
    (el : Option EbmlElement) : BlockGet_pass :=
  let i_level := ep.GetLevel
  match el with
  | none =>
    if i_level > 1 then .again { s with ep := some ep.Up } v
    else .ret VLC_EGENERIC { s with ep := some ep } v
  | some el =>
    let cluster : Option KaxCluster :=
      if i_level > 1 then
        match s.cluster with
        | some c => if ep.IsTopPresent c then some c else none
        | none => none
      else s.cluster
    let s := { s with cluster := cluster }
    match i_level, cluster with
    | 1, _ => BlockGet_level1 s v ep el
    | 2, some c => BlockGet_level2 s v ep c el
    | 3, some _ => BlockGet_level3 s v ep el
    | 0, _ => .ret VLC_EGENERIC { s with ep := some ep } v
    | _ + 2, none => .again { s with ep := some ep } v
    | _ + 4, some _ => .ret VLC_EGENERIC { s with ep := some ep } v

/-- One pass through the body of the `for( ;; )` of `BlockGet`. -/
def BlockGet_body (s : matroska_segment_c) (v : BlockGet_vars) : BlockGet_pass :=
  match s.ep with
  | none => .ret VLC_EGENERIC s v
  | some ep =>
    match v.pp_simpleblock with
    | some _ => BlockGet_deliver s v
    | none =>
      let r := ep.Get
      match r.1, v.pp_block with
      | none, some _ => BlockGet_deliver { s with ep := some r.2 } v
      | el, _ => BlockGet_parse s v r.2 el

/-- The `for( ;; )` of `BlockGet`, run for at most `fuel` passes; `none` when
the passes are used up before a `return`. -/
def BlockGet_loop : Nat → matroska_segment_c → BlockGet_vars →
    Option (Int × matroska_segment_c × BlockGet_vars)
  | 0, _, _ => none
  | fuel + 1, s, v =>
    match BlockGet_body s v with
    | .ret code s v => some (code, s, v)
    | .again s v => BlockGet_loop fuel s v

/-- The method `matroska_segment_c::BlockGet`: both block pointers start null, the keyframe
flag true and the discardable flag false; `pi_duration` keeps the caller's value
until a BlockDuration is read. -/
def BlockGet (fuel : Nat) (s : matroska_segment_c) (pi_duration : Int) :
    Option (Int × matroska_segment_c × BlockGet_vars) :=
  BlockGet_loop fuel s
    { pp_block := none, pp_simpleblock := none, pb_key_picture := true,
      pb_discardable_picture := false, pi_duration := pi_duration }

/-! ## Reading a BlockGroup -/

/-- Effect of the `case 3` of `BlockGet` on the variables of the call. -/
def level3_vars (v : BlockGet_vars) (el : EbmlElement) : BlockGet_vars :=
  match el.id with
  | .KaxBlock b => { v with pp_block := some { ElementPosition := el.GetElementPosition, hdr := b } }
  | .KaxBlockDuration dur => { v with pi_duration := toInt64 dur }
  | .KaxReferenceBlock ref =>
    if v.pb_key_picture then { v with pb_key_picture := false }
    else if ref > 0 then { v with pb_discardable_picture := true }
    else v
  | _ => v

/-- Effect of the `case 3` of `BlockGet` on the track list. -/
def level3_tracks (tracks : List mkv_track_t) (el : EbmlElement) : List mkv_track_t :=
  match el.id with
  | .KaxClusterSilentTrackNumber track_num => set_silent tracks (track_num % 2 ^ 32)
  | _ => tracks

/-- Values of the ReferenceBlock children of a BlockGroup, in file order. -/
def reference_blocks : List EbmlElement → List Int
  | [] => []
  | el :: els =>
    match el.id with
    | .KaxReferenceBlock ref => ref :: reference_blocks els
    | _ => reference_blocks els

/-- The Block child of a BlockGroup that `BlockGet` hands out: the last one,
or `dflt` when there is none. -/
def last_block (dflt : Option KaxBlock) : List EbmlElement → Option KaxBlock
  | [] => dflt
  | el :: els =>
    match el.id with
    | .KaxBlock b => last_block (some { ElementPosition := el.GetElementPosition, hdr := b }) els
    | _ => last_block dflt els



/-- What `BlockGet` reads of a track: its number and its codec. -/
def track_key (tk : mkv_track_t) : Nat × vlc_fourcc_t := (tk.i_number, tk.fmt.i_codec)

/-- The segment state at the end of a pass of the loop of `BlockGet`. -/
def BlockGet_pass.state : BlockGet_pass → matroska_segment_c
  | .ret _ s _ => s
  | .again s _ => s

/-! ## A bound on the passes of `BlockGet` -/

mutual
/-- Number of elements of the tree rooted at an element. -/
def EbmlElement.weight : EbmlElement → Nat
  | .mk _ _ children => 1 + weights children
/-- Number of elements of the trees of a list of elements. -/
def weights : List EbmlElement → Nat
  | [] => 0
  | el :: els => el.weight + weights els
end

/-- What the traversal has left to do: for each frame of the level stack, one
step to leave it and two for each element still to be read in it. -/
def frames_weight : List Frame → Nat
  | [] => 0
  | f :: fs => 2 * weights f.rest + 1 + frames_weight fs

/-- Number of block pointers of `BlockGet` that are not null. -/
def pending (v : BlockGet_vars) : Nat :=
  (if v.pp_block.isSome then 1 else 0) + (if v.pp_simpleblock.isSome then 1 else 0)

/-- A number that decreases at every pass of the loop of `BlockGet` that does
not return. -/
def BlockGet_measure (s : matroska_segment_c) (v : BlockGet_vars) : Nat :=
  (match s.ep with
    | some ep => frames_weight ep.frames
    | none => 0) + pending v

/-- While a Block is pending in `BlockGet`, no SimpleBlock is pending and the
parser stands at level 3, inside the BlockGroup of the Block. -/
def block_pending_inside (s : matroska_segment_c) (v : BlockGet_vars) : Prop :=
  ∀ b, v.pp_block = some b →
    v.pp_simpleblock = none ∧ ∃ ep, s.ep = some ep ∧ ep.GetLevel = 3

/-! ## Loading the Cues -/

/-- Modelled from the spec: `segment->GetGlobalPosition( pos )` of libmatroska,
the segment data offset plus the relative position. -/
def GetGlobalPosition (data_offset : Nat) (pos : Nat) : Nat := (data_offset + pos) % 2 ^ 64

/-- The slot as `LoadCues` sets it when it meets a CuePoint. -/
def LoadCues_init : mkv_index_t :=
  { i_track := -1, i_block_number := -1, i_position := -1, i_time := 0, b_key := true }

/-- The innermost loop of `LoadCues`, over the children of one
CueTrackPositions: each CueTrack, CueClusterPosition and CueBlockNumber
overwrites its field of the slot. -/
def LoadCues_track_positions (data_offset : Nat) (idx : mkv_index_t)
    (children : List EbmlElement) : mkv_index_t :=
  children.foldl
    (fun idx el =>
      match el.id with
      | .KaxCueTrack ctrack => { idx with i_track := ((ctrack % 2 ^ 16 : Nat) : Int) }
      | .KaxCueClusterPosition ccpos =>
        { idx with i_position := toInt64 (GetGlobalPosition data_offset (ccpos % 2 ^ 64)) }
      | .KaxCueBlockNumber cbnum =>
        { idx with i_block_number := toInt32 ((cbnum % 2 ^ 32 : Nat) : Int) }
      | _ => idx)
    idx

/-- The loop of `LoadCues` over the children of one CuePoint. -/
def LoadCues_point (i_timescale data_offset : Nat) (idx : mkv_index_t)
    (children : List EbmlElement) : mkv_index_t :=
  children.foldl
    (fun idx el =>
      match el.id with
      | .KaxCueTime ctime =>
        { idx with i_time := toInt64 ((((ctime % 2 ^ 64) * i_timescale) % 2 ^ 64 / 1000 : Nat) : Int) }
      | .KaxCueTrackPositions => LoadCues_track_positions data_offset idx el.children
      | _ => idx)
    idx

/-- What `LoadCues` does with one child of the Cues element: a CuePoint fills
the slot `p_indexes[i_index]`, then `i_index++` and the capacity grows by 1024
when it is reached; any other child is skipped. -/
def LoadCues_child (data_offset : Nat) (s : matroska_segment_c) (el : EbmlElement) :
    matroska_segment_c :=
  match el.id with
  | .KaxCuePoint =>
    { s with
      p_indexes :=
        s.p_indexes ++ [LoadCues_point s.i_timescale data_offset LoadCues_init el.children]
      i_index_max :=
        if s.p_indexes.length + 1 ≥ s.i_index_max then s.i_index_max + 1024
        else s.i_index_max }
  | _ => s

/-- The method `matroska_segment_c::LoadCues`. The loops `while( ( el = ep->Get() ) != NULL )`
of its own parser run over the children of the element in file order. -/
def LoadCues (data_offset : Nat) (s : matroska_segment_c) (cues : EbmlElement) :
    matroska_segment_c :=
  if s.b_cues then s
  else { cues.children.foldl (LoadCues_child data_offset) s with b_cues := true }

/-- The index is sorted by byte position: `position[i] ≥ position[i-1]` for
every slot `i > 0`. -/
def index_sorted (p_indexes : List mkv_index_t) : Prop :=
  p_indexes.Chain' fun a b => a.i_position ≤ b.i_position

/-- Number of CuePoint children of a Cues element. -/
def count_cue_points (cues : EbmlElement) : Nat :=
  (cues.children.filter fun el => decide (el.id = EbmlId.KaxCuePoint)).length

/-- Number of CueTrackPositions records in the CuePoints of a Cues element. -/
def count_cue_track_positions (cues : EbmlElement) : Nat :=
  ((cues.children.filter fun el => decide (el.id = EbmlId.KaxCuePoint)).map fun cp =>
    (cp.children.filter fun el => decide (el.id = EbmlId.KaxCueTrackPositions)).length).sum

/-- The slots that `LoadCues` builds from the CuePoints of a Cues element. -/
def cue_slots (i_timescale data_offset : Nat) (cues : EbmlElement) : List mkv_index_t :=
  (cues.children.filter fun el => decide (el.id = EbmlId.KaxCuePoint)).map fun cp =>
    LoadCues_point i_timescale data_offset LoadCues_init cp.children

/-! ## Seek engine -/

/-- A seek point of `Seek` (`struct spoint`); the list of seek points stands for
the chain `p_first`, `p_next`, ... -/
structure spoint where
  i_track : Nat
  i_date : Int
  i_seek_pos : Int
  i_cluster_pos : Int
deriving DecidableEq, Repr

/-- What `Seek` uses and the source file does not define: the constants
`VLC_TS_0` and `VLC_TS_INVALID`, the global timecode that `ParseCluster( false )`
leaves in the cluster, the file position once a cluster was read (parsed or
not) and `EbmlParser::UnGet`. -/
structure Seek_env where
  VLC_TS_0 : Int
  VLC_TS_INVALID : Int
  ParseCluster : matroska_segment_c → EbmlElement → Nat
  getFilePointer : EbmlElement → Bool → Nat
  UnGet : EbmlParser → Int → Int → Option KaxCluster × EbmlParser

/-- Modelled from the spec: `setFilePointer( pos )` followed by
`new EbmlParser( &es, segment, ... )`: the next elements of level 1 are those
that start at `pos` or after it. -/
def parser_at (s : matroska_segment_c) (pos : Int) : EbmlParser :=
  newEbmlParser s.segment
    (s.segment.children.dropWhile fun e => decide ((e.GetElementPosition : Int) < pos))

/-- The `while( ( el = ep->Get() ) != NULL )` of the branch
`i_global_position >= 0` of `Seek`, over the elements of level 1 left. -/
def Seek_no_cues (env : Seek_env) (i_global_position : Int) :
    List EbmlElement → matroska_segment_c → matroska_segment_c
  | [], s => { s with ep := some ⟨[⟨s.segment, []⟩], none⟩ }
  | el :: rest, s =>
    let s := { s with ep := some ⟨[⟨s.segment, rest⟩], some el⟩ }
    if el.id = EbmlId.KaxCluster then
      let c : KaxCluster := { ElementPosition := el.GetElementPosition }
      let s := { s with cluster := some c, i_cluster_pos := toInt64 el.GetElementPosition }
      let accepted := index_accepts s.p_indexes c
      let s :=
        if accepted then
          let c : KaxCluster := { c with GlobalTimecode := env.ParseCluster s el }
          IndexAppendCluster { s with cluster := some c } c
        else s
      if env.getFilePointer el accepted ≥ toUInt64 i_global_position % 2 ^ 32 then s
      else Seek_no_cues env i_global_position rest s
    else Seek_no_cues env i_global_position rest s

/-- The index lookup of `Seek`: `i_idx` stops at the first slot with
`i_time + i_time_offset > i_date`, steps back by one when it is positive, and
the seek position and time are those of slot `i_idx`; with an empty index they
stay `i_start_pos` and `i_start_time`. Result: `(i_idx, i_seek_position,
i_seek_time)`. -/
def Seek_lookup (s : matroska_segment_c) (i_date i_time_offset : Int) : Nat × Int × Int :=
  if s.p_indexes.length > 0 then
    let i := s.p_indexes.findIdx fun idx => decide (idx.i_time + i_time_offset > i_date)
    let i_idx := if i > 0 then i - 1 else i
    match s.p_indexes.get? i_idx with
    | some idx => (i_idx, idx.i_position, idx.i_time)
    | none => (i_idx, s.i_start_pos, s.i_start_time)
  else (0, s.i_start_pos, s.i_start_time)

/-- The inner `for` over the tracks: one seek point for each track of the
category, in track order. -/
def Seek_points_of (tracks : List mkv_track_t) (i_cat : es_category)
    (i_seek_time i_seek_position : Int) : List spoint :=
  (tracks.enum.filter fun p => decide (p.2.fmt.i_cat = i_cat)).map fun p =>
    { i_track := p.1, i_date := i_seek_time, i_seek_pos := i_seek_position,
      i_cluster_pos := i_seek_position }

/-- The loop `for( int i = 0; i < 2; i_cat = es_types[++i] )` of `Seek`: the value
of `i_cat` after the loop and the seek points. -/
def Seek_points (tracks : List mkv_track_t) (i_seek_time i_seek_position : Int) :
    es_category × List spoint :=
  let video := Seek_points_of tracks es_category.VIDEO_ES i_seek_time i_seek_position
  if video ≠ [] then (es_category.VIDEO_ES, video)
  else
    let audio := Seek_points_of tracks es_category.AUDIO_ES i_seek_time i_seek_position
    if audio ≠ [] then (es_category.AUDIO_ES, audio)
    else (es_category.SPU_ES, [])

/-- The update of the seek point of a track: the first point of the chain with
that track. -/
def Seek_update_point : List spoint → Nat → Int → Int → Int → List spoint
  | [], _, _, _, _ => []
  | sp :: rest, i_track, i_pts, i_seek_pos, i_cluster_pos =>
    if sp.i_track = i_track then
      { sp with i_date := i_pts, i_seek_pos := i_seek_pos, i_cluster_pos := i_cluster_pos } ::
        rest
    else sp :: Seek_update_point rest i_track i_pts i_seek_pos i_cluster_pos

/-- The local variables of `Seek` during the keyframe search. -/
structure Seek_vars where
  i_date : Int
  i_idx : Nat
  i_pts : Int := 0
  b_has_key : Bool := false
  points : List spoint
  i_block_duration : Int := 0
deriving DecidableEq, Repr

/-- The keyframe search of `Seek` (`for(;;) { do ... while( i_pts < i_date ); ... }`)
for at most `fuel` blocks. `Sum.inl` is the `return` after a failed `BlockGet`,
`Sum.inr` the `break` to the end of the search. -/
def Seek_search (i_cat : es_category) (i_time_offset : Int) (blockFuel : Nat) :
    Nat → matroska_segment_c → Seek_vars →
      Option (matroska_segment_c ⊕ (matroska_segment_c × Seek_vars))
  | 0, _, _ => none
  | fuel + 1, s, l =>
    match BlockGet blockFuel s l.i_block_duration with
    | none => none
    | some (code, s, v) =>
      if code ≠ VLC_SUCCESS then some (Sum.inl s)
      else
        let i_track := s.tracks.findIdx fun tk => track_matches tk v.pp_block v.pp_simpleblock
        let tc : Nat :=
          match v.pp_simpleblock, v.pp_block with
          | some sb, _ => sb.hdr.GlobalTimecode
          | none, some b => b.hdr.GlobalTimecode
          | none, none => 0
        let i_pts := toInt64 ((toUInt64 s.sys.i_chapter_time + tc / 1000) % 2 ^ 64)
        let hit : Bool :=
          match s.tracks.get? i_track with
          | some tk => decide (tk.fmt.i_cat = i_cat) && v.pb_key_picture
          | none => false
        let i_seek_pos : Int :=
          match v.pp_simpleblock with
          | some sb => toInt64 sb.ElementPosition
          | none => s.i_block_pos
        let l : Seek_vars :=
          { l with
            i_pts := i_pts
            i_block_duration := v.pi_duration
            points :=
              if hit then Seek_update_point l.points i_track i_pts i_seek_pos s.i_cluster_pos
              else l.points
            b_has_key := hit || l.b_has_key }
        if i_pts < l.i_date then Seek_search i_cat i_time_offset blockFuel fuel s l
        else if l.b_has_key ∨ l.i_idx = 0 then some (Sum.inr (s, l))
        else
          let i_time : Int :=
            match s.p_indexes.get? l.i_idx with
            | some idx => idx.i_time
            | none => 0
          let i_position : Int :=
            match s.p_indexes.get? (l.i_idx - 1) with
            | some idx => idx.i_position
            | none => 0
          Seek_search i_cat i_time_offset blockFuel fuel
            { s with ep := some (parser_at s i_position), cluster := none }
            { l with i_date := i_time_offset + i_time, i_idx := l.i_idx - 1, i_pts := 0 }

/-- The loop `rewind to the last I img` of `Seek`: `p_min` starts at `p_first`
and moves to a point only when its date is strictly smaller. -/
def Seek_min : List spoint → Option spoint
  | [] => none
  | p_first :: rest =>
    some ((p_first :: rest).foldl
      (fun p_min p_last => if p_last.i_date < p_min.i_date then p_last else p_min) p_first)

/-- The end of `Seek`: publish the date of `p_min`, announce `i_date` and put
the parser back with `UnGet`, a second time after one `BlockGet` when the first
`UnGet` gave no cluster. -/
def Seek_finish (env : Seek_env) (blockFuel : Nat) (s : matroska_segment_c) (l : Seek_vars) :
    Option matroska_segment_c :=
  match Seek_min l.points, s.ep with
  | some p_min, some ep =>
    let sys : demux_sys_t :=
      { s.sys with
        i_pcr := p_min.i_date
        i_pts := p_min.i_date
        out := s.sys.out ++
          [es_out_query.ES_OUT_SET_PCR (env.VLC_TS_0 + p_min.i_date),
           es_out_query.ES_OUT_SET_NEXT_DISPLAY_TIME l.i_date] }
    let r := env.UnGet ep p_min.i_seek_pos p_min.i_cluster_pos
    let s := { s with sys := sys, cluster := r.1, ep := some r.2 }
    match r.1 with
    | some _ => some s
    | none =>
      match BlockGet blockFuel s l.i_block_duration with
      | none => none
      | some (_, s, _) =>
        match s.ep with
        | some ep =>
          let r := env.UnGet ep p_min.i_seek_pos p_min.i_cluster_pos
          some { s with cluster := r.1, ep := some r.2 }
        | none => some s
  | _, _ => some s

/-- The beginning of `Seek`: every track gets `i_last_dts = VLC_TS_INVALID`, and
with `i_global_position >= 0` the clusters from the last slot of the index on
(from `i_start_pos` when the index is empty) are scanned and appended. -/
def Seek_start (env : Seek_env) (s : matroska_segment_c) (i_global_position : Int) :
    matroska_segment_c :=
  let s := { s with tracks := s.tracks.map fun tk => { tk with i_last_dts := env.VLC_TS_INVALID } }
  if i_global_position ≥ 0 then
    let start : Int :=
      match s.p_indexes.getLast? with
      | none => s.i_start_pos
      | some idx => idx.i_position
    Seek_no_cues env i_global_position
      (s.segment.children.dropWhile fun e => decide ((e.GetElementPosition : Int) < start))
      { s with cluster := none, ep := some (parser_at s start) }
  else s

/-- The branch `i_date == 0 && i_time_offset == 0` of `Seek`. -/
def Seek_rewind (env : Seek_env) (s : matroska_segment_c) : matroska_segment_c :=
  { s with
    sys := { s.sys with
      out := s.sys.out ++
        [es_out_query.ES_OUT_SET_PCR env.VLC_TS_0,
         es_out_query.ES_OUT_SET_NEXT_DISPLAY_TIME 0]
      i_start_pts := 0
      i_pts := 0
      i_pcr := 0 }
    ep := some (parser_at s s.i_start_pos)
    cluster := none }

/-- The part of `Seek` between the index lookup and the keyframe search: the
parser is put at the position of the slot found, `sys.i_start_pts = i_date`,
and the seek points are made. Result: the segment, `i_cat` and the local
variables at the start of the search. -/
def Seek_begin_search (s : matroska_segment_c) (i_date i_time_offset : Int) :
    matroska_segment_c × es_category × Seek_vars :=
  let r := Seek_lookup s i_date i_time_offset
  let s := { s with
    ep := some (parser_at s r.2.1)
    cluster := none
    sys := { s.sys with i_start_pts := i_date } }
  let p := Seek_points s.tracks r.2.2 r.2.1
  (s, p.1, { i_date := i_date, i_idx := r.1, points := p.2 })

/-- The method `matroska_segment_c::Seek`. `fuel` bounds the number of blocks read by the
keyframe search and the passes of each `BlockGet`; `none` when it is used up.
The sums of `mtime_t` values are taken in `Int`. -/
def Seek (env : Seek_env) (fuel : Nat) (s : matroska_segment_c)
    (i_date i_time_offset i_global_position : Int) : Option matroska_segment_c :=
  let s := Seek_start env s i_global_position
  if i_date = 0 ∧ i_time_offset = 0 then some (Seek_rewind env s)
  else
    let b := Seek_begin_search s i_date i_time_offset
    if b.2.2.points = [] then
      some { b.1 with sys := { b.1.sys with
        out := b.1.sys.out ++
          [es_out_query.ES_OUT_SET_PCR i_date,
           es_out_query.ES_OUT_SET_NEXT_DISPLAY_TIME i_date] } }
    else
      match Seek_search b.2.1 i_time_offset fuel fuel b.1 b.2.2 with
      | none => none
      | some (Sum.inl s) => some s
      | some (Sum.inr (s, l)) => Seek_finish env fuel s l

/-! ## Seek engine: the index reads of the step backs -/

/-- The keyframe search of `Seek`, as `Seek_search`, with a record of its step
backs: each step back reads `p_indexes[i_idx].i_time` and, after `i_idx--`,
`p_indexes[i_idx].i_position`; the record holds, oldest first, the value of
`i_idx` before the decrement and the count `i_index` at that point. -/
def Seek_search_reads (i_cat : es_category) (i_time_offset : Int) (blockFuel : Nat) :
    Nat → matroska_segment_c → Seek_vars →
      Option ((matroska_segment_c ⊕ (matroska_segment_c × Seek_vars)) × List (Nat × Nat))
  | 0, _, _ => none
  | fuel + 1, s, l =>
    match BlockGet blockFuel s l.i_block_duration with
    | none => none
    | some (code, s, v) =>
      if code ≠ VLC_SUCCESS then some (Sum.inl s, [])
      else
        let i_track := s.tracks.findIdx fun tk => track_matches tk v.pp_block v.pp_simpleblock
        let tc : Nat :=
          match v.pp_simpleblock, v.pp_block with
          | some sb, _ => sb.hdr.GlobalTimecode
          | none, some b => b.hdr.GlobalTimecode
          | none, none => 0
        let i_pts := toInt64 ((toUInt64 s.sys.i_chapter_time + tc / 1000) % 2 ^ 64)
        let hit : Bool :=
          match s.tracks.get? i_track with
          | some tk => decide (tk.fmt.i_cat = i_cat) && v.pb_key_picture
          | none => false
        let i_seek_pos : Int :=
          match v.pp_simpleblock with
          | some sb => toInt64 sb.ElementPosition
          | none => s.i_block_pos
        let l : Seek_vars :=
          { l with
            i_pts := i_pts
            i_block_duration := v.pi_duration
            points :=
              if hit then Seek_update_point l.points i_track i_pts i_seek_pos s.i_cluster_pos
              else l.points
            b_has_key := hit || l.b_has_key }
        if i_pts < l.i_date then Seek_search_reads i_cat i_time_offset blockFuel fuel s l
        else if l.b_has_key ∨ l.i_idx = 0 then some (Sum.inr (s, l), [])
        else
          let i_time : Int :=
            match s.p_indexes.get? l.i_idx with
            | some idx => idx.i_time
            | none => 0
          let i_position : Int :=
            match s.p_indexes.get? (l.i_idx - 1) with
            | some idx => idx.i_position
            | none => 0
          (Seek_search_reads i_cat i_time_offset blockFuel fuel
            { s with ep := some (parser_at s i_position), cluster := none }
            { l with i_date := i_time_offset + i_time, i_idx := l.i_idx - 1, i_pts := 0 }).map
            fun r => (r.1, (l.i_idx, s.i_index) :: r.2)

/-! ## Track activation: codec dispatch -/

/-- The test `!strcmp( psz_codec, lit )`: the two strings are equal. -/
def strcmp (psz_codec : List Char) (lit : String) : Bool := psz_codec == lit.toList

/-- The test `!strncmp( psz_codec, lit, n )`: the first `n` characters agree. -/
def strncmp (psz_codec : List Char) (lit : String) (n : Nat) : Bool :=
  psz_codec.take n == lit.toList.take n

/-- The branches of the codec dispatch of `Select`, in the order of the
`if` / `else if` chain. -/
inductive codec_case where
  | V_MS_VFW_FOURCC | V_MPEG1_2 | V_THEORA | V_REAL_RV | V_DIRAC | V_VP8 | V_MPEG4
  | V_QUICKTIME | V_MJPEG | A_MS_ACM | A_MPEG_L123 | A_AC3 | A_EAC3 | A_DTS | A_MLP
  | A_TRUEHD | A_FLAC | A_VORBIS | A_AAC_MPEG24 | A_AAC | A_WAVPACK4 | A_TTA1 | A_PCM
  | A_REAL | S_KATE | S_TEXT_ASCII | S_TEXT_UTF8 | S_TEXT_USF | S_SSA | S_VOBSUB
  | S_HDMV_PGS | B_VOBBTN | unknown
deriving DecidableEq, Repr

/-- The conditions of the `if` / `else if` chain of `Select` over `psz_codec`:
the branch that is taken. -/
def Select_case (psz_codec : List Char) : codec_case :=
  if strcmp psz_codec "V_MS/VFW/FOURCC" then .V_MS_VFW_FOURCC
  else if strcmp psz_codec "V_MPEG1" || strcmp psz_codec "V_MPEG2" then .V_MPEG1_2
  else if strncmp psz_codec "V_THEORA" 8 then .V_THEORA
  else if strncmp psz_codec "V_REAL/RV" 9 then .V_REAL_RV
  else if strncmp psz_codec "V_DIRAC" 7 then .V_DIRAC
  else if strncmp psz_codec "V_VP8" 5 then .V_VP8
  else if strncmp psz_codec "V_MPEG4" 7 then .V_MPEG4
  else if strcmp psz_codec "V_QUICKTIME" then .V_QUICKTIME
  else if strcmp psz_codec "V_MJPEG" then .V_MJPEG
  else if strcmp psz_codec "A_MS/ACM" then .A_MS_ACM
  else if strcmp psz_codec "A_MPEG/L3" || strcmp psz_codec "A_MPEG/L2" ||
      strcmp psz_codec "A_MPEG/L1" then .A_MPEG_L123
  else if strcmp psz_codec "A_AC3" then .A_AC3
  else if strcmp psz_codec "A_EAC3" then .A_EAC3
  else if strcmp psz_codec "A_DTS" then .A_DTS
  else if strcmp psz_codec "A_MLP" then .A_MLP
  else if strcmp psz_codec "A_TRUEHD" then .A_TRUEHD
  else if strcmp psz_codec "A_FLAC" then .A_FLAC
  else if strcmp psz_codec "A_VORBIS" then .A_VORBIS
  else if strncmp psz_codec "A_AAC/MPEG2/" "A_AAC/MPEG2/".length ||
      strncmp psz_codec "A_AAC/MPEG4/" "A_AAC/MPEG4/".length then .A_AAC_MPEG24
  else if strcmp psz_codec "A_AAC" then .A_AAC
  else if strcmp psz_codec "A_WAVPACK4" then .A_WAVPACK4
  else if strcmp psz_codec "A_TTA1" then .A_TTA1
  else if strcmp psz_codec "A_PCM/INT/BIG" || strcmp psz_codec "A_PCM/INT/LIT" ||
      strcmp psz_codec "A_PCM/FLOAT/IEEE" then .A_PCM
  else if strncmp psz_codec "A_REAL/" 7 then .A_REAL
  else if strcmp psz_codec "S_KATE" then .S_KATE
  else if strcmp psz_codec "S_TEXT/ASCII" then .S_TEXT_ASCII
  else if strcmp psz_codec "S_TEXT/UTF8" then .S_TEXT_UTF8
  else if strcmp psz_codec "S_TEXT/USF" then .S_TEXT_USF
  else if strcmp psz_codec "S_TEXT/SSA" || strcmp psz_codec "S_TEXT/ASS" ||
      strcmp psz_codec "S_SSA" || strcmp psz_codec "S_ASS" then .S_SSA
  else if strcmp psz_codec "S_VOBSUB" then .S_VOBSUB
  else if strcmp psz_codec "S_HDMV/PGS" then .S_HDMV_PGS
  else if strcmp psz_codec "B_VOBBTN" then .B_VOBBTN
  else .unknown

/-- The table `i_sample_rates` of the AAC branch. -/
def i_sample_rates : List Nat :=
  [96000, 88200, 64000, 48000, 44100, 32000, 24000, 22050,
   16000, 12000, 11025, 8000, 7350, 0, 0, 0]

/-- The loop `for( i = 0; i < 13; i++ ) if( i_sample_rates[i] == rate ) break;`:
the value of `i` after it. -/
def aac_srate (rate : Nat) : Nat :=
  (i_sample_rates.take 13).findIdx fun r => r == rate

/-- The chain of `strcmp` on `&psz_codec[12]` in the AAC branch: `i_profile` and
`sbr`. -/
def aac_profile (suffix : List Char) : Nat × Bool :=
  if strcmp suffix "MAIN" then (0, false)
  else if strcmp suffix "LC" then (1, false)
  else if strcmp suffix "SSR" then (2, false)
  else if strcmp suffix "LC/SBR" then (1, true)
  else (3, false)

/-- The body of the branch `A_AAC/MPEG2/...`, `A_AAC/MPEG4/...` of `Select`: the
codec is MP4A and the extradata is built from the profile, the index of
`i_original_rate`, the channels and, with SBR, the index of the output rate. -/
def Select_aac (tk : mkv_track_t) (psz_codec : List Char) : mkv_track_t :=
  let i_profile := (aac_profile (psz_codec.drop 12)).1
  let sbr := (aac_profile (psz_codec.drop 12)).2
  let i_srate := aac_srate tk.i_original_rate
  let extra0 := toUInt8 (((i_profile + 1) <<< 3) ||| ((i_srate &&& 0xe) >>> 1))
  let extra1 := toUInt8 (((i_srate &&& 0x1) <<< 7) ||| (tk.fmt.audio_i_channels <<< 3))
  let p_extra :=
    if sbr then
      let syncExtensionType := 0x2B7
      let iDSRI := aac_srate tk.fmt.audio_i_rate
      [extra0, extra1,
       toUInt8 ((syncExtensionType >>> 3) &&& 0xFF),
       toUInt8 (((syncExtensionType &&& 0x7) <<< 5) ||| 5),
       toUInt8 (((1 &&& 0x1) <<< 7) ||| (iDSRI <<< 3))]
    else [extra0, extra1]
  { tk with fmt := { tk.fmt with
      i_codec := VLC_CODEC_MP4A, i_extra := if sbr then 5 else 2, p_extra := p_extra } }

/-! ## Track activation: the branches of the dispatch -/

/-- Modelled from the spec: the codec constants of `vlc_fourcc.h` that `Select`
assigns (the normalized codecs of the dispatch table); the header is not part
of the source file. -/
def VLC_CODEC_MPGV : vlc_fourcc_t := VLC_FOURCC 'm' 'p' 'g' 'v'

/-- Modelled from the spec: normalized codec "RV10". -/
def VLC_CODEC_RV10 : vlc_fourcc_t := VLC_FOURCC 'R' 'V' '1' '0'

/-- Modelled from the spec: normalized codec "RV20". -/
def VLC_CODEC_RV20 : vlc_fourcc_t := VLC_FOURCC 'R' 'V' '2' '0'

/-- Modelled from the spec: normalized codec "RV30". -/
def VLC_CODEC_RV30 : vlc_fourcc_t := VLC_FOURCC 'R' 'V' '3' '0'

/-- Modelled from the spec: normalized codec "RV40". -/
def VLC_CODEC_RV40 : vlc_fourcc_t := VLC_FOURCC 'R' 'V' '4' '0'

/-- Modelled from the spec: normalized codec "Dirac". -/
def VLC_CODEC_DIRAC : vlc_fourcc_t := VLC_FOURCC 'd' 'r' 'a' 'c'

/-- Modelled from the spec: normalized codec "VP8". -/
def VLC_CODEC_VP8 : vlc_fourcc_t := VLC_FOURCC 'V' 'P' '8' '0'

/-- Modelled from the spec: normalized codec "DIV3". -/
def VLC_CODEC_DIV3 : vlc_fourcc_t := VLC_FOURCC 'D' 'I' 'V' '3'

/-- Modelled from the spec: normalized codec "MP4V". -/
def VLC_CODEC_MP4V : vlc_fourcc_t := VLC_FOURCC 'm' 'p' '4' 'v'

/-- Modelled from the spec: normalized codec "MJPEG". -/
def VLC_CODEC_MJPG : vlc_fourcc_t := VLC_FOURCC 'M' 'J' 'P' 'G'

/-- Modelled from the spec: normalized codec "MPGA". -/
def VLC_CODEC_MPGA : vlc_fourcc_t := VLC_FOURCC 'm' 'p' 'g' 'a'

/-- Modelled from the spec: normalized codec "A52". -/
def VLC_CODEC_A52 : vlc_fourcc_t := VLC_FOURCC 'a' '5' '2' ' '

/-- Modelled from the spec: normalized codec "EAC3". -/
def VLC_CODEC_EAC3 : vlc_fourcc_t := VLC_FOURCC 'e' 'a' 'c' '3'

/-- Modelled from the spec: normalized codec "DTS". -/
def VLC_CODEC_DTS : vlc_fourcc_t := VLC_FOURCC 'd' 't' 's' ' '

/-- Modelled from the spec: normalized codec "MLP". -/
def VLC_CODEC_MLP : vlc_fourcc_t := VLC_FOURCC 'm' 'l' 'p' ' '

/-- Modelled from the spec: normalized codec "TrueHD". -/
def VLC_CODEC_TRUEHD : vlc_fourcc_t := VLC_FOURCC 't' 'r' 'h' 'd'

/-- Modelled from the spec: normalized codec "FLAC". -/
def VLC_CODEC_FLAC : vlc_fourcc_t := VLC_FOURCC 'f' 'l' 'a' 'c'

/-- Modelled from the spec: normalized codec "Vorbis". -/
def VLC_CODEC_VORBIS : vlc_fourcc_t := VLC_FOURCC 'v' 'o' 'r' 'b'

/-- Modelled from the spec: normalized codec "WavPack". -/
def VLC_CODEC_WAVPACK : vlc_fourcc_t := VLC_FOURCC 'W' 'V' 'P' 'K'

/-- Modelled from the spec: normalized codec "TTA". -/
def VLC_CODEC_TTA : vlc_fourcc_t := VLC_FOURCC 'T' 'T' 'A' '1'

/-- Modelled from the spec: normalized codec "RA144". -/
def VLC_CODEC_RA_144 : vlc_fourcc_t := VLC_FOURCC '1' '4' '_' '4'

/-- Modelled from the spec: normalized codec "Cook". -/
def VLC_CODEC_COOK : vlc_fourcc_t := VLC_FOURCC 'c' 'o' 'o' 'k'

/-- Modelled from the spec: normalized codec "ATRAC3". -/
def VLC_CODEC_ATRAC3 : vlc_fourcc_t := VLC_FOURCC 'a' 't' 'r' 'c'

/-- Modelled from the spec: normalized codec "RA288". -/
def VLC_CODEC_RA_288 : vlc_fourcc_t := VLC_FOURCC '2' '8' '_' '8'

/-- Modelled from the spec: normalized codec "Kate". -/
def VLC_CODEC_KATE : vlc_fourcc_t := VLC_FOURCC 'k' 'a' 't' 'e'

/-- Modelled from the spec: normalized codec "SUBT". -/
def VLC_CODEC_SUBT : vlc_fourcc_t := VLC_FOURCC 's' 'u' 'b' 't'

/-- Modelled from the spec: normalized codec "SSA". -/
def VLC_CODEC_SSA : vlc_fourcc_t := VLC_FOURCC 's' 's' 'a' ' '

/-- Modelled from the spec: normalized codec "SPU". -/
def VLC_CODEC_SPU : vlc_fourcc_t := VLC_FOURCC 's' 'p' 'u' ' '

/-- Modelled from the spec: normalized codec "BD PGS". -/
def VLC_CODEC_BD_PG : vlc_fourcc_t := VLC_FOURCC 'b' 'd' 'p' 'g'

/-- The codec `VLC_FOURCC( 'u', 'n', 'd', 'f' )` of a track that cannot be
decoded. -/
def undf : vlc_fourcc_t := VLC_FOURCC 'u' 'n' 'd' 'f'

/-- A read of one byte of a buffer: `none` when the offset is outside. -/
def GetByte (p : List Nat) (off : Nat) : Option Nat := (p.get? off).map fun b => b % 256

/-- The macro `GetWLE( p + off )` of `vlc_common.h`: the 16-bit little-endian
value of two bytes of the buffer; `none` when a byte read is outside. -/
def GetWLE (p : List Nat) (off : Nat) : Option Nat :=
  match GetByte p off, GetByte p (off + 1) with
  | some b0, some b1 => some (b0 + 256 * b1)
  | _, _ => none

/-- The macro `GetDWLE( p + off )` of `vlc_common.h`: the 32-bit little-endian
value of four bytes of the buffer; `none` when a byte read is outside. -/
def GetDWLE (p : List Nat) (off : Nat) : Option Nat :=
  match GetWLE p off, GetWLE p (off + 2) with
  | some lo, some hi => some (lo + 65536 * hi)
  | _, _ => none

/-- The read `hton16( field )` of a 16-bit field of a RealAudio header: the
big-endian value of two bytes; `none` when a byte read is outside. -/
def GetWBE (p : List Nat) (off : Nat) : Option Nat :=
  match GetByte p off, GetByte p (off + 1) with
  | some b0, some b1 => some (256 * b0 + b1)
  | _, _ => none

/-- The helper `__GetFOURCC`: the FourCC of four bytes of the buffer. -/
def GetFOURCC (p : List Nat) (off : Nat) : Option vlc_fourcc_t :=
  match GetByte p off, GetByte p (off + 1), GetByte p (off + 2), GetByte p (off + 3) with
  | some a, some b, some c, some d =>
    some (VLC_FOURCC (Char.ofNat a) (Char.ofNat b) (Char.ofNat c) (Char.ofNat d))
  | _, _, _, _ => none

/-- The `memcpy` of `n` bytes that start at `off` in the buffer; `none` when a
byte read is outside. -/
def copy_bytes (p : List Nat) (off n : Nat) : Option (List Nat) :=
  if off + n ≤ p.length then some ((p.drop off).take n) else none

/-- Modelled from the spec: `sizeof( VLC_BITMAPINFOHEADER )`, the 40-byte
BITMAPINFOHEADER of `vlc_codecs.h` (not part of the source file): `biSize` at
offset 0, `biWidth` at 4, `biHeight` at 8, `biCompression` at 16. -/
def sizeof_VLC_BITMAPINFOHEADER : Nat := 40

/-- Modelled from the spec: `sizeof( WAVEFORMATEX )`, the packed 18-byte
WAVEFORMATEX of `vlc_codecs.h` (not part of the source file): `wFormatTag` at
offset 0, `nChannels` at 2, `nSamplesPerSec` at 4, `nAvgBytesPerSec` at 8,
`nBlockAlign` at 12, `wBitsPerSample` at 14, `cbSize` at 16. -/
def sizeof_WAVEFORMATEX : Nat := 18

/-- What the sample description of a `V_QUICKTIME` track yields when
`MP4_ReadBoxCommon` and `MP4_ReadBox_sample_vide` succeed. -/
structure MP4_sample_vide where
  i_type : vlc_fourcc_t
  i_width : Nat
  i_height : Nat
  p_qt_image_description : List Nat
deriving DecidableEq, Repr

/-- What `Select` uses and the source file does not define: `wf_tag_to_fourcc`,
the reader of the QuickTime sample description, the two parsers of `vobsub.h`
(applied to the text found after "size:" and "palette:", `none` when the text
is absent or the parse fails), `Cook_PrivateTrackData::Init` (true when it
fails), the handle that `es_out_Add` returns, and the offsets of the fields of
`real_audio_private`, `real_audio_private_v4` and `real_audio_private_v5`. -/
structure Select_env where
  wf_tag_to_fourcc : Nat → vlc_fourcc_t
  MP4_ReadBox_sample_vide : List Nat → Option MP4_sample_vide
  vobsub_size_parse : List Nat → Option (Int × Int)
  vobsub_palette_parse : List Nat → Option (List Nat)
  Cook_Init : Cook_PrivateTrackData → Bool
  es_out_Add : es_format_t → Option Nat
  version_at : Nat
  sub_packet_h_at : Nat
  frame_size_at : Nat
  sub_packet_size_at : Nat
  v4_sample_rate_at : Nat
  v4_sample_size_at : Nat
  v4_channels_at : Nat
  v5_sample_rate_at : Nat
  v5_sample_size_at : Nat
  v5_channels_at : Nat

/-- The helper `fill_extra_data`: the codec-private data from `offset` on becomes
the extradata, when there is any. -/
def fill_extra_data (tk : mkv_track_t) (offset : Nat) : mkv_track_t :=
  if tk.p_extra_data.length ≤ offset then tk
  else
    let i_extra := toInt32 ((tk.p_extra_data.length - offset : Nat) : Int)
    { tk with fmt := { tk.fmt with
        i_extra := i_extra
        p_extra := (tk.p_extra_data.drop offset).take i_extra.toNat } }

/-- The branch `V_MS/VFW/FOURCC` of `Select`. `fmt.i_extra` is an `int`: the
difference `biSize - sizeof( VLC_BITMAPINFOHEADER )` is converted to it. -/
def Select_vfw (tk : mkv_track_t) : mkv_track_t :=
  let p := tk.p_extra_data
  let tk : mkv_track_t :=
    if p.length < sizeof_VLC_BITMAPINFOHEADER then
      { tk with fmt := { tk.fmt with i_codec := undf } }
    else
      match GetDWLE p 4, GetDWLE p 8, GetFOURCC p 16, GetDWLE p 0 with
      | some biWidth, some biHeight, some biCompression, some biSize =>
        let i_extra := toInt32 ((biSize : Int) - sizeof_VLC_BITMAPINFOHEADER)
        let fmt : es_format_t :=
          { tk.fmt with
            video_i_width := biWidth
            video_i_height := biHeight
            i_codec := biCompression
            i_extra := i_extra }
        if i_extra > 0 then
          let maxlen := p.length - sizeof_VLC_BITMAPINFOHEADER
          let i_extra : Int :=
            if i_extra.toNat < maxlen then i_extra else toInt32 (maxlen : Int)
          { tk with fmt := { fmt with
              i_extra := i_extra
              p_extra := (p.drop sizeof_VLC_BITMAPINFOHEADER).take i_extra.toNat } }
        else { tk with fmt := fmt }
      | _, _, _, _ => tk
  { tk with b_dts_only := true }

/-- The branch `V_REAL/RV...` of `Select`. -/
def Select_real_video (tk : mkv_track_t) (psz_codec : List Char) : mkv_track_t :=
  let p := tk.p_extra_data
  let i_codec : vlc_fourcc_t :=
    if strcmp psz_codec "V_REAL/RV10" then VLC_CODEC_RV10
    else if strcmp psz_codec "V_REAL/RV20" then VLC_CODEC_RV20
    else if strcmp psz_codec "V_REAL/RV30" then VLC_CODEC_RV30
    else if strcmp psz_codec "V_REAL/RV40" then VLC_CODEC_RV40
    else tk.fmt.i_codec
  let tk : mkv_track_t := { tk with fmt := { tk.fmt with i_codec := i_codec } }
  let tk : mkv_track_t :=
    if p.length ≥ 26 ∧ (p.drop 4).take 6 = "VIDORV".toList.map Char.toNat ∧
        (p.get? 10 = some '3'.toNat ∨ p.get? 10 = some '4'.toNat) ∧
        p.get? 11 = some '0'.toNat then
      match GetByte p 22, GetByte p 23, GetByte p 24, GetByte p 25 with
      | some b22, some b23, some b24, some b25 =>
        { tk with fmt := { tk.fmt with
            video_i_frame_rate := b22 * 2 ^ 24 + b23 * 2 ^ 16 + b24 * 2 ^ 8 + b25
            video_i_frame_rate_base := 65536 } }
      | _, _, _, _ => tk
    else tk
  { fill_extra_data tk 26 with b_dts_only := true }

/-- The branch `V_MPEG4...` of `Select`. -/
def Select_mpeg4 (tk : mkv_track_t) (psz_codec : List Char) : mkv_track_t :=
  if strcmp psz_codec "V_MPEG4/MS/V3" then
    { tk with fmt := { tk.fmt with i_codec := VLC_CODEC_DIV3 } }
  else if strncmp psz_codec "V_MPEG4/ISO" 11 then
    fill_extra_data
      { tk with fmt := { tk.fmt with
          i_codec :=
            if strcmp psz_codec "V_MPEG4/ISO/AVC" then VLC_FOURCC 'a' 'v' 'c' '1'
            else VLC_CODEC_MP4V } } 0
  else tk

/-- The branch `V_QUICKTIME` of `Select`. -/
def Select_quicktime (env : Select_env) (tk : mkv_track_t) : mkv_track_t :=
  match env.MP4_ReadBox_sample_vide tk.p_extra_data with
  | some box =>
    { tk with fmt := { tk.fmt with
        i_codec := box.i_type
        video_i_width := box.i_width
        video_i_height := box.i_height
        i_extra := box.p_qt_image_description.length
        p_extra := box.p_qt_image_description } }
  | none => tk

/-- The branch `A_MS/ACM` of `Select`; `none` when the `memcpy` of `cbSize` bytes
reads outside the codec-private data. -/
def Select_acm (env : Select_env) (tk : mkv_track_t) : Option mkv_track_t :=
  let p := tk.p_extra_data
  if p.length < sizeof_WAVEFORMATEX then
    some { tk with fmt := { tk.fmt with i_codec := undf } }
  else
    match GetWLE p 0, GetWLE p 2, GetDWLE p 4, GetDWLE p 8, GetWLE p 12, GetWLE p 14,
        GetWLE p 16 with
    | some wFormatTag, some nChannels, some nSamplesPerSec, some nAvgBytesPerSec,
        some nBlockAlign, some wBitsPerSample, some cbSize =>
      let fmt : es_format_t :=
        { tk.fmt with
          i_codec := env.wf_tag_to_fourcc wFormatTag
          audio_i_channels := nChannels
          audio_i_rate := nSamplesPerSec
          i_bitrate := (nAvgBytesPerSec * 8) % 2 ^ 32
          audio_i_blockalign := nBlockAlign
          audio_i_bitspersample := wBitsPerSample
          i_extra := cbSize }
      if cbSize > 0 then
        match copy_bytes p sizeof_WAVEFORMATEX cbSize with
        | some extra => some { tk with fmt := { fmt with p_extra := extra } }
        | none => none
      else some { tk with fmt := fmt }
    | _, _, _, _, _, _, _ => none

/-- The branch `A_TTA1` of `Select`. -/
def Select_tta (tk : mkv_track_t) : mkv_track_t :=
  let tk : mkv_track_t := { tk with fmt := { tk.fmt with i_codec := VLC_CODEC_TTA } }
  if tk.p_extra_data.length > 0 then fill_extra_data tk 0
  else
    let w (v : Nat) : List Nat := [v % 256, v / 256 % 256]
    let dw (v : Nat) : List Nat := [v % 256, v / 256 % 256, v / 65536 % 256, v / 16777216 % 256]
    { tk with fmt := { tk.fmt with
        i_extra := 30
        p_extra :=
          "TTA1".toList.map Char.toNat ++ w 1 ++ w tk.fmt.audio_i_channels ++
            w tk.fmt.audio_i_bitspersample ++ dw tk.fmt.audio_i_rate ++ dw 0xffffffff ++
            List.replicate (30 - 18) 0 } }

/-- The branch `A_PCM/INT/BIG`, `A_PCM/INT/LIT`, `A_PCM/FLOAT/IEEE` of `Select`; the
arithmetic is that of `unsigned`. -/
def Select_pcm (tk : mkv_track_t) (psz_codec : List Char) : mkv_track_t :=
  { tk with fmt := { tk.fmt with
      i_codec :=
        if strcmp psz_codec "A_PCM/INT/BIG" then VLC_FOURCC 't' 'w' 'o' 's'
        else VLC_FOURCC 'a' 'r' 'a' 'w'
      audio_i_blockalign :=
        ((tk.fmt.audio_i_bitspersample + 7) % 2 ^ 32 / 8 * tk.fmt.audio_i_channels) % 2 ^ 32 } }

/-- The branch `A_REAL/...` of `Select`. The Boolean is false for a `continue`
(the track is not handed to the ES output); `none` when a field of the
RealAudio header is read outside the codec-private data. -/
def Select_real_audio (env : Select_env) (tk : mkv_track_t) (psz_codec : List Char) :
    Option (Bool × mkv_track_t) :=
  let p := tk.p_extra_data
  if strcmp psz_codec "A_REAL/14_4" then
    some (true, { tk with fmt := { tk.fmt with
      i_codec := VLC_CODEC_RA_144
      audio_i_channels := 1
      audio_i_rate := 8000
      audio_i_blockalign := 0x14 } })
  else if p.length > 28 then
    if p.take 3 ≠ ".ra".toList.map Char.toNat then
      some (true, { tk with fmt := { tk.fmt with i_codec := undf } })
    else
      let codec : Option es_format_t :=
        if strcmp psz_codec "A_REAL/COOK" then
          (GetWBE p env.sub_packet_size_at).map fun sps =>
            { tk.fmt with i_codec := VLC_CODEC_COOK, audio_i_blockalign := sps }
        else if strcmp psz_codec "A_REAL/ATRC" then
          some { tk.fmt with i_codec := VLC_CODEC_ATRAC3 }
        else if strcmp psz_codec "A_REAL/28_8" then
          some { tk.fmt with i_codec := VLC_CODEC_RA_288 }
        else some tk.fmt
      match codec, GetWBE p env.version_at, GetWBE p env.sub_packet_h_at,
          GetWBE p env.frame_size_at, GetWBE p env.sub_packet_size_at with
      | some fmt, some version, some sub_packet_h, some frame_size, some sub_packet_size =>
        let p_sys : Cook_PrivateTrackData :=
          { i_sub_packet_h := sub_packet_h, i_frame_size := frame_size,
            i_subpacket_size := sub_packet_size }
        let tk : mkv_track_t := { tk with fmt := fmt, p_sys := some p_sys }
        if env.Cook_Init p_sys then some (false, tk)
        else
          let header (channels_at sample_size_at sample_rate_at : Nat) : Option mkv_track_t :=
            match GetWBE p channels_at, GetWBE p sample_size_at, GetWBE p sample_rate_at with
            | some channels, some sample_size, some sample_rate =>
              some { tk with fmt := { tk.fmt with
                audio_i_channels := channels
                audio_i_bitspersample := sample_size
                audio_i_rate := sample_rate } }
            | _, _, _ => none
          let tk : Option mkv_track_t :=
            if version = 4 then
              header env.v4_channels_at env.v4_sample_size_at env.v4_sample_rate_at
            else if version = 5 then
              header env.v5_channels_at env.v5_sample_size_at env.v5_sample_rate_at
            else some tk
          tk.map fun tk =>
            (true, fill_extra_data tk (if tk.fmt.i_codec = VLC_CODEC_RA_288 then 0 else 78))
      | _, _, _, _, _ => none
  else some (true, tk)

/-- The branch `S_VOBSUB` of `Select`. -/
def Select_vobsub (env : Select_env) (tk : mkv_track_t) : mkv_track_t :=
  let tk : mkv_track_t := { tk with fmt := { tk.fmt with i_codec := VLC_CODEC_SPU } }
  if tk.p_extra_data.length ≠ 0 then
    let tk : mkv_track_t :=
      match env.vobsub_size_parse tk.p_extra_data with
      | some size =>
        { tk with fmt := { tk.fmt with
            subs_spu_i_original_frame_width := size.1
            subs_spu_i_original_frame_height := size.2 } }
      | none => tk
    match env.vobsub_palette_parse tk.p_extra_data with
    | some palette => { tk with fmt := { tk.fmt with subs_spu_palette := 0xBeef :: palette } }
    | none => tk
  else tk

/-- The codec dispatch of `Select` for one track with the codec ID `psz_codec`:
the `if` / `else if` chain with the bodies of its branches. The Boolean is
false when the branch ends with `continue`; `none` when a branch reads outside
the codec-private data. -/
def Select_codec (env : Select_env) (tk : mkv_track_t) (psz_codec : List Char) :
    Option (Bool × mkv_track_t) :=
  let codec (c : vlc_fourcc_t) : mkv_track_t := { tk with fmt := { tk.fmt with i_codec := c } }
  let subs (c : vlc_fourcc_t) (enc : String) : mkv_track_t :=
    { tk with fmt := { tk.fmt with i_codec := c, subs_psz_encoding := some enc.toList } }
  match Select_case psz_codec with
  | .V_MS_VFW_FOURCC => some (true, Select_vfw tk)
  | .V_MPEG1_2 =>
    some (true,
      if tk.p_extra_data.length ≠ 0 then fill_extra_data (codec VLC_CODEC_MPGV) 0
      else codec VLC_CODEC_MPGV)
  | .V_THEORA => some (true, { fill_extra_data (codec VLC_CODEC_THEORA) 0 with b_pts_only := true })
  | .V_REAL_RV => some (true, Select_real_video tk psz_codec)
  | .V_DIRAC => some (true, codec VLC_CODEC_DIRAC)
  | .V_VP8 => some (true, { codec VLC_CODEC_VP8 with b_pts_only := true })
  | .V_MPEG4 => some (true, Select_mpeg4 tk psz_codec)
  | .V_QUICKTIME => some (true, Select_quicktime env tk)
  | .V_MJPEG => some (true, codec VLC_CODEC_MJPG)
  | .A_MS_ACM => (Select_acm env tk).map fun tk => (true, tk)
  | .A_MPEG_L123 => some (true, codec VLC_CODEC_MPGA)
  | .A_AC3 => some (true, codec VLC_CODEC_A52)
  | .A_EAC3 => some (true, codec VLC_CODEC_EAC3)
  | .A_DTS => some (true, codec VLC_CODEC_DTS)
  | .A_MLP => some (true, codec VLC_CODEC_MLP)
  | .A_TRUEHD =>
    some (true, { tk with fmt := { tk.fmt with
      i_codec := VLC_CODEC_TRUEHD, b_packetized := false } })
  | .A_FLAC => some (true, fill_extra_data (codec VLC_CODEC_FLAC) 0)
  | .A_VORBIS => some (true, fill_extra_data (codec VLC_CODEC_VORBIS) 0)
  | .A_AAC_MPEG24 => some (true, Select_aac tk psz_codec)
  | .A_AAC => some (true, fill_extra_data (codec VLC_CODEC_MP4A) 0)
  | .A_WAVPACK4 => some (true, fill_extra_data (codec VLC_CODEC_WAVPACK) 0)
  | .A_TTA1 => some (true, Select_tta tk)
  | .A_PCM => some (true, Select_pcm tk psz_codec)
  | .A_REAL => Select_real_audio env tk psz_codec
  | .S_KATE => some (true, fill_extra_data (subs VLC_CODEC_KATE "UTF-8") 0)
  | .S_TEXT_ASCII => some (true, subs VLC_CODEC_SUBT "ASCII")
  | .S_TEXT_UTF8 => some (true, subs VLC_CODEC_SUBT "UTF-8")
  | .S_TEXT_USF =>
    some (true,
      if tk.p_extra_data.length ≠ 0 then
        fill_extra_data (subs (VLC_FOURCC 'u' 's' 'f' ' ') "UTF-8") 0
      else subs (VLC_FOURCC 'u' 's' 'f' ' ') "UTF-8")
  | .S_SSA =>
    some (true,
      if tk.p_extra_data.length ≠ 0 then fill_extra_data (subs VLC_CODEC_SSA "UTF-8") 0
      else subs VLC_CODEC_SSA "UTF-8")
  | .S_VOBSUB => some (true, Select_vobsub env tk)
  | .S_HDMV_PGS => some (true, codec VLC_CODEC_BD_PG)
  | .B_VOBBTN => some (false, { tk with fmt := { tk.fmt with i_cat := es_category.NAV_ES } })
  | .unknown => some (true, codec undf)

/-- The first loop of `Select` (`check for default`): whether an enabled track of
the category has the default or the forced flag. -/
def has_default (tracks : List mkv_track_t) (i_cat : es_category) : Bool :=
  tracks.any fun tk =>
    decide (tk.fmt.i_cat = i_cat) && (tk.b_enabled && (tk.b_default || tk.b_forced))

/-- The variables of `Select` that its second loop carries from track to track,
with the queue of the ES output. -/
structure Select_vars where
  b_has_default_video : Bool
  b_has_default_audio : Bool
  out : List es_out_query
deriving DecidableEq, Repr

/-- The priority that `Select` gives to a track, from its flags and category. -/
def Select_priority (tk : mkv_track_t) : Int :=
  let i_priority : Int :=
    if ¬ tk.b_enabled then -2
    else if tk.b_forced then 2
    else if tk.b_default then 1
    else 0
  if tk.fmt.i_cat = es_category.VIDEO_ES then i_priority - 1 else i_priority

/-- The end of the body of the second loop of `Select`, after the dispatch: the
priority, `es_out_Add` and the default hint. -/
def Select_add (env : Select_env) (l : Select_vars) (tk : mkv_track_t) :
    Select_vars × mkv_track_t :=
  let tk : mkv_track_t := { tk with fmt := { tk.fmt with i_priority := Select_priority tk } }
  let tk : mkv_track_t := { tk with p_es := env.es_out_Add tk.fmt }
  let out := l.out ++ [es_out_query.ES_OUT_ADD tk.fmt]
  let out := if tk.b_default then out ++ [es_out_query.ES_OUT_SET_ES_DEFAULT tk.p_es] else out
  ({ l with out := out }, tk)

/-- The body of the second loop of `Select` for one track; `none` when the
dispatch reads outside the codec-private data. -/
def Select_track (env : Select_env) (l : Select_vars) (tk : mkv_track_t) :
    Option (Select_vars × mkv_track_t) :=
  match tk.psz_codec with
  | none => some (l, { tk with p_es := none })
  | some psz_codec =>
    if tk.fmt.i_cat = es_category.UNKNOWN_ES then some (l, { tk with p_es := none })
    else
      let r : Select_vars × mkv_track_t :=
        if ¬ l.b_has_default_video ∧ tk.fmt.i_cat = es_category.VIDEO_ES then
          ({ l with b_has_default_video := true }, { tk with b_default := true })
        else if ¬ l.b_has_default_audio ∧ tk.fmt.i_cat = es_category.AUDIO_ES then
          ({ l with b_has_default_audio := true }, { tk with b_default := true })
        else (l, tk)
      match Select_codec env r.2 psz_codec with
      | none => none
      | some (false, tk) => some (r.1, tk)
      | some (true, tk) => some (Select_add env r.1 tk)

/-- The second loop of `Select` over the tracks, in order. -/
def Select_tracks (env : Select_env) :
    Select_vars → List mkv_track_t → Option (Select_vars × List mkv_track_t)
  | l, [] => some (l, [])
  | l, tk :: rest =>
    match Select_track env l tk with
    | none => none
    | some (l, tk) =>
      match Select_tracks env l rest with
      | none => none
      | some (l, rest) => some (l, tk :: rest)

/-- The method `matroska_segment_c::Select` (it returns true); `none` when the dispatch
of a track reads outside its codec-private data. -/
def Select (env : Select_env) (s : matroska_segment_c) (i_start_time : Int) :
    Option matroska_segment_c :=
  let l : Select_vars :=
    { b_has_default_video := has_default s.tracks es_category.VIDEO_ES
      b_has_default_audio := has_default s.tracks es_category.AUDIO_ES
      out := s.sys.out }
  match Select_tracks env l s.tracks with
  | none => none
  | some (l, tracks) =>
    some { s with
      tracks := tracks
      sys := { s.sys with
        out := l.out ++ [es_out_query.ES_OUT_SET_NEXT_DISPLAY_TIME i_start_time]
        i_start_pts := i_start_time }
      ep := some (parser_at s s.i_start_pos) }

/-- The fields of a track that the priority of `Select` is computed from: the
flags enabled, forced and default, and the category. -/
def priority_key (tk : mkv_track_t) : Bool × Bool × Bool × es_category :=
  (tk.b_enabled, tk.b_forced, tk.b_default, tk.fmt.i_cat)

/-- The tracks that the second loop of `Select` does not skip as invalid: the
negation of its test `i_cat == UNKNOWN_ES || !psz_codec`. -/
def Select_valid (tk : mkv_track_t) : Bool :=
  tk.psz_codec.isSome && decide (tk.fmt.i_cat ≠ es_category.UNKNOWN_ES)

/-- Index of the first track of the category that the second loop of `Select`
does not skip as invalid. -/
def first_valid : List mkv_track_t → es_category → Option Nat
  | [], _ => none
  | tk :: rest, i_cat =>
    if Select_valid tk = true ∧ tk.fmt.i_cat = i_cat then some 0
    else (first_valid rest i_cat).map fun i => i + 1

/-! ## Preload and deferred loading -/

/-- What `Preload` and `LoadSeekHeadItem` call and the source file does not
define: the parsers of `matroska_segment_parse.cpp` and `LoadTags` (each maps
the segment to the segment after the call), the position of the stream once
an element has been read (its contents parsed or not), the data offset of the
segment that `LoadCues` adds to the cue positions, and `EbmlStream::FindNextID`
(the element found from a file position on, if any). -/
structure Parse_env where
  ParseSeekHead : matroska_segment_c → EbmlElement → matroska_segment_c
  ParseInfo : matroska_segment_c → EbmlElement → matroska_segment_c
  ParseTracks : matroska_segment_c → EbmlElement → matroska_segment_c
  ParseAttachments : matroska_segment_c → EbmlElement → matroska_segment_c
  ParseChapters : matroska_segment_c → EbmlElement → matroska_segment_c
  LoadTags : matroska_segment_c → EbmlElement → matroska_segment_c
  ParseCluster : matroska_segment_c → matroska_segment_c
  getFilePointer : EbmlElement → Bool → Nat
  data_offset : Nat
  FindNextID : Nat → Nat → Option EbmlElement

/-- Outcome of one pass through the body of the `while` of `Preload`: go on with
the next element, or leave the loop (`break`, result true; `return false`,
result false). -/
inductive Preload_pass where
  | next (s : matroska_segment_c)
  | stop (result : Bool) (s : matroska_segment_c)

/-- The body of the `while` of `Preload` for the element `el` that `ep->Get()`
returned; `ep` is the parser after that `Get`. -/
def Preload_element (env : Parse_env) (ep : EbmlParser) (s : matroska_segment_c)
    (el : EbmlElement) : Preload_pass :=
  match el.id with
  | .KaxSeekHead =>
    if s.i_seekhead_count < 10 then
      .next (env.ParseSeekHead
        { s with i_seekhead_position := toInt64 (env.getFilePointer el false) } el)
    else .next s
  | .KaxInfo =>
    if s.i_info_position < 0 then
      .next { env.ParseInfo s el with i_info_position := toInt64 (env.getFilePointer el true) }
    else .next { s with i_info_position := toInt64 (env.getFilePointer el false) }
  | .KaxTracks =>
    if s.i_tracks_position < 0 then
      let s := env.ParseTracks s el
      if s.tracks.length = 0 then .stop false s
      else .next { s with i_tracks_position := toInt64 (env.getFilePointer el true) }
    else
      if s.tracks.length = 0 then .stop false s
      else .next { s with i_tracks_position := toInt64 (env.getFilePointer el false) }
  | .KaxCues =>
    if s.i_cues_position < 0 then
      .next { LoadCues env.data_offset s el with
        i_cues_position := toInt64 (env.getFilePointer el true) }
    else .next { s with i_cues_position := toInt64 (env.getFilePointer el false) }
  | .KaxCluster =>
    let s := { s with
      cluster := some { ElementPosition := el.GetElementPosition }
      i_cluster_pos := toInt64 el.GetElementPosition
      i_start_pos := toInt64 el.GetElementPosition }
    .stop true { env.ParseCluster s with ep := some ep.Down }
  | .KaxAttachments =>
    if s.i_attachments_position < 0 then
      .next { env.ParseAttachments s el with
        i_attachments_position := toInt64 (env.getFilePointer el true) }
    else .next { s with i_attachments_position := toInt64 (env.getFilePointer el false) }
  | .KaxChapters =>
    if s.i_chapters_position < 0 then
      .next { env.ParseChapters s el with
        i_chapters_position := toInt64 (env.getFilePointer el true) }
    else .next { s with i_chapters_position := toInt64 (env.getFilePointer el false) }
  | .KaxTag => .next { s with i_tags_position := toInt64 (env.getFilePointer el false) }
  | _ => .next s

/-- The `while( ( el = ep->Get() ) != NULL )` of `Preload`, over the elements of
level 1 left. The Boolean is false when the loop is left by `return false`. -/
def Preload_loop (env : Parse_env) :
    List EbmlElement → matroska_segment_c → Bool × matroska_segment_c
  | [], s => (true, { s with ep := some ⟨[⟨s.segment, []⟩], none⟩ })
  | el :: rest, s =>
    match Preload_element env ⟨[⟨s.segment, rest⟩], some el⟩
        { s with ep := some ⟨[⟨s.segment, rest⟩], some el⟩ } el with
    | .next s => Preload_loop env rest s
    | .stop result s => (result, s)

/-- The method `matroska_segment_c::Preload`. `ep->Reset` is modelled from the spec
("beginning at the segment's data offset, iterate top-level elements"): the
parser stands at level 1 before the first element of the segment. `none`
stands for the call on a null `ep`, which has no defined result. -/
def Preload (env : Parse_env) (s : matroska_segment_c) : Option (Bool × matroska_segment_c) :=
  if s.b_preloaded then some (false, s)
  else
    match s.ep with
    | none => none
    | some _ =>
      let r := Preload_loop env s.segment.children s
      if r.1 then some (true, { r.2 with b_preloaded := true })
      else some (false, r.2)

/-- Modelled from the spec: the stream `es.I_O()` as far as `LoadSeekHeadItem`
uses it ("saves the current file position, seeks to `offset`, ..., restores
the position"): its state is the file position. -/
structure IOCallback where
  FilePointer : Nat
deriving DecidableEq, Repr

/-- Modelled from the spec: `getFilePointer()`, the file position. -/
def IOCallback.getFilePointer (io : IOCallback) : Nat := io.FilePointer

/-- Modelled from the spec: `setFilePointer( offset, seek_beginning )` makes
`offset` the file position. The spec says nothing of a negative offset; the
position is then left as it is. -/
def IOCallback.setFilePointer (io : IOCallback) (offset : Int) : IOCallback :=
  if 0 ≤ offset then { FilePointer := offset.toNat } else io

/-- The method `matroska_segment_c::LoadSeekHeadItem`, with the stream `es.I_O()` as an
explicit state. `ClassInfos` is the class asked for (its global id). -/
def LoadSeekHeadItem (env : Parse_env) (io : IOCallback) (s : matroska_segment_c)
    (ClassInfos : Nat) (i_element_position : Int) :
    Bool × IOCallback × matroska_segment_c :=
  let i_sav_position := toInt64 io.getFilePointer
  let io := io.setFilePointer i_element_position
  match env.FindNextID io.getFilePointer ClassInfos with
  | none => (false, io.setFilePointer i_sav_position, s)
  | some el =>
    let read (parse : Bool) : IOCallback := { FilePointer := env.getFilePointer el parse }
    match el.id with
    | .KaxSeekHead =>
      if s.i_seekhead_count < 10 then
        (true, (read true).setFilePointer i_sav_position,
          env.ParseSeekHead { s with i_seekhead_position := i_element_position } el)
      else (true, (read false).setFilePointer i_sav_position, s)
    | .KaxInfo =>
      let parse := decide (s.i_info_position < 0)
      let s := if parse then env.ParseInfo s el else s
      (true, (read parse).setFilePointer i_sav_position,
        { s with i_info_position := i_element_position })
    | .KaxTracks =>
      let parse := decide (s.i_tracks_position < 0)
      let s := if parse then env.ParseTracks s el else s
      if s.tracks.length = 0 then (false, (read parse).setFilePointer i_sav_position, s)
      else
        (true, (read parse).setFilePointer i_sav_position,
          { s with i_tracks_position := i_element_position })
    | .KaxCues =>
      let parse := decide (s.i_cues_position < 0)
      let s := if parse then LoadCues env.data_offset s el else s
      (true, (read parse).setFilePointer i_sav_position,
        { s with i_cues_position := i_element_position })
    | .KaxAttachments =>
      let parse := decide (s.i_attachments_position < 0)
      let s := if parse then env.ParseAttachments s el else s
      (true, (read parse).setFilePointer i_sav_position,
        { s with i_attachments_position := i_element_position })
    | .KaxChapters =>
      let parse := decide (s.i_chapters_position < 0)
      let s := if parse then env.ParseChapters s el else s
      (true, (read parse).setFilePointer i_sav_position,
        { s with i_chapters_position := i_element_position })
    | .KaxTags =>
      let parse := decide (s.i_tags_position < 0)
      let s := if parse then env.LoadTags s el else s
      (true, (read parse).setFilePointer i_sav_position,
        { s with i_tags_position := i_element_position })
    | _ => (true, (read false).setFilePointer i_sav_position, s)

/-- One of the recorded Info and Tracks positions is `≥ 0`. -/
def info_or_tracks_recorded (s : matroska_segment_c) : Prop :=
  0 ≤ s.i_info_position ∨ 0 ≤ s.i_tracks_position

/-- The parsers that the source file does not define keep
`info_or_tracks_recorded`. -/
def keeps_recorded (env : Parse_env) : Prop :=
  ∀ s el, info_or_tracks_recorded s →
    info_or_tracks_recorded (env.ParseSeekHead s el) ∧
    info_or_tracks_recorded (env.ParseInfo s el) ∧
    info_or_tracks_recorded (env.ParseTracks s el) ∧
    info_or_tracks_recorded (env.ParseAttachments s el) ∧
    info_or_tracks_recorded (env.ParseChapters s el) ∧
    info_or_tracks_recorded (env.ParseCluster s)


/-- The parsers that the source file does not define find no track in the
elements listed: called on one of them with an empty track list, they leave
it empty. -/
def finds_no_track (env : Parse_env) (els : List EbmlElement) : Prop :=
  ∀ (s : matroska_segment_c), s.tracks = [] → ∀ el ∈ els,
    (env.ParseSeekHead s el).tracks = [] ∧
    (env.ParseInfo s el).tracks = [] ∧
    (env.ParseTracks s el).tracks = [] ∧
    (env.ParseAttachments s el).tracks = [] ∧
    (env.ParseChapters s el).tracks = []

/-! ## Tags -/

/-- The metadata kinds that `metadata_map` names (values of `vlc_meta_type_t`). -/
inductive vlc_meta_type_t where
  | vlc_meta_Title
  | vlc_meta_Artist
  | vlc_meta_Genre
  | vlc_meta_Copyright
  | vlc_meta_Album
  | vlc_meta_TrackNumber
  | vlc_meta_Description
  | vlc_meta_Rating
  | vlc_meta_Date
  | vlc_meta_URL
  | vlc_meta_Publisher
  | vlc_meta_EncodedBy
  | vlc_meta_TrackTotal
deriving DecidableEq, Repr

/-- One row of `metadata_map`; `key = none` is the `NULL` key of the last row. -/
structure metadata_entry where
  type : vlc_meta_type_t
  key : Option String
  target_type : Int
deriving DecidableEq, Repr

/-- The table `metadata_map`. -/
def metadata_map : List metadata_entry :=
  [⟨.vlc_meta_Album, some "TITLE", 50⟩,
   ⟨.vlc_meta_Title, some "TITLE", 0⟩,
   ⟨.vlc_meta_Artist, some "ARTIST", 0⟩,
   ⟨.vlc_meta_Genre, some "GENRE", 0⟩,
   ⟨.vlc_meta_Copyright, some "COPYRIGHT", 0⟩,
   ⟨.vlc_meta_TrackNumber, some "PART_NUMBER", 0⟩,
   ⟨.vlc_meta_Description, some "DESCRIPTION", 0⟩,
   ⟨.vlc_meta_Description, some "COMMENT", 0⟩,
   ⟨.vlc_meta_Rating, some "RATING", 0⟩,
   ⟨.vlc_meta_Date, some "DATE_RELEASED", 0⟩,
   ⟨.vlc_meta_Date, some "DATE_RELEASE", 0⟩,
   ⟨.vlc_meta_Date, some "DATE_RECORDED", 0⟩,
   ⟨.vlc_meta_URL, some "URL", 0⟩,
   ⟨.vlc_meta_Publisher, some "PUBLISHER", 0⟩,
   ⟨.vlc_meta_EncodedBy, some "ENCODED_BY", 0⟩,
   ⟨.vlc_meta_TrackTotal, some "TOTAL_PARTS", 0⟩,
   ⟨.vlc_meta_Title, none, 0⟩]

/-- Modelled from the spec: the metadata sink `sys.meta` is the list of the
operations `set(kind, value)` and `add_extra(name, value)` done on it, in call
order; it is empty until `vlc_meta_New` and the first operation. -/
inductive meta_write where
  | vlc_meta_Set (type : vlc_meta_type_t) (value : List Char)
  | vlc_meta_AddExtra (name value : List Char)
deriving DecidableEq, Repr

/-- The object `SimpleTag` as `ParseSimpleTags` uses it: name, language and value
are null until read; `b_default = none` stands for the value that the
constructor gave, while no TagDefault is read. -/
inductive SimpleTag where
  | mk (psz_tag_name psz_lang : Option (List Char)) (b_default : Option Bool)
      (p_value : Option (List Char)) (sub_tags : List SimpleTag)

namespace SimpleTag

/-- The field `psz_tag_name`. -/
def psz_tag_name : SimpleTag → Option (List Char)
  | mk n _ _ _ _ => n

/-- The field `psz_lang`. -/
def psz_lang : SimpleTag → Option (List Char)
  | mk _ l _ _ _ => l

/-- The field `b_default`. -/
def b_default : SimpleTag → Option Bool
  | mk _ _ d _ _ => d

/-- The field `p_value`. -/
def p_value : SimpleTag → Option (List Char)
  | mk _ _ _ v _ => v

/-- The field `sub_tags`. -/
def sub_tags : SimpleTag → List SimpleTag
  | mk _ _ _ _ s => s

end SimpleTag

/-- The object that `new SimpleTag` gives. -/
def new_SimpleTag : SimpleTag := SimpleTag.mk none none none none []

/-- The loop `for( int i = 0; metadata_map[i].key; i++ )` of `ParseSimpleTags` over the
rows of a table: the kind of the first row whose key equals the name and whose
target type is 0 or the target type of the tag; the loop ends at a `NULL`
key. -/
def metadata_lookup (psz_tag_name : List Char) (target_type : Int) :
    List metadata_entry → Option vlc_meta_type_t
  | [] => none
  | e :: rest =>
    match e.key with
    | none => none
    | some key =>
      if strcmp psz_tag_name key = true ∧
          (e.target_type = 0 ∨ target_type = e.target_type) then some e.type
      else metadata_lookup psz_tag_name target_type rest

/-- The end of `ParseSimpleTags`, after its loop: a tag without a name or without a
value is dropped (`NULL`); otherwise one operation is done on `sys.meta`. -/
def ParseSimpleTags_done (target_type : Int) (r : SimpleTag × List meta_write) :
    Option SimpleTag × List meta_write :=
  match r.1.psz_tag_name, r.1.p_value with
  | some psz_tag_name, some p_value =>
    match metadata_lookup psz_tag_name target_type metadata_map with
    | some type => (some r.1, r.2 ++ [meta_write.vlc_meta_Set type p_value])
    | none => (some r.1, r.2 ++ [meta_write.vlc_meta_AddExtra psz_tag_name p_value])
  | _, _ => (none, r.2)

mutual
/-- The method `matroska_segment_c::ParseSimpleTags`, on the tag element and `sys.meta`; its
result is the `SimpleTag` returned (`none` for `NULL`) and `sys.meta`. -/
def ParseSimpleTags (target_type : Int) : EbmlElement → List meta_write →
    Option SimpleTag × List meta_write
  | .mk _ _ children, p_meta =>
    ParseSimpleTags_done target_type
      (ParseSimpleTags_loop target_type children new_SimpleTag p_meta)
/-- The loop `while( ( el = ep->Get() ) != NULL )` of `ParseSimpleTags` over the children of
the tag. -/
def ParseSimpleTags_loop (target_type : Int) : List EbmlElement → SimpleTag →
    List meta_write → SimpleTag × List meta_write
  | [], p_simple, p_meta => (p_simple, p_meta)
  | .mk id pos cs :: rest, p_simple, p_meta =>
    match id with
    | .KaxTagName key =>
      ParseSimpleTags_loop target_type rest
        (.mk (some key) p_simple.psz_lang p_simple.b_default p_simple.p_value
          p_simple.sub_tags) p_meta
    | .KaxTagString value =>
      ParseSimpleTags_loop target_type rest
        (.mk p_simple.psz_tag_name p_simple.psz_lang p_simple.b_default (some value)
          p_simple.sub_tags) p_meta
    | .KaxTagLangue language =>
      ParseSimpleTags_loop target_type rest
        (.mk p_simple.psz_tag_name (some language) p_simple.b_default p_simple.p_value
          p_simple.sub_tags) p_meta
    | .KaxTagDefault dft =>
      ParseSimpleTags_loop target_type rest
        (.mk p_simple.psz_tag_name p_simple.psz_lang (some (decide (dft % 256 ≠ 0)))
          p_simple.p_value p_simple.sub_tags) p_meta
    | .KaxTagSimple =>
      let r := ParseSimpleTags target_type (.mk id pos cs) p_meta
      ParseSimpleTags_loop target_type rest
        (match r.1 with
          | some p_st =>
            .mk p_simple.psz_tag_name p_simple.psz_lang p_simple.b_default p_simple.p_value
              (p_simple.sub_tags ++ [p_st])
          | none => p_simple) r.2
    | _ => ParseSimpleTags_loop target_type rest p_simple p_meta
end

/-- The name that the children of a tag element give: the string of the last
TagName among them, if there is one. -/
def tag_name (children : List EbmlElement) (init : Option (List Char)) : Option (List Char) :=
  children.foldl
    (fun acc el =>
      match el.id with
      | .KaxTagName key => some key
      | _ => acc) init

/-- The value that the children of a tag element give: the string of the last
TagString among them, if there is one. -/
def tag_value (children : List EbmlElement) (init : Option (List Char)) : Option (List Char) :=
  children.foldl
    (fun acc el =>
      match el.id with
      | .KaxTagString value => some value
      | _ => acc) init

/-- The test of the loop over `metadata_map` for one row, as a predicate on the row:
the key is the name, and the target type of the row is 0 or that of the tag. -/
def metadata_match (psz_tag_name : List Char) (target_type : Int) (e : metadata_entry) : Bool :=
  decide (e.key = some (String.mk psz_tag_name)) &&
    (decide (e.target_type = 0) || decide (target_type = e.target_type))

/-! ## Segment linking -/

/-- The method `matroska_segment_c::CompareSegmentUIDs`; an item is `none` for a null
pointer. The result is `none` when `*p_tmp` reads the segment UID of
`p_item_a` and that UID is null. -/
def CompareSegmentUIDs (p_item_a p_item_b : Option matroska_segment_c) : Option Bool :=
  match p_item_a, p_item_b with
  | some a, some b =>
    let next : Option Bool :=
      match a.p_next_segment_uid with
      | none => some false
      | some p_tmp =>
        if b.p_segment_uid ≠ none ∧ some p_tmp = b.p_segment_uid then some true
        else if b.p_prev_segment_uid ≠ none ∧ some p_tmp = b.p_prev_segment_uid then some true
        else some false
    match b.p_prev_segment_uid with
    | none => next
    | some prev =>
      match a.p_segment_uid with
      | none => none
      | some p_tmp => if p_tmp = prev then some true else next
  | _, _ => some false

/-! ## Sample segments -/

/-- A video track with number 1 and the given codec. -/
def sample_track (i_codec : vlc_fourcc_t) : mkv_track_t :=
  { i_number := 1, fmt := { i_cat := es_category.VIDEO_ES, i_codec := i_codec } }

/-- A cluster element at position 100 with the given children. -/
def sample_cluster (children : List EbmlElement) : EbmlElement :=
  EbmlElement.mk EbmlId.KaxCluster 100 children

/-- A segment whose parser stands inside the cluster at position 100, before
the children `rest` of that cluster, with one track. -/
def sample_segment (tk : mkv_track_t) (rest : List EbmlElement) : matroska_segment_c :=
  { tracks := [tk]
    cluster := some { ElementPosition := 100 }
    i_cluster_pos := 100
    ep := some { frames := [⟨sample_cluster rest, rest⟩,
                            ⟨EbmlElement.mk EbmlId.KaxSegment 0 [sample_cluster rest], []⟩]
                 got := none } }

/-- A block of track 1 whose first frame is the single byte 0x40, with the
keyframe bit of the SimpleBlock header set. -/
def sample_block : KaxBlockData :=
  { TrackNum := 1, IsKeyframe := true, Buffer0 := some [0x40] }

/-- Children of a cluster: a BlockGroup with two ReferenceBlocks whose Block is
of the unknown track 7, then a discardable SimpleBlock of track 1 that is not
a keyframe. -/
def sample_dropped_group : List EbmlElement :=
  [EbmlElement.mk .KaxBlockGroup 120
    [EbmlElement.mk (.KaxReferenceBlock 1) 121 [],
     EbmlElement.mk (.KaxReferenceBlock 2) 122 [],
     EbmlElement.mk (.KaxBlock { sample_block with TrackNum := 7 }) 125 []],
   EbmlElement.mk (.KaxSimpleBlock { TrackNum := 1, IsDiscardable := true }) 130 []]

/-- An index slot of a cue with the given time and position. -/
def sample_slot (i_time i_position : Int) : mkv_index_t :=
  { i_track := 1, i_block_number := -1, i_position := i_position, i_time := i_time,
    b_key := true }

/-- A segment whose index holds cues with the given times, at the positions
1000, 2000, ... in this order. -/
def sample_indexed (times : List Int) : matroska_segment_c :=
  { p_indexes := times.enum.map fun p => sample_slot p.2 (1000 * (p.1 + 1)) }

/-- Collaborators for the sample runs of `Seek`: `VLC_TS_0 = 1`, and an `UnGet`
that always finds the cluster at the position asked for. -/
def sample_env : Seek_env :=
  { VLC_TS_0 := 1
    VLC_TS_INVALID := 0
    ParseCluster := fun _ _ => 0
    getFilePointer := fun el _ => el.GetElementPosition
    UnGet := fun ep _ i_cluster_pos => (some { ElementPosition := i_cluster_pos.toNat }, ep) }

/-- A CuePoint with the given CueTime and one CueTrackPositions record for each
of the cluster positions listed. -/
def sample_cue_point (time : Nat) (positions : List Nat) : EbmlElement :=
  EbmlElement.mk .KaxCuePoint 0
    (EbmlElement.mk (.KaxCueTime time) 0 [] ::
      positions.map fun pos =>
        EbmlElement.mk .KaxCueTrackPositions 0
          [EbmlElement.mk (.KaxCueTrack 1) 0 [],
           EbmlElement.mk (.KaxCueClusterPosition pos) 0 []])

/-- A Cues element whose two CuePoints give the cluster positions 500 and 100,
in this order. -/
def sample_cues_unsorted : EbmlElement :=
  EbmlElement.mk .KaxCues 50 [sample_cue_point 0 [500], sample_cue_point 1000 [100]]

/-- A Cues element with one CuePoint that holds two CueTrackPositions records. -/
def sample_cues_two_tracks : EbmlElement :=
  EbmlElement.mk .KaxCues 50 [sample_cue_point 0 [500, 600]]

/-- The track of the AAC scenario of the spec: codec ID "A_AAC/MPEG4/LC/SBR",
original rate 22050, 2 channels, output rate 44100. -/
def sample_aac_track : mkv_track_t :=
  { i_number := 2
    psz_codec := some "A_AAC/MPEG4/LC/SBR".toList
    i_original_rate := 22050
    fmt := { i_cat := es_category.AUDIO_ES, audio_i_channels := 2, audio_i_rate := 44100 } }

/-- A subtitle track with the given number. -/
def sample_spu_track (i_number : Nat) : mkv_track_t :=
  { i_number := i_number, fmt := { i_cat := es_category.SPU_ES } }

/-- An audio track with the given number. -/
def sample_audio_track (i_number : Nat) : mkv_track_t :=
  { i_number := i_number, fmt := { i_cat := es_category.AUDIO_ES } }

/-- Collaborators for the sample runs of `Preload` and `LoadSeekHeadItem`: a
Tracks element yields one video track for each of its children, `ParseInfo`
adds 1 to the timescale (so that a call shows), the other parsers change
nothing, the stream stands 12 bytes after the start of an element once it is
read, and `FindNextID` finds an Info element for the class 0x1549A966, a
Tracks element for the class 0x1654AE6B and nothing else. -/
def sample_parse_env : Parse_env :=
  { ParseSeekHead := fun s _ => { s with i_seekhead_count := s.i_seekhead_count + 1 }
    ParseInfo := fun s _ => { s with i_timescale := s.i_timescale + 1 }
    ParseTracks := fun s el =>
      { s with tracks := s.tracks ++ el.children.map fun _ => sample_track VLC_CODEC_MP4A }
    ParseAttachments := fun s _ => s
    ParseChapters := fun s _ => s
    LoadTags := fun s _ => s
    ParseCluster := fun s => s
    getFilePointer := fun el _ => el.GetElementPosition + 12
    data_offset := 0
    FindNextID := fun pos ClassInfos =>
      if ClassInfos = 0x1549A966 then some (EbmlElement.mk .KaxInfo pos [])
      else if ClassInfos = 0x1654AE6B then
        some (EbmlElement.mk .KaxTracks pos [EbmlElement.mk .Unknown (pos + 12) []])
      else none }

/-- A segment that was not preloaded, with the given elements at level 1 and a
parser. -/
def sample_fresh (children : List EbmlElement) : matroska_segment_c :=
  { segment := EbmlElement.mk .KaxSegment 0 children
    ep := some (newEbmlParser (EbmlElement.mk .KaxSegment 0 children) children) }

/-- Level 1 of a small file: Info at 40, Tracks (one entry) at 80, a Cluster at
200. -/
def sample_level1 : List EbmlElement :=
  [EbmlElement.mk .KaxInfo 40 [],
   EbmlElement.mk .KaxTracks 80 [EbmlElement.mk .Unknown 92 []],
   EbmlElement.mk .KaxCluster 200 []]

/-- Collaborators for the sample runs of `Select`: `wf_tag_to_fourcc` knows the
tag 0x55 (MPEG audio), no QuickTime or VobSub description can be read, the
Cook interleaver starts, the ES output returns the handle 1, and the fields
of the RealAudio headers lie at the offsets 4 (version), 40, 42, 44
(sub-packet height, frame size, sub-packet size), 48, 52, 54 (version 4) and
54, 58, 60 (version 5). -/
def sample_select_env : Select_env :=
  { wf_tag_to_fourcc := fun tag => if tag = 0x55 then VLC_CODEC_MPGA else undf
    MP4_ReadBox_sample_vide := fun _ => none
    vobsub_size_parse := fun _ => none
    vobsub_palette_parse := fun _ => none
    Cook_Init := fun _ => false
    es_out_Add := fun _ => some 1
    version_at := 4
    sub_packet_h_at := 40
    frame_size_at := 42
    sub_packet_size_at := 44
    v4_sample_rate_at := 48
    v4_sample_size_at := 52
    v4_channels_at := 54
    v5_sample_rate_at := 54
    v5_sample_size_at := 58
    v5_channels_at := 60 }

/-- The 40 bytes of a BITMAPINFOHEADER with the given `biSize`, `biWidth` 1280,
`biHeight` 720 and `biCompression` "XVID". -/
def sample_bih (biSize : Nat) : List Nat :=
  [biSize % 256, biSize / 256 % 256, biSize / 65536 % 256, biSize / 16777216 % 256,
   0x00, 0x05, 0, 0, 0xD0, 0x02, 0, 0, 1, 0, 24, 0] ++
  "XVID".toList.map Char.toNat ++ List.replicate 20 0

/-- A video track with the codec ID "V_MS/VFW/FOURCC" and the given
codec-private data. -/
def sample_vfw_track (p_extra_data : List Nat) : mkv_track_t :=
  { i_number := 1
    psz_codec := some "V_MS/VFW/FOURCC".toList
    p_extra_data := p_extra_data
    fmt := { i_cat := es_category.VIDEO_ES } }

/-- A track of the given category, codec ID and codec-private data, whose codec
is not set yet. -/
def sample_codec_track (i_cat : es_category) (psz_codec : String) (p_extra_data : List Nat) :
    mkv_track_t :=
  { i_number := 1
    psz_codec := some psz_codec.toList
    p_extra_data := p_extra_data
    fmt := { i_cat := i_cat } }

/-- Codec-private data of a RealAudio track cut short: ".ra" and `n` zero bytes. -/
def sample_ra (n : Nat) : List Nat := ".ra".toList.map Char.toNat ++ List.replicate n 0

/-- The codec of a track after `Select_track` on a fresh ES output, its handle,
and the codec of the descriptor that was handed to the ES output first. -/
def sample_activation (tk : mkv_track_t) :
    Option (vlc_fourcc_t × Option Nat × Option vlc_fourcc_t) :=
  (Select_track sample_select_env ⟨false, false, []⟩ tk).map fun r =>
    (r.2.fmt.i_codec, r.2.p_es,
      match r.1.out.head? with
      | some (.ES_OUT_ADD fmt) => some fmt.i_codec
      | _ => none)

/-- A navigation (button) track with the given number. -/
def sample_nav_track (i_number : Nat) : mkv_track_t :=
  { i_number := i_number, fmt := { i_cat := es_category.NAV_ES } }

/-- A stereo 16-bit audio track of 44100 Hz with the given codec-private data. -/
def sample_tta_track (p_extra_data : List Nat) : mkv_track_t :=
  { fmt :=
      { i_cat := es_category.AUDIO_ES
        audio_i_channels := 2
        audio_i_bitspersample := 16
        audio_i_rate := 44100 }
    p_extra_data := p_extra_data }

/-- A forced MPEG video track. -/
def sample_forced_video : mkv_track_t :=
  { sample_codec_track es_category.VIDEO_ES "V_MPEG2" [] with b_forced := true }

/-- Two MPEG video tracks: the first enabled with no flag, the second disabled
with the default flag. -/
def sample_disabled_default : List mkv_track_t :=
  [{ sample_codec_track es_category.VIDEO_ES "V_MPEG2" [] with i_number := 1 },
   { sample_codec_track es_category.VIDEO_ES "V_MPEG2" [] with
     i_number := 2, b_enabled := false, b_default := true }]

/-- Two video tracks with no flag, the first without a codec ID. -/
def sample_no_codec_first : List mkv_track_t :=
  [{ i_number := 1, fmt := { i_cat := es_category.VIDEO_ES } },
   { sample_codec_track es_category.VIDEO_ES "V_MPEG2" [] with i_number := 2 }]

/-- A segment with one video track (number 1), a cluster at position 1000 with
a keyframe at 0 s, a cluster at position 2000 with blocks at 1.2 s and 1.6 s
that are keyframes or not as `key` says, and an index with one slot for each
cluster, at the times 0 and 1000000 (1 s). -/
def sample_two_clusters (key : Bool) : matroska_segment_c :=
  { tracks := [sample_track VLC_CODEC_MPGV]
    segment :=
      EbmlElement.mk .KaxSegment 0
        [EbmlElement.mk .KaxCluster 1000
           [EbmlElement.mk (.KaxClusterTimecode 0) 1010 [],
            EbmlElement.mk
              (.KaxSimpleBlock { TrackNum := 1, GlobalTimecode := 0, IsKeyframe := true })
              1020 []],
         EbmlElement.mk .KaxCluster 2000
           [EbmlElement.mk (.KaxClusterTimecode 1000) 2010 [],
            EbmlElement.mk
              (.KaxSimpleBlock
                { TrackNum := 1, GlobalTimecode := 1200000000, IsKeyframe := key })
              2020 [],
            EbmlElement.mk
              (.KaxSimpleBlock
                { TrackNum := 1, GlobalTimecode := 1600000000, IsKeyframe := key })
              2030 []]]
    p_indexes := [sample_slot 0 1000, sample_slot 1000000 2000] }

/-- A SimpleTag element with the given name and value. -/
def sample_tag (name value : String) : EbmlElement :=
  EbmlElement.mk .KaxTagSimple 300
    [EbmlElement.mk (.KaxTagName name.toList) 302 [],
     EbmlElement.mk (.KaxTagString value.toList) 310 []]

/-- A segment with the given segment UID, previous-segment UID and next-segment
UID, each one byte or absent. -/
def sample_linked (uid prev next : Option Nat) : matroska_segment_c :=
  { p_segment_uid := uid.map fun b => ⟨[b]⟩
    p_prev_segment_uid := prev.map fun b => ⟨[b]⟩
    p_next_segment_uid := next.map fun b => ⟨[b]⟩ }

/-- An 18-byte WAVEFORMATEX (tag 0x55, 2 channels, 44100 Hz, 16000 bytes per
second, block align 1, 0 bits per sample) with the given `cbSize`, followed by
the bytes `rest`. -/
def sample_wf (cbSize : Nat) (rest : List Nat) : List Nat :=
  [0x55, 0, 2, 0, 0x44, 0xAC, 0, 0, 0x80, 0x3E, 0, 0, 1, 0, 0, 0,
   cbSize % 256, cbSize / 256 % 256] ++ rest

/-- A PCM audio track with the given codec ID, bits per sample and channel
count. -/
def sample_pcm_track (psz_codec : String) (bits channels : Nat) : mkv_track_t :=
  { i_number := 1
    psz_codec := some psz_codec.toList
    fmt :=
      { i_cat := es_category.AUDIO_ES
        audio_i_bitspersample := bits
        audio_i_channels := channels } }

/-- A BlockGroup at the given position whose children are ReferenceBlocks with
the values listed, followed by the Block of the given track. -/
def sample_group (pos track : Nat) (refs : List Int) : EbmlElement :=
  EbmlElement.mk .KaxBlockGroup pos
    (refs.map (fun ref => EbmlElement.mk (.KaxReferenceBlock ref) (pos + 1) []) ++
      [EbmlElement.mk (.KaxBlock { TrackNum := track, Buffer0 := some [0] }) (pos + 5) []])

/-- What a call of `BlockGet` on the sample segment (one track, number 1) with the
given children of the cluster returns: the code, the track of the block, the
keyframe flag and the discardable flag. -/
def sample_flags (rest : List EbmlElement) : Option (Int × Option Nat × Bool × Bool) :=
  (BlockGet 40 (sample_segment (sample_track VLC_CODEC_MP4A) rest) 0).map fun r =>
    (r.1, r.2.2.pp_block.map (fun b => b.hdr.TrackNum), r.2.2.pb_key_picture,
      r.2.2.pb_discardable_picture)

/-! # Theorems -/

/-! ## Block extractor -/

@[simp] theorem EbmlElement.id_mk (i : EbmlId) (p : Nat) (c : List EbmlElement) :
    (EbmlElement.mk i p c).id = i := rfl

@[simp] theorem EbmlElement.GetElementPosition_mk (i : EbmlId) (p : Nat)
    (c : List EbmlElement) : (EbmlElement.mk i p c).GetElementPosition = p := rfl

@[simp] theorem EbmlElement.children_mk (i : EbmlId) (p : Nat) (c : List EbmlElement) :
    (EbmlElement.mk i p c).children = c := rfl

theorem BlockGet_level3_eq (s : matroska_segment_c) (v : BlockGet_vars) (ep : EbmlParser)
    (el : EbmlElement) :
    BlockGet_level3 s v ep el =
      .again { s with tracks := level3_tracks s.tracks el, ep := some ep } (level3_vars v el) := by
  unfold BlockGet_level3 level3_tracks level3_vars EbmlParser.Keep
  cases h : el.id <;> simp

theorem body_level3 (s : matroska_segment_c) (v : BlockGet_vars) (bg e : EbmlElement)
    (cs : List EbmlElement) (f2 f1 : Frame) (got : Option EbmlElement) (c : KaxCluster)
    (hep : s.ep = some { frames := [⟨bg, e :: cs⟩, f2, f1], got := got })
    (hc : s.cluster = some c)
    (htop : (f2.container.id = EbmlId.KaxCluster ∧
      f2.container.GetElementPosition = c.ElementPosition))
    (hsb : v.pp_simpleblock = none) :
    BlockGet_body s v =
      .again { s with tracks := level3_tracks s.tracks e,
                      ep := some { frames := [⟨bg, cs⟩, f2, f1], got := some e } }
        (level3_vars v e) := by
  cases s
  simp only at hep hc
  subst hep hc
  simp [BlockGet_body, hsb, EbmlParser.Get, BlockGet_parse, EbmlParser.GetLevel,
    EbmlParser.IsTopPresent, htop, BlockGet_level3_eq]

theorem level3_vars_simpleblock (v : BlockGet_vars) (el : EbmlElement) :
    (level3_vars v el).pp_simpleblock = v.pp_simpleblock := by
  unfold level3_vars
  split <;> try rfl
  split <;> try rfl
  split <;> rfl

theorem foldl_level3_vars_simpleblock (cs : List EbmlElement) (v : BlockGet_vars) :
    (cs.foldl level3_vars v).pp_simpleblock = v.pp_simpleblock := by
  induction cs generalizing v with
  | nil => rfl
  | cons e cs ih => rw [List.foldl_cons, ih, level3_vars_simpleblock]

/-- Reading the children of a BlockGroup: one pass of the loop per child. -/
theorem loop_level3 (cs : List EbmlElement) :
    ∀ (n : Nat) (s : matroska_segment_c) (v : BlockGet_vars) (bg : EbmlElement)
      (f2 f1 : Frame) (got : Option EbmlElement) (c : KaxCluster),
      s.ep = some { frames := [⟨bg, cs⟩, f2, f1], got := got } →
      s.cluster = some c →
      (f2.container.id = EbmlId.KaxCluster ∧
        f2.container.GetElementPosition = c.ElementPosition) →
      v.pp_simpleblock = none →
      ∃ got', BlockGet_loop (cs.length + n) s v =
        BlockGet_loop n
          { s with tracks := cs.foldl level3_tracks s.tracks,
                   ep := some { frames := [⟨bg, []⟩, f2, f1], got := got' } }
          (cs.foldl level3_vars v) := by
  induction cs with
  | nil =>
    intro n s v bg f2 f1 got c hep _ _ _
    refine ⟨got, ?_⟩
    cases s
    simp only at hep
    subst hep
    simp
  | cons e cs ih =>
    intro n s v bg f2 f1 got c hep hc htop hsb
    have hb := body_level3 s v bg e cs f2 f1 got c hep hc htop hsb
    obtain ⟨got', h⟩ := ih n
      { s with tracks := level3_tracks s.tracks e,
               ep := some { frames := [⟨bg, cs⟩, f2, f1], got := some e } }
      (level3_vars v e) bg f2 f1 (some e) c rfl hc htop
      (by rw [level3_vars_simpleblock, hsb])
    refine ⟨got', ?_⟩
    rw [List.length_cons, Nat.add_right_comm, BlockGet_loop, hb]
    simpa using h

theorem foldl_level3_vars_block (cs : List EbmlElement) (v : BlockGet_vars) :
    (cs.foldl level3_vars v).pp_block = last_block v.pp_block cs := by
  induction cs generalizing v with
  | nil => rfl
  | cons e cs ih =>
    rw [List.foldl_cons, ih, last_block]
    cases h : e.id <;> simp [level3_vars, h]
    split_ifs <;> rfl

theorem foldl_level3_vars_key (cs : List EbmlElement) (v : BlockGet_vars) :
    (cs.foldl level3_vars v).pb_key_picture =
      (v.pb_key_picture && (reference_blocks cs).isEmpty) := by
  induction cs generalizing v with
  | nil => simp [reference_blocks]
  | cons e cs ih =>
    rw [List.foldl_cons, ih, reference_blocks]
    cases h : e.id <;> simp [level3_vars, h]
    split_ifs <;> simp_all

theorem foldl_level3_vars_disc (cs : List EbmlElement) (v : BlockGet_vars) :
    (cs.foldl level3_vars v).pb_discardable_picture =
      (v.pb_discardable_picture ||
        (if v.pb_key_picture then (reference_blocks cs).tail
          else reference_blocks cs).any fun r => decide (0 < r)) := by
  induction cs generalizing v with
  | nil => simp [reference_blocks]
  | cons e cs ih =>
    rw [List.foldl_cons, ih, reference_blocks]
    cases h : e.id <;> simp [level3_vars, h]
    rename_i r
    by_cases hk : v.pb_key_picture = true <;> by_cases hr : 0 < r <;> simp [hk, hr]

theorem set_silent_map (tks : List mkv_track_t) (n : Nat) :
    (set_silent tks n).map track_key = tks.map track_key := by
  induction tks with
  | nil => rfl
  | cons tk tks ih =>
    unfold set_silent
    split_ifs
    · simp [track_key]
    · simp [ih]

theorem foldl_level3_tracks_map (cs : List EbmlElement) (tks : List mkv_track_t) :
    (cs.foldl level3_tracks tks).map track_key = tks.map track_key := by
  induction cs generalizing tks with
  | nil => rfl
  | cons e cs ih =>
    rw [List.foldl_cons, ih]
    unfold level3_tracks
    split
    · exact set_silent_map _ _
    · rfl

theorem track_matches_congr (a b : mkv_track_t) (h : track_key a = track_key b)
    (p_block p_simpleblock : Option KaxBlock) :
    track_matches a p_block p_simpleblock = track_matches b p_block p_simpleblock := by
  have hn : a.i_number = b.i_number := congrArg Prod.fst h
  simp [track_matches, hn]

theorem BlockFindTrackIndex_congr (t t' : List mkv_track_t)
    (h : t.map track_key = t'.map track_key) (p_block p_simpleblock : Option KaxBlock) :
    BlockFindTrackIndex t p_block p_simpleblock =
      BlockFindTrackIndex t' p_block p_simpleblock := by
  have hlen : t.length = t'.length := by simpa using congrArg List.length h
  have hidx : t.findIdx (fun tk => track_matches tk p_block p_simpleblock) =
      t'.findIdx (fun tk => track_matches tk p_block p_simpleblock) := by
    clear hlen
    induction t generalizing t' with
    | nil =>
      cases t' with
      | nil => rfl
      | cons b t' => simp at h
    | cons a t ih =>
      cases t' with
      | nil => simp at h
      | cons b t' =>
        simp only [List.map_cons, List.cons.injEq] at h
        rw [List.findIdx_cons, List.findIdx_cons, ih t' h.2,
          track_matches_congr a b h.1]
  simp [BlockFindTrackIndex, hlen, hidx]

theorem get?_codec_congr (t t' : List mkv_track_t)
    (h : t.map track_key = t'.map track_key) (i : Nat) (tk : mkv_track_t)
    (hget : t.get? i = some tk) :
    ∃ tk', t'.get? i = some tk' ∧ tk'.fmt.i_codec = tk.fmt.i_codec := by
  have h1 : (t.map track_key).get? i = some (track_key tk) := by
    simp [List.get?_eq_getElem?] at hget ⊢
    exact ⟨tk, hget, rfl⟩
  rw [h] at h1
  simp [List.get?_eq_getElem?] at h1 ⊢
  obtain ⟨tk', h2, h3⟩ := h1
  exact ⟨tk', h2, congrArg Prod.snd h3⟩

theorem BlockGet_deliver_block (s : matroska_segment_c) (v : BlockGet_vars) (b : KaxBlock)
    (i_tk : Nat) (tk : mkv_track_t) (hsb : v.pp_simpleblock = none)
    (hb : v.pp_block = some b)
    (hfind : BlockFindTrackIndex s.tracks (some b) none = some i_tk)
    (htk : s.tracks.get? i_tk = some tk) :
    BlockGet_deliver s v =
      .ret VLC_SUCCESS
        { s with p_indexes := update_index s.p_indexes b.hdr.GlobalTimecode
                    (v.pb_key_picture && theora_key tk.fmt.i_codec b) }
        { v with pb_key_picture := (v.pb_key_picture && theora_key tk.fmt.i_codec b) } := by
  unfold BlockGet_deliver
  simp only [hsb, hb, hfind, htk]
  cases hk : v.pb_key_picture <;> simp [hk]

theorem body_level2_blockgroup (s : matroska_segment_c) (v : BlockGet_vars) (c : KaxCluster)
    (clu seg : EbmlElement) (r1 r2 cs : List EbmlElement) (pos : Nat)
    (got : Option EbmlElement)
    (hep : s.ep = some ⟨[⟨clu, EbmlElement.mk .KaxBlockGroup pos cs :: r2⟩, ⟨seg, r1⟩], got⟩)
    (hclu : clu.id = EbmlId.KaxCluster ∧ clu.GetElementPosition = c.ElementPosition)
    (hc : s.cluster = some c) (hsb : v.pp_simpleblock = none) :
    BlockGet_body s v =
      .again { s with i_block_pos := toInt64 pos,
                      ep := some ⟨[⟨EbmlElement.mk .KaxBlockGroup pos cs, cs⟩, ⟨clu, r2⟩, ⟨seg, r1⟩], none⟩ } v := by
  cases s
  simp only at hep hc
  subst hep hc
  simp [BlockGet_body, hsb, EbmlParser.Get, BlockGet_parse, EbmlParser.GetLevel,
    EbmlParser.IsTopPresent, hclu, BlockGet_level2, EbmlParser.Down]

theorem body_level3_end (s : matroska_segment_c) (v : BlockGet_vars) (b : KaxBlock)
    (frame : EbmlElement) (fs : List Frame) (got : Option EbmlElement)
    (hep : s.ep = some { frames := ⟨frame, []⟩ :: fs, got := got })
    (hsb : v.pp_simpleblock = none) (hb : v.pp_block = some b) :
    BlockGet_body s v =
      BlockGet_deliver { s with ep := some { frames := ⟨frame, []⟩ :: fs, got := none } } v := by
  cases s
  simp only at hep
  subst hep
  simp [BlockGet_body, hsb, hb, EbmlParser.Get]

/-- A complete run of the loop of `BlockGet` over one BlockGroup that holds a
Block of a known track. -/
theorem BlockGet_blockgroup_run (s : matroska_segment_c) (v : BlockGet_vars) (c : KaxCluster)
    (clu seg : EbmlElement) (r1 r2 cs : List EbmlElement) (pos : Nat)
    (got : Option EbmlElement) (b : KaxBlock) (i_tk : Nat) (tk : mkv_track_t) (n : Nat)
    (hep : s.ep = some ⟨[⟨clu, EbmlElement.mk .KaxBlockGroup pos cs :: r2⟩, ⟨seg, r1⟩], got⟩)
    (hclu : clu.id = EbmlId.KaxCluster ∧ clu.GetElementPosition = c.ElementPosition)
    (hc : s.cluster = some c) (hsb : v.pp_simpleblock = none)
    (hb : last_block v.pp_block cs = some b)
    (hfind : BlockFindTrackIndex s.tracks (some b) none = some i_tk)
    (htk : s.tracks.get? i_tk = some tk) :
    BlockGet_loop (cs.length + 2 + n) s v = some (VLC_SUCCESS,
      { s with
        tracks := cs.foldl level3_tracks s.tracks
        p_indexes := update_index s.p_indexes b.hdr.GlobalTimecode
          ((v.pb_key_picture && (reference_blocks cs).isEmpty) && theora_key tk.fmt.i_codec b)
        i_block_pos := toInt64 pos
        ep := some ⟨[⟨EbmlElement.mk .KaxBlockGroup pos cs, []⟩, ⟨clu, r2⟩, ⟨seg, r1⟩], none⟩ },
      { pp_block := some b
        pp_simpleblock := none
        pb_key_picture :=
          (v.pb_key_picture && (reference_blocks cs).isEmpty) && theora_key tk.fmt.i_codec b
        pb_discardable_picture :=
          v.pb_discardable_picture ||
            (if v.pb_key_picture then (reference_blocks cs).tail
              else reference_blocks cs).any fun r => decide (0 < r)
        pi_duration := (cs.foldl level3_vars v).pi_duration }) := by
  have h1 := body_level2_blockgroup s v c clu seg r1 r2 cs pos got hep hclu hc hsb
  obtain ⟨got', h2⟩ := loop_level3 cs (1 + n)
    { s with i_block_pos := toInt64 pos,
             ep := some ⟨[⟨EbmlElement.mk .KaxBlockGroup pos cs, cs⟩, ⟨clu, r2⟩, ⟨seg, r1⟩], none⟩ }
    v (EbmlElement.mk .KaxBlockGroup pos cs) ⟨clu, r2⟩ ⟨seg, r1⟩ none c rfl hc hclu hsb
  have hmap := foldl_level3_tracks_map cs s.tracks
  have hfind' : BlockFindTrackIndex (cs.foldl level3_tracks s.tracks) (some b) none =
      some i_tk := by
    rw [BlockFindTrackIndex_congr _ _ hmap]; exact hfind
  obtain ⟨tk', htk', hcodec⟩ := get?_codec_congr s.tracks (cs.foldl level3_tracks s.tracks)
    hmap.symm i_tk tk htk
  have hvb : (cs.foldl level3_vars v).pp_block = some b := by
    rw [foldl_level3_vars_block]; exact hb
  have hvs : (cs.foldl level3_vars v).pp_simpleblock = none := by
    rw [foldl_level3_vars_simpleblock]; exact hsb
  have h3 := body_level3_end
    { s with i_block_pos := toInt64 pos,
             tracks := cs.foldl level3_tracks s.tracks,
             ep := some ⟨[⟨EbmlElement.mk .KaxBlockGroup pos cs, []⟩, ⟨clu, r2⟩, ⟨seg, r1⟩], got'⟩ }
    (cs.foldl level3_vars v) b _ _ got' rfl hvs hvb
  have h4 := BlockGet_deliver_block
    { s with i_block_pos := toInt64 pos,
             tracks := cs.foldl level3_tracks s.tracks,
             ep := some ⟨[⟨EbmlElement.mk .KaxBlockGroup pos cs, []⟩, ⟨clu, r2⟩, ⟨seg, r1⟩], none⟩ }
    (cs.foldl level3_vars v) b i_tk tk' hvs hvb hfind' htk'
  have e : cs.length + 2 + n = (cs.length + (1 + n)) + 1 := by omega
  rw [e, BlockGet_loop, h1]
  simp only
  rw [h2, Nat.add_comm 1 n, BlockGet_loop, h3]
  simp only at h4 ⊢
  rw [h4]
  simp only [hcodec, foldl_level3_vars_key, foldl_level3_vars_disc, hvb, hvs]

theorem reference_blocks_eq_nil (cs : List EbmlElement) :
    reference_blocks cs = [] ↔ ∀ e ∈ cs, ∀ r, e.id ≠ EbmlId.KaxReferenceBlock r := by
  induction cs with
  | nil => simp [reference_blocks]
  | cons e cs ih =>
    rw [reference_blocks]
    cases h : e.id <;> simp [h, ih]

theorem theora_key_iff (i_codec : vlc_fourcc_t) (b : KaxBlock) :
    theora_key i_codec b = true ↔
      (i_codec = VLC_CODEC_THEORA →
        ∃ b0 rest, b.hdr.Buffer0 = some (b0 :: rest) ∧ b0 &&& 0x40 = 0) := by
  unfold theora_key
  split_ifs with h
  · simp only [h, true_implies]
    split
    · rename_i b0 rest heq
      simp [heq]
    · rename_i hne
      simp only [Bool.false_eq_true, false_iff]
      rintro ⟨b0, rest, h1, _⟩
      exact hne b0 rest h1
  · simp [h]

/-- C1 (amended): whenever the loop of `BlockGet` stands before a BlockGroup of the
current cluster with no block pending and the keyframe flag still true (so
when the BlockGroup is the first element that the call reads), and the (last)
Block of the BlockGroup belongs to a known track, the call returns that block
with keyframe = true if and only if the BlockGroup has no ReferenceBlock child
and, when the codec of the track is Theora, the first frame of the block is
non-empty with bit 0x40 of its first byte clear. -/
theorem BlockGet_blockgroup_keyframe (s : matroska_segment_c) (v : BlockGet_vars)
    (c : KaxCluster) (clu seg : EbmlElement) (r1 r2 cs : List EbmlElement) (pos : Nat)
    (got : Option EbmlElement) (b : KaxBlock) (i_tk : Nat) (tk : mkv_track_t)
    (fuel : Nat)
    (hep : s.ep = some ⟨[⟨clu, EbmlElement.mk .KaxBlockGroup pos cs :: r2⟩, ⟨seg, r1⟩], got⟩)
    (hclu : clu.id = EbmlId.KaxCluster ∧ clu.GetElementPosition = c.ElementPosition)
    (hc : s.cluster = some c)
    (hvs : v.pp_simpleblock = none) (hvb : v.pp_block = none)
    (hkey : v.pb_key_picture = true)
    (hb : last_block none cs = some b)
    (hfind : BlockFindTrackIndex s.tracks (some b) none = some i_tk)
    (htk : s.tracks.get? i_tk = some tk)
    (hfuel : cs.length + 2 ≤ fuel) :
    ∃ s' v', BlockGet_loop fuel s v = some (VLC_SUCCESS, s', v') ∧
      v'.pp_block = some b ∧ v'.pp_simpleblock = none ∧
      (v'.pb_key_picture = true ↔
        ((∀ e ∈ cs, ∀ r, e.id ≠ EbmlId.KaxReferenceBlock r) ∧
         (tk.fmt.i_codec = VLC_CODEC_THEORA →
            ∃ b0 rest, b.hdr.Buffer0 = some (b0 :: rest) ∧ b0 &&& 0x40 = 0))) := by
  obtain ⟨n, rfl⟩ := Nat.exists_eq_add_of_le hfuel
  have h := BlockGet_blockgroup_run s v c clu seg r1 r2 cs pos got b i_tk tk n hep hclu hc hvs
    (by rw [hvb]; exact hb) hfind htk
  refine ⟨_, _, h, rfl, rfl, ?_⟩
  simp only [hkey, Bool.true_and, Bool.and_eq_true, List.isEmpty_iff, reference_blocks_eq_nil,
    theora_key_iff]

/-- C1: a BlockGroup without ReferenceBlock child whose Block belongs to a known
Theora track and starts with the byte 0x40 is returned with keyframe = false. -/
theorem BlockGet_blockgroup_keyframe_theora :
    (BlockGet 3 (sample_segment (sample_track VLC_CODEC_THEORA)
        [EbmlElement.mk .KaxBlockGroup 120 [EbmlElement.mk (.KaxBlock sample_block) 125 []]]) 0).map
      (fun r => (r.1, r.2.2)) =
      some (VLC_SUCCESS,
        { pp_block := some ⟨125, sample_block⟩, pp_simpleblock := none,
          pb_key_picture := false, pb_discardable_picture := false, pi_duration := 0 }) ∧
    (∀ e ∈ [EbmlElement.mk (.KaxBlock sample_block) 125 []],
      ∀ r, e.id ≠ EbmlId.KaxReferenceBlock r) ∧
    BlockFindTrackIndex [sample_track VLC_CODEC_THEORA] (some ⟨125, sample_block⟩) none =
      some 0 := by
  refine ⟨by decide, ?_, by decide⟩
  intro e he r
  simp at he
  subst he
  simp

theorem BlockGet_level1_ret (s : matroska_segment_c) (v : BlockGet_vars) (ep : EbmlParser)
    (el : EbmlElement) (code : Int) (s' : matroska_segment_c) (v' : BlockGet_vars)
    (h : BlockGet_level1 s v ep el = .ret code s' v') : code = VLC_EGENERIC := by
  unfold BlockGet_level1 at h
  split at h <;> simp at h
  exact h.1.symm

theorem BlockGet_level2_ret (s : matroska_segment_c) (v : BlockGet_vars) (ep : EbmlParser)
    (c : KaxCluster) (el : EbmlElement) (code : Int) (s' : matroska_segment_c)
    (v' : BlockGet_vars) (h : BlockGet_level2 s v ep c el = .ret code s' v') : False := by
  unfold BlockGet_level2 at h
  split at h <;> simp at h

theorem BlockGet_parse_ret (s : matroska_segment_c) (v : BlockGet_vars) (ep : EbmlParser)
    (el : Option EbmlElement) (code : Int) (s' : matroska_segment_c) (v' : BlockGet_vars)
    (h : BlockGet_parse s v ep el = .ret code s' v') : code = VLC_EGENERIC := by
  unfold BlockGet_parse at h
  split at h
  · dsimp only at h
    split at h <;> simp at h
    exact h.1.symm
  · dsimp only at h
    split at h
    · exact BlockGet_level1_ret _ _ _ _ _ _ _ h
    · exact (BlockGet_level2_ret _ _ _ _ _ _ _ _ h).elim
    · rw [BlockGet_level3_eq] at h
      simp at h
    · simp at h
      exact h.1.symm
    · simp at h
    · simp at h
      exact h.1.symm

theorem BlockGet_deliver_ret (s : matroska_segment_c) (v : BlockGet_vars) (code : Int)
    (s' : matroska_segment_c) (v' : BlockGet_vars)
    (h : BlockGet_deliver s v = .ret code s' v') :
    code = VLC_SUCCESS ∧ v'.pp_simpleblock = v.pp_simpleblock ∧
      ∀ sb, v.pp_simpleblock = some sb →
        v'.pb_key_picture = sb.hdr.IsKeyframe ∧
        v'.pb_discardable_picture = sb.hdr.IsDiscardable := by
  unfold BlockGet_deliver at h
  split at h
  · simp at h
  · simp only [BlockGet_pass.ret.injEq] at h
    obtain ⟨h1, _, h3⟩ := h
    subst h3
    refine ⟨h1.symm, rfl, ?_⟩
    intro sb hsb
    simp [hsb]

theorem BlockGet_deliver_simpleblock (s : matroska_segment_c) (v : BlockGet_vars)
    (sb : KaxBlock) (i_tk : Nat) (hsb : v.pp_simpleblock = some sb)
    (hfind : BlockFindTrackIndex s.tracks v.pp_block (some sb) = some i_tk) :
    BlockGet_deliver s v =
      .ret VLC_SUCCESS
        { s with p_indexes :=
            update_index s.p_indexes sb.hdr.GlobalTimecode sb.hdr.IsKeyframe }
        { v with pb_key_picture := sb.hdr.IsKeyframe,
                 pb_discardable_picture := sb.hdr.IsDiscardable } := by
  unfold BlockGet_deliver
  simp only [hsb, hfind]

theorem BlockGet_body_pending (s : matroska_segment_c) (v : BlockGet_vars) (ep : EbmlParser)
    (sb : KaxBlock) (hep : s.ep = some ep) (hsb : v.pp_simpleblock = some sb) :
    BlockGet_body s v = BlockGet_deliver s v := by
  unfold BlockGet_body
  simp only [hep, hsb]

/-- Whenever the loop of `BlockGet` returns success with a SimpleBlock, the two
flags are the bits of the SimpleBlock header. -/
theorem BlockGet_loop_simpleblock (fuel : Nat) :
    ∀ (s : matroska_segment_c) (v : BlockGet_vars) (s' : matroska_segment_c)
      (v' : BlockGet_vars) (sb : KaxBlock),
      BlockGet_loop fuel s v = some (VLC_SUCCESS, s', v') →
      v'.pp_simpleblock = some sb →
      v'.pb_key_picture = sb.hdr.IsKeyframe ∧
        v'.pb_discardable_picture = sb.hdr.IsDiscardable := by
  induction fuel with
  | zero => intro s v s' v' sb h; simp [BlockGet_loop] at h
  | succ n ih =>
    intro s v s' v' sb h hsb
    rw [BlockGet_loop] at h
    cases hb : BlockGet_body s v with
    | again s1 v1 =>
      rw [hb] at h
      exact ih s1 v1 s' v' sb h hsb
    | ret code s1 v1 =>
      rw [hb] at h
      simp only [Option.some.injEq, Prod.mk.injEq] at h
      obtain ⟨hcode, hs, hv⟩ := h
      subst hs hv
      have hdel : ∃ s0, BlockGet_deliver s0 v = .ret code s1 v1 := by
        unfold BlockGet_body at hb
        split at hb
        · simp only [BlockGet_pass.ret.injEq] at hb
          rw [← hb.1] at hcode
          exact absurd hcode (by decide)
        · split at hb
          · exact ⟨_, hb⟩
          · dsimp only at hb
            split at hb
            · exact ⟨_, hb⟩
            · have := BlockGet_parse_ret _ _ _ _ _ _ _ hb
              rw [this] at hcode
              exact absurd hcode (by decide)
      obtain ⟨s0, hdel⟩ := hdel
      obtain ⟨_, h2, h3⟩ := BlockGet_deliver_ret s0 v code s1 v1 hdel
      exact h3 sb (h2 ▸ hsb)

theorem body_level2_simpleblock (s : matroska_segment_c) (v : BlockGet_vars) (c : KaxCluster)
    (clu seg : EbmlElement) (r1 r2 ch : List EbmlElement) (pos : Nat)
    (got : Option EbmlElement) (blk : KaxBlockData)
    (hep : s.ep = some ⟨[⟨clu, EbmlElement.mk (.KaxSimpleBlock blk) pos ch :: r2⟩,
      ⟨seg, r1⟩], got⟩)
    (hclu : clu.id = EbmlId.KaxCluster ∧ clu.GetElementPosition = c.ElementPosition)
    (hc : s.cluster = some c) (hsb : v.pp_simpleblock = none) (hb : v.pp_block = none) :
    BlockGet_body s v =
      .again { s with ep := some ⟨[⟨clu, r2⟩, ⟨seg, r1⟩],
                        some (EbmlElement.mk (.KaxSimpleBlock blk) pos ch)⟩ }
        { v with pp_simpleblock := some ⟨pos, blk⟩ } := by
  cases s
  simp only at hep hc
  subst hep hc
  simp [BlockGet_body, hsb, hb, EbmlParser.Get, BlockGet_parse, EbmlParser.GetLevel,
    EbmlParser.IsTopPresent, hclu, BlockGet_level2]

/-- C1: the run of the amended statement on a BlockGroup of an MPEG-4 audio track
that holds one Block and no ReferenceBlock. -/
theorem BlockGet_blockgroup_keyframe_witness :
    ∃ s' v,
      BlockGet 3 (sample_segment (sample_track VLC_CODEC_MP4A)
        [EbmlElement.mk .KaxBlockGroup 120 [EbmlElement.mk (.KaxBlock sample_block) 125 []]]) 0 =
        some (VLC_SUCCESS, s', v) ∧
      v.pp_block = some ⟨125, sample_block⟩ ∧ v.pp_simpleblock = none ∧
      (v.pb_key_picture = true ↔
        ((∀ e ∈ [EbmlElement.mk (.KaxBlock sample_block) 125 []],
            ∀ r, e.id ≠ EbmlId.KaxReferenceBlock r) ∧
         ((sample_track VLC_CODEC_MP4A).fmt.i_codec = VLC_CODEC_THEORA →
            ∃ b0 rest, (KaxBlock.mk 125 sample_block).hdr.Buffer0 = some (b0 :: rest) ∧
              b0 &&& 0x40 = 0))) :=
  BlockGet_blockgroup_keyframe _ _ ⟨100, 0⟩ _ _ [] [] _ 120 none ⟨125, sample_block⟩ 0
    (sample_track VLC_CODEC_MP4A) 3 rfl ⟨rfl, rfl⟩ rfl rfl rfl rfl rfl (by decide) rfl
    (by decide)

/-- C2 (amended): whenever the loop of `BlockGet` stands before a SimpleBlock of the
current cluster with no block pending, and the SimpleBlock belongs to a known
track, the call returns that SimpleBlock with keyframe equal to the keyframe
bit of its header, whatever the codec of the track (Theora included),
whatever the payload and whatever the flags held before: the Theora rule is
not applied to a SimpleBlock. -/
theorem BlockGet_simpleblock_keyframe (s : matroska_segment_c) (v : BlockGet_vars)
    (c : KaxCluster) (clu seg : EbmlElement) (r1 r2 ch : List EbmlElement) (pos : Nat)
    (got : Option EbmlElement) (blk : KaxBlockData) (i_tk : Nat) (fuel : Nat)
    (hep : s.ep = some ⟨[⟨clu, EbmlElement.mk (.KaxSimpleBlock blk) pos ch :: r2⟩,
      ⟨seg, r1⟩], got⟩)
    (hclu : clu.id = EbmlId.KaxCluster ∧ clu.GetElementPosition = c.ElementPosition)
    (hc : s.cluster = some c)
    (hvs : v.pp_simpleblock = none) (hvb : v.pp_block = none)
    (hfind : BlockFindTrackIndex s.tracks none (some ⟨pos, blk⟩) = some i_tk)
    (hfuel : 2 ≤ fuel) :
    ∃ s' v', BlockGet_loop fuel s v = some (VLC_SUCCESS, s', v') ∧
      v'.pp_simpleblock = some ⟨pos, blk⟩ ∧ v'.pp_block = none ∧
      v'.pb_key_picture = blk.IsKeyframe := by
  obtain ⟨n, rfl⟩ := Nat.exists_eq_add_of_le hfuel
  have h1 := body_level2_simpleblock s v c clu seg r1 r2 ch pos got blk hep hclu hc hvs hvb
  have e : 2 + n = (n + 1) + 1 := by omega
  rw [e, BlockGet_loop, h1]
  simp only
  rw [BlockGet_loop, BlockGet_body_pending _ _ _ ⟨pos, blk⟩ rfl rfl,
    BlockGet_deliver_simpleblock _ _ ⟨pos, blk⟩ i_tk rfl (by simpa [hvb] using hfind)]
  exact ⟨_, _, rfl, rfl, hvb, rfl⟩

/-- C2: the run of the amended statement on a SimpleBlock of a Theora track whose
keyframe bit is set and whose payload starts with 0x40. -/
theorem BlockGet_simpleblock_keyframe_witness :
    ∃ s' v,
      BlockGet 2 (sample_segment (sample_track VLC_CODEC_THEORA)
        [EbmlElement.mk (.KaxSimpleBlock sample_block) 120 []]) 0 =
        some (VLC_SUCCESS, s', v) ∧
      v.pp_simpleblock = some ⟨120, sample_block⟩ ∧ v.pp_block = none ∧
      v.pb_key_picture = sample_block.IsKeyframe :=
  BlockGet_simpleblock_keyframe _ _ ⟨100, 0⟩ _ _ [] [] [] 120 none sample_block 0 2
    rfl ⟨rfl, rfl⟩ rfl rfl rfl (by decide) (by decide)

/-- C2: a SimpleBlock of a Theora track whose keyframe header bit is 1 and whose
first payload byte is 0x40 is returned with keyframe = true. -/
theorem BlockGet_simpleblock_theora_keyframe :
    sample_block.IsKeyframe = true ∧ sample_block.Buffer0 = some [0x40] ∧
    (sample_track VLC_CODEC_THEORA).fmt.i_codec = VLC_CODEC_THEORA ∧
    (BlockGet 2 (sample_segment (sample_track VLC_CODEC_THEORA)
        [EbmlElement.mk (.KaxSimpleBlock sample_block) 120 []]) 0).map
      (fun r => (r.1, r.2.2)) =
      some (VLC_SUCCESS,
        { pp_block := none, pp_simpleblock := some ⟨120, sample_block⟩,
          pb_key_picture := true, pb_discardable_picture := false, pi_duration := 0 }) := by
  decide

/-- C3: whenever `BlockGet` returns success with a SimpleBlock, the keyframe and
discardable outputs are the two bits of the SimpleBlock header; and a pending
SimpleBlock of a known track is returned so at the next pass of the loop,
whatever the values that earlier ReferenceBlock elements left in the flags. -/
theorem BlockGet_simpleblock_header_bits :
    (∀ (fuel : Nat) (s : matroska_segment_c) (dur : Int) (s' : matroska_segment_c)
        (v : BlockGet_vars) (sb : KaxBlock),
        BlockGet fuel s dur = some (VLC_SUCCESS, s', v) →
        v.pp_simpleblock = some sb →
        v.pb_key_picture = sb.hdr.IsKeyframe ∧
          v.pb_discardable_picture = sb.hdr.IsDiscardable) ∧
    (∀ (fuel : Nat) (s : matroska_segment_c) (v : BlockGet_vars) (ep : EbmlParser)
        (sb : KaxBlock) (i_tk : Nat),
        s.ep = some ep →
        v.pp_simpleblock = some sb →
        BlockFindTrackIndex s.tracks v.pp_block (some sb) = some i_tk →
        BlockGet_loop (fuel + 1) s v =
          some (VLC_SUCCESS,
            { s with p_indexes :=
                update_index s.p_indexes sb.hdr.GlobalTimecode sb.hdr.IsKeyframe },
            { v with pb_key_picture := sb.hdr.IsKeyframe,
                     pb_discardable_picture := sb.hdr.IsDiscardable })) := by
  constructor
  · intro fuel s dur s' v sb h hsb
    exact BlockGet_loop_simpleblock fuel s _ s' v sb h hsb
  · intro fuel s v ep sb i_tk hep hsb hfind
    rw [BlockGet_loop, BlockGet_body_pending s v ep sb hep hsb,
      BlockGet_deliver_simpleblock s v sb i_tk hsb hfind]

/-- C3: a run over a BlockGroup with two ReferenceBlocks whose Block is of the
unknown track 7, followed by a discardable SimpleBlock of track 1 that is not
a keyframe: the flags returned are the header bits of the SimpleBlock. -/
theorem BlockGet_simpleblock_header_bits_witness :
    ∃ s' v sb,
      BlockGet 8 (sample_segment (sample_track VLC_CODEC_MP4A) sample_dropped_group) 0 =
        some (VLC_SUCCESS, s', v) ∧
      v.pp_simpleblock = some sb ∧
      sb = ⟨130, { TrackNum := 1, IsDiscardable := true }⟩ ∧
      v.pb_key_picture = sb.hdr.IsKeyframe ∧
      v.pb_discardable_picture = sb.hdr.IsDiscardable := by
  have h : (BlockGet 8 (sample_segment (sample_track VLC_CODEC_MP4A)
      sample_dropped_group) 0).map (fun r => (r.1, r.2.2)) =
      some (VLC_SUCCESS,
        { pp_block := none,
          pp_simpleblock := some ⟨130, { TrackNum := 1, IsDiscardable := true }⟩,
          pb_key_picture := false, pb_discardable_picture := true, pi_duration := 0 }) := by
    decide
  obtain ⟨⟨code, s', v⟩, hr, hv⟩ := Option.map_eq_some'.mp h
  simp only [Prod.mk.injEq] at hv
  obtain ⟨rfl, rfl⟩ := hv
  exact ⟨s', _, _, hr, rfl, rfl,
    BlockGet_simpleblock_header_bits.1 8 _ 0 s' _ _ hr rfl⟩

/-- C4 (amended): whenever the loop of `BlockGet` stands before a BlockGroup of the
current cluster with no block pending and the flags at their initial values
(keyframe true, discardable false; so when the BlockGroup is the first element
that the call reads), and the (last) Block of the BlockGroup belongs to a
known track, the call returns that block with discardable = true if and only
if a ReferenceBlock of the BlockGroup other than the first one has a positive
value. -/
theorem BlockGet_blockgroup_discardable (s : matroska_segment_c) (v : BlockGet_vars)
    (c : KaxCluster) (clu seg : EbmlElement) (r1 r2 cs : List EbmlElement) (pos : Nat)
    (got : Option EbmlElement) (b : KaxBlock) (i_tk : Nat) (tk : mkv_track_t)
    (fuel : Nat)
    (hep : s.ep = some ⟨[⟨clu, EbmlElement.mk .KaxBlockGroup pos cs :: r2⟩, ⟨seg, r1⟩], got⟩)
    (hclu : clu.id = EbmlId.KaxCluster ∧ clu.GetElementPosition = c.ElementPosition)
    (hc : s.cluster = some c)
    (hvs : v.pp_simpleblock = none) (hvb : v.pp_block = none)
    (hkey : v.pb_key_picture = true) (hdisc : v.pb_discardable_picture = false)
    (hb : last_block none cs = some b)
    (hfind : BlockFindTrackIndex s.tracks (some b) none = some i_tk)
    (htk : s.tracks.get? i_tk = some tk)
    (hfuel : cs.length + 2 ≤ fuel) :
    ∃ s' v', BlockGet_loop fuel s v = some (VLC_SUCCESS, s', v') ∧
      v'.pp_block = some b ∧ v'.pp_simpleblock = none ∧
      (v'.pb_discardable_picture = true ↔ ∃ r ∈ (reference_blocks cs).tail, 0 < r) := by
  obtain ⟨n, rfl⟩ := Nat.exists_eq_add_of_le hfuel
  have h := BlockGet_blockgroup_run s v c clu seg r1 r2 cs pos got b i_tk tk n hep hclu hc hvs
    (by rw [hvb]; exact hb) hfind htk
  refine ⟨_, _, h, rfl, rfl, ?_⟩
  simp [hkey, hdisc]

/-- C4: the run of the amended statement on a BlockGroup with the ReferenceBlock
values -40 and 40: the block is discardable. -/
theorem BlockGet_blockgroup_discardable_witness :
    ∃ s' v,
      BlockGet 5 (sample_segment (sample_track VLC_CODEC_MP4A)
        [EbmlElement.mk .KaxBlockGroup 120
          [EbmlElement.mk (.KaxBlock sample_block) 125 [],
           EbmlElement.mk (.KaxReferenceBlock (-40)) 126 [],
           EbmlElement.mk (.KaxReferenceBlock 40) 127 []]]) 0 =
        some (VLC_SUCCESS, s', v) ∧
      v.pp_block = some ⟨125, sample_block⟩ ∧ v.pp_simpleblock = none ∧
      (v.pb_discardable_picture = true ↔
        ∃ r ∈ (reference_blocks
          [EbmlElement.mk (.KaxBlock sample_block) 125 [],
           EbmlElement.mk (.KaxReferenceBlock (-40)) 126 [],
           EbmlElement.mk (.KaxReferenceBlock 40) 127 []]).tail, 0 < r) :=
  BlockGet_blockgroup_discardable _ _ ⟨100, 0⟩ _ _ [] [] _ 120 none ⟨125, sample_block⟩ 0
    (sample_track VLC_CODEC_MP4A) 5 rfl ⟨rfl, rfl⟩ rfl rfl rfl rfl rfl rfl (by decide) rfl
    (by decide)

/-- C4: a BlockGroup whose only ReferenceBlock has the positive value 40 is
returned with discardable = false. -/
theorem BlockGet_blockgroup_single_reference :
    (BlockGet 4 (sample_segment (sample_track VLC_CODEC_MP4A)
        [EbmlElement.mk .KaxBlockGroup 120
          [EbmlElement.mk (.KaxReferenceBlock 40) 121 [],
           EbmlElement.mk (.KaxBlock sample_block) 125 []]]) 0).map
      (fun r => (r.1, r.2.2)) =
      some (VLC_SUCCESS,
        { pp_block := some ⟨125, sample_block⟩, pp_simpleblock := none,
          pb_key_picture := false, pb_discardable_picture := false, pi_duration := 0 }) ∧
    (∃ e ∈ [EbmlElement.mk (.KaxReferenceBlock 40) 121 [],
            EbmlElement.mk (.KaxBlock sample_block) 125 []],
      ∃ r, e.id = EbmlId.KaxReferenceBlock r ∧ 0 < r) :=
  ⟨by decide, ⟨_, List.mem_cons_self _ _, 40, rfl, by decide⟩⟩

/-! ## `BlockGet` returns -/

theorem weight_pos (el : EbmlElement) : 1 ≤ el.weight := by
  cases el with
  | mk i p c => rw [EbmlElement.weight]; omega

theorem weight_children (el : EbmlElement) : el.weight = 1 + weights el.children := by
  cases el with
  | mk i p c => rw [EbmlElement.weight]; rfl

theorem pending_level3 (v : BlockGet_vars) (el : EbmlElement) :
    pending (level3_vars v el) ≤ pending v + 1 := by
  unfold pending
  rw [level3_vars_simpleblock]
  split_ifs <;> omega

theorem Get_some_weight (ep0 : EbmlParser) (el : EbmlElement) (h : ep0.Get.1 = some el) :
    frames_weight ep0.Get.2.frames + 2 * el.weight = frames_weight ep0.frames ∧
      ep0.Get.2.got = some el := by
  cases ep0 with
  | mk frames got =>
    cases frames with
    | nil => simp [EbmlParser.Get] at h
    | cons f fs =>
      cases f with
      | mk c rest =>
        cases rest with
        | nil => simp [EbmlParser.Get] at h
        | cons e r =>
          simp only [EbmlParser.Get, Option.some.injEq] at h
          subst h
          simp only [EbmlParser.Get, frames_weight, weights]
          exact ⟨by omega, trivial⟩

theorem Get_none_weight (ep0 : EbmlParser) (h : ep0.Get.1 = none) :
    ep0.Get.2.frames = ep0.frames := by
  cases ep0 with
  | mk frames got =>
    cases frames with
    | nil => rfl
    | cons f fs =>
      cases f with
      | mk c rest =>
        cases rest with
        | nil => rfl
        | cons e r => simp [EbmlParser.Get] at h

theorem Down_weight (ep : EbmlParser) (el : EbmlElement) (h : ep.got = some el) :
    frames_weight ep.Down.frames + 1 = frames_weight ep.frames + 2 * el.weight := by
  unfold EbmlParser.Down
  simp only [h, frames_weight]
  rw [weight_children el]
  omega

theorem Up_weight (ep : EbmlParser) (h : 1 < ep.GetLevel) :
    frames_weight ep.Up.frames < frames_weight ep.frames := by
  unfold EbmlParser.GetLevel at h
  unfold EbmlParser.Up
  cases hf : ep.frames with
  | nil => rw [hf] at h; simp at h
  | cons f fs => simp only [List.tail_cons, frames_weight]; omega

theorem BlockGet_deliver_again (s : matroska_segment_c) (v : BlockGet_vars)
    (s' : matroska_segment_c) (v' : BlockGet_vars)
    (h : BlockGet_deliver s v = .again s' v') : s' = s ∧ pending v' = 0 := by
  unfold BlockGet_deliver at h
  split at h
  · simp only [BlockGet_pass.again.injEq] at h
    obtain ⟨rfl, rfl⟩ := h
    exact ⟨rfl, rfl⟩
  · simp at h

theorem BlockGet_level1_again (s : matroska_segment_c) (v : BlockGet_vars) (ep : EbmlParser)
    (el : EbmlElement) (s' : matroska_segment_c) (v' : BlockGet_vars)
    (hgot : ep.got = some el) (h : BlockGet_level1 s v ep el = .again s' v') :
    ∃ ep', s'.ep = some ep' ∧
      frames_weight ep'.frames + pending v' + 1 ≤
        frames_weight ep.frames + 2 * el.weight + pending v := by
  have hw := weight_pos el
  have hd := Down_weight ep el hgot
  unfold BlockGet_level1 at h
  split at h
  · simp only [BlockGet_pass.again.injEq] at h
    obtain ⟨rfl, rfl⟩ := h
    exact ⟨_, rfl, by omega⟩
  · simp at h
  · simp only [BlockGet_pass.again.injEq] at h
    obtain ⟨rfl, rfl⟩ := h
    exact ⟨_, rfl, by omega⟩

theorem BlockGet_level2_again (s : matroska_segment_c) (v : BlockGet_vars) (ep : EbmlParser)
    (c : KaxCluster) (el : EbmlElement) (s' : matroska_segment_c) (v' : BlockGet_vars)
    (hgot : ep.got = some el) (h : BlockGet_level2 s v ep c el = .again s' v') :
    ∃ ep', s'.ep = some ep' ∧
      frames_weight ep'.frames + pending v' + 1 ≤
        frames_weight ep.frames + 2 * el.weight + pending v := by
  have hw := weight_pos el
  have hd := Down_weight ep el hgot
  unfold BlockGet_level2 at h
  split at h
  · simp only [BlockGet_pass.again.injEq] at h
    obtain ⟨rfl, rfl⟩ := h
    refine ⟨ep, ?_, by omega⟩
    split <;> rfl
  · simp only [BlockGet_pass.again.injEq] at h
    obtain ⟨rfl, rfl⟩ := h
    exact ⟨_, rfl, by omega⟩
  · simp only [BlockGet_pass.again.injEq] at h
    obtain ⟨rfl, rfl⟩ := h
    exact ⟨_, rfl, by omega⟩
  · simp only [BlockGet_pass.again.injEq] at h
    obtain ⟨rfl, rfl⟩ := h
    refine ⟨ep, rfl, ?_⟩
    have : pending { v with pp_simpleblock := some ⟨el.GetElementPosition, ‹KaxBlockData›⟩ } ≤
        pending v + 1 := by
      unfold pending
      dsimp only
      split_ifs <;> simp_all
    omega
  · simp only [BlockGet_pass.again.injEq] at h
    obtain ⟨rfl, rfl⟩ := h
    exact ⟨_, rfl, by omega⟩

theorem BlockGet_parse_again (s : matroska_segment_c) (v : BlockGet_vars) (ep0 : EbmlParser)
    (s' : matroska_segment_c) (v' : BlockGet_vars)
    (h : BlockGet_parse s v ep0.Get.2 ep0.Get.1 = .again s' v') :
    ∃ ep', s'.ep = some ep' ∧
      frames_weight ep'.frames + pending v' < frames_weight ep0.frames + pending v := by
  unfold BlockGet_parse at h
  split at h
  · rename_i hnone
    dsimp only at h
    split at h
    · rename_i hlevel
      simp only [BlockGet_pass.again.injEq] at h
      obtain ⟨rfl, rfl⟩ := h
      have := Up_weight _ hlevel
      rw [Get_none_weight ep0 hnone] at this
      exact ⟨_, rfl, by omega⟩
    · simp at h
  · rename_i el hsome
    obtain ⟨hfw, hgot⟩ := Get_some_weight ep0 el hsome
    have hw := weight_pos el
    dsimp only at h
    split at h
    · obtain ⟨ep', h1, h2⟩ := BlockGet_level1_again _ _ _ _ _ _ hgot h
      exact ⟨ep', h1, by omega⟩
    · obtain ⟨ep', h1, h2⟩ := BlockGet_level2_again _ _ _ _ _ _ _ hgot h
      exact ⟨ep', h1, by omega⟩
    · rw [BlockGet_level3_eq] at h
      simp only [BlockGet_pass.again.injEq] at h
      obtain ⟨rfl, rfl⟩ := h
      have := pending_level3 v el
      exact ⟨_, rfl, by omega⟩
    · simp at h
    · simp only [BlockGet_pass.again.injEq] at h
      obtain ⟨rfl, rfl⟩ := h
      exact ⟨_, rfl, by omega⟩
    · simp at h

theorem pending_pos_of_simpleblock (v : BlockGet_vars) (sb : KaxBlock)
    (h : v.pp_simpleblock = some sb) : 1 ≤ pending v := by
  unfold pending
  rw [h]
  split_ifs <;> simp_all

theorem pending_pos_of_block (v : BlockGet_vars) (b : KaxBlock)
    (h : v.pp_block = some b) : 1 ≤ pending v := by
  unfold pending
  rw [h]
  split_ifs <;> simp_all

/-- Every pass of the loop of `BlockGet` that does not return makes the measure
smaller. -/
theorem BlockGet_body_again (s : matroska_segment_c) (v : BlockGet_vars)
    (s' : matroska_segment_c) (v' : BlockGet_vars) (h : BlockGet_body s v = .again s' v') :
    BlockGet_measure s' v' < BlockGet_measure s v := by
  unfold BlockGet_body at h
  split at h
  · simp at h
  · rename_i ep hep
    split at h
    · rename_i sb hsb
      obtain ⟨rfl, hp⟩ := BlockGet_deliver_again _ _ _ _ h
      have := pending_pos_of_simpleblock v sb hsb
      unfold BlockGet_measure
      omega
    · dsimp only at h
      split at h
      · rename_i b hnone hb
        obtain ⟨rfl, hp⟩ := BlockGet_deliver_again _ _ _ _ h
        have := pending_pos_of_block v b hb
        have hfw := Get_none_weight ep hnone
        unfold BlockGet_measure
        simp only [hep, hfw]
        omega
      · obtain ⟨ep', h1, h2⟩ := BlockGet_parse_again _ _ _ _ _ h
        unfold BlockGet_measure
        simp only [hep, h1]
        exact h2

/-- The loop of `BlockGet` returns within `BlockGet_measure s v + 1` passes. -/
theorem BlockGet_loop_returns (n : Nat) :
    ∀ (s : matroska_segment_c) (v : BlockGet_vars) (fuel : Nat),
      BlockGet_measure s v < n → n ≤ fuel → (BlockGet_loop fuel s v).isSome = true := by
  induction n with
  | zero => intro s v fuel h; omega
  | succ n ih =>
    intro s v fuel hm hfuel
    obtain ⟨k, rfl⟩ : ∃ k, fuel = k + 1 := ⟨fuel - 1, by omega⟩
    rw [BlockGet_loop]
    cases hb : BlockGet_body s v with
    | ret code s1 v1 => rfl
    | again s1 v1 =>
      have := BlockGet_body_again s v s1 v1 hb
      exact ih s1 v1 k (by omega) (by omega)

/-! ## Seek engine -/

theorem IndexAppendCluster_sys (s : matroska_segment_c) (c : KaxCluster) :
    (IndexAppendCluster s c).sys = s.sys ∧ (IndexAppendCluster s c).ep = s.ep := ⟨rfl, rfl⟩

theorem BlockGet_deliver_sys (s : matroska_segment_c) (v : BlockGet_vars) :
    (BlockGet_deliver s v).state.sys = s.sys ∧ (BlockGet_deliver s v).state.ep = s.ep := by
  unfold BlockGet_deliver
  split <;> exact ⟨rfl, rfl⟩

theorem BlockGet_level1_sys (s : matroska_segment_c) (v : BlockGet_vars) (ep : EbmlParser)
    (el : EbmlElement) :
    (BlockGet_level1 s v ep el).state.sys = s.sys ∧
      (BlockGet_level1 s v ep el).state.ep.isSome = true := by
  unfold BlockGet_level1
  split <;> exact ⟨rfl, rfl⟩

theorem BlockGet_level2_sys (s : matroska_segment_c) (v : BlockGet_vars) (ep : EbmlParser)
    (c : KaxCluster) (el : EbmlElement) :
    (BlockGet_level2 s v ep c el).state.sys = s.sys ∧
      (BlockGet_level2 s v ep c el).state.ep.isSome = true := by
  unfold BlockGet_level2
  split
  · dsimp only
    split <;> exact ⟨rfl, rfl⟩
  all_goals exact ⟨rfl, rfl⟩

theorem BlockGet_parse_sys (s : matroska_segment_c) (v : BlockGet_vars) (ep : EbmlParser)
    (el : Option EbmlElement) :
    (BlockGet_parse s v ep el).state.sys = s.sys ∧
      (BlockGet_parse s v ep el).state.ep.isSome = true := by
  unfold BlockGet_parse
  split
  · dsimp only
    split <;> exact ⟨rfl, rfl⟩
  · dsimp only
    split
    · exact BlockGet_level1_sys _ _ _ _
    · exact BlockGet_level2_sys _ _ _ _ _
    · rw [BlockGet_level3_eq]; exact ⟨rfl, rfl⟩
    all_goals exact ⟨rfl, rfl⟩

theorem BlockGet_body_sys (s : matroska_segment_c) (v : BlockGet_vars) :
    (BlockGet_body s v).state.sys = s.sys ∧
      (s.ep.isSome = true → (BlockGet_body s v).state.ep.isSome = true) := by
  unfold BlockGet_body
  split
  · exact ⟨rfl, fun h => h⟩
  · rename_i ep hep
    split
    · have h := BlockGet_deliver_sys s v
      exact ⟨h.1, fun _ => by rw [h.2, hep]; rfl⟩
    · dsimp only
      split
      · exact ⟨(BlockGet_deliver_sys _ v).1, fun _ => by rw [(BlockGet_deliver_sys _ v).2]; rfl⟩
      · exact ⟨(BlockGet_parse_sys _ _ _ _).1, fun _ => (BlockGet_parse_sys _ _ _ _).2⟩

/-- A call of `BlockGet` leaves the fields of `sys` alone and keeps a parser. -/
theorem BlockGet_loop_sys (fuel : Nat) :
    ∀ (s : matroska_segment_c) (v : BlockGet_vars) (code : Int) (s' : matroska_segment_c)
      (v' : BlockGet_vars),
      BlockGet_loop fuel s v = some (code, s', v') →
      s'.sys = s.sys ∧ (s.ep.isSome = true → s'.ep.isSome = true) := by
  induction fuel with
  | zero => intro s v code s' v' h; simp [BlockGet_loop] at h
  | succ n ih =>
    intro s v code s' v' h
    rw [BlockGet_loop] at h
    have hb := BlockGet_body_sys s v
    cases hbody : BlockGet_body s v with
    | again s1 v1 =>
      rw [hbody] at h hb
      obtain ⟨h1, h2⟩ := ih s1 v1 code s' v' h
      exact ⟨h1.trans hb.1, fun hs => h2 (hb.2 hs)⟩
    | ret c1 s1 v1 =>
      rw [hbody] at h hb
      simp only [Option.some.injEq, Prod.mk.injEq] at h
      obtain ⟨_, rfl, _⟩ := h
      exact hb

theorem Seek_lookup_eq (s : matroska_segment_c) (i_date i_time_offset : Int)
    (h : s.p_indexes ≠ []) :
    (Seek_lookup s i_date i_time_offset).1 =
        (s.p_indexes.findIdx fun idx => decide (idx.i_time + i_time_offset > i_date)) - 1 ∧
    ∃ idx, s.p_indexes[(Seek_lookup s i_date i_time_offset).1]? = some idx ∧
      (Seek_lookup s i_date i_time_offset).2.1 = idx.i_position ∧
      (Seek_lookup s i_date i_time_offset).2.2 = idx.i_time := by
  have hlen : 0 < s.p_indexes.length := List.length_pos.mpr h
  have hk := @List.findIdx_le_length _
    (fun idx : mkv_index_t => decide (idx.i_time + i_time_offset > i_date)) s.p_indexes
  have hi : (s.p_indexes.findIdx fun idx => decide (idx.i_time + i_time_offset > i_date)) - 1 <
      s.p_indexes.length := by omega
  have hget : s.p_indexes.get?
      ((s.p_indexes.findIdx fun idx => decide (idx.i_time + i_time_offset > i_date)) - 1) =
      some (s.p_indexes[(s.p_indexes.findIdx fun idx =>
        decide (idx.i_time + i_time_offset > i_date)) - 1]) := by
    rw [List.get?_eq_getElem?, List.getElem?_eq_getElem hi]
  have hidx : ∀ k : Nat, (if k > 0 then k - 1 else k) = k - 1 := by
    intro k; split <;> omega
  unfold Seek_lookup
  simp only [hlen, if_true, hidx, hget, gt_iff_lt]
  exact ⟨trivial, _, List.getElem?_eq_getElem hi, rfl, rfl⟩

/-- C5 (amended): with a non-empty index, `Seek` puts the parser at the position of
the slot found by its index lookup, and that lookup starts from the slot that precedes
the first slot whose `time + t_offset` exceeds `t_target` (the last slot when
no slot exceeds it, slot 0 when the first slot already does) and takes its
position and time; every slot before that first one has `time + t_offset ≤
t_target`; hence, when slot 0 does not exceed the target and the times of the
slots are in non-decreasing order, the slot chosen is the one with the
largest index `i` such that `time[i] + t_offset ≤ t_target`. -/
theorem Seek_lookup_slot (s : matroska_segment_c) (i_date i_time_offset : Int)
    (h : s.p_indexes ≠ []) :
    ((Seek_begin_search s i_date i_time_offset).1.ep =
        some (parser_at s (Seek_lookup s i_date i_time_offset).2.1) ∧
      (Seek_begin_search s i_date i_time_offset).2.2.i_idx =
        (Seek_lookup s i_date i_time_offset).1) ∧
    (Seek_lookup s i_date i_time_offset).1 =
        (s.p_indexes.findIdx fun idx => decide (idx.i_time + i_time_offset > i_date)) - 1 ∧
    (∃ idx, s.p_indexes[(Seek_lookup s i_date i_time_offset).1]? = some idx ∧
      (Seek_lookup s i_date i_time_offset).2.1 = idx.i_position ∧
      (Seek_lookup s i_date i_time_offset).2.2 = idx.i_time) ∧
    (∀ j idx, j < (s.p_indexes.findIdx fun idx =>
        decide (idx.i_time + i_time_offset > i_date)) →
      s.p_indexes[j]? = some idx → idx.i_time + i_time_offset ≤ i_date) ∧
    (∀ idx, s.p_indexes[s.p_indexes.findIdx fun idx =>
        decide (idx.i_time + i_time_offset > i_date)]? = some idx →
      idx.i_time + i_time_offset > i_date) ∧
    (s.p_indexes.Pairwise (fun a b => a.i_time ≤ b.i_time) →
      (∀ idx, s.p_indexes[0]? = some idx → idx.i_time + i_time_offset ≤ i_date) →
      (∀ idx, s.p_indexes[(Seek_lookup s i_date i_time_offset).1]? = some idx →
        idx.i_time + i_time_offset ≤ i_date) ∧
      ∀ j idx, s.p_indexes[j]? = some idx → idx.i_time + i_time_offset ≤ i_date →
        j ≤ (Seek_lookup s i_date i_time_offset).1) := by
  obtain ⟨h1, h2⟩ := Seek_lookup_eq s i_date i_time_offset h
  have hbefore : ∀ j idx, j < (s.p_indexes.findIdx fun idx =>
        decide (idx.i_time + i_time_offset > i_date)) →
      s.p_indexes[j]? = some idx → idx.i_time + i_time_offset ≤ i_date := by
    intro j idx hj hget
    have hn := List.not_of_lt_findIdx hj
    obtain ⟨hlt, rfl⟩ := List.getElem?_eq_some_iff.mp hget
    simpa using hn
  have hat : ∀ idx, s.p_indexes[s.p_indexes.findIdx fun idx =>
        decide (idx.i_time + i_time_offset > i_date)]? = some idx →
      idx.i_time + i_time_offset > i_date := by
    intro idx hget
    simpa using List.findIdx_of_getElem?_eq_some hget
  refine ⟨⟨rfl, rfl⟩, h1, h2, hbefore, hat, ?_⟩
  intro hsorted h0
  have hpos : 0 < (s.p_indexes.findIdx fun idx =>
      decide (idx.i_time + i_time_offset > i_date)) := by
    rcases Nat.eq_zero_or_pos (s.p_indexes.findIdx fun idx =>
      decide (idx.i_time + i_time_offset > i_date)) with hz | hz
    · have hlen : 0 < s.p_indexes.length := List.length_pos.mpr h
      have hg : s.p_indexes[0]? = some s.p_indexes[0] := List.getElem?_eq_getElem hlen
      have := hat s.p_indexes[0] (by rw [hz]; exact hg)
      have := h0 _ hg
      omega
    · exact hz
  constructor
  · intro idx hget
    exact hbefore _ idx (by rw [h1]; omega) hget
  · intro j idx hget hle
    rw [h1]
    by_contra hcon
    have hkj : (s.p_indexes.findIdx fun idx =>
        decide (idx.i_time + i_time_offset > i_date)) ≤ j := by omega
    obtain ⟨hjlt, rfl⟩ := List.getElem?_eq_some_iff.mp hget
    have hklt : (s.p_indexes.findIdx fun idx =>
        decide (idx.i_time + i_time_offset > i_date)) < s.p_indexes.length := by omega
    have hk := hat _ (List.getElem?_eq_getElem hklt)
    rcases Nat.eq_or_lt_of_le hkj with heq | hlt
    · simp only [heq] at hk
      omega
    · have := List.pairwise_iff_getElem.mp hsorted _ _ hklt hjlt hlt
      omega

/-- C5: the scenario of the spec, cues at 0, 1,000,000 and 2,000,000 µs and the
target 1,500,000: slot index 1 is chosen, with its position. -/
theorem Seek_lookup_slot_witness :
    Seek_lookup (sample_indexed [0, 1000000, 2000000]) 1500000 0 = (1, 2000, 1000000) ∧
    ∀ j idx, (sample_indexed [0, 1000000, 2000000]).p_indexes[j]? = some idx →
      idx.i_time + 0 ≤ 1500000 →
      j ≤ (Seek_lookup (sample_indexed [0, 1000000, 2000000]) 1500000 0).1 :=
  ⟨by decide,
   ((Seek_lookup_slot (sample_indexed [0, 1000000, 2000000]) 1500000 0 (by decide)).2.2.2.2.2
      (by decide) (by decide)).2⟩

/-- C5: with the slot times 0, 5000, 1000 and the target 2000, slot 0 is chosen
although slot 2 has `time + t_offset ≤ t_target`; and with the single slot time
5000 and the target 1000, slot 0 is chosen although its time exceeds the
target. -/
theorem Seek_lookup_not_largest :
    (Seek_lookup (sample_indexed [0, 5000, 1000]) 2000 0).1 = 0 ∧
    (∃ idx, (sample_indexed [0, 5000, 1000]).p_indexes[2]? = some idx ∧
      idx.i_time + 0 ≤ 2000) ∧
    (Seek_lookup (sample_indexed [5000]) 1000 0).1 = 0 ∧
    (∃ idx, (sample_indexed [5000]).p_indexes[0]? = some idx ∧
      ¬ idx.i_time + 0 ≤ 1000) := by
  refine ⟨by decide, ⟨_, rfl, by decide⟩, by decide, ⟨_, rfl, by decide⟩⟩

theorem Seek_min_foldl (l : List spoint) :
    ∀ acc : spoint,
      (∃ pre post, acc :: l = pre ++
          l.foldl (fun p_min p_last => if p_last.i_date < p_min.i_date then p_last else p_min)
            acc :: post ∧
        ∀ p ∈ pre,
          (l.foldl (fun p_min p_last => if p_last.i_date < p_min.i_date then p_last else p_min)
            acc).i_date < p.i_date) ∧
      ∀ p ∈ acc :: l,
        (l.foldl (fun p_min p_last => if p_last.i_date < p_min.i_date then p_last else p_min)
          acc).i_date ≤ p.i_date := by
  induction l with
  | nil =>
    intro acc
    exact ⟨⟨[], [], rfl, by simp⟩, by simp⟩
  | cons x xs ih =>
    intro acc
    rw [List.foldl_cons]
    by_cases hx : x.i_date < acc.i_date
    · simp only [hx, if_true]
      obtain ⟨⟨pre, post, heq, hpre⟩, hmin⟩ := ih x
      generalize List.foldl
        (fun p_min p_last : spoint => if p_last.i_date < p_min.i_date then p_last else p_min)
        x xs = r at heq hpre hmin ⊢
      have hrx := hmin x (List.mem_cons_self _ _)
      refine ⟨⟨acc :: pre, post, by rw [heq]; rfl, ?_⟩, ?_⟩
      · intro p hp
        rcases List.mem_cons.mp hp with rfl | hp
        · omega
        · exact hpre p hp
      · intro p hp
        rcases List.mem_cons.mp hp with rfl | hp
        · omega
        · exact hmin p hp
    · simp only [hx, if_false]
      obtain ⟨⟨pre, post, heq, hpre⟩, hmin⟩ := ih acc
      generalize List.foldl
        (fun p_min p_last : spoint => if p_last.i_date < p_min.i_date then p_last else p_min)
        acc xs = r at heq hpre hmin ⊢
      have hracc := hmin acc (List.mem_cons_self _ _)
      constructor
      · cases pre with
        | nil =>
          simp only [List.nil_append, List.cons.injEq] at heq
          refine ⟨[], x :: xs, ?_, by simp⟩
          rw [← heq.1]; rfl
        | cons a pre' =>
          simp only [List.cons_append, List.cons.injEq] at heq
          obtain ⟨rfl, hxs⟩ := heq
          refine ⟨acc :: x :: pre', post, by rw [hxs]; rfl, ?_⟩
          intro p hp
          have hlt := hpre acc (List.mem_cons_self _ _)
          rcases List.mem_cons.mp hp with rfl | hp
          · exact hlt
          · rcases List.mem_cons.mp hp with rfl | hp
            · omega
            · exact hpre p (List.mem_cons_of_mem _ hp)
      · intro p hp
        rcases List.mem_cons.mp hp with rfl | hp
        · exact hracc
        · rcases List.mem_cons.mp hp with rfl | hp
          · omega
          · exact hmin p (List.mem_cons_of_mem _ hp)

/-- The point chosen by the loop over the seek points is the first one of
minimum date. -/
theorem Seek_min_first (points : List spoint) (hp : points ≠ []) :
    ∃ p_min pre post, Seek_min points = some p_min ∧ points = pre ++ p_min :: post ∧
      (∀ p ∈ pre, p_min.i_date < p.i_date) ∧ ∀ p ∈ points, p_min.i_date ≤ p.i_date := by
  cases points with
  | nil => exact absurd rfl hp
  | cons p_first rest =>
    obtain ⟨⟨pre, post, heq, hpre⟩, hmin⟩ := Seek_min_foldl rest p_first
    refine ⟨_, pre, post, ?_, heq, hpre, hmin⟩
    simp [Seek_min, List.foldl_cons]

theorem Seek_update_point_length (points : List spoint) (i_track : Nat)
    (i_pts i_seek_pos i_cluster_pos : Int) :
    (Seek_update_point points i_track i_pts i_seek_pos i_cluster_pos).length = points.length := by
  induction points with
  | nil => rfl
  | cons sp rest ih =>
    rw [Seek_update_point]
    split
    · rfl
    · simp [ih]

/-- The keyframe search keeps a parser and the number of seek points. -/
theorem Seek_search_keeps (i_cat : es_category) (i_time_offset : Int) (blockFuel : Nat)
    (fuel : Nat) :
    ∀ (s : matroska_segment_c) (l : Seek_vars) (s1 : matroska_segment_c) (l1 : Seek_vars),
      Seek_search i_cat i_time_offset blockFuel fuel s l = some (Sum.inr (s1, l1)) →
      s.ep.isSome = true →
      s1.ep.isSome = true ∧ l1.points.length = l.points.length := by
  induction fuel with
  | zero => intro s l s1 l1 h; simp [Seek_search] at h
  | succ n ih =>
    intro s l s1 l1 h hep
    rw [Seek_search] at h
    split at h
    · simp at h
    · rename_i code s2 v2 hbg
      have hep2 := (BlockGet_loop_sys _ _ _ _ _ _ hbg).2 hep
      dsimp only at h
      have hlen : (if (match s2.tracks.get?
            (s2.tracks.findIdx fun tk => track_matches tk v2.pp_block v2.pp_simpleblock) with
          | some tk => decide (tk.fmt.i_cat = i_cat) && v2.pb_key_picture
          | none => false) = true then
          Seek_update_point l.points
            (s2.tracks.findIdx fun tk => track_matches tk v2.pp_block v2.pp_simpleblock)
            (toInt64 ((toUInt64 s2.sys.i_chapter_time +
              (match v2.pp_simpleblock, v2.pp_block with
                | some sb, _ => sb.hdr.GlobalTimecode
                | none, some b => b.hdr.GlobalTimecode
                | none, none => 0) / 1000) % 2 ^ 64 : Nat))
            (match v2.pp_simpleblock with
              | some sb => toInt64 sb.ElementPosition
              | none => s2.i_block_pos)
            s2.i_cluster_pos
          else l.points).length = l.points.length := by
        split
        · exact Seek_update_point_length _ _ _ _ _
        · rfl
      split at h
      · simp at h
      · split at h
        · obtain ⟨h1, h2⟩ := ih _ _ s1 l1 h hep2
          exact ⟨h1, h2.trans hlen⟩
        · split at h
          · simp only [Option.some.injEq, Sum.inr.injEq, Prod.mk.injEq] at h
            obtain ⟨rfl, rfl⟩ := h
            exact ⟨hep2, hlen⟩
          · obtain ⟨h1, h2⟩ := ih _ _ s1 l1 h rfl
            exact ⟨h1, h2.trans hlen⟩

/-- C6 (amended): at the end of the keyframe search `Seek` takes the first seek point of
minimum date: `sys.i_pcr` and `sys.i_pts` become that date, the PCR sent to the
ES output is `VLC_TS_0` plus that date, followed by the next display time
`i_date`, and the last operation on the parser is `UnGet` with the block
position and the cluster position of that seek point; with enough fuel for
the `BlockGet` of the `hack` the result is there. The end of the search is
reached with a parser and with the seek points made at its start. -/
theorem Seek_finish_min (env : Seek_env) (s : matroska_segment_c)
    (l : Seek_vars) (ep : EbmlParser) (hep : s.ep = some ep) (hp : l.points ≠ []) :
    (∃ p_min pre post, l.points = pre ++ p_min :: post ∧
      (∀ p ∈ pre, p_min.i_date < p.i_date) ∧ (∀ p ∈ l.points, p_min.i_date ≤ p.i_date) ∧
      (∃ n, ∀ fuel, n ≤ fuel → (Seek_finish env fuel s l).isSome = true) ∧
      ∀ fuel s', Seek_finish env fuel s l = some s' →
        s'.sys.i_pcr = p_min.i_date ∧ s'.sys.i_pts = p_min.i_date ∧
        s'.sys.out = s.sys.out ++
          [es_out_query.ES_OUT_SET_PCR (env.VLC_TS_0 + p_min.i_date),
           es_out_query.ES_OUT_SET_NEXT_DISPLAY_TIME l.i_date] ∧
        ∃ ep', s'.ep = some (env.UnGet ep' p_min.i_seek_pos p_min.i_cluster_pos).2 ∧
          s'.cluster = (env.UnGet ep' p_min.i_seek_pos p_min.i_cluster_pos).1) ∧
    (∀ (fuel : Nat) (s0 : matroska_segment_c) (i_date i_time_offset i_global_position : Int)
      (s1 : matroska_segment_c) (l1 : Seek_vars),
      ¬ (i_date = 0 ∧ i_time_offset = 0) →
      (Seek_begin_search (Seek_start env s0 i_global_position)
        i_date i_time_offset).2.2.points ≠ [] →
      Seek_search
        (Seek_begin_search (Seek_start env s0 i_global_position) i_date i_time_offset).2.1
        i_time_offset fuel fuel
        (Seek_begin_search (Seek_start env s0 i_global_position) i_date i_time_offset).1
        (Seek_begin_search (Seek_start env s0 i_global_position) i_date i_time_offset).2.2 =
        some (Sum.inr (s1, l1)) →
      Seek env fuel s0 i_date i_time_offset i_global_position = Seek_finish env fuel s1 l1 ∧
        s1.ep.isSome = true ∧ l1.points ≠ []) := by
  constructor
  · obtain ⟨p_min, pre, post, hmin, heq, hpre, hle⟩ := Seek_min_first l.points hp
    refine ⟨p_min, pre, post, heq, hpre, hle, ?_, ?_⟩
    · cases hu : (env.UnGet ep p_min.i_seek_pos p_min.i_cluster_pos).1 with
      | some c =>
        refine ⟨0, fun fuel _ => ?_⟩
        unfold Seek_finish
        simp only [hmin, hep, hu]
        rfl
      | none =>
        refine ⟨BlockGet_measure
          { s with ep := some (env.UnGet ep p_min.i_seek_pos p_min.i_cluster_pos).2 }
          { pi_duration := l.i_block_duration } + 1, fun fuel hfuel => ?_⟩
        unfold Seek_finish
        simp only [hmin, hep, hu]
        have hret := BlockGet_loop_returns _
          { s with
            sys := { s.sys with
              i_pcr := p_min.i_date
              i_pts := p_min.i_date
              out := s.sys.out ++
                [es_out_query.ES_OUT_SET_PCR (env.VLC_TS_0 + p_min.i_date),
                 es_out_query.ES_OUT_SET_NEXT_DISPLAY_TIME l.i_date] }
            cluster := none
            ep := some (env.UnGet ep p_min.i_seek_pos p_min.i_cluster_pos).2 }
          { pi_duration := l.i_block_duration } fuel (Nat.lt_succ_self _) hfuel
        unfold BlockGet
        cases hbg : BlockGet_loop fuel
          { s with
            sys := { s.sys with
              i_pcr := p_min.i_date
              i_pts := p_min.i_date
              out := s.sys.out ++
                [es_out_query.ES_OUT_SET_PCR (env.VLC_TS_0 + p_min.i_date),
                 es_out_query.ES_OUT_SET_NEXT_DISPLAY_TIME l.i_date] }
            cluster := none
            ep := some (env.UnGet ep p_min.i_seek_pos p_min.i_cluster_pos).2 }
          { pi_duration := l.i_block_duration } with
        | none => rw [hbg] at hret; simp at hret
        | some r =>
          obtain ⟨code, s2, v2⟩ := r
          dsimp only
          split <;> rfl
    · intro fuel s' hs'
      unfold Seek_finish at hs'
      simp only [hmin, hep] at hs'
      cases hu : (env.UnGet ep p_min.i_seek_pos p_min.i_cluster_pos).1 with
      | some c =>
        simp only [hu, Option.some.injEq] at hs'
        subst hs'
        exact ⟨rfl, rfl, rfl, ep, rfl, hu.symm⟩
      | none =>
        simp only [hu] at hs'
        split at hs'
        · simp at hs'
        · rename_i code s2 v2 hbg
          obtain ⟨hsys, hepk⟩ := BlockGet_loop_sys _ _ _ _ _ _ hbg
          have hep2 := hepk rfl
          cases hep2' : s2.ep with
          | none => rw [hep2'] at hep2; simp at hep2
          | some ep2 =>
            simp only [hep2', Option.some.injEq] at hs'
            subst hs'
            simp only [hsys]
            exact ⟨trivial, trivial, trivial, ep2, rfl, rfl⟩
  · intro fuel s0 i_date i_time_offset i_global_position s1 l1 hnz hpts hsearch
    have hk := Seek_search_keeps _ _ _ _ _ _ _ _ hsearch rfl
    refine ⟨?_, hk.1, ?_⟩
    · unfold Seek
      simp only [hnz, if_false, hpts, hsearch]
    · intro hnil
      apply hpts
      have := hk.2
      rw [hnil] at this
      exact List.eq_nil_of_length_eq_zero this.symm

/-- C6: two seek points of date 1200000 after one of date 1500000: the first of
the two is taken. -/
theorem Seek_finish_min_witness :
    (Seek_finish sample_env 0 { ep := some (newEbmlParser (sample_cluster []) []) }
        { i_date := 1500000, i_idx := 1,
          points := [⟨0, 1500000, 10, 1⟩, ⟨1, 1200000, 20, 2⟩, ⟨2, 1200000, 30, 3⟩] }).map
      (fun s => (s.sys, s.cluster)) =
      some ({ i_pcr := 1200000, i_pts := 1200000,
              out := [es_out_query.ES_OUT_SET_PCR (1 + 1200000),
                      es_out_query.ES_OUT_SET_NEXT_DISPLAY_TIME 1500000] },
            some { ElementPosition := 2 }) ∧
    ∃ p_min pre post,
      [(⟨0, 1500000, 10, 1⟩ : spoint), ⟨1, 1200000, 20, 2⟩, ⟨2, 1200000, 30, 3⟩] =
        pre ++ p_min :: post ∧
      (∀ p ∈ pre, p_min.i_date < p.i_date) ∧
      (∀ p ∈ [(⟨0, 1500000, 10, 1⟩ : spoint), ⟨1, 1200000, 20, 2⟩, ⟨2, 1200000, 30, 3⟩],
        p_min.i_date ≤ p.i_date) :=
  ⟨by decide,
   let ⟨p_min, pre, post, h1, h2, h3, _⟩ :=
     (Seek_finish_min sample_env { ep := some (newEbmlParser (sample_cluster []) []) }
       { i_date := 1500000, i_idx := 1,
         points := [⟨0, 1500000, 10, 1⟩, ⟨1, 1200000, 20, 2⟩, ⟨2, 1200000, 30, 3⟩] }
       (newEbmlParser (sample_cluster []) []) rfl (by decide)).1
   ⟨p_min, pre, post, h1, h2, h3⟩⟩

/-- C6, as stated, fails: with `VLC_TS_0 = 1` the PCR sent at the end of the search is
not the minimum date of the seek points but that date plus 1: for the minimum
1200000 the query is `ES_OUT_SET_PCR 1200001` while `sys.i_pcr` is 1200000, and
`Seek` to 1.5 s in the segment whose second cluster holds keyframes sends
1600001 for the seek point of date 1600000. -/
theorem Seek_finish_pcr_offset :
    sample_env.VLC_TS_0 = 1 ∧
    (Seek_finish sample_env 0 { ep := some (newEbmlParser (sample_cluster []) []) }
        { i_date := 1500000, i_idx := 1,
          points := [⟨0, 1500000, 10, 1⟩, ⟨1, 1200000, 20, 2⟩] }).map
      (fun s => (s.sys.i_pcr, s.sys.out)) =
      some (1200000, [es_out_query.ES_OUT_SET_PCR 1200001,
        es_out_query.ES_OUT_SET_NEXT_DISPLAY_TIME 1500000]) ∧
    (Seek sample_env 20 (sample_two_clusters true) 1500000 0 (-1)).map
      (fun s => (s.sys.i_pcr, s.sys.out)) =
      some (1600000, [es_out_query.ES_OUT_SET_PCR 1600001,
        es_out_query.ES_OUT_SET_NEXT_DISPLAY_TIME 1500000]) := by
  decide

/-! ## Cue index -/

theorem index_sorted_of_positions (l l' : List mkv_index_t)
    (h : l'.map (fun idx => idx.i_position) = l.map (fun idx => idx.i_position))
    (hs : index_sorted l) : index_sorted l' := by
  unfold index_sorted at hs ⊢
  have e : ∀ m : List mkv_index_t,
      List.Chain' (fun a b : mkv_index_t => a.i_position ≤ b.i_position) m ↔
      List.Chain' (fun a b : Int => a ≤ b) (m.map fun idx => idx.i_position) := by
    intro m
    exact (List.chain'_map (R := fun a b : Int => a ≤ b) (fun idx : mkv_index_t => idx.i_position)).symm
  rw [e] at hs ⊢
  rw [h]
  exact hs

theorem update_index_positions (l : List mkv_index_t) (tc : Nat) (key : Bool) :
    (update_index l tc key).map (fun idx => idx.i_position) =
      l.map (fun idx => idx.i_position) := by
  unfold update_index
  split
  · rfl
  · rename_i idx hlast
    split
    · have h := List.dropLast_append_getLast? idx hlast
      conv_rhs => rw [← h]
      simp
    · rfl

theorem index_sorted_append (l : List mkv_index_t) (c : KaxCluster) (idx : mkv_index_t)
    (hpos : idx.i_position = toInt64 c.ElementPosition)
    (hs : index_sorted l) (ha : index_accepts l c = true) :
    index_sorted (l ++ [idx]) := by
  unfold index_sorted at hs ⊢
  rw [List.chain'_append]
  refine ⟨hs, List.chain'_singleton _, ?_⟩
  intro x hx y hy
  simp only [List.head?_cons, Option.mem_def, Option.some.injEq] at hy
  subst hy
  unfold index_accepts at ha
  rw [Option.mem_def.mp hx] at ha
  simp only [decide_eq_true_eq] at ha
  rw [hpos]
  exact le_of_lt ha

theorem IndexAppendCluster_sorted (s : matroska_segment_c) (c : KaxCluster)
    (hs : index_sorted s.p_indexes) (ha : index_accepts s.p_indexes c = true) :
    index_sorted (IndexAppendCluster s c).p_indexes :=
  index_sorted_append s.p_indexes c _ rfl hs ha

theorem BlockGet_deliver_sorted (s : matroska_segment_c) (v : BlockGet_vars)
    (hs : index_sorted s.p_indexes) : index_sorted (BlockGet_deliver s v).state.p_indexes := by
  unfold BlockGet_deliver
  split
  · exact hs
  · exact index_sorted_of_positions _ _ (update_index_positions _ _ _) hs

theorem BlockGet_level1_sorted (s : matroska_segment_c) (v : BlockGet_vars) (ep : EbmlParser)
    (el : EbmlElement) (hs : index_sorted s.p_indexes) :
    index_sorted (BlockGet_level1 s v ep el).state.p_indexes := by
  unfold BlockGet_level1
  split <;> exact hs

theorem BlockGet_level2_sorted (s : matroska_segment_c) (v : BlockGet_vars) (ep : EbmlParser)
    (c : KaxCluster) (el : EbmlElement) (hs : index_sorted s.p_indexes) :
    index_sorted (BlockGet_level2 s v ep c el).state.p_indexes := by
  unfold BlockGet_level2
  split
  · dsimp only
    split
    · rename_i ha
      exact IndexAppendCluster_sorted _ _ hs ha
    · exact hs
  all_goals exact hs

theorem BlockGet_parse_sorted (s : matroska_segment_c) (v : BlockGet_vars) (ep : EbmlParser)
    (el : Option EbmlElement) (hs : index_sorted s.p_indexes) :
    index_sorted (BlockGet_parse s v ep el).state.p_indexes := by
  unfold BlockGet_parse
  split
  · dsimp only
    split <;> exact hs
  · dsimp only
    split
    · exact BlockGet_level1_sorted _ _ _ _ hs
    · exact BlockGet_level2_sorted _ _ _ _ _ hs
    · rw [BlockGet_level3_eq]; exact hs
    all_goals exact hs

theorem BlockGet_body_sorted (s : matroska_segment_c) (v : BlockGet_vars)
    (hs : index_sorted s.p_indexes) : index_sorted (BlockGet_body s v).state.p_indexes := by
  unfold BlockGet_body
  split
  · exact hs
  · split
    · exact BlockGet_deliver_sorted s v hs
    · dsimp only
      split
      · exact BlockGet_deliver_sorted _ v hs
      · exact BlockGet_parse_sorted _ _ _ _ hs

/-- A call of `BlockGet` keeps the index sorted by position. -/
theorem BlockGet_loop_sorted (fuel : Nat) :
    ∀ (s : matroska_segment_c) (v : BlockGet_vars) (code : Int) (s' : matroska_segment_c)
      (v' : BlockGet_vars),
      BlockGet_loop fuel s v = some (code, s', v') →
      index_sorted s.p_indexes → index_sorted s'.p_indexes := by
  induction fuel with
  | zero => intro s v code s' v' h; simp [BlockGet_loop] at h
  | succ n ih =>
    intro s v code s' v' h hs
    rw [BlockGet_loop] at h
    have hb := BlockGet_body_sorted s v hs
    cases hbody : BlockGet_body s v with
    | again s1 v1 =>
      rw [hbody] at h hb
      exact ih s1 v1 code s' v' h hb
    | ret c1 s1 v1 =>
      rw [hbody] at h hb
      simp only [Option.some.injEq, Prod.mk.injEq] at h
      obtain ⟨_, rfl, _⟩ := h
      exact hb

theorem index_accepts_congr (l : List mkv_index_t) (c c' : KaxCluster)
    (h : c.ElementPosition = c'.ElementPosition) : index_accepts l c = index_accepts l c' := by
  unfold index_accepts
  rw [h]

theorem Seek_no_cues_sorted (env : Seek_env) (i_global_position : Int)
    (els : List EbmlElement) :
    ∀ s : matroska_segment_c, index_sorted s.p_indexes →
      index_sorted (Seek_no_cues env i_global_position els s).p_indexes := by
  induction els with
  | nil => intro s hs; exact hs
  | cons el rest ih =>
    intro s hs
    rw [Seek_no_cues]
    dsimp only
    by_cases hid : el.id = EbmlId.KaxCluster
    · simp only [hid, if_true]
      by_cases ha : index_accepts s.p_indexes { ElementPosition := el.GetElementPosition } = true
      · simp only [ha, if_true]
        split
        · exact IndexAppendCluster_sorted _ _ hs
            ((index_accepts_congr _ _ _ rfl).trans ha)
        · exact ih _ (IndexAppendCluster_sorted _ _ hs
            ((index_accepts_congr _ _ _ rfl).trans ha))
      · simp only [ha]
        split
        · exact hs
        · exact ih _ hs
    · simp only [hid, if_false]
      exact ih _ hs

theorem Seek_search_sorted (i_cat : es_category) (i_time_offset : Int) (blockFuel : Nat)
    (fuel : Nat) :
    ∀ (s : matroska_segment_c) (l : Seek_vars)
      (r : matroska_segment_c ⊕ (matroska_segment_c × Seek_vars)),
      Seek_search i_cat i_time_offset blockFuel fuel s l = some r →
      index_sorted s.p_indexes →
      index_sorted (match r with
        | Sum.inl s' => s'.p_indexes
        | Sum.inr (s', _) => s'.p_indexes) := by
  induction fuel with
  | zero => intro s l r h; simp [Seek_search] at h
  | succ n ih =>
    intro s l r h hs
    rw [Seek_search] at h
    split at h
    · simp at h
    · rename_i code s1 v1 hbg
      have hs1 := BlockGet_loop_sorted _ _ _ _ _ _ hbg hs
      dsimp only at h
      split at h
      · simp only [Option.some.injEq] at h
        subst h
        exact hs1
      · split at h
        · exact ih _ _ r h hs1
        · split at h
          · simp only [Option.some.injEq] at h
            subst h
            exact hs1
          · exact ih _ _ r h hs1

theorem Seek_finish_sorted (env : Seek_env) (blockFuel : Nat) (s : matroska_segment_c)
    (l : Seek_vars) (s' : matroska_segment_c) (h : Seek_finish env blockFuel s l = some s')
    (hs : index_sorted s.p_indexes) : index_sorted s'.p_indexes := by
  unfold Seek_finish at h
  split at h
  · dsimp only at h
    split at h
    · simp only [Option.some.injEq] at h
      subst h
      exact hs
    · split at h
      · simp at h
      · rename_i code s2 v2 hbg
        have hs2 := BlockGet_loop_sorted _ _ _ _ _ _ hbg hs
        split at h <;>
          (simp only [Option.some.injEq] at h; subst h; exact hs2)
  · simp only [Option.some.injEq] at h
    subst h
    exact hs

theorem Seek_start_sorted (env : Seek_env) (s : matroska_segment_c)
    (i_global_position : Int) (hs : index_sorted s.p_indexes) :
    index_sorted (Seek_start env s i_global_position).p_indexes := by
  unfold Seek_start
  dsimp only
  split
  · exact Seek_no_cues_sorted _ _ _ _ hs
  · exact hs

/-- A call of `Seek` keeps the index sorted by position. -/
theorem Seek_sorted (env : Seek_env) (fuel : Nat) (s : matroska_segment_c)
    (i_date i_time_offset i_global_position : Int) (s' : matroska_segment_c)
    (h : Seek env fuel s i_date i_time_offset i_global_position = some s')
    (hs : index_sorted s.p_indexes) : index_sorted s'.p_indexes := by
  have hs0 := Seek_start_sorted env s i_global_position hs
  have hs1 : index_sorted
      (Seek_begin_search (Seek_start env s i_global_position) i_date i_time_offset).1.p_indexes :=
    hs0
  unfold Seek at h
  dsimp only at h
  split at h
  · simp only [Option.some.injEq] at h
    subst h
    exact hs0
  · split at h
    · simp only [Option.some.injEq] at h
      subst h
      exact hs1
    · cases hsearch : Seek_search
          (Seek_begin_search (Seek_start env s i_global_position) i_date i_time_offset).2.1
          i_time_offset fuel fuel
          (Seek_begin_search (Seek_start env s i_global_position) i_date i_time_offset).1
          (Seek_begin_search (Seek_start env s i_global_position) i_date i_time_offset).2.2 with
      | none => rw [hsearch] at h; simp at h
      | some r =>
        rw [hsearch] at h
        have hr := Seek_search_sorted _ _ _ _ _ _ _ hsearch hs1
        cases r with
        | inl s1 =>
          simp only [Option.some.injEq] at h
          subst h
          exact hr
        | inr p =>
          obtain ⟨s1, l1⟩ := p
          exact Seek_finish_sorted _ _ _ _ _ h hr

theorem foldl_LoadCues_child (data_offset : Nat) (els : List EbmlElement) :
    ∀ s : matroska_segment_c,
      (els.foldl (LoadCues_child data_offset) s).p_indexes =
        s.p_indexes ++
          ((els.filter fun el => decide (el.id = EbmlId.KaxCuePoint)).map fun cp =>
            LoadCues_point s.i_timescale data_offset LoadCues_init cp.children) ∧
      (els.foldl (LoadCues_child data_offset) s).i_timescale = s.i_timescale := by
  induction els with
  | nil => intro s; simp
  | cons el rest ih =>
    intro s
    rw [List.foldl_cons]
    obtain ⟨h1, h2⟩ := ih (LoadCues_child data_offset s el)
    rw [h1, h2]
    by_cases hid : el.id = EbmlId.KaxCuePoint
    · simp [LoadCues_child, hid, List.filter_cons]
    · have hc : LoadCues_child data_offset s el = s := by
        unfold LoadCues_child
        split
        · rename_i heq; exact absurd heq hid
        · rfl
      simp [hc, hid, List.filter_cons]

theorem index_sorted_iff (l : List mkv_index_t) :
    index_sorted l ↔
      ∀ i (h0 : 0 < i) (h : i < l.length), l[i - 1].i_position ≤ l[i].i_position := by
  unfold index_sorted
  rw [List.chain'_iff_get]
  constructor
  · intro h i h0 hi
    have := h (i - 1) (by omega)
    simp only [List.get_eq_getElem] at this
    have e : i - 1 + 1 = i := by omega
    simpa [e] using this
  · intro h i hi
    simp only [List.get_eq_getElem]
    have := h (i + 1) (by omega) (by omega)
    simpa using this

/-- C8 (amended): `LoadCues` (with `b_cues` false) appends one index slot per
CuePoint of the Cues element, whatever the number of CueTrackPositions records
in the CuePoints: the slot count grows by the number of CuePoints. -/
theorem LoadCues_slots (data_offset : Nat) (s : matroska_segment_c) (cues : EbmlElement)
    (h : s.b_cues = false) :
    (LoadCues data_offset s cues).p_indexes =
      s.p_indexes ++ cue_slots s.i_timescale data_offset cues ∧
    (LoadCues data_offset s cues).i_index = s.i_index + count_cue_points cues := by
  have h1 := (foldl_LoadCues_child data_offset cues.children s).1
  unfold LoadCues matroska_segment_c.i_index
  simp only [h, Bool.false_eq_true, if_false]
  rw [h1]
  exact ⟨rfl, by simp [count_cue_points]⟩

/-- C8: a Cues element with three CuePoints that hold 2, 1 and 0
CueTrackPositions records adds three slots. -/
theorem LoadCues_slots_witness :
    count_cue_track_positions (EbmlElement.mk .KaxCues 50
      [sample_cue_point 5 [500, 600], sample_cue_point 7 [700], sample_cue_point 9 []]) = 3 ∧
    (LoadCues 40 {} (EbmlElement.mk .KaxCues 50
      [sample_cue_point 5 [500, 600], sample_cue_point 7 [700], sample_cue_point 9 []])).i_index =
      0 + 3 :=
  ⟨by decide,
   (LoadCues_slots 40 {} (EbmlElement.mk .KaxCues 50
      [sample_cue_point 5 [500, 600], sample_cue_point 7 [700], sample_cue_point 9 []]) rfl).2⟩

/-- C8: a Cues element whose single CuePoint holds two CueTrackPositions records
adds one slot, not two. -/
theorem LoadCues_two_track_positions :
    count_cue_track_positions sample_cues_two_tracks = 2 ∧
    (LoadCues 0 {} sample_cues_two_tracks).i_index = 1 ∧
    (({} : matroska_segment_c).i_index = 0 ∧ ({} : matroska_segment_c).b_cues = false) := by
  decide

/-- C7 (amended): the synthetic appends keep the index sorted by byte position:
`IndexAppendCluster` under the guard of `BlockGet` and `Seek` does, and so do a
whole call of `BlockGet` and a whole call of `Seek`. `LoadCues` appends the
slots of the CuePoints in file order with the positions read from the file, so
the index is sorted after it exactly when the slots present followed by those
positions are in non-decreasing order. -/
theorem index_sorted_preserved :
    (∀ (s : matroska_segment_c) (cluster : KaxCluster),
      index_sorted s.p_indexes → index_accepts s.p_indexes cluster = true →
      index_sorted (IndexAppendCluster s cluster).p_indexes) ∧
    (∀ (fuel : Nat) (s : matroska_segment_c) (dur : Int) (code : Int)
      (s' : matroska_segment_c) (v : BlockGet_vars),
      BlockGet fuel s dur = some (code, s', v) →
      index_sorted s.p_indexes → index_sorted s'.p_indexes) ∧
    (∀ (env : Seek_env) (fuel : Nat) (s : matroska_segment_c)
      (i_date i_time_offset i_global_position : Int) (s' : matroska_segment_c),
      Seek env fuel s i_date i_time_offset i_global_position = some s' →
      index_sorted s.p_indexes → index_sorted s'.p_indexes) ∧
    (∀ (data_offset : Nat) (s : matroska_segment_c) (cues : EbmlElement),
      s.b_cues = false →
      (index_sorted (LoadCues data_offset s cues).p_indexes ↔
        index_sorted (s.p_indexes ++ cue_slots s.i_timescale data_offset cues))) ∧
    (∀ l : List mkv_index_t, index_sorted l ↔
      ∀ i (_ : 0 < i) (h : i < l.length), l[i - 1].i_position ≤ l[i].i_position) := by
  refine ⟨IndexAppendCluster_sorted, ?_, Seek_sorted, ?_, index_sorted_iff⟩
  · intro fuel s dur code s' v h hs
    exact BlockGet_loop_sorted fuel s _ code s' v h hs
  · intro data_offset s cues h
    rw [(LoadCues_slots data_offset s cues h).1]

/-- C7: `BlockGet` reads the ClusterTimecode of the cluster at position 100 with
the index holding a slot at position 40: the slot appended has position 100
and the index is sorted. -/
theorem index_sorted_preserved_witness :
    ∃ code s' v,
      BlockGet 3 { sample_segment (sample_track VLC_CODEC_MP4A)
          [EbmlElement.mk (.KaxClusterTimecode 7) 110 [],
           EbmlElement.mk (.KaxSimpleBlock sample_block) 120 []] with
          p_indexes := [sample_slot 0 40] } 0 = some (code, s', v) ∧
      s'.p_indexes.map (fun idx => idx.i_position) = [40, 100] ∧
      index_sorted s'.p_indexes := by
  have h : (BlockGet 3 { sample_segment (sample_track VLC_CODEC_MP4A)
          [EbmlElement.mk (.KaxClusterTimecode 7) 110 [],
           EbmlElement.mk (.KaxSimpleBlock sample_block) 120 []] with
          p_indexes := [sample_slot 0 40] } 0).map
      (fun r => r.2.1.p_indexes.map (fun idx => idx.i_position)) = some [40, 100] := by
    decide
  obtain ⟨⟨code, s', v⟩, hr, hv⟩ := Option.map_eq_some'.mp h
  exact ⟨code, s', v, hr, hv,
    index_sorted_preserved.2.1 3 _ 0 code s' v hr (List.chain'_singleton _)⟩

/-- C7: after `LoadCues` on a Cues element whose CuePoints give the cluster
positions 500 and 100, slot 1 has a smaller position than slot 0. -/
theorem LoadCues_unsorted :
    (LoadCues 0 {} sample_cues_unsorted).p_indexes.map (fun idx => idx.i_position) =
      [500, 100] ∧
    ¬ index_sorted (LoadCues 0 {} sample_cues_unsorted).p_indexes := by
  have e : (LoadCues 0 {} sample_cues_unsorted).p_indexes =
      [{ i_track := 1, i_block_number := -1, i_position := 500, i_time := 0, b_key := true },
       { i_track := 1, i_block_number := -1, i_position := 100, i_time := 1000000,
         b_key := true }] := by
    decide
  rw [e]
  exact ⟨rfl, by simp [index_sorted]⟩

/-! ## Track activation -/

theorem Select_case_aac (suffix : List Char) :
    Select_case ("A_AAC/MPEG2/".toList ++ suffix) = codec_case.A_AAC_MPEG24 ∧
    Select_case ("A_AAC/MPEG4/".toList ++ suffix) = codec_case.A_AAC_MPEG24 := by
  have e2 : "A_AAC/MPEG2/".length = 12 := by decide
  have e4 : "A_AAC/MPEG4/".length = 12 := by decide
  constructor <;> simp [Select_case, strcmp, strncmp, e2, e4]

theorem aac_profile_eq (suffix : List Char) :
    (aac_profile suffix).1 =
        (if suffix = "MAIN".toList then 0
         else if suffix = "LC".toList ∨ suffix = "LC/SBR".toList then 1
         else if suffix = "SSR".toList then 2
         else 3) ∧
    (aac_profile suffix).2 = decide (suffix = "LC/SBR".toList) ∧
    (aac_profile suffix).1 ≤ 3 := by
  unfold aac_profile strcmp
  by_cases h1 : suffix = "MAIN".toList
  · subst h1; simp
  · by_cases h2 : suffix = "LC".toList
    · subst h2; simp
    · by_cases h3 : suffix = "SSR".toList
      · subst h3; simp
      · by_cases h4 : suffix = "LC/SBR".toList
        · subst h4; simp
        · simp_all

theorem aac_srate_spec (rate : Nat) :
    aac_srate rate ≤ 13 ∧
    (∀ i, i < 13 → i_sample_rates[i]? = some rate → aac_srate rate = i) ∧
    ((∀ i, i < 13 → i_sample_rates[i]? ≠ some rate) → aac_srate rate = 13) := by
  refine ⟨?_, ?_, ?_⟩
  · have := @List.findIdx_le_length _ (fun r => r == rate) (i_sample_rates.take 13)
    simpa [aac_srate, i_sample_rates] using this
  · intro i hi hget
    interval_cases i <;> simp [i_sample_rates] at hget <;> subst hget <;> decide
  · intro hno
    unfold aac_srate
    rw [List.findIdx_eq_length_of_false]
    · simp [i_sample_rates]
    · intro x hx
      simp only [beq_eq_false_iff_ne, ne_eq]
      intro hxr
      subst hxr
      obtain ⟨i, hi, hget⟩ := List.getElem_of_mem hx
      have hi13 : i < 13 := by simpa [i_sample_rates] using hi
      apply hno i hi13
      rw [List.getElem_take] at hget
      rw [← hget]
      exact List.getElem?_eq_getElem _

theorem aac_extra0 : ∀ p, p ≤ 3 → ∀ i, i ≤ 13 →
    toUInt8 (((p + 1) <<< 3) ||| ((i &&& 0xe) >>> 1)) = ((p + 1) <<< 3) ||| (i >>> 1) := by
  decide

/-- C10: for a codec ID that starts with "A_AAC/MPEG2/" or "A_AAC/MPEG4/" the
dispatch of `Select` takes the AAC branch, which sets the codec MP4A; the
profile is 0 for the suffix MAIN, 1 for LC and for LC/SBR, 2 for SSR and 3 for
any other suffix; the sample-rate index is the position of `i_original_rate`
among the first 13 entries of the table, or 13; the extradata has 5 bytes for
the suffix LC/SBR and 2 bytes otherwise, byte 0 is
`((profile+1) << 3) | (index >> 1)` and byte 1 is
`((index & 1) << 7) | (channels << 3)` truncated to 8 bits. -/
theorem Select_aac_extradata (tk : mkv_track_t) (psz_codec suffix : List Char)
    (h : psz_codec = "A_AAC/MPEG2/".toList ++ suffix ∨
      psz_codec = "A_AAC/MPEG4/".toList ++ suffix) :
    Select_case psz_codec = codec_case.A_AAC_MPEG24 ∧
    (Select_aac tk psz_codec).fmt.i_codec = VLC_CODEC_MP4A ∧
    (aac_profile (psz_codec.drop 12)).1 =
        (if suffix = "MAIN".toList then 0
         else if suffix = "LC".toList ∨ suffix = "LC/SBR".toList then 1
         else if suffix = "SSR".toList then 2
         else 3) ∧
    ((∀ i, i < 13 → i_sample_rates[i]? = some tk.i_original_rate →
        aac_srate tk.i_original_rate = i) ∧
      ((∀ i, i < 13 → i_sample_rates[i]? ≠ some tk.i_original_rate) →
        aac_srate tk.i_original_rate = 13)) ∧
    (Select_aac tk psz_codec).fmt.p_extra.length =
        (if suffix = "LC/SBR".toList then 5 else 2) ∧
    (Select_aac tk psz_codec).fmt.p_extra[0]? =
        some ((((aac_profile (psz_codec.drop 12)).1 + 1) <<< 3) |||
          (aac_srate tk.i_original_rate >>> 1)) ∧
    (Select_aac tk psz_codec).fmt.p_extra[1]? =
        some ((((aac_srate tk.i_original_rate &&& 1) <<< 7) |||
          (tk.fmt.audio_i_channels <<< 3)) % 256) := by
  have hdrop : psz_codec.drop 12 = suffix := by
    rcases h with h | h <;> subst h <;> simp
  have hcase : Select_case psz_codec = codec_case.A_AAC_MPEG24 := by
    rcases h with h | h <;> subst h
    · exact (Select_case_aac suffix).1
    · exact (Select_case_aac suffix).2
  obtain ⟨hp1, hp2, hp3⟩ := aac_profile_eq suffix
  obtain ⟨hs1, hs2, hs3⟩ := aac_srate_spec tk.i_original_rate
  have h0 := aac_extra0 _ hp3 _ hs1
  have hextra : (Select_aac tk psz_codec).fmt.p_extra =
      if suffix = "LC/SBR".toList then
        [toUInt8 ((((aac_profile suffix).1 + 1) <<< 3) |||
            ((aac_srate tk.i_original_rate &&& 0xe) >>> 1)),
         toUInt8 (((aac_srate tk.i_original_rate &&& 0x1) <<< 7) |||
            (tk.fmt.audio_i_channels <<< 3)),
         toUInt8 ((0x2B7 >>> 3) &&& 0xFF),
         toUInt8 (((0x2B7 &&& 0x7) <<< 5) ||| 5),
         toUInt8 (((1 &&& 0x1) <<< 7) ||| (aac_srate tk.fmt.audio_i_rate <<< 3))]
      else
        [toUInt8 ((((aac_profile suffix).1 + 1) <<< 3) |||
            ((aac_srate tk.i_original_rate &&& 0xe) >>> 1)),
         toUInt8 (((aac_srate tk.i_original_rate &&& 0x1) <<< 7) |||
            (tk.fmt.audio_i_channels <<< 3))] := by
    unfold Select_aac
    simp only [hdrop, hp2, decide_eq_true_eq]
  rw [hextra, hdrop]
  refine ⟨hcase, rfl, hp1, ⟨hs2, hs3⟩, ?_, ?_, ?_⟩
  · split_ifs <;> rfl
  · split_ifs <;> exact congrArg some h0
  · split_ifs <;> rfl

/-- C10: the track of the AAC scenario: profile 1, index 7, five bytes. -/
theorem Select_aac_extradata_witness :
    Select_case "A_AAC/MPEG4/LC/SBR".toList = codec_case.A_AAC_MPEG24 ∧
    (Select_aac sample_aac_track "A_AAC/MPEG4/LC/SBR".toList).fmt.i_codec = VLC_CODEC_MP4A ∧
    (Select_aac sample_aac_track "A_AAC/MPEG4/LC/SBR".toList).fmt.p_extra.length = 5 ∧
    aac_srate sample_aac_track.i_original_rate = 7 :=
  have h := Select_aac_extradata sample_aac_track "A_AAC/MPEG4/LC/SBR".toList "LC/SBR".toList
    (Or.inr (by decide))
  ⟨h.1, h.2.1, h.2.2.2.2.1, h.2.2.2.1.1 7 (by decide) (by decide)⟩

/-- C9 (amended): for a track with the codec ID "A_AAC/MPEG4/LC/SBR", original rate
22050, 2 channels and output rate 44100, the dispatch of `Select` takes the AAC
branch, which writes exactly the 5 extradata bytes 0x13, 0x90, 0x56, 0xE5,
0xA0 (44100 is entry 4 of the table). -/
theorem Select_aac_sbr_bytes (tk : mkv_track_t)
    (hrate : tk.i_original_rate = 22050) (hch : tk.fmt.audio_i_channels = 2)
    (hout : tk.fmt.audio_i_rate = 44100) :
    Select_case "A_AAC/MPEG4/LC/SBR".toList = codec_case.A_AAC_MPEG24 ∧
    (Select_aac tk "A_AAC/MPEG4/LC/SBR".toList).fmt.i_codec = VLC_CODEC_MP4A ∧
    (Select_aac tk "A_AAC/MPEG4/LC/SBR".toList).fmt.p_extra =
      [0x13, 0x90, 0x56, 0xE5, 0xA0] := by
  refine ⟨by decide, rfl, ?_⟩
  unfold Select_aac
  rw [hrate, hch, hout]
  dsimp only
  decide

/-- C9: the run of the amended statement on the track of the scenario. -/
theorem Select_aac_sbr_bytes_witness :
    (Select_aac sample_aac_track "A_AAC/MPEG4/LC/SBR".toList).fmt.p_extra =
      [0x13, 0x90, 0x56, 0xE5, 0xA0] :=
  (Select_aac_sbr_bytes sample_aac_track rfl rfl rfl).2.2

/-- C9: on the track of the scenario the fifth extradata byte is 0xA0, not 0x98. -/
theorem Select_aac_sbr_fifth_byte :
    sample_aac_track.psz_codec = some "A_AAC/MPEG4/LC/SBR".toList ∧
    sample_aac_track.i_original_rate = 22050 ∧
    sample_aac_track.fmt.audio_i_channels = 2 ∧
    sample_aac_track.fmt.audio_i_rate = 44100 ∧
    (Select_aac sample_aac_track "A_AAC/MPEG4/LC/SBR".toList).fmt.p_extra[4]? = some 0xA0 ∧
    (Select_aac sample_aac_track "A_AAC/MPEG4/LC/SBR".toList).fmt.p_extra ≠
      [0x13, 0x90, 0x56, 0xE5, 0x98] := by
  decide

/-! ## Return codes and track check of `BlockGet` -/

theorem track_matches_iff (tk : mkv_track_t) (p_block p_simpleblock : Option KaxBlock) :
    track_matches tk p_block p_simpleblock = true ↔
      ((∃ b, p_block = some b ∧ tk.i_number = b.hdr.TrackNum) ∨
       (∃ sb, p_simpleblock = some sb ∧ tk.i_number = sb.hdr.TrackNum)) := by
  unfold track_matches
  cases p_block <;> cases p_simpleblock <;> simp

theorem BlockFindTrackIndex_some (tracks : List mkv_track_t)
    (p_block p_simpleblock : Option KaxBlock) (i : Nat)
    (h : BlockFindTrackIndex tracks p_block p_simpleblock = some i) :
    ∃ tk, tracks.get? i = some tk ∧ track_matches tk p_block p_simpleblock = true ∧
      ∀ j tk', j < i → tracks.get? j = some tk' →
        track_matches tk' p_block p_simpleblock = false := by
  unfold BlockFindTrackIndex at h
  dsimp only at h
  split at h
  · simp at h
  · rename_i hlt
    simp only [Option.some.injEq] at h
    subst h
    have hlt2 : tracks.findIdx (fun tk => track_matches tk p_block p_simpleblock) <
        tracks.length := by omega
    refine ⟨tracks[tracks.findIdx (fun tk => track_matches tk p_block p_simpleblock)], ?_,
      ?_, ?_⟩
    · rw [List.get?_eq_getElem?]
      exact List.getElem?_eq_getElem hlt2
    · exact @List.findIdx_getElem _ (fun tk => track_matches tk p_block p_simpleblock) tracks
        hlt2
    · intro j tk' hj hget
      rw [List.get?_eq_getElem?] at hget
      obtain ⟨hjl, rfl⟩ := List.getElem?_eq_some_iff.mp hget
      have := @List.not_of_lt_findIdx _ (fun tk => track_matches tk p_block p_simpleblock)
        tracks j hj
      simpa using this

theorem BlockFindTrackIndex_none (tracks : List mkv_track_t)
    (p_block p_simpleblock : Option KaxBlock) :
    BlockFindTrackIndex tracks p_block p_simpleblock = none ↔
      ∀ tk ∈ tracks, track_matches tk p_block p_simpleblock = false := by
  unfold BlockFindTrackIndex
  dsimp only
  constructor
  · intro h
    split at h
    · rename_i hge
      have heq : tracks.findIdx (fun tk => track_matches tk p_block p_simpleblock) =
          tracks.length := Nat.le_antisymm (List.findIdx_le_length _) hge
      intro tk htk
      have := (List.findIdx_eq_length.mp heq) tk htk
      simpa using this
    · simp at h
  · intro h
    have heq : tracks.findIdx (fun tk => track_matches tk p_block p_simpleblock) =
        tracks.length := by
      apply List.findIdx_eq_length.mpr
      intro tk htk
      simp [h tk htk]
    simp [heq]

theorem BlockGet_deliver_found (s : matroska_segment_c) (v : BlockGet_vars) (code : Int)
    (s' : matroska_segment_c) (v' : BlockGet_vars)
    (h : BlockGet_deliver s v = .ret code s' v') :
    code = VLC_SUCCESS ∧ s'.tracks = s.tracks ∧ v'.pp_block = v.pp_block ∧
      v'.pp_simpleblock = v.pp_simpleblock ∧
      ∃ i, BlockFindTrackIndex s.tracks v.pp_block v.pp_simpleblock = some i := by
  cases hf : BlockFindTrackIndex s.tracks v.pp_block v.pp_simpleblock with
  | none =>
    unfold BlockGet_deliver at h
    simp [hf] at h
  | some i =>
    unfold BlockGet_deliver at h
    simp only [hf, BlockGet_pass.ret.injEq] at h
    obtain ⟨h1, h2, h3⟩ := h
    subst h2 h3
    exact ⟨h1.symm, rfl, rfl, rfl, i, rfl⟩

/-- A pass of the loop of `BlockGet` that returns does so with `VLC_EGENERIC`, or
with `VLC_SUCCESS` from the delivery of a pending block. -/
theorem BlockGet_body_ret (s : matroska_segment_c) (v : BlockGet_vars) (code : Int)
    (s' : matroska_segment_c) (v' : BlockGet_vars)
    (h : BlockGet_body s v = .ret code s' v') :
    code = VLC_EGENERIC ∨ ∃ s0, BlockGet_deliver s0 v = .ret code s' v' ∧
      s0.tracks = s.tracks := by
  unfold BlockGet_body at h
  split at h
  · simp only [BlockGet_pass.ret.injEq] at h
    exact Or.inl h.1.symm
  · split at h
    · exact Or.inr ⟨_, h, rfl⟩
    · dsimp only at h
      split at h
      · exact Or.inr ⟨_, h, rfl⟩
      · exact Or.inl (BlockGet_parse_ret _ _ _ _ _ _ _ h)

/-- Whenever the loop of `BlockGet` returns, the code is `VLC_SUCCESS`, with a
block of a track of the list, or `VLC_EGENERIC`. -/
theorem BlockGet_loop_ret (fuel : Nat) :
    ∀ (s : matroska_segment_c) (v : BlockGet_vars) (code : Int) (s' : matroska_segment_c)
      (v' : BlockGet_vars),
      BlockGet_loop fuel s v = some (code, s', v') →
      code = VLC_EGENERIC ∨
        (code = VLC_SUCCESS ∧
          ∃ i, BlockFindTrackIndex s'.tracks v'.pp_block v'.pp_simpleblock = some i) := by
  induction fuel with
  | zero => intro s v code s' v' h; simp [BlockGet_loop] at h
  | succ n ih =>
    intro s v code s' v' h
    rw [BlockGet_loop] at h
    cases hb : BlockGet_body s v with
    | again s1 v1 =>
      rw [hb] at h
      exact ih s1 v1 code s' v' h
    | ret code1 s1 v1 =>
      rw [hb] at h
      simp only [Option.some.injEq, Prod.mk.injEq] at h
      obtain ⟨rfl, rfl, rfl⟩ := h
      rcases BlockGet_body_ret s v _ _ _ hb with hc | ⟨s0, hdel, _⟩
      · exact Or.inl hc
      · obtain ⟨h1, h2, h3, h4, i, hi⟩ := BlockGet_deliver_found s0 v _ _ _ hdel
        exact Or.inr ⟨h1, i, by rw [h2, h3, h4]; exact hi⟩

theorem Get_level (ep : EbmlParser) : ep.Get.2.GetLevel = ep.GetLevel := by
  cases ep with
  | mk frames got =>
    cases frames with
    | nil => rfl
    | cons f fs =>
      cases f with
      | mk c rest =>
        cases rest with
        | nil => rfl
        | cons e r => rfl

theorem BlockGet_deliver_again_vars (s : matroska_segment_c) (v : BlockGet_vars)
    (s' : matroska_segment_c) (v' : BlockGet_vars) (h : BlockGet_deliver s v = .again s' v') :
    v'.pp_block = none := by
  cases hf : BlockFindTrackIndex s.tracks v.pp_block v.pp_simpleblock with
  | none =>
    unfold BlockGet_deliver at h
    simp only [hf, BlockGet_pass.again.injEq] at h
    rw [← h.2]
  | some i =>
    unfold BlockGet_deliver at h
    simp [hf] at h

theorem BlockGet_level1_vars (s : matroska_segment_c) (v : BlockGet_vars) (ep : EbmlParser)
    (el : EbmlElement) (s' : matroska_segment_c) (v' : BlockGet_vars)
    (h : BlockGet_level1 s v ep el = .again s' v') : v' = v := by
  unfold BlockGet_level1 at h
  split at h <;> simp at h <;> exact h.2.symm

theorem BlockGet_level2_vars (s : matroska_segment_c) (v : BlockGet_vars) (ep : EbmlParser)
    (c : KaxCluster) (el : EbmlElement) (s' : matroska_segment_c) (v' : BlockGet_vars)
    (h : BlockGet_level2 s v ep c el = .again s' v') : v'.pp_block = v.pp_block := by
  unfold BlockGet_level2 at h
  split at h <;> simp at h <;> rw [← h.2]

theorem BlockGet_level3_vars (s : matroska_segment_c) (v : BlockGet_vars) (ep : EbmlParser)
    (el : EbmlElement) (s' : matroska_segment_c) (v' : BlockGet_vars)
    (h : BlockGet_level3 s v ep el = .again s' v') :
    v'.pp_simpleblock = v.pp_simpleblock ∧ s'.ep = some ep := by
  unfold BlockGet_level3 at h
  split at h <;> simp at h <;> obtain ⟨h1, h2⟩ := h <;> subst h1 <;> subst h2
  · exact ⟨rfl, rfl⟩
  · exact ⟨rfl, rfl⟩
  · refine ⟨?_, rfl⟩
    split
    · rfl
    · split <;> rfl
  · exact ⟨rfl, rfl⟩
  · exact ⟨rfl, rfl⟩

theorem BlockGet_parse_inside (s : matroska_segment_c) (v : BlockGet_vars) (ep0 : EbmlParser)
    (s' : matroska_segment_c) (v' : BlockGet_vars)
    (hsb : v.pp_simpleblock = none)
    (hlevel : ∀ b, v.pp_block = some b → ep0.GetLevel = 3)
    (hnot : ∀ b, ep0.Get.1 = none → v.pp_block = some b → False)
    (h : BlockGet_parse s v ep0.Get.2 ep0.Get.1 = .again s' v') :
    block_pending_inside s' v' := by
  have hl := Get_level ep0
  unfold BlockGet_parse at h
  split at h
  · rename_i hnone
    dsimp only at h
    split at h
    · simp only [BlockGet_pass.again.injEq] at h
      obtain ⟨rfl, rfl⟩ := h
      intro b hb
      exact (hnot b hnone hb).elim
    · simp at h
  · rename_i el hsome
    dsimp only at h
    split at h
    · rename_i hl1
      have hv := BlockGet_level1_vars _ _ _ _ _ _ h
      subst hv
      intro b hb
      have := hlevel b hb
      omega
    · rename_i hl2 _
      have hv := BlockGet_level2_vars _ _ _ _ _ _ _ h
      intro b hb
      rw [hv] at hb
      have := hlevel b hb
      omega
    · rename_i hl3 _
      obtain ⟨hv, hep⟩ := BlockGet_level3_vars _ _ _ _ _ _ h
      intro b _
      exact ⟨by rw [hv, hsb], _, hep, hl3⟩
    · simp at h
    · rename_i n hl4 _
      simp only [BlockGet_pass.again.injEq] at h
      obtain ⟨rfl, rfl⟩ := h
      intro b hb
      have := hlevel b hb
      exact ⟨hsb, _, rfl, by omega⟩
    · simp at h

/-- A pass of the loop of `BlockGet` that does not return keeps
`block_pending_inside`. -/
theorem BlockGet_body_inside (s : matroska_segment_c) (v : BlockGet_vars)
    (s' : matroska_segment_c) (v' : BlockGet_vars) (hinv : block_pending_inside s v)
    (h : BlockGet_body s v = .again s' v') : block_pending_inside s' v' := by
  unfold BlockGet_body at h
  split at h
  · simp at h
  · rename_i ep hep
    split at h
    · have := BlockGet_deliver_again_vars _ _ _ _ h
      intro b hb
      rw [this] at hb
      cases hb
    · rename_i hsb
      dsimp only at h
      split at h
      · have := BlockGet_deliver_again_vars _ _ _ _ h
        intro b hb
        rw [this] at hb
        cases hb
      · rename_i hnot
        refine BlockGet_parse_inside s v ep s' v' hsb ?_ ?_ h
        · intro b hb
          obtain ⟨_, ep1, hep1, hl⟩ := hinv b hb
          rw [hep] at hep1
          cases hep1
          exact hl
        · intro b hnone hb
          exact hnot b hnone hb

/-- Whenever the loop of `BlockGet`, entered with `block_pending_inside`, returns
success, one of the two block pointers is null. -/
theorem BlockGet_loop_one_block (fuel : Nat) :
    ∀ (s : matroska_segment_c) (v : BlockGet_vars) (s' : matroska_segment_c)
      (v' : BlockGet_vars),
      block_pending_inside s v →
      BlockGet_loop fuel s v = some (VLC_SUCCESS, s', v') →
      v'.pp_block = none ∨ v'.pp_simpleblock = none := by
  induction fuel with
  | zero => intro s v s' v' _ h; simp [BlockGet_loop] at h
  | succ n ih =>
    intro s v s' v' hinv h
    rw [BlockGet_loop] at h
    cases hb : BlockGet_body s v with
    | again s1 v1 =>
      rw [hb] at h
      exact ih s1 v1 s' v' (BlockGet_body_inside s v s1 v1 hinv hb) h
    | ret code1 s1 v1 =>
      rw [hb] at h
      simp only [Option.some.injEq, Prod.mk.injEq] at h
      obtain ⟨rfl, rfl, rfl⟩ := h
      rcases BlockGet_body_ret s v _ _ _ hb with hc | ⟨s0, hdel, _⟩
      · exact absurd hc (by decide)
      · obtain ⟨_, _, h3, h4, _⟩ := BlockGet_deliver_found s0 v _ _ _ hdel
        rw [h3, h4]
        cases hpb : v.pp_block with
        | none => exact Or.inl rfl
        | some b => exact Or.inr (hinv b hpb).1

/-- C18: whenever `BlockGet` returns success it returns exactly one block (the Block
or the SimpleBlock pointer, the other one being null), the track number of
that block is the number of a track of the list, and `BlockFindTrackIndex`
yields the index of the first such track; and a pending block whose number is
the number of no track is dropped: both pointers are reset and the loop goes
on from where the parser stands, with the elements that follow. -/
theorem BlockGet_known_track :
    (∀ (fuel : Nat) (s : matroska_segment_c) (dur : Int) (s' : matroska_segment_c)
        (v : BlockGet_vars),
        BlockGet fuel s dur = some (VLC_SUCCESS, s', v) →
        ∃ blk i tk,
          ((v.pp_simpleblock = some blk ∧ v.pp_block = none) ∨
            (v.pp_block = some blk ∧ v.pp_simpleblock = none)) ∧
          BlockFindTrackIndex s'.tracks v.pp_block v.pp_simpleblock = some i ∧
          s'.tracks.get? i = some tk ∧ tk.i_number = blk.hdr.TrackNum ∧
          ∀ j tk', j < i → s'.tracks.get? j = some tk' →
            tk'.i_number ≠ blk.hdr.TrackNum) ∧
    (∀ (fuel : Nat) (s : matroska_segment_c) (v : BlockGet_vars) (ep : EbmlParser)
        (sb : KaxBlock),
        s.ep = some ep → v.pp_simpleblock = some sb →
        (∀ tk ∈ s.tracks,
          ¬ ((∃ b, v.pp_block = some b ∧ tk.i_number = b.hdr.TrackNum) ∨
             tk.i_number = sb.hdr.TrackNum)) →
        BlockGet_loop (fuel + 1) s v =
          BlockGet_loop fuel s { v with pp_block := none, pp_simpleblock := none }) ∧
    (∀ (fuel : Nat) (s : matroska_segment_c) (v : BlockGet_vars) (ep : EbmlParser)
        (b : KaxBlock),
        s.ep = some ep → v.pp_simpleblock = none → v.pp_block = some b →
        ep.Get.1 = none →
        (∀ tk ∈ s.tracks, tk.i_number ≠ b.hdr.TrackNum) →
        BlockGet_loop (fuel + 1) s v =
          BlockGet_loop fuel { s with ep := some ep.Get.2 }
            { v with pp_block := none, pp_simpleblock := none }) := by
  refine ⟨?_, ?_, ?_⟩
  · intro fuel s dur s' v h
    have hone := BlockGet_loop_one_block fuel s _ s' v (fun b hb => by cases hb) h
    rcases BlockGet_loop_ret fuel s _ _ s' v h with hc | ⟨_, i, hi⟩
    · exact absurd hc (by decide)
    · obtain ⟨tk, h1, h2, h3⟩ := BlockFindTrackIndex_some _ _ _ _ hi
      have key : ∀ blk, ((v.pp_simpleblock = some blk ∧ v.pp_block = none) ∨
          (v.pp_block = some blk ∧ v.pp_simpleblock = none)) →
          ∀ t : mkv_track_t, track_matches t v.pp_block v.pp_simpleblock = true ↔
            t.i_number = blk.hdr.TrackNum := by
        intro blk hblk t
        rw [track_matches_iff]
        rcases hblk with ⟨e1, e2⟩ | ⟨e1, e2⟩ <;> simp [e1, e2]
      have hex : ∃ blk, (v.pp_simpleblock = some blk ∧ v.pp_block = none) ∨
          (v.pp_block = some blk ∧ v.pp_simpleblock = none) := by
        rcases (track_matches_iff _ _ _).mp h2 with ⟨b, hb, _⟩ | ⟨sb, hsb, _⟩
        · rcases hone with hn | hn
          · rw [hb] at hn
            cases hn
          · exact ⟨b, Or.inr ⟨hb, hn⟩⟩
        · rcases hone with hn | hn
          · exact ⟨sb, Or.inl ⟨hsb, hn⟩⟩
          · rw [hsb] at hn
            cases hn
      obtain ⟨blk, hblk⟩ := hex
      refine ⟨blk, i, tk, hblk, hi, h1, (key blk hblk tk).mp h2, ?_⟩
      intro j tk' hj hget hm
      have := h3 j tk' hj hget
      rw [(key blk hblk tk').mpr hm] at this
      exact absurd this (by decide)
  · intro fuel s v ep sb hep hsb hno
    have hnone : BlockFindTrackIndex s.tracks v.pp_block v.pp_simpleblock = none := by
      rw [BlockFindTrackIndex_none]
      intro tk htk
      cases hm : track_matches tk v.pp_block v.pp_simpleblock with
      | false => rfl
      | true =>
        exfalso
        apply hno tk htk
        rcases (track_matches_iff _ _ _).mp hm with h | ⟨sb', hsb', h⟩
        · exact Or.inl h
        · rw [hsb] at hsb'
          simp only [Option.some.injEq] at hsb'
          subst hsb'
          exact Or.inr h
    rw [BlockGet_loop, BlockGet_body_pending s v ep sb hep hsb]
    unfold BlockGet_deliver
    simp only [hnone]
  · intro fuel s v ep b hep hsb hb hget hno
    have hnone : BlockFindTrackIndex s.tracks v.pp_block v.pp_simpleblock = none := by
      rw [BlockFindTrackIndex_none]
      intro tk htk
      cases hm : track_matches tk v.pp_block v.pp_simpleblock with
      | false => rfl
      | true =>
        exfalso
        rcases (track_matches_iff _ _ _).mp hm with ⟨b', hb', h⟩ | ⟨sb', hsb', _⟩
        · rw [hb] at hb'
          simp only [Option.some.injEq] at hb'
          subst hb'
          exact hno tk htk h
        · rw [hsb] at hsb'
          simp at hsb'
    rw [BlockGet_loop]
    have hbody : BlockGet_body s v = BlockGet_deliver { s with ep := some ep.Get.2 } v := by
      unfold BlockGet_body
      simp only [hep, hsb, hget, hb]
    rw [hbody]
    unfold BlockGet_deliver
    simp only [hnone]

/-- C18: a run over a BlockGroup whose Block is of the unknown track 7, followed by
a SimpleBlock of track 1: the call returns the SimpleBlock alone, and track 1
is the track at index 0. -/
theorem BlockGet_known_track_witness :
    ∃ s' v blk i tk,
      BlockGet 8 (sample_segment (sample_track VLC_CODEC_MP4A) sample_dropped_group) 0 =
        some (VLC_SUCCESS, s', v) ∧
      v.pp_block = none ∧
      v.pp_simpleblock = some ⟨130, { TrackNum := 1, IsDiscardable := true }⟩ ∧
      ((v.pp_simpleblock = some blk ∧ v.pp_block = none) ∨
        (v.pp_block = some blk ∧ v.pp_simpleblock = none)) ∧
      BlockFindTrackIndex s'.tracks v.pp_block v.pp_simpleblock = some i ∧
      s'.tracks.get? i = some tk ∧ tk.i_number = blk.hdr.TrackNum := by
  have h : (BlockGet 8 (sample_segment (sample_track VLC_CODEC_MP4A)
      sample_dropped_group) 0).map (fun r => (r.1, r.2.2)) =
      some (VLC_SUCCESS,
        { pp_block := none,
          pp_simpleblock := some ⟨130, { TrackNum := 1, IsDiscardable := true }⟩,
          pb_key_picture := false, pb_discardable_picture := true, pi_duration := 0 }) := by
    decide
  obtain ⟨⟨code, s', v⟩, hr, hv⟩ := Option.map_eq_some'.mp h
  simp only [Prod.mk.injEq] at hv
  obtain ⟨rfl, rfl⟩ := hv
  obtain ⟨blk, i, tk, h0, h1, h2, h3, _⟩ := BlockGet_known_track.1 8 _ 0 s' _ hr
  exact ⟨s', _, blk, i, tk, hr, rfl, rfl, h0, h1, h2, h3⟩

/-- C19 (amended): `BlockGet` has one error code: it returns `VLC_EGENERIC` when the
parser is missing, at the end of the stream (no element left at level 1), for
a Cues element met at level 1 and for an invalid level inside the cluster,
and every code it returns is `VLC_SUCCESS` or `VLC_EGENERIC`; the code tells
success from failure and nothing more. -/
theorem BlockGet_error_code :
    (∀ (fuel : Nat) (s : matroska_segment_c) (v : BlockGet_vars),
        s.ep = none → BlockGet_loop (fuel + 1) s v = some (VLC_EGENERIC, s, v)) ∧
    (∀ (fuel : Nat) (s : matroska_segment_c) (v : BlockGet_vars) (ep : EbmlParser),
        s.ep = some ep → v.pp_simpleblock = none → v.pp_block = none →
        ep.Get.1 = none → ep.Get.2.GetLevel ≤ 1 →
        BlockGet_loop (fuel + 1) s v =
          some (VLC_EGENERIC, { s with ep := some ep.Get.2 }, v)) ∧
    (∀ (fuel : Nat) (s : matroska_segment_c) (v : BlockGet_vars) (ep : EbmlParser)
        (el : EbmlElement),
        s.ep = some ep → v.pp_simpleblock = none →
        ep.Get.1 = some el → ep.Get.2.GetLevel = 1 → el.id = EbmlId.KaxCues →
        BlockGet_loop (fuel + 1) s v =
          some (VLC_EGENERIC, { s with ep := some ep.Get.2 }, v)) ∧
    (∀ (fuel : Nat) (s : matroska_segment_c) (v : BlockGet_vars) (ep : EbmlParser)
        (el : EbmlElement) (c : KaxCluster) (n : Nat),
        s.ep = some ep → v.pp_simpleblock = none →
        ep.Get.1 = some el → ep.Get.2.GetLevel = n + 4 →
        s.cluster = some c → ep.Get.2.IsTopPresent c = true →
        BlockGet_loop (fuel + 1) s v =
          some (VLC_EGENERIC, { s with ep := some ep.Get.2 }, v)) ∧
    (∀ (fuel : Nat) (s : matroska_segment_c) (v : BlockGet_vars) (code : Int)
        (s' : matroska_segment_c) (v' : BlockGet_vars),
        BlockGet_loop fuel s v = some (code, s', v') →
        code = VLC_SUCCESS ∨ code = VLC_EGENERIC) := by
  refine ⟨?_, ?_, ?_, ?_, ?_⟩
  · intro fuel s v hep
    rw [BlockGet_loop]
    unfold BlockGet_body
    simp only [hep]
  · intro fuel s v ep hep hsb hb hget hlevel
    rw [BlockGet_loop]
    unfold BlockGet_body
    simp only [hep, hsb, hb, hget]
    unfold BlockGet_parse
    have : ¬ ep.Get.2.GetLevel > 1 := by omega
    simp only [this, if_false]
  · intro fuel s v ep el hep hsb hget hlevel hid
    rw [BlockGet_loop]
    unfold BlockGet_body
    simp only [hep, hsb, hget]
    unfold BlockGet_parse
    simp only [hlevel]
    unfold BlockGet_level1
    simp only [hid]
    have : ¬ 1 > 1 := by omega
    simp [this]
  · intro fuel s v ep el c n hep hsb hget hlevel hc htop
    rw [BlockGet_loop]
    unfold BlockGet_body
    simp only [hep, hsb, hget]
    unfold BlockGet_parse
    simp only [hlevel, hc, htop]
    have : n + 4 > 1 := by omega
    simp [this]
  · intro fuel s v code s' v' h
    rcases BlockGet_loop_ret fuel s v code s' v' h with hc | ⟨hc, _⟩
    · exact Or.inr hc
    · exact Or.inl hc

/-- C19: a run at the end of the stream (parser at level 1 with no element left)
and a run on a Cues element at level 1. -/
theorem BlockGet_error_code_witness :
    (BlockGet 1 { ep := some (newEbmlParser (EbmlElement.mk .KaxSegment 0 []) []) } 0).map
        (fun r => r.1) = some VLC_EGENERIC ∧
    (BlockGet 1 { ep := some (newEbmlParser (EbmlElement.mk .KaxSegment 0 [])
        [EbmlElement.mk .KaxCues 50 []]) } 0).map (fun r => r.1) = some VLC_EGENERIC :=
  ⟨congrArg (Option.map fun r => r.1)
    (BlockGet_error_code.2.1 0
      { ep := some (newEbmlParser (EbmlElement.mk .KaxSegment 0 []) []) }
      { pp_block := none, pp_simpleblock := none, pb_key_picture := true,
        pb_discardable_picture := false, pi_duration := 0 }
      (newEbmlParser (EbmlElement.mk .KaxSegment 0 []) []) rfl rfl rfl rfl (by decide)),
   congrArg (Option.map fun r => r.1)
    (BlockGet_error_code.2.2.1 0
      { ep := some (newEbmlParser (EbmlElement.mk .KaxSegment 0 [])
          [EbmlElement.mk .KaxCues 50 []]) }
      { pp_block := none, pp_simpleblock := none, pb_key_picture := true,
        pb_discardable_picture := false, pi_duration := 0 }
      (newEbmlParser (EbmlElement.mk .KaxSegment 0 []) [EbmlElement.mk .KaxCues 50 []])
      (EbmlElement.mk .KaxCues 50 []) rfl rfl rfl rfl rfl)⟩

/-- C19: the code returned at the end of the stream and the code returned for a
Cues element at level 1 are the same. -/
theorem BlockGet_eof_same_code :
    ∃ c_eof c_cues s1 v1 s2 v2,
      BlockGet 1 { ep := some (newEbmlParser (EbmlElement.mk .KaxSegment 0 []) []) } 0 =
        some (c_eof, s1, v1) ∧
      BlockGet 1 { ep := some (newEbmlParser (EbmlElement.mk .KaxSegment 0 [])
        [EbmlElement.mk .KaxCues 50 []]) } 0 = some (c_cues, s2, v2) ∧
      c_eof = c_cues :=
  ⟨VLC_EGENERIC, VLC_EGENERIC, _, _, _, _, rfl, rfl, rfl⟩

/-! ## Seek points -/

theorem Seek_points_of_mem (tracks : List mkv_track_t) (i_cat : es_category)
    (i_seek_time i_seek_position : Int) (p : spoint) :
    p ∈ Seek_points_of tracks i_cat i_seek_time i_seek_position ↔
      (∃ tk, tracks.get? p.i_track = some tk ∧ tk.fmt.i_cat = i_cat) ∧
        p.i_date = i_seek_time ∧ p.i_seek_pos = i_seek_position ∧
        p.i_cluster_pos = i_seek_position := by
  unfold Seek_points_of
  simp only [List.mem_map, List.mem_filter, decide_eq_true_eq, List.get?_eq_getElem?]
  constructor
  · rintro ⟨⟨i, tk⟩, ⟨hmem, hcat⟩, rfl⟩
    exact ⟨⟨tk, List.mk_mem_enum_iff_getElem?.mp hmem, hcat⟩, rfl, rfl, rfl⟩
  · rintro ⟨⟨tk, hget, hcat⟩, h1, h2, h3⟩
    refine ⟨(p.i_track, tk), ⟨List.mk_mem_enum_iff_getElem?.mpr hget, hcat⟩, ?_⟩
    cases p
    simp_all

theorem Seek_points_of_eq_nil (tracks : List mkv_track_t) (i_cat : es_category)
    (i_seek_time i_seek_position : Int) :
    Seek_points_of tracks i_cat i_seek_time i_seek_position = [] ↔
      ∀ tk ∈ tracks, tk.fmt.i_cat ≠ i_cat := by
  rw [List.eq_nil_iff_forall_not_mem]
  constructor
  · intro h tk htk hcat
    obtain ⟨i, hi, rfl⟩ := List.getElem_of_mem htk
    apply h ⟨i, i_seek_time, i_seek_position, i_seek_position⟩
    rw [Seek_points_of_mem]
    exact ⟨⟨_, by rw [List.get?_eq_getElem?]; exact List.getElem?_eq_getElem hi, hcat⟩,
      rfl, rfl, rfl⟩
  · intro h p hp
    rw [Seek_points_of_mem] at hp
    obtain ⟨⟨tk, hget, hcat⟩, _⟩ := hp
    rw [List.get?_eq_getElem?] at hget
    obtain ⟨hlt, rfl⟩ := List.getElem?_eq_some_iff.mp hget
    exact h _ (List.getElem_mem hlt) hcat

theorem Seek_points_of_order (tracks : List mkv_track_t) (i_cat : es_category)
    (i_seek_time i_seek_position : Int) :
    ((Seek_points_of tracks i_cat i_seek_time i_seek_position).map spoint.i_track).Pairwise
      (fun a b => a < b) := by
  unfold Seek_points_of
  rw [List.map_map]
  have hsub : ((tracks.enum.filter fun p => decide (p.2.fmt.i_cat = i_cat)).map Prod.fst).Sublist
      (tracks.enum.map Prod.fst) :=
    List.Sublist.map _ (List.filter_sublist _)
  rw [List.enum_map_fst] at hsub
  exact (List.pairwise_lt_range _).sublist hsub


theorem IndexAppendCluster_tracks (s : matroska_segment_c) (c : KaxCluster) :
    (IndexAppendCluster s c).tracks = s.tracks := rfl

theorem Seek_no_cues_tracks (env : Seek_env) (i_global_position : Int)
    (els : List EbmlElement) :
    ∀ s : matroska_segment_c,
      (Seek_no_cues env i_global_position els s).tracks = s.tracks ∧
      (Seek_no_cues env i_global_position els s).sys = s.sys := by
  induction els with
  | nil => intro s; exact ⟨rfl, rfl⟩
  | cons el rest ih =>
    intro s
    rw [Seek_no_cues]
    dsimp only
    by_cases hid : el.id = EbmlId.KaxCluster
    · simp only [hid, if_true]
      by_cases ha : index_accepts s.p_indexes { ElementPosition := el.GetElementPosition } = true
      · simp only [ha, if_true]
        split
        · exact ⟨rfl, rfl⟩
        · rw [(ih _).1, (ih _).2]
          exact ⟨rfl, rfl⟩
      · simp only [ha]
        split
        · simp
        · rw [(ih _).1, (ih _).2]
          simp
    · simp only [hid, if_false]
      rw [(ih _).1, (ih _).2]
      exact ⟨rfl, rfl⟩

/-- The tracks after the beginning of `Seek` are those before it, with the last
DTS reset: the categories are kept. -/
theorem Seek_start_tracks (env : Seek_env) (s : matroska_segment_c) (i_global_position : Int) :
    (Seek_start env s i_global_position).tracks =
      s.tracks.map fun tk => { tk with i_last_dts := env.VLC_TS_INVALID } := by
  unfold Seek_start
  dsimp only
  split
  · rw [(Seek_no_cues_tracks _ _ _ _).1]
  · rfl

theorem Seek_points_none (tracks : List mkv_track_t) (i_seek_time i_seek_position : Int)
    (h : ∀ tk ∈ tracks, tk.fmt.i_cat ≠ es_category.VIDEO_ES ∧
      tk.fmt.i_cat ≠ es_category.AUDIO_ES) :
    Seek_points tracks i_seek_time i_seek_position = (es_category.SPU_ES, []) := by
  have hv := (Seek_points_of_eq_nil tracks es_category.VIDEO_ES i_seek_time
    i_seek_position).mpr fun tk htk => (h tk htk).1
  have ha := (Seek_points_of_eq_nil tracks es_category.AUDIO_ES i_seek_time
    i_seek_position).mpr fun tk htk => (h tk htk).2
  unfold Seek_points
  simp [hv, ha]

/-- C20 (amended): `Seek` creates one seek point for each track of the first
category, tried in the order Video, Audio, that has at least one track, in
track order, and for no other track; the subtitle category is not tried: when
no track is a video or an audio track there is no seek point, and `Seek` (with
a target other than (0, 0)) publishes the target without running the keyframe
search, whatever the fuel. -/
theorem Seek_points_video_audio (tracks : List mkv_track_t)
    (i_seek_time i_seek_position : Int) :
    ((∃ tk ∈ tracks, tk.fmt.i_cat = es_category.VIDEO_ES) →
      (Seek_points tracks i_seek_time i_seek_position).1 = es_category.VIDEO_ES) ∧
    ((∀ tk ∈ tracks, tk.fmt.i_cat ≠ es_category.VIDEO_ES) →
      (∃ tk ∈ tracks, tk.fmt.i_cat = es_category.AUDIO_ES) →
      (Seek_points tracks i_seek_time i_seek_position).1 = es_category.AUDIO_ES) ∧
    ((∀ tk ∈ tracks, tk.fmt.i_cat ≠ es_category.VIDEO_ES ∧
        tk.fmt.i_cat ≠ es_category.AUDIO_ES) →
      (Seek_points tracks i_seek_time i_seek_position).2 = [] ∧
      ∀ (env : Seek_env) (fuel : Nat) (s : matroska_segment_c)
        (i_date i_time_offset i_global_position : Int),
        s.tracks = tracks → ¬ (i_date = 0 ∧ i_time_offset = 0) →
        ∃ s', Seek env fuel s i_date i_time_offset i_global_position = some s' ∧
          s'.sys.out = s.sys.out ++
            [es_out_query.ES_OUT_SET_PCR i_date,
             es_out_query.ES_OUT_SET_NEXT_DISPLAY_TIME i_date]) ∧
    (∀ p, p ∈ (Seek_points tracks i_seek_time i_seek_position).2 ↔
      ((Seek_points tracks i_seek_time i_seek_position).1 = es_category.VIDEO_ES ∨
        (Seek_points tracks i_seek_time i_seek_position).1 = es_category.AUDIO_ES) ∧
      (∃ tk, tracks.get? p.i_track = some tk ∧
        tk.fmt.i_cat = (Seek_points tracks i_seek_time i_seek_position).1) ∧
      p.i_date = i_seek_time ∧ p.i_seek_pos = i_seek_position ∧
      p.i_cluster_pos = i_seek_position) ∧
    ((Seek_points tracks i_seek_time i_seek_position).2.map spoint.i_track).Pairwise
      (fun a b => a < b) := by
  refine ⟨?_, ?_, ?_, ?_, ?_⟩
  · rintro ⟨tk, htk, hcat⟩
    have hne : Seek_points_of tracks es_category.VIDEO_ES i_seek_time i_seek_position ≠ [] := by
      rw [Ne, Seek_points_of_eq_nil]
      intro h
      exact h tk htk hcat
    unfold Seek_points
    simp [hne]
  · rintro hv ⟨tk, htk, hcat⟩
    have hv0 := (Seek_points_of_eq_nil tracks es_category.VIDEO_ES i_seek_time
      i_seek_position).mpr hv
    have hne : Seek_points_of tracks es_category.AUDIO_ES i_seek_time i_seek_position ≠ [] := by
      rw [Ne, Seek_points_of_eq_nil]
      intro h
      exact h tk htk hcat
    unfold Seek_points
    simp [hv0, hne]
  · intro h
    refine ⟨by rw [Seek_points_none tracks _ _ h], ?_⟩
    intro env fuel s i_date i_time_offset i_global_position hs hne
    have hcats : ∀ tk ∈ (Seek_start env s i_global_position).tracks,
        tk.fmt.i_cat ≠ es_category.VIDEO_ES ∧ tk.fmt.i_cat ≠ es_category.AUDIO_ES := by
      rw [Seek_start_tracks, hs]
      intro tk htk
      obtain ⟨tk0, htk0, rfl⟩ := List.mem_map.mp htk
      exact h tk0 htk0
    have hp : (Seek_begin_search (Seek_start env s i_global_position) i_date
        i_time_offset).2.2.points = [] := by
      unfold Seek_begin_search
      dsimp only
      rw [Seek_points_none _ _ _ hcats]
    have hout : (Seek_start env s i_global_position).sys = s.sys := by
      unfold Seek_start
      dsimp only
      split
      · exact (Seek_no_cues_tracks _ _ _ _).2
      · rfl
    unfold Seek
    simp only [hne, if_false, hp, if_true]
    refine ⟨_, rfl, ?_⟩
    unfold Seek_begin_search
    simp only [hout]
  · intro p
    unfold Seek_points
    dsimp only
    by_cases hv : Seek_points_of tracks es_category.VIDEO_ES i_seek_time i_seek_position = []
    · by_cases ha : Seek_points_of tracks es_category.AUDIO_ES i_seek_time i_seek_position = []
      · simp [hv, ha]
      · simp [hv, ha, Seek_points_of_mem]
    · simp [hv, Seek_points_of_mem]
  · unfold Seek_points
    dsimp only
    split
    · exact Seek_points_of_order _ _ _ _
    · split
      · exact Seek_points_of_order _ _ _ _
      · exact List.Pairwise.nil

/-- C20: with an audio track, a video track and a subtitle track, the category is
Video and the only seek point is that of the video track, at index 1. -/
theorem Seek_points_video_audio_witness :
    (Seek_points [sample_audio_track 2, sample_track VLC_CODEC_MP4A, sample_spu_track 3]
      5 7).1 = es_category.VIDEO_ES ∧
    (Seek_points [sample_audio_track 2, sample_track VLC_CODEC_MP4A, sample_spu_track 3]
      5 7).2 = [⟨1, 5, 7, 7⟩] :=
  ⟨(Seek_points_video_audio
      [sample_audio_track 2, sample_track VLC_CODEC_MP4A, sample_spu_track 3] 5 7).1
      ⟨sample_track VLC_CODEC_MP4A, by simp, rfl⟩,
   by decide⟩

/-- C20: a segment whose only tracks are two subtitle tracks gets no seek point, and
`Seek` to the date 1000 publishes 1000 at once, with no fuel for any block. -/
theorem Seek_points_subtitle_only :
    Seek_points [sample_spu_track 1, sample_spu_track 2] 0 0 = (es_category.SPU_ES, []) ∧
    (Seek sample_env 0 { tracks := [sample_spu_track 1, sample_spu_track 2] } 1000 0 (-1)).map
        (fun s => s.sys.out) =
      some [es_out_query.ES_OUT_SET_PCR 1000, es_out_query.ES_OUT_SET_NEXT_DISPLAY_TIME 1000] :=
  ⟨by decide, by decide⟩

/-! ## Preload and deferred loading -/

theorem toInt64_of_lt (n : Nat) (h : n < 2 ^ 63) : toInt64 (n : Int) = (n : Int) := by
  have h1 : toUInt64 (n : Int) = n := by
    unfold toUInt64
    have : ((n : Int) % 2 ^ 64) = (n : Int) := by
      apply Int.emod_eq_of_lt <;> omega
    rw [this]
    exact Int.toNat_ofNat n
  unfold toInt64
  rw [h1, if_pos h]

theorem toInt64_nonneg_of_lt (n : Nat) (h : n < 2 ^ 63) : 0 ≤ toInt64 (n : Int) := by
  rw [toInt64_of_lt n h]
  exact Int.ofNat_nonneg n

theorem setFilePointer_saved (io io' : IOCallback) (h : io.FilePointer < 2 ^ 63) :
    io'.setFilePointer (toInt64 io.getFilePointer) = io := by
  unfold IOCallback.setFilePointer IOCallback.getFilePointer
  rw [toInt64_of_lt _ h]
  simp

/-- C17: for every class, every offset and every behaviour of the parsers, the file
position after `LoadSeekHeadItem` is the file position before the call (a
position that fits the `int64_t` in which it is saved), whatever the result:
element not found, no track, unknown class or success. -/
theorem LoadSeekHeadItem_file_position (env : Parse_env) (io : IOCallback)
    (s : matroska_segment_c) (ClassInfos : Nat) (i_element_position : Int)
    (h : io.FilePointer < 2 ^ 63) :
    (LoadSeekHeadItem env io s ClassInfos i_element_position).2.1 = io := by
  unfold LoadSeekHeadItem
  dsimp only
  split
  · exact setFilePointer_saved io _ h
  · split <;> (repeat' split) <;> exact setFilePointer_saved io _ h

/-- C14: when a call of `Preload` returned true, a second call (whatever the
parsers would do) returns false and gives back the segment as it was: recorded
positions, tracks, index, cluster and parser included. -/
theorem Preload_idempotent (env env' : Parse_env) (s s' : matroska_segment_c)
    (h : Preload env s = some (true, s')) :
    s'.b_preloaded = true ∧ Preload env' s' = some (false, s') := by
  have hb : s'.b_preloaded = true := by
    unfold Preload at h
    split at h
    · simp at h
    · split at h
      · simp at h
      · dsimp only at h
        split at h
        · simp only [Option.some.injEq, Prod.mk.injEq, true_and] at h
          rw [← h]
        · simp at h
  refine ⟨hb, ?_⟩
  unfold Preload
  rw [if_pos hb]

/-- C14: the first call on the small file returns true, the second call false with
the same segment. -/
theorem Preload_idempotent_witness :
    ∃ s', Preload sample_parse_env (sample_fresh sample_level1) = some (true, s') ∧
      s'.i_info_position = 52 ∧ s'.i_tracks_position = 92 ∧ s'.i_start_pos = 200 ∧
      Preload sample_parse_env s' = some (false, s') :=
  ⟨_, rfl, by decide, by decide, by decide,
    (Preload_idempotent sample_parse_env sample_parse_env (sample_fresh sample_level1) _
      rfl).2⟩

theorem foldl_LoadCues_child_positions (data_offset : Nat) (els : List EbmlElement) :
    ∀ s : matroska_segment_c,
      (els.foldl (LoadCues_child data_offset) s).i_info_position = s.i_info_position ∧
      (els.foldl (LoadCues_child data_offset) s).i_tracks_position = s.i_tracks_position ∧
      (els.foldl (LoadCues_child data_offset) s).tracks = s.tracks := by
  induction els with
  | nil => intro s; exact ⟨rfl, rfl, rfl⟩
  | cons el rest ih =>
    intro s
    rw [List.foldl_cons]
    obtain ⟨h1, h2, h3⟩ := ih (LoadCues_child data_offset s el)
    rw [h1, h2, h3]
    unfold LoadCues_child
    split <;> exact ⟨rfl, rfl, rfl⟩

theorem LoadCues_positions (data_offset : Nat) (s : matroska_segment_c) (cues : EbmlElement) :
    (LoadCues data_offset s cues).i_info_position = s.i_info_position ∧
    (LoadCues data_offset s cues).i_tracks_position = s.i_tracks_position ∧
    (LoadCues data_offset s cues).tracks = s.tracks := by
  unfold LoadCues
  split
  · exact ⟨rfl, rfl, rfl⟩
  · exact foldl_LoadCues_child_positions data_offset cues.children s

theorem Preload_element_recorded (env : Parse_env) (hk : keeps_recorded env)
    (ep : EbmlParser) (s : matroska_segment_c) (el : EbmlElement)
    (hfp : ∀ b, env.getFilePointer el b < 2 ^ 63)
    (hs : info_or_tracks_recorded s ∨ el.id = EbmlId.KaxInfo ∨ el.id = EbmlId.KaxTracks)
    (s' : matroska_segment_c)
    (h : Preload_element env ep s el = .next s' ∨ Preload_element env ep s el = .stop true s') :
    info_or_tracks_recorded s' := by
  have hs1 : (el.id ≠ EbmlId.KaxInfo ∧ el.id ≠ EbmlId.KaxTracks) → info_or_tracks_recorded s := by
    rintro ⟨h1, h2⟩
    rcases hs with hs | h | h
    · exact hs
    · exact absurd h h1
    · exact absurd h h2
  unfold Preload_element at h
  split at h
  · rename_i hid
    have hs := hs1 (by rw [hid]; exact ⟨by decide, by decide⟩)
    split at h
    · simp only [Preload_pass.next.injEq, reduceCtorEq, or_false] at h
      rw [← h]
      refine (hk _ el ?_).1
      exact hs
    · simp only [Preload_pass.next.injEq, reduceCtorEq, or_false] at h
      rw [← h]
      exact hs
  · split at h
    · simp only [Preload_pass.next.injEq, reduceCtorEq, or_false] at h
      rw [← h]
      exact Or.inl (toInt64_nonneg_of_lt _ (hfp _))
    · simp only [Preload_pass.next.injEq, reduceCtorEq, or_false] at h
      rw [← h]
      exact Or.inl (toInt64_nonneg_of_lt _ (hfp _))
  · split at h
    · dsimp only at h
      split at h
      · simp at h
      · simp only [Preload_pass.next.injEq, reduceCtorEq, or_false] at h
        rw [← h]
        exact Or.inr (toInt64_nonneg_of_lt _ (hfp _))
    · split at h
      · simp at h
      · simp only [Preload_pass.next.injEq, reduceCtorEq, or_false] at h
        rw [← h]
        exact Or.inr (toInt64_nonneg_of_lt _ (hfp _))
  · rename_i hid
    have hs := hs1 (by rw [hid]; exact ⟨by decide, by decide⟩)
    split at h
    · simp only [Preload_pass.next.injEq, reduceCtorEq, or_false] at h
      rw [← h]
      have hp := LoadCues_positions env.data_offset s el
      unfold info_or_tracks_recorded
      dsimp only
      rw [hp.1, hp.2.1]
      exact hs
    · simp only [Preload_pass.next.injEq, reduceCtorEq, or_false] at h
      rw [← h]
      exact hs
  · rename_i hid
    have hs := hs1 (by rw [hid]; exact ⟨by decide, by decide⟩)
    simp only [reduceCtorEq, Preload_pass.stop.injEq, true_and, false_or] at h
    rw [← h]
    have h5 := (hk { s with
      cluster := some { ElementPosition := el.GetElementPosition }
      i_cluster_pos := toInt64 el.GetElementPosition
      i_start_pos := toInt64 el.GetElementPosition } el hs).2.2.2.2.2
    exact h5
  · rename_i hid
    have hs := hs1 (by rw [hid]; exact ⟨by decide, by decide⟩)
    split at h
    · simp only [Preload_pass.next.injEq, reduceCtorEq, or_false] at h
      rw [← h]
      exact (hk _ el hs).2.2.2.1
    · simp only [Preload_pass.next.injEq, reduceCtorEq, or_false] at h
      rw [← h]
      exact hs
  · rename_i hid
    have hs := hs1 (by rw [hid]; exact ⟨by decide, by decide⟩)
    split at h
    · simp only [Preload_pass.next.injEq, reduceCtorEq, or_false] at h
      rw [← h]
      exact (hk _ el hs).2.2.2.2.1
    · simp only [Preload_pass.next.injEq, reduceCtorEq, or_false] at h
      rw [← h]
      exact hs
  · rename_i hid
    have hs := hs1 (by rw [hid]; exact ⟨by decide, by decide⟩)
    simp only [Preload_pass.next.injEq, reduceCtorEq, or_false] at h
    rw [← h]
    exact hs
  · rename_i h1 h2 h3 h4 h5 h6 h7 h8
    have hs := hs1 ⟨h2, h3⟩
    simp only [Preload_pass.next.injEq, reduceCtorEq, or_false] at h
    rw [← h]
    exact hs

/-- An element other than a Cluster never ends the loop of `Preload` with the
result true. -/
theorem Preload_element_stop_true (env : Parse_env) (ep : EbmlParser)
    (s s' : matroska_segment_c) (el : EbmlElement)
    (h : Preload_element env ep s el = .stop true s') : el.id = EbmlId.KaxCluster := by
  unfold Preload_element at h
  split at h
  all_goals first
    | assumption
    | (simp at h; done)
    | (split at h <;> simp at h; done)
    | (split at h <;> (try dsimp only at h) <;> split at h <;> simp at h)

theorem Preload_loop_recorded (env : Parse_env) (hk : keeps_recorded env)
    (els : List EbmlElement) :
    (∀ el ∈ els, ∀ b, env.getFilePointer el b < 2 ^ 63) →
    ∀ s : matroska_segment_c,
      (info_or_tracks_recorded s ∨
        ∃ el ∈ els.takeWhile (fun e => decide (e.id ≠ EbmlId.KaxCluster)),
          el.id = EbmlId.KaxInfo ∨ el.id = EbmlId.KaxTracks) →
      (Preload_loop env els s).1 = true →
      info_or_tracks_recorded (Preload_loop env els s).2 := by
  induction els with
  | nil =>
    intro _ s hs _
    rcases hs with hs | ⟨el, hel, _⟩
    · exact hs
    · simp at hel
  | cons el rest ih =>
    intro hfp s hs hr
    have ih := ih fun e he => hfp e (List.mem_cons_of_mem _ he)
    rw [Preload_loop] at hr ⊢
    have hstep := Preload_element_recorded env hk ⟨[⟨s.segment, rest⟩], some el⟩
      { s with ep := some ⟨[⟨s.segment, rest⟩], some el⟩ } el
      (hfp el (List.mem_cons_self _ _))
    have hs2 : (info_or_tracks_recorded s ∨ el.id = EbmlId.KaxInfo ∨ el.id = EbmlId.KaxTracks) ∨
        (el.id ≠ EbmlId.KaxCluster ∧
          ∃ e ∈ rest.takeWhile (fun e => decide (e.id ≠ EbmlId.KaxCluster)),
            e.id = EbmlId.KaxInfo ∨ e.id = EbmlId.KaxTracks) := by
      rcases hs with hs | ⟨e, he, hid⟩
      · exact Or.inl (Or.inl hs)
      · by_cases hc : el.id = EbmlId.KaxCluster
        · simp [List.takeWhile_cons, hc] at he
        · simp only [List.takeWhile_cons, ne_eq, hc, not_false_eq_true, decide_True,
            if_true, List.mem_cons] at he
          rcases he with rfl | he
          · exact Or.inl (Or.inr hid)
          · exact Or.inr ⟨hc, e, by simpa using he, hid⟩
    cases hp : Preload_element env ⟨[⟨s.segment, rest⟩], some el⟩
        { s with ep := some ⟨[⟨s.segment, rest⟩], some el⟩ } el with
    | next s1 =>
      rw [hp] at hr
      dsimp only at hr ⊢
      rcases hs2 with hs2 | ⟨_, hrest⟩
      · exact ih s1 (Or.inl (hstep hs2 s1 (Or.inl hp))) hr
      · exact ih s1 (Or.inr hrest) hr
    | stop result s1 =>
      rw [hp] at hr
      dsimp only at hr ⊢
      subst hr
      rcases hs2 with hs2 | ⟨hc, _⟩
      · exact hstep hs2 s1 (Or.inr hp)
      · exact absurd (Preload_element_stop_true env _ _ _ _ hp) hc

/-- C15 (amended): whenever `Preload` returns true after it met an Info or a Tracks
element at level 1 before the first Cluster (or with one of the two positions
already recorded), at least one of the recorded Tracks and Info positions is
`≥ 0`; this for file positions below 2^63 and parsers that do not undo a
recorded position. A segment without these elements is not covered. -/
theorem Preload_recorded (env : Parse_env) (s s' : matroska_segment_c)
    (hk : keeps_recorded env)
    (hfp : ∀ el ∈ s.segment.children, ∀ b, env.getFilePointer el b < 2 ^ 63)
    (hmet : info_or_tracks_recorded s ∨
      ∃ el ∈ s.segment.children.takeWhile (fun e => decide (e.id ≠ EbmlId.KaxCluster)),
        el.id = EbmlId.KaxInfo ∨ el.id = EbmlId.KaxTracks)
    (h : Preload env s = some (true, s')) :
    0 ≤ s'.i_info_position ∨ 0 ≤ s'.i_tracks_position := by
  unfold Preload at h
  split at h
  · simp at h
  · split at h
    · simp at h
    · dsimp only at h
      split at h
      · rename_i hr
        simp only [Option.some.injEq, Prod.mk.injEq, true_and] at h
        rw [← h]
        exact Preload_loop_recorded env hk _ hfp s hmet hr
      · simp at h

theorem sample_parse_env_keeps : keeps_recorded sample_parse_env :=
  fun _ _ hs => ⟨hs, hs, hs, hs, hs, hs⟩

/-- C15: on the small file (Info at 40, Tracks at 80, Cluster at 200) `Preload`
returns true and both positions are recorded. -/
theorem Preload_recorded_witness :
    ∃ s', Preload sample_parse_env (sample_fresh sample_level1) = some (true, s') ∧
      (0 ≤ s'.i_info_position ∨ 0 ≤ s'.i_tracks_position) :=
  ⟨_, rfl,
    Preload_recorded sample_parse_env (sample_fresh sample_level1) _ sample_parse_env_keeps
      (by decide)
      (Or.inr ⟨EbmlElement.mk .KaxInfo 40 [],
        by simp [sample_fresh, sample_level1, List.takeWhile_cons], Or.inl rfl⟩) rfl⟩

/-- C15: on a segment whose level 1 holds only a Cluster, a first `Preload` returns
true and the recorded Tracks and Info positions are both -1. -/
theorem Preload_cluster_only :
    ∃ s', Preload sample_parse_env (sample_fresh [EbmlElement.mk .KaxCluster 200 []]) =
        some (true, s') ∧
      s'.i_info_position = -1 ∧ s'.i_tracks_position = -1 ∧
      ¬ (0 ≤ s'.i_tracks_position ∨ 0 ≤ s'.i_info_position) :=
  ⟨_, rfl, rfl, rfl, by decide⟩

/-- C16: first-seen wins. In `Preload` and in `LoadSeekHeadItem`, when an Info,
Tracks, Cues, Chapters or Attachments element is met while the recorded
position of its class is already `≥ 0` (for Tracks: with the non-empty track
list that goes with a recorded position), no parser is called for it and the
only recorded field of the segment that changes is the position of the class,
which takes the new position: the file position in `Preload` (whose parser has
moved past the element), the position asked for in `LoadSeekHeadItem`. -/
theorem first_seen_wins (env : Parse_env) :
    (∀ (s : matroska_segment_c) (el : EbmlElement) (rest : List EbmlElement),
      (el.id = EbmlId.KaxInfo → 0 ≤ s.i_info_position →
        Preload_loop env (el :: rest) s =
          Preload_loop env rest
            { s with ep := some ⟨[⟨s.segment, rest⟩], some el⟩
                     i_info_position := toInt64 (env.getFilePointer el false) }) ∧
      (el.id = EbmlId.KaxTracks → 0 ≤ s.i_tracks_position → s.tracks ≠ [] →
        Preload_loop env (el :: rest) s =
          Preload_loop env rest
            { s with ep := some ⟨[⟨s.segment, rest⟩], some el⟩
                     i_tracks_position := toInt64 (env.getFilePointer el false) }) ∧
      (el.id = EbmlId.KaxCues → 0 ≤ s.i_cues_position →
        Preload_loop env (el :: rest) s =
          Preload_loop env rest
            { s with ep := some ⟨[⟨s.segment, rest⟩], some el⟩
                     i_cues_position := toInt64 (env.getFilePointer el false) }) ∧
      (el.id = EbmlId.KaxChapters → 0 ≤ s.i_chapters_position →
        Preload_loop env (el :: rest) s =
          Preload_loop env rest
            { s with ep := some ⟨[⟨s.segment, rest⟩], some el⟩
                     i_chapters_position := toInt64 (env.getFilePointer el false) }) ∧
      (el.id = EbmlId.KaxAttachments → 0 ≤ s.i_attachments_position →
        Preload_loop env (el :: rest) s =
          Preload_loop env rest
            { s with ep := some ⟨[⟨s.segment, rest⟩], some el⟩
                     i_attachments_position := toInt64 (env.getFilePointer el false) })) ∧
    (∀ (io : IOCallback) (s : matroska_segment_c) (ClassInfos : Nat)
        (i_element_position : Int) (el : EbmlElement),
      env.FindNextID (io.setFilePointer i_element_position).getFilePointer ClassInfos =
        some el →
      (el.id = EbmlId.KaxInfo → 0 ≤ s.i_info_position →
        LoadSeekHeadItem env io s ClassInfos i_element_position =
          (true,
            (IOCallback.mk (env.getFilePointer el false)).setFilePointer
              (toInt64 io.getFilePointer),
            { s with i_info_position := i_element_position })) ∧
      (el.id = EbmlId.KaxTracks → 0 ≤ s.i_tracks_position → s.tracks ≠ [] →
        LoadSeekHeadItem env io s ClassInfos i_element_position =
          (true,
            (IOCallback.mk (env.getFilePointer el false)).setFilePointer
              (toInt64 io.getFilePointer),
            { s with i_tracks_position := i_element_position })) ∧
      (el.id = EbmlId.KaxCues → 0 ≤ s.i_cues_position →
        LoadSeekHeadItem env io s ClassInfos i_element_position =
          (true,
            (IOCallback.mk (env.getFilePointer el false)).setFilePointer
              (toInt64 io.getFilePointer),
            { s with i_cues_position := i_element_position })) ∧
      (el.id = EbmlId.KaxChapters → 0 ≤ s.i_chapters_position →
        LoadSeekHeadItem env io s ClassInfos i_element_position =
          (true,
            (IOCallback.mk (env.getFilePointer el false)).setFilePointer
              (toInt64 io.getFilePointer),
            { s with i_chapters_position := i_element_position })) ∧
      (el.id = EbmlId.KaxAttachments → 0 ≤ s.i_attachments_position →
        LoadSeekHeadItem env io s ClassInfos i_element_position =
          (true,
            (IOCallback.mk (env.getFilePointer el false)).setFilePointer
              (toInt64 io.getFilePointer),
            { s with i_attachments_position := i_element_position }))) := by
  constructor
  · intro s el rest
    refine ⟨?_, ?_, ?_, ?_, ?_⟩
    · intro hid hpos
      have hn : ¬ s.i_info_position < 0 := by omega
      rw [Preload_loop, Preload_element]
      simp only [hid, hn, if_false]
    · intro hid hpos htk
      have hn : ¬ s.i_tracks_position < 0 := by omega
      have hl : ¬ s.tracks.length = 0 := by
        intro h
        exact htk (List.length_eq_zero.mp h)
      rw [Preload_loop, Preload_element]
      simp only [hid, hn, hl, if_false]
    · intro hid hpos
      have hn : ¬ s.i_cues_position < 0 := by omega
      rw [Preload_loop, Preload_element]
      simp only [hid, hn, if_false]
    · intro hid hpos
      have hn : ¬ s.i_chapters_position < 0 := by omega
      rw [Preload_loop, Preload_element]
      simp only [hid, hn, if_false]
    · intro hid hpos
      have hn : ¬ s.i_attachments_position < 0 := by omega
      rw [Preload_loop, Preload_element]
      simp only [hid, hn, if_false]
  · intro io s ClassInfos i_element_position el hfind
    refine ⟨?_, ?_, ?_, ?_, ?_⟩
    · intro hid hpos
      have hn : ¬ s.i_info_position < 0 := by omega
      unfold LoadSeekHeadItem
      simp [hfind, hid, hn]
    · intro hid hpos htk
      have hn : ¬ s.i_tracks_position < 0 := by omega
      unfold LoadSeekHeadItem
      simp [hfind, hid, hn, htk]
    · intro hid hpos
      have hn : ¬ s.i_cues_position < 0 := by omega
      unfold LoadSeekHeadItem
      simp [hfind, hid, hn]
    · intro hid hpos
      have hn : ¬ s.i_chapters_position < 0 := by omega
      unfold LoadSeekHeadItem
      simp [hfind, hid, hn]
    · intro hid hpos
      have hn : ¬ s.i_attachments_position < 0 := by omega
      unfold LoadSeekHeadItem
      simp [hfind, hid, hn]

/-- C16: with two Info elements at level 1 (at 40 and at 300) the second one only
replaces the recorded position, 52, by 312, and the timescale shows a single
call of `ParseInfo`; `LoadSeekHeadItem` for the Info class at 500, with the
position 52 recorded, only replaces it by 500. -/
theorem first_seen_wins_witness :
    Preload_loop sample_parse_env [EbmlElement.mk .KaxInfo 300 []]
        { sample_fresh [] with i_info_position := 52 } =
      Preload_loop sample_parse_env []
        { sample_fresh [] with
          ep := some ⟨[⟨EbmlElement.mk .KaxSegment 0 [], []⟩],
            some (EbmlElement.mk .KaxInfo 300 [])⟩
          i_info_position := toInt64 (sample_parse_env.getFilePointer
            (EbmlElement.mk .KaxInfo 300 []) false) } ∧
    (Preload_loop sample_parse_env
        [EbmlElement.mk .KaxInfo 40 [], EbmlElement.mk .KaxInfo 300 []]
        (sample_fresh [])).2.i_info_position = 312 ∧
    (Preload_loop sample_parse_env
        [EbmlElement.mk .KaxInfo 40 [], EbmlElement.mk .KaxInfo 300 []]
        (sample_fresh [])).2.i_timescale = 1000001 ∧
    LoadSeekHeadItem sample_parse_env ⟨77⟩ { i_info_position := 52 } 0x1549A966 500 =
      (true, ⟨77⟩, { i_info_position := 500 }) :=
  ⟨((first_seen_wins sample_parse_env).1 { sample_fresh [] with i_info_position := 52 }
      (EbmlElement.mk .KaxInfo 300 []) []).1 rfl (by decide),
   by decide, by decide,
   (((first_seen_wins sample_parse_env).2 ⟨77⟩ { i_info_position := 52 } 0x1549A966 500
      (EbmlElement.mk .KaxInfo 500 []) rfl).1 rfl (by decide)).trans (by
        simp [IOCallback.setFilePointer, IOCallback.getFilePointer, toInt64, toUInt64])⟩

/-- C17: a call for a class that is not found returns false with the stream at its
position 77 again, and a call that finds and parses a Tracks element returns
true with the stream at 77 again. -/
theorem LoadSeekHeadItem_file_position_witness :
    (LoadSeekHeadItem sample_parse_env ⟨77⟩ {} 0 500).1 = false ∧
    (LoadSeekHeadItem sample_parse_env ⟨77⟩ {} 0 500).2.1 = ⟨77⟩ ∧
    (LoadSeekHeadItem sample_parse_env ⟨77⟩ {} 0x1654AE6B 500).1 = true ∧
    (LoadSeekHeadItem sample_parse_env ⟨77⟩ {} 0x1654AE6B 500).2.1 = ⟨77⟩ :=
  ⟨by decide,
   LoadSeekHeadItem_file_position sample_parse_env ⟨77⟩ {} 0 500 (by decide),
   by decide,
   LoadSeekHeadItem_file_position sample_parse_env ⟨77⟩ {} 0x1654AE6B 500 (by decide)⟩

/-! ## Track activation: header branches and unassigned codecs -/

theorem toInt32_of_nonneg (x : Int) (h0 : 0 ≤ x) (h1 : x < 2 ^ 31) : toInt32 x = x := by
  unfold toInt32
  have hm : x % 2 ^ 32 = x := Int.emod_eq_of_lt h0 (by omega)
  rw [hm]
  have ht : (x.toNat : Int) = x := Int.toNat_of_nonneg h0
  have hlt : x.toNat < 2 ^ 31 := by omega
  rw [if_pos hlt, ht]

theorem toInt32_of_neg (x : Int) (h0 : -(2 ^ 31) ≤ x) (h1 : x < 0) : toInt32 x = x := by
  unfold toInt32
  have hm : x % 2 ^ 32 = x + 2 ^ 32 := by omega
  rw [hm]
  have ht : ((x + 2 ^ 32).toNat : Int) = x + 2 ^ 32 := Int.toNat_of_nonneg (by omega)
  have hlt : ¬ (x + 2 ^ 32).toNat < 2 ^ 31 := by omega
  rw [if_neg hlt, ht]
  omega

theorem toInt32_of_large (x : Int) (h0 : 2 ^ 31 ≤ x) (h1 : x < 2 ^ 32) :
    toInt32 x = x - 2 ^ 32 := by
  unfold toInt32
  have hm : x % 2 ^ 32 = x := Int.emod_eq_of_lt (by omega) h1
  rw [hm]
  have ht : (x.toNat : Int) = x := Int.toNat_of_nonneg (by omega)
  have hlt : ¬ x.toNat < 2 ^ 31 := by omega
  rw [if_neg hlt, ht]

theorem GetByte_of_lt (p : List Nat) (off : Nat) (h : off < p.length) :
    ∃ b, GetByte p off = some b ∧ b < 256 := by
  refine ⟨p[off] % 256, ?_, Nat.mod_lt _ (by decide)⟩
  unfold GetByte
  rw [List.get?_eq_getElem?, List.getElem?_eq_getElem h]
  rfl

theorem GetWLE_of_le (p : List Nat) (off : Nat) (h : off + 2 ≤ p.length) :
    ∃ v, GetWLE p off = some v ∧ v < 2 ^ 16 := by
  obtain ⟨b0, h0, hb0⟩ := GetByte_of_lt p off (by omega)
  obtain ⟨b1, h1, hb1⟩ := GetByte_of_lt p (off + 1) (by omega)
  refine ⟨b0 + 256 * b1, ?_, by omega⟩
  unfold GetWLE
  rw [h0, h1]

theorem GetDWLE_of_le (p : List Nat) (off : Nat) (h : off + 4 ≤ p.length) :
    ∃ v, GetDWLE p off = some v ∧ v < 2 ^ 32 := by
  obtain ⟨lo, h0, hlo⟩ := GetWLE_of_le p off (by omega)
  obtain ⟨hi, h1, hhi⟩ := GetWLE_of_le p (off + 2) (by omega)
  refine ⟨lo + 65536 * hi, ?_, by omega⟩
  unfold GetDWLE
  rw [h0, h1]

theorem GetFOURCC_of_le (p : List Nat) (off : Nat) (h : off + 4 ≤ p.length) :
    ∃ c, GetFOURCC p off = some c := by
  obtain ⟨a, ha, _⟩ := GetByte_of_lt p off (by omega)
  obtain ⟨b, hb, _⟩ := GetByte_of_lt p (off + 1) (by omega)
  obtain ⟨c, hc, _⟩ := GetByte_of_lt p (off + 2) (by omega)
  obtain ⟨d, hd, _⟩ := GetByte_of_lt p (off + 3) (by omega)
  refine ⟨VLC_FOURCC (Char.ofNat a) (Char.ofNat b) (Char.ofNat c) (Char.ofNat d), ?_⟩
  unfold GetFOURCC
  rw [ha, hb, hc, hd]

/-- The branch `V_MS/VFW/FOURCC` of `Select` for a track whose codec-private data holds
at least the 40-byte BITMAPINFOHEADER: the dispatch takes the VfW branch; the
codec is the four bytes of biCompression, width and height are the
little-endian biWidth and biHeight and dts-only is true. When
40 < biSize < 2^31 + 40 the extradata is the bytes that follow the header, of
length min(biSize − 40, codec-private length − 40); for every other biSize
the code copies nothing and leaves in `fmt.i_extra` the difference biSize − 40
converted to `int`. -/
theorem Select_vfw_header (env : Select_env) (tk : mkv_track_t)
    (h : 40 ≤ tk.p_extra_data.length) :
    Select_codec env tk "V_MS/VFW/FOURCC".toList = some (true, Select_vfw tk) ∧
    ∃ biSize biWidth biHeight biCompression,
      GetDWLE tk.p_extra_data 0 = some biSize ∧
      GetDWLE tk.p_extra_data 4 = some biWidth ∧
      GetDWLE tk.p_extra_data 8 = some biHeight ∧
      GetFOURCC tk.p_extra_data 16 = some biCompression ∧
      (Select_vfw tk).fmt.i_codec = biCompression ∧
      (Select_vfw tk).fmt.video_i_width = biWidth ∧
      (Select_vfw tk).fmt.video_i_height = biHeight ∧
      (Select_vfw tk).b_dts_only = true ∧
      (40 < biSize → biSize < 2 ^ 31 + 40 →
        (Select_vfw tk).fmt.i_extra =
          ((min (biSize - 40) (tk.p_extra_data.length - 40) : Nat) : Int) ∧
        (Select_vfw tk).fmt.p_extra =
          (tk.p_extra_data.drop 40).take (min (biSize - 40) (tk.p_extra_data.length - 40))) ∧
      (biSize ≤ 40 ∨ 2 ^ 31 + 40 ≤ biSize →
        (Select_vfw tk).fmt.i_extra = toInt32 ((biSize : Int) - 40) ∧
        (Select_vfw tk).fmt.i_extra ≤ 0 ∧
        (Select_vfw tk).fmt.p_extra = tk.fmt.p_extra) := by
  refine ⟨by simp only [Select_codec]; rfl, ?_⟩
  obtain ⟨biSize, hs, hsl⟩ := GetDWLE_of_le tk.p_extra_data 0 (by omega)
  obtain ⟨biWidth, hw, _⟩ := GetDWLE_of_le tk.p_extra_data 4 (by omega)
  obtain ⟨biHeight, hh, _⟩ := GetDWLE_of_le tk.p_extra_data 8 (by omega)
  obtain ⟨biCompression, hc⟩ := GetFOURCC_of_le tk.p_extra_data 16 (by omega)
  have hlen : ¬ tk.p_extra_data.length < sizeof_VLC_BITMAPINFOHEADER := by
    unfold sizeof_VLC_BITMAPINFOHEADER
    omega
  refine ⟨biSize, biWidth, biHeight, biCompression, hs, hw, hh, hc, ?_, ?_, ?_, rfl, ?_, ?_⟩
  · unfold Select_vfw
    simp only [hlen, if_false, hs, hw, hh, hc]
    split <;> rfl
  · unfold Select_vfw
    simp only [hlen, if_false, hs, hw, hh, hc]
    split <;> rfl
  · unfold Select_vfw
    simp only [hlen, if_false, hs, hw, hh, hc]
    split <;> rfl
  · intro h1 h2
    have he : toInt32 ((biSize : Int) - sizeof_VLC_BITMAPINFOHEADER) =
        ((biSize - 40 : Nat) : Int) := by
      unfold sizeof_VLC_BITMAPINFOHEADER
      rw [toInt32_of_nonneg _ (by omega) (by omega)]
      omega
    have hpos : ((biSize - 40 : Nat) : Int) > 0 := by omega
    unfold Select_vfw
    simp only [hlen, if_false, hs, hw, hh, hc, he, hpos, if_true, Int.toNat_ofNat]
    unfold sizeof_VLC_BITMAPINFOHEADER
    by_cases hlt : biSize - 40 < tk.p_extra_data.length - 40
    · simp only [hlt, if_true, Int.toNat_ofNat]
      rw [Nat.min_eq_left (by omega)]
      exact ⟨rfl, rfl⟩
    · have e2 : toInt32 ((tk.p_extra_data.length - 40 : Nat) : Int) =
          ((tk.p_extra_data.length - 40 : Nat) : Int) :=
        toInt32_of_nonneg _ (by omega) (by omega)
      simp only [hlt, if_false, e2, Int.toNat_ofNat]
      rw [Nat.min_eq_right (by omega)]
      exact ⟨rfl, rfl⟩
  · intro h1
    have hle : toInt32 ((biSize : Int) - sizeof_VLC_BITMAPINFOHEADER) ≤ 0 := by
      unfold sizeof_VLC_BITMAPINFOHEADER
      rcases h1 with h1 | h1
      · rcases Nat.eq_or_lt_of_le h1 with h1 | h1
        · subst h1
          decide
        · rw [toInt32_of_neg _ (by omega) (by omega)]
          omega
      · rw [toInt32_of_large _ (by omega) (by omega)]
        omega
    have hnp : ¬ toInt32 ((biSize : Int) - sizeof_VLC_BITMAPINFOHEADER) > 0 := by omega
    unfold Select_vfw
    simp only [hlen, if_false, hs, hw, hh, hc, hnp]
    exact ⟨rfl, hle, trivial⟩

/-- The scenario of the spec for the VfW branch: biCompression "XVID", 1280x720 and
biSize = 40 give the codec "XVID", width 1280, height 720, dts-only and an
extradata of length 0. -/
theorem Select_vfw_header_witness :
    Select_codec sample_select_env (sample_vfw_track (sample_bih 40))
        "V_MS/VFW/FOURCC".toList =
      some (true, Select_vfw (sample_vfw_track (sample_bih 40))) ∧
    (Select_vfw (sample_vfw_track (sample_bih 40))).fmt.i_codec = "XVID".toList ∧
    (Select_vfw (sample_vfw_track (sample_bih 40))).fmt.video_i_width = 1280 ∧
    (Select_vfw (sample_vfw_track (sample_bih 40))).fmt.video_i_height = 720 ∧
    (Select_vfw (sample_vfw_track (sample_bih 40))).b_dts_only = true ∧
    (Select_vfw (sample_vfw_track (sample_bih 40))).fmt.i_extra = 0 ∧
    (Select_vfw (sample_vfw_track (sample_bih 40))).fmt.p_extra = [] :=
  ⟨(Select_vfw_header sample_select_env (sample_vfw_track (sample_bih 40)) (by decide)).1,
   by decide, by decide, by decide, by decide, by decide, by decide⟩

/-- C11: a header with biSize = 0xFFFFFFFF followed by 4 bytes: the length
min(biSize − 40, codec-private length − 40) is 4, but the branch, and the
dispatch of `Select` with it, copies no extradata and leaves `fmt.i_extra` at
-41; with biSize = 0 it is -40. With biSize = 44 the 4 bytes are the
extradata. -/
theorem Select_vfw_large_biSize :
    GetDWLE (sample_bih 0xFFFFFFFF ++ [1, 2, 3, 4]) 0 = some 0xFFFFFFFF ∧
    (sample_bih 0xFFFFFFFF ++ [1, 2, 3, 4]).length = 44 ∧
    min (0xFFFFFFFF - 40) ((sample_bih 0xFFFFFFFF ++ [1, 2, 3, 4]).length - 40) = 4 ∧
    (Select_vfw (sample_vfw_track (sample_bih 0xFFFFFFFF ++ [1, 2, 3, 4]))).fmt.i_extra = -41 ∧
    (Select_vfw (sample_vfw_track (sample_bih 0xFFFFFFFF ++ [1, 2, 3, 4]))).fmt.p_extra = [] ∧
    (Select_vfw (sample_vfw_track (sample_bih 0 ++ [1, 2, 3, 4]))).fmt.i_extra = -40 ∧
    (Select_codec sample_select_env (sample_vfw_track (sample_bih 0xFFFFFFFF ++ [1, 2, 3, 4]))
      "V_MS/VFW/FOURCC".toList).map (fun r => (r.2.fmt.i_extra, r.2.fmt.p_extra)) =
      some (-41, []) ∧
    (Select_codec sample_select_env (sample_vfw_track (sample_bih 44 ++ [1, 2, 3, 4]))
      "V_MS/VFW/FOURCC".toList).map (fun r => (r.2.fmt.i_extra, r.2.fmt.p_extra)) =
      some (4, [1, 2, 3, 4]) :=
  ⟨by decide, by decide, by decide, by decide, by decide, by decide, by decide, by decide⟩

/-- C12: tracks whose codec-private data is shorter than the header of their codec.
With 3 bytes a `V_MS/VFW/FOURCC` track and an `A_MS/ACM` track get the codec
"undf". An `A_REAL/COOK`, `A_REAL/ATRC` or `A_REAL/28_8` track with 10 bytes
(".ra" and 7 zero bytes) keeps the codec it had, here the empty one, and is
handed to the ES output with it; and with 29 bytes that start with ".ra" the
fields of the RealAudio header at the offsets 40 to 45 are read outside the
data. -/
theorem Select_short_private_data :
    sample_activation (sample_codec_track .VIDEO_ES "V_MS/VFW/FOURCC" [1, 2, 3]) =
      some (undf, some 1, some undf) ∧
    sample_activation (sample_codec_track .AUDIO_ES "A_MS/ACM" [1, 2, 3]) =
      some (undf, some 1, some undf) ∧
    sample_activation (sample_codec_track .AUDIO_ES "A_REAL/COOK" (sample_ra 7)) =
      some ([], some 1, some []) ∧
    sample_activation (sample_codec_track .AUDIO_ES "A_REAL/ATRC" (sample_ra 7)) =
      some ([], some 1, some []) ∧
    sample_activation (sample_codec_track .AUDIO_ES "A_REAL/28_8" (sample_ra 7)) =
      some ([], some 1, some []) ∧
    ([] : vlc_fourcc_t) ≠ undf ∧
    Select_track sample_select_env ⟨false, false, []⟩
        (sample_codec_track .AUDIO_ES "A_REAL/COOK" (sample_ra 26)) = none := by
  refine ⟨by decide, by decide, by decide, by decide, by decide, by decide, by decide⟩

/-- C13: a video track with the codec ID "V_REAL/RV50" (or "V_MPEG4/XYZ") takes the
branch of its prefix, which assigns no codec: the track is handed to the ES
output with the codec it had, here the empty one, not with "undf"; the codec
ID "V_FOO", which matches no branch, gives "undf". -/
theorem Select_unassigned_codec :
    Select_case "V_REAL/RV50".toList = codec_case.V_REAL_RV ∧
    Select_case "V_MPEG4/XYZ".toList = codec_case.V_MPEG4 ∧
    sample_activation (sample_codec_track .VIDEO_ES "V_REAL/RV50" []) =
      some ([], some 1, some []) ∧
    sample_activation (sample_codec_track .VIDEO_ES "V_MPEG4/XYZ" []) =
      some ([], some 1, some []) ∧
    ([] : vlc_fourcc_t) ≠ undf ∧
    sample_activation (sample_codec_track .VIDEO_ES "V_FOO" []) =
      some (undf, some 1, some undf) ∧
    ((Select sample_select_env
        { tracks := [sample_codec_track .VIDEO_ES "V_REAL/RV50" []] } 0).map fun s =>
      s.tracks.map fun tk => (tk.fmt.i_codec, tk.p_es)) = some [([], some 1)] := by
  refine ⟨by decide, by decide, by decide, by decide, by decide, by decide, by decide⟩

/-! ## Seek: the paths without a keyframe search -/

theorem Seek_start_sys (env : Seek_env) (s : matroska_segment_c) (i_global_position : Int) :
    (Seek_start env s i_global_position).sys = s.sys := by
  unfold Seek_start
  dsimp only
  split
  · exact (Seek_no_cues_tracks _ _ _ _).2
  · rfl

/-- C22: if no track of the segment is a video, an audio or a subtitle track, `Seek`
with a target other than (0, 0) returns, for every fuel (so with no block
read), the segment as the beginning of `Seek` and the index lookup leave it,
with `ES_OUT_SET_PCR` and `ES_OUT_SET_NEXT_DISPLAY_TIME` of the target date as
the two queries sent; the clocks `i_pts` and `i_pcr` are not changed. -/
theorem Seek_no_track (env : Seek_env) (fuel : Nat) (s : matroska_segment_c)
    (i_date i_time_offset i_global_position : Int)
    (h : ∀ tk ∈ s.tracks, tk.fmt.i_cat ≠ es_category.VIDEO_ES ∧
      tk.fmt.i_cat ≠ es_category.AUDIO_ES ∧ tk.fmt.i_cat ≠ es_category.SPU_ES)
    (hne : ¬ (i_date = 0 ∧ i_time_offset = 0)) :
    ∃ s', Seek env fuel s i_date i_time_offset i_global_position = some s' ∧
      Seek env 0 s i_date i_time_offset i_global_position = some s' ∧
      s'.sys.out = s.sys.out ++
        [es_out_query.ES_OUT_SET_PCR i_date,
         es_out_query.ES_OUT_SET_NEXT_DISPLAY_TIME i_date] ∧
      s'.sys.i_pts = s.sys.i_pts ∧ s'.sys.i_pcr = s.sys.i_pcr ∧
      s'.sys.i_start_pts = i_date ∧ s'.cluster = none ∧
      s'.p_indexes = (Seek_start env s i_global_position).p_indexes := by
  have hcats : ∀ tk ∈ (Seek_start env s i_global_position).tracks,
      tk.fmt.i_cat ≠ es_category.VIDEO_ES ∧ tk.fmt.i_cat ≠ es_category.AUDIO_ES := by
    rw [Seek_start_tracks]
    intro tk htk
    obtain ⟨tk0, htk0, rfl⟩ := List.mem_map.mp htk
    exact ⟨(h tk0 htk0).1, (h tk0 htk0).2.1⟩
  have hp : (Seek_begin_search (Seek_start env s i_global_position) i_date
      i_time_offset).2.2.points = [] := by
    unfold Seek_begin_search
    dsimp only
    rw [Seek_points_none _ _ _ hcats]
  have hsys := Seek_start_sys env s i_global_position
  have hrun : ∀ n, Seek env n s i_date i_time_offset i_global_position =
      some { (Seek_begin_search (Seek_start env s i_global_position) i_date i_time_offset).1 with
        sys := { (Seek_begin_search (Seek_start env s i_global_position) i_date
            i_time_offset).1.sys with
          out := (Seek_begin_search (Seek_start env s i_global_position) i_date
              i_time_offset).1.sys.out ++
            [es_out_query.ES_OUT_SET_PCR i_date,
             es_out_query.ES_OUT_SET_NEXT_DISPLAY_TIME i_date] } } := by
    intro n
    unfold Seek
    simp only [hne, if_false, hp, if_true]
  refine ⟨_, hrun fuel, hrun 0, ?_, ?_, ?_, rfl, rfl, rfl⟩
  · unfold Seek_begin_search
    simp only [hsys]
  · unfold Seek_begin_search
    simp only [hsys]
  · unfold Seek_begin_search
    simp only [hsys]

/-- C22: a segment whose only track is a navigation track: `Seek` to the date 1000
publishes 1000 twice and reads nothing. -/
theorem Seek_no_track_witness :
    ∃ s', Seek sample_env 0 { tracks := [sample_nav_track 1] } 1000 0 (-1) = some s' ∧
      s'.sys.out =
        [es_out_query.ES_OUT_SET_PCR 1000, es_out_query.ES_OUT_SET_NEXT_DISPLAY_TIME 1000] := by
  obtain ⟨s', h1, _, h3, _⟩ := Seek_no_track sample_env 0 { tracks := [sample_nav_track 1] }
    1000 0 (-1) (by decide) (by decide)
  exact ⟨s', h1, h3⟩

/-- C23 (amended): the call `Seek( 0, 0, -1 )` returns for every fuel, so with no block
read: it sends `ES_OUT_SET_PCR` with the constant `VLC_TS_0`, whatever its value, and
`ES_OUT_SET_NEXT_DISPLAY_TIME` with 0, puts the parser at `i_start_pos`, clears
the current cluster, sets `i_pts`, `i_pcr` and `i_start_pts` to 0 and leaves the
index as it is. -/
theorem Seek_zero (env : Seek_env) (fuel : Nat) (s : matroska_segment_c) :
    ∃ s', Seek env fuel s 0 0 (-1) = some s' ∧
      Seek env 0 s 0 0 (-1) = some s' ∧
      s'.sys.out = s.sys.out ++
        [es_out_query.ES_OUT_SET_PCR env.VLC_TS_0,
         es_out_query.ES_OUT_SET_NEXT_DISPLAY_TIME 0] ∧
      s'.ep = some (parser_at s s.i_start_pos) ∧
      s'.cluster = none ∧
      s'.sys.i_pts = 0 ∧ s'.sys.i_pcr = 0 ∧ s'.sys.i_start_pts = 0 ∧
      s'.p_indexes = s.p_indexes ∧ s'.i_index_max = s.i_index_max ∧
      s'.i_start_pos = s.i_start_pos := by
  have hstart : Seek_start env s (-1) =
      { s with tracks := s.tracks.map fun tk => { tk with i_last_dts := env.VLC_TS_INVALID } } := by
    unfold Seek_start
    simp
  have hrun : ∀ n, Seek env n s 0 0 (-1) = some (Seek_rewind env (Seek_start env s (-1))) := by
    intro n
    unfold Seek
    simp
  refine ⟨_, hrun fuel, hrun 0, ?_⟩
  rw [hstart]
  exact ⟨rfl, rfl, rfl, rfl, rfl, rfl, rfl, rfl, rfl⟩

/-- C23: with `VLC_TS_0 = 1` the call `Seek( 0, 0, -1 )` on the segment with two
clusters sends `ES_OUT_SET_PCR 1`, clears the cluster and keeps the two slots. -/
theorem Seek_zero_witness :
    ∃ s', Seek sample_env 0 (sample_two_clusters true) 0 0 (-1) = some s' ∧
      s'.sys.out =
        [es_out_query.ES_OUT_SET_PCR 1, es_out_query.ES_OUT_SET_NEXT_DISPLAY_TIME 0] ∧
      s'.cluster = none ∧ s'.p_indexes = (sample_two_clusters true).p_indexes := by
  obtain ⟨s', h1, _, h3, _, h5, _, _, _, h9, _⟩ :=
    Seek_zero sample_env 0 (sample_two_clusters true)
  exact ⟨s', h1, h3, h5, h9⟩

/-- C23, as stated, fails: with `VLC_TS_0 = 1` the PCR that `Seek( 0, 0, -1 )` sends is
1, not 0, while `sys.i_pcr`, `sys.i_pts` and `sys.i_start_pts` are 0. -/
theorem Seek_zero_pcr_one :
    sample_env.VLC_TS_0 = 1 ∧
    (Seek sample_env 0 (sample_two_clusters true) 0 0 (-1)).map
      (fun s => (s.sys.out, s.sys.i_pcr, s.sys.i_pts, s.sys.i_start_pts)) =
      some ([es_out_query.ES_OUT_SET_PCR 1, es_out_query.ES_OUT_SET_NEXT_DISPLAY_TIME 0],
        0, 0, 0) := by
  decide

/-- C21: `Seek` to 1.5 s in a segment whose cluster at 1 s has no keyframe: the search
steps back to the slot of the first cluster, finds the keyframe at 0 s, and
`ES_OUT_SET_NEXT_DISPLAY_TIME` is sent with 1000000, the time of the slot it
stepped back from, not with the target 1500000; when the blocks of the second
cluster are keyframes the search does not step back and the target is sent. -/
theorem Seek_step_back_next_display_time :
    (Seek sample_env 20 (sample_two_clusters false) 1500000 0 (-1)).map
        (fun s => s.sys.out) =
      some [es_out_query.ES_OUT_SET_PCR 1, es_out_query.ES_OUT_SET_NEXT_DISPLAY_TIME 1000000] ∧
    (Seek sample_env 20 (sample_two_clusters true) 1500000 0 (-1)).map
        (fun s => s.sys.out) =
      some [es_out_query.ES_OUT_SET_PCR 1600001,
        es_out_query.ES_OUT_SET_NEXT_DISPLAY_TIME 1500000] := by
  decide

/-! ## The index: second Cues, capacity, synthetic slots -/

theorem foldl_LoadCues_child_no_point (data_offset : Nat) (els : List EbmlElement) :
    ∀ s : matroska_segment_c,
      (els.filter fun el => decide (el.id = EbmlId.KaxCuePoint)).length = 0 →
      els.foldl (LoadCues_child data_offset) s = s := by
  induction els with
  | nil => intro s _; rfl
  | cons el els ih =>
    intro s h
    rw [List.foldl_cons]
    by_cases hid : el.id = EbmlId.KaxCuePoint
    · simp [List.filter_cons, hid] at h
    · have h' : (els.filter fun el => decide (el.id = EbmlId.KaxCuePoint)).length = 0 := by
        simpa [List.filter_cons, hid] using h
      have hs : LoadCues_child data_offset s el = s := by
        unfold LoadCues_child
        split
        · rename_i heq
          exact absurd heq hid
        · rfl
      rw [hs]
      exact ih s h'

/-- C24: when `b_cues` is already true `LoadCues` returns the segment as it is (the
index, its count and `b_cues` included); and when `b_cues` is false and the
Cues element has no CuePoint child, the only change is `b_cues = true`. -/
theorem LoadCues_second (data_offset : Nat) (s : matroska_segment_c) (cues : EbmlElement) :
    (s.b_cues = true → LoadCues data_offset s cues = s) ∧
    (s.b_cues = false → count_cue_points cues = 0 →
      LoadCues data_offset s cues = { s with b_cues := true }) := by
  constructor
  · intro h
    unfold LoadCues
    simp [h]
  · intro h h0
    unfold LoadCues
    simp only [h, Bool.false_eq_true, if_false]
    rw [foldl_LoadCues_child_no_point data_offset cues.children s h0]

/-- C24: a segment with two cues and `b_cues` set keeps them when a Cues element
with a CuePoint is loaded; an empty Cues element loaded into a segment with
`b_cues` false only sets the flag. -/
theorem LoadCues_second_witness :
    LoadCues 0 { sample_indexed [10, 20] with b_cues := true }
        (EbmlElement.mk EbmlId.KaxCues 50 [sample_cue_point 5 [700]]) =
      { sample_indexed [10, 20] with b_cues := true } ∧
    LoadCues 0 (sample_indexed [10, 20]) (EbmlElement.mk EbmlId.KaxCues 50 []) =
      { sample_indexed [10, 20] with b_cues := true } :=
  ⟨(LoadCues_second 0 { sample_indexed [10, 20] with b_cues := true }
      (EbmlElement.mk EbmlId.KaxCues 50 [sample_cue_point 5 [700]])).1 rfl,
   (LoadCues_second 0 (sample_indexed [10, 20]) (EbmlElement.mk EbmlId.KaxCues 50 [])).2
      rfl rfl⟩

theorem LoadCues_child_capacity (data_offset : Nat) (s : matroska_segment_c) (el : EbmlElement)
    (h : s.p_indexes.length < s.i_index_max) :
    (LoadCues_child data_offset s el).p_indexes.length <
        (LoadCues_child data_offset s el).i_index_max ∧
      s.p_indexes <+: (LoadCues_child data_offset s el).p_indexes ∧
      s.i_index_max ≤ (LoadCues_child data_offset s el).i_index_max := by
  unfold LoadCues_child
  split
  · dsimp only
    refine ⟨?_, List.prefix_append _ _, ?_⟩
    · rw [List.length_append, List.length_singleton]
      split <;> omega
    · split <;> omega
  · exact ⟨h, List.prefix_refl _, Nat.le_refl _⟩

theorem foldl_LoadCues_child_capacity (data_offset : Nat) (els : List EbmlElement) :
    ∀ s : matroska_segment_c, s.p_indexes.length < s.i_index_max →
      (els.foldl (LoadCues_child data_offset) s).p_indexes.length <
          (els.foldl (LoadCues_child data_offset) s).i_index_max ∧
        s.p_indexes <+: (els.foldl (LoadCues_child data_offset) s).p_indexes ∧
        s.i_index_max ≤ (els.foldl (LoadCues_child data_offset) s).i_index_max := by
  induction els with
  | nil => intro s h; exact ⟨h, List.prefix_refl _, Nat.le_refl _⟩
  | cons el els ih =>
    intro s h
    rw [List.foldl_cons]
    have h1 := LoadCues_child_capacity data_offset s el h
    have h2 := ih _ h1.1
    exact ⟨h2.1, h1.2.1.trans h2.2.1, Nat.le_trans h1.2.2 h2.2.2⟩

/-- C25: a new segment has count 0 and capacity 1024; and from a segment whose
count is below its capacity, an append by `IndexAppendCluster` or by `LoadCues`
for one CuePoint adds one slot behind the slots already stored, which stay as
they are, raises the capacity by exactly 1024 when the new count reaches it and
leaves it otherwise, and the count is again below the capacity; the same holds
after a whole `LoadCues`, so the slot `p_indexes[i_index]` that the next append
writes lies within the capacity. -/
theorem index_capacity (s : matroska_segment_c) (h : s.i_index < s.i_index_max) :
    (({} : matroska_segment_c).i_index = 0 ∧ ({} : matroska_segment_c).i_index_max = 1024) ∧
    (∀ cluster : KaxCluster,
      (IndexAppendCluster s cluster).i_index = s.i_index + 1 ∧
      (IndexAppendCluster s cluster).i_index < (IndexAppendCluster s cluster).i_index_max ∧
      (IndexAppendCluster s cluster).p_indexes.take s.i_index = s.p_indexes ∧
      (IndexAppendCluster s cluster).i_index_max =
        (if s.i_index + 1 = s.i_index_max then s.i_index_max + 1024 else s.i_index_max)) ∧
    (∀ (data_offset : Nat) (el : EbmlElement), el.id = EbmlId.KaxCuePoint →
      (LoadCues_child data_offset s el).i_index = s.i_index + 1 ∧
      (LoadCues_child data_offset s el).i_index < (LoadCues_child data_offset s el).i_index_max ∧
      (LoadCues_child data_offset s el).p_indexes.take s.i_index = s.p_indexes ∧
      (LoadCues_child data_offset s el).i_index_max =
        (if s.i_index + 1 = s.i_index_max then s.i_index_max + 1024 else s.i_index_max)) ∧
    (∀ (data_offset : Nat) (cues : EbmlElement),
      (LoadCues data_offset s cues).i_index < (LoadCues data_offset s cues).i_index_max ∧
      (LoadCues data_offset s cues).p_indexes.take s.i_index = s.p_indexes ∧
      s.i_index_max ≤ (LoadCues data_offset s cues).i_index_max) := by
  unfold matroska_segment_c.i_index at h ⊢
  refine ⟨⟨rfl, rfl⟩, ?_, ?_, ?_⟩
  · intro cluster
    unfold IndexAppendCluster
    dsimp only
    refine ⟨by simp, ?_, by simp, ?_⟩
    · rw [List.length_append, List.length_singleton]
      split <;> omega
    · by_cases he : s.p_indexes.length + 1 = s.i_index_max
      · simp [he]
      · have hlt : ¬ s.p_indexes.length + 1 ≥ s.i_index_max := by omega
        simp [he, hlt]
  · intro data_offset el hid
    unfold LoadCues_child
    simp only [hid]
    refine ⟨by simp, ?_, by simp, ?_⟩
    · rw [List.length_append, List.length_singleton]
      split <;> omega
    · by_cases he : s.p_indexes.length + 1 = s.i_index_max
      · simp [he]
      · have hlt : ¬ s.p_indexes.length + 1 ≥ s.i_index_max := by omega
        simp [he, hlt]
  · intro data_offset cues
    unfold LoadCues
    split
    · exact ⟨h, List.take_length _, Nat.le_refl _⟩
    · have hf := foldl_LoadCues_child_capacity data_offset cues.children s h
      refine ⟨hf.1, ?_, hf.2.2⟩
      exact (List.prefix_iff_eq_take.mp hf.2.1).symm

/-- C25: a segment with 1023 slots and the capacity 1024 of a new segment: the
append of a cluster stores the slot 1023, the count becomes 1024 and the
capacity 2048. -/
theorem index_capacity_witness :
    (IndexAppendCluster { p_indexes := List.replicate 1023 (sample_slot 0 0) }
        { ElementPosition := 5000 }).i_index = 1024 ∧
      (IndexAppendCluster { p_indexes := List.replicate 1023 (sample_slot 0 0) }
        { ElementPosition := 5000 }).i_index_max = 2048 := by
  have hlen : (List.replicate 1023 (sample_slot 0 0)).length = 1023 := List.length_replicate _ _
  have h := (index_capacity { p_indexes := List.replicate 1023 (sample_slot 0 0) }
    (by
      show (List.replicate 1023 (sample_slot 0 0)).length < 1024
      rw [hlen]
      decide)).2.1 { ElementPosition := 5000 }
  refine ⟨?_, ?_⟩
  · rw [h.1]
    show (List.replicate 1023 (sample_slot 0 0)).length + 1 = 1024
    rw [hlen]
  · rw [h.2.2.2]
    show (if (List.replicate 1023 (sample_slot 0 0)).length + 1 = 1024 then 1024 + 1024
      else 1024) = 2048
    rw [hlen]
    rfl

/-- C26: a pass of `BlockGet` whose parser stands in the current cluster, before a
ClusterTimecode: the pass goes on to the next one, and the index gets one slot
more, with the position of the cluster, track -1, block number -1 and the
keyframe flag set, exactly when the index is empty or the position of its last
slot is below the position of the cluster (as `int64_t`, the position itself
below 2^63); otherwise the index is not changed. -/
theorem BlockGet_cluster_timecode (s : matroska_segment_c) (v : BlockGet_vars) (c : KaxCluster)
    (clu seg : EbmlElement) (r1 r2 cs : List EbmlElement) (pos ctc : Nat)
    (got : Option EbmlElement)
    (hep : s.ep = some ⟨[⟨clu, EbmlElement.mk (.KaxClusterTimecode ctc) pos cs :: r2⟩,
      ⟨seg, r1⟩], got⟩)
    (hclu : clu.id = EbmlId.KaxCluster ∧ clu.GetElementPosition = c.ElementPosition)
    (hc : s.cluster = some c) (hsb : v.pp_simpleblock = none) :
    ∃ s', BlockGet_body s v = .again s' v ∧
      ((s.p_indexes = [] ∨
          ∃ last, s.p_indexes.getLast? = some last ∧
            last.i_position < toInt64 c.ElementPosition) →
        s'.p_indexes = s.p_indexes ++
            [{ i_track := -1, i_block_number := -1, i_position := toInt64 c.ElementPosition,
               i_time := toInt64 ((ctc * s.i_timescale) % 2 ^ 64 / 1000), b_key := true }] ∧
          s'.i_index = s.i_index + 1) ∧
      (¬ (s.p_indexes = [] ∨
          ∃ last, s.p_indexes.getLast? = some last ∧
            last.i_position < toInt64 c.ElementPosition) →
        s'.p_indexes = s.p_indexes) ∧
      (c.ElementPosition < 2 ^ 63 → toInt64 c.ElementPosition = c.ElementPosition) := by
  have hacc : index_accepts s.p_indexes
      { c with GlobalTimecode := (ctc * s.i_timescale) % 2 ^ 64 } = true ↔
      (s.p_indexes = [] ∨ ∃ last, s.p_indexes.getLast? = some last ∧
        last.i_position < toInt64 c.ElementPosition) := by
    unfold index_accepts
    cases hl : s.p_indexes.getLast? with
    | none => simp [List.getLast?_eq_none_iff.mp hl]
    | some last =>
      have hne : s.p_indexes ≠ [] := by
        intro h0
        rw [h0] at hl
        simp at hl
      simp [hne]
  have hbody : BlockGet_body s v =
      .again
        (if index_accepts s.p_indexes
            { c with GlobalTimecode := (ctc * s.i_timescale) % 2 ^ 64 } then
          IndexAppendCluster
            { s with
              cluster := some { c with GlobalTimecode := (ctc * s.i_timescale) % 2 ^ 64 }
              ep := some ⟨[⟨clu, r2⟩, ⟨seg, r1⟩],
                some (EbmlElement.mk (.KaxClusterTimecode ctc) pos cs)⟩ }
            { c with GlobalTimecode := (ctc * s.i_timescale) % 2 ^ 64 }
        else
          { s with
            cluster := some { c with GlobalTimecode := (ctc * s.i_timescale) % 2 ^ 64 }
            ep := some ⟨[⟨clu, r2⟩, ⟨seg, r1⟩],
              some (EbmlElement.mk (.KaxClusterTimecode ctc) pos cs)⟩ }) v := by
    cases s
    simp only at hep hc
    subst hep hc
    simp [BlockGet_body, hsb, EbmlParser.Get, BlockGet_parse, EbmlParser.GetLevel,
      EbmlParser.IsTopPresent, hclu, BlockGet_level2]
  refine ⟨_, hbody, ?_, ?_, fun h => toInt64_of_lt _ h⟩
  · intro h
    rw [if_pos (hacc.mpr h)]
    unfold IndexAppendCluster matroska_segment_c.i_index
    simp
  · intro h
    have : ¬ index_accepts s.p_indexes
        { c with GlobalTimecode := (ctc * s.i_timescale) % 2 ^ 64 } = true := fun h' => h (hacc.mp h')
    rw [if_neg this]

/-- C26: a segment with an empty index whose parser stands in the cluster at
position 100 before a ClusterTimecode of 5 ticks: the pass appends the slot of
position 100 and time 5000; the same pass with a last slot at position 1000
appends nothing. -/
theorem BlockGet_cluster_timecode_witness :
    (∃ s', BlockGet_body
        (sample_segment (sample_track VLC_CODEC_MPGV)
          [EbmlElement.mk (.KaxClusterTimecode 5) 110 []]) {} = .again s' {} ∧
      s'.p_indexes =
        [{ i_track := -1, i_block_number := -1, i_position := 100, i_time := 5000,
           b_key := true }]) ∧
    (∃ s', BlockGet_body
        { sample_segment (sample_track VLC_CODEC_MPGV)
            [EbmlElement.mk (.KaxClusterTimecode 5) 110 []] with
          p_indexes := [sample_slot 0 1000] } {} = .again s' {} ∧
      s'.p_indexes = [sample_slot 0 1000]) := by
  constructor
  · obtain ⟨s', h1, h2, _, _⟩ := BlockGet_cluster_timecode
      (sample_segment (sample_track VLC_CODEC_MPGV)
        [EbmlElement.mk (.KaxClusterTimecode 5) 110 []]) {} { ElementPosition := 100 }
      (sample_cluster [EbmlElement.mk (.KaxClusterTimecode 5) 110 []])
      (EbmlElement.mk EbmlId.KaxSegment 0
        [sample_cluster [EbmlElement.mk (.KaxClusterTimecode 5) 110 []]])
      [] [] [] 110 5 none rfl ⟨rfl, rfl⟩ rfl rfl
    refine ⟨s', h1, ?_⟩
    rw [(h2 (Or.inl rfl)).1]
    decide
  · obtain ⟨s', h1, _, h3, _⟩ := BlockGet_cluster_timecode
      { sample_segment (sample_track VLC_CODEC_MPGV)
          [EbmlElement.mk (.KaxClusterTimecode 5) 110 []] with
        p_indexes := [sample_slot 0 1000] } {} { ElementPosition := 100 }
      (sample_cluster [EbmlElement.mk (.KaxClusterTimecode 5) 110 []])
      (EbmlElement.mk EbmlId.KaxSegment 0
        [sample_cluster [EbmlElement.mk (.KaxClusterTimecode 5) 110 []]])
      [] [] [] 110 5 none rfl ⟨rfl, rfl⟩ rfl rfl
    refine ⟨s', h1, ?_⟩
    rw [h3 (by decide)]

/-! ## Select: the TTA extradata, the priority and the default flags -/

/-- C30: the codec ID "A_TTA1" takes the TTA branch of `Select`, which sets the codec
TTA; for a track with no codec-private data the extradata is the 30 bytes
"TTA1", 1, the channel count, the bits per sample (16-bit little-endian each),
the sample rate and 0xFFFFFFFF (32-bit little-endian each) and 12 zero bytes;
for a track with codec-private data (of less than 2^31 bytes) the extradata is
that data. -/
theorem Select_tta_extradata (env : Select_env) (tk : mkv_track_t) :
    Select_codec env tk "A_TTA1".toList = some (true, Select_tta tk) ∧
    (Select_tta tk).fmt.i_codec = VLC_CODEC_TTA ∧
    (tk.p_extra_data.length = 0 →
      (Select_tta tk).fmt.p_extra =
        [0x54, 0x54, 0x41, 0x31, 1, 0,
         tk.fmt.audio_i_channels % 256, tk.fmt.audio_i_channels / 256 % 256,
         tk.fmt.audio_i_bitspersample % 256, tk.fmt.audio_i_bitspersample / 256 % 256,
         tk.fmt.audio_i_rate % 256, tk.fmt.audio_i_rate / 256 % 256,
         tk.fmt.audio_i_rate / 65536 % 256, tk.fmt.audio_i_rate / 16777216 % 256,
         0xff, 0xff, 0xff, 0xff,
         0, 0, 0, 0, 0, 0, 0, 0, 0, 0, 0, 0] ∧
      (Select_tta tk).fmt.p_extra.length = 30 ∧
      (Select_tta tk).fmt.i_extra = 30) ∧
    (0 < tk.p_extra_data.length → tk.p_extra_data.length < 2 ^ 31 →
      (Select_tta tk).fmt.p_extra = tk.p_extra_data ∧
      (Select_tta tk).fmt.i_extra = tk.p_extra_data.length) := by
  refine ⟨?_, ?_, ?_, ?_⟩
  · have hc : Select_case "A_TTA1".toList = codec_case.A_TTA1 := by decide
    unfold Select_codec
    simp only [hc]
  · unfold Select_tta fill_extra_data
    dsimp only
    split
    · split <;> rfl
    · rfl
  · intro h0
    have hn : ¬ tk.p_extra_data.length > 0 := by omega
    unfold Select_tta
    simp only [hn, if_false]
    refine ⟨?_, ?_, trivial⟩
    · simp [List.replicate]
    · simp
  · intro h0 hlt
    have h32 : toInt32 ((tk.p_extra_data.length - 0 : Nat) : Int) = tk.p_extra_data.length := by
      rw [Nat.sub_zero]
      exact toInt32_of_nonneg _ (by omega) (by exact_mod_cast hlt)
    have hn : ¬ tk.p_extra_data.length ≤ 0 := by omega
    unfold Select_tta fill_extra_data
    simp only [gt_iff_lt, h0, if_true, hn, if_false, h32]
    simp

/-- C30: a stereo 16-bit TTA track of 44100 Hz without codec-private data gets the
30-byte header with the rate bytes 0x44, 0xAC, 0, 0; with the codec-private
data 1, 2, 3 the extradata is 1, 2, 3. -/
theorem Select_tta_extradata_witness :
    (Select_tta (sample_tta_track [])).fmt.p_extra =
      [0x54, 0x54, 0x41, 0x31, 1, 0, 2, 0, 16, 0, 0x44, 0xac, 0, 0, 0xff, 0xff, 0xff, 0xff,
       0, 0, 0, 0, 0, 0, 0, 0, 0, 0, 0, 0] ∧
    (Select_tta (sample_tta_track [1, 2, 3])).fmt.p_extra = [1, 2, 3] :=
  ⟨((Select_tta_extradata sample_select_env (sample_tta_track [])).2.2.1 rfl).1,
   ((Select_tta_extradata sample_select_env (sample_tta_track [1, 2, 3])).2.2.2
      (by decide) (by decide)).1⟩

theorem fill_extra_data_key (tk : mkv_track_t) (offset : Nat) :
    priority_key (fill_extra_data tk offset) = priority_key tk := by
  unfold fill_extra_data priority_key
  split <;> rfl

theorem Select_vfw_key (tk : mkv_track_t) : priority_key (Select_vfw tk) = priority_key tk := by
  unfold Select_vfw priority_key
  dsimp only
  repeat' split
  all_goals rfl

theorem Select_real_video_key (tk : mkv_track_t) (c : List Char) :
    priority_key (Select_real_video tk c) = priority_key tk := by
  unfold Select_real_video
  dsimp only
  have h : ∀ t : mkv_track_t, priority_key { t with b_dts_only := true } = priority_key t :=
    fun _ => rfl
  rw [h, fill_extra_data_key]
  unfold priority_key
  repeat' split
  all_goals rfl

theorem Select_mpeg4_key (tk : mkv_track_t) (c : List Char) :
    priority_key (Select_mpeg4 tk c) = priority_key tk := by
  unfold Select_mpeg4
  split
  · rfl
  · split
    · rw [fill_extra_data_key]
      rfl
    · rfl

theorem Select_quicktime_key (env : Select_env) (tk : mkv_track_t) :
    priority_key (Select_quicktime env tk) = priority_key tk := by
  unfold Select_quicktime
  split <;> rfl

theorem Select_acm_key (env : Select_env) (tk tk' : mkv_track_t)
    (h : Select_acm env tk = some tk') : priority_key tk' = priority_key tk := by
  unfold Select_acm at h
  dsimp only at h
  repeat' split at h
  all_goals (cases h <;> rfl)

theorem Select_aac_key (tk : mkv_track_t) (c : List Char) :
    priority_key (Select_aac tk c) = priority_key tk := by
  unfold Select_aac priority_key
  dsimp only

theorem Select_tta_key (tk : mkv_track_t) : priority_key (Select_tta tk) = priority_key tk := by
  unfold Select_tta
  dsimp only
  split
  · rw [fill_extra_data_key]
    rfl
  · rfl

theorem Select_vobsub_key (env : Select_env) (tk : mkv_track_t) :
    priority_key (Select_vobsub env tk) = priority_key tk := by
  unfold Select_vobsub priority_key
  dsimp only
  repeat' split
  all_goals rfl

theorem Select_real_audio_key (env : Select_env) (tk tk' : mkv_track_t) (c : List Char)
    (b : Bool) (h : Select_real_audio env tk c = some (b, tk')) :
    priority_key tk' = priority_key tk := by
  unfold Select_real_audio at h
  dsimp only at h
  split at h
  · cases h; rfl
  · split at h
    · split at h
      · cases h; rfl
      · split at h
        · rename_i fmt version sub_packet_h frame_size sub_packet_size hcodec _ _ _ _
          have hcat : fmt.i_cat = tk.fmt.i_cat := by
            revert hcodec
            split
            · intro hh
              obtain ⟨sps, _, hs⟩ := Option.map_eq_some'.mp hh
              rw [← hs]
            · split
              · intro hh; cases hh; rfl
              · split
                · intro hh; cases hh; rfl
                · intro hh; cases hh; rfl
          split at h
          · cases h
            unfold priority_key
            simp [hcat]
          · obtain ⟨t, ht, hb⟩ := Option.map_eq_some'.mp h
            cases hb
            rw [fill_extra_data_key]
            revert ht
            repeat' split
            all_goals
              intro ht
              cases ht <;> (unfold priority_key; simp [hcat])
        · cases h
    · cases h; rfl

theorem Select_codec_key (env : Select_env) (tk tk' : mkv_track_t) (c : List Char)
    (h : Select_codec env tk c = some (true, tk')) : priority_key tk' = priority_key tk := by
  unfold Select_codec at h
  dsimp only at h
  split at h
  case h_10 =>
    obtain ⟨t, ht, hb⟩ := Option.map_eq_some'.mp h
    cases hb
    exact Select_acm_key env tk _ ht
  case h_24 => exact Select_real_audio_key env tk tk' c true h
  all_goals
    cases h <;> first
      | rfl
      | exact Select_vfw_key _
      | exact Select_real_video_key _ _
      | exact Select_mpeg4_key _ _
      | exact Select_quicktime_key _ _
      | exact Select_aac_key _ _
      | exact Select_tta_key _
      | exact Select_vobsub_key _ _
      | exact (fill_extra_data_key _ 0).trans rfl
      | (split <;> first | rfl | exact (fill_extra_data_key _ 0).trans rfl)

theorem Select_priority_range (tk : mkv_track_t) :
    Select_priority tk =
        (if tk.b_enabled = false then -2
         else if tk.b_forced = true then 2
         else if tk.b_default = true then 1
         else 0) - (if tk.fmt.i_cat = es_category.VIDEO_ES then 1 else 0) ∧
      -3 ≤ Select_priority tk ∧ Select_priority tk ≤ 2 := by
  unfold Select_priority
  cases tk.b_enabled <;> cases tk.b_forced <;> cases tk.b_default <;>
    by_cases hc : tk.fmt.i_cat = es_category.VIDEO_ES <;> simp [hc]

theorem Select_priority_congr (a b : mkv_track_t) (h : priority_key a = priority_key b) :
    Select_priority a = Select_priority b := by
  simp only [priority_key, Prod.mk.injEq] at h
  unfold Select_priority
  rw [h.1, h.2.1, h.2.2.1, h.2.2.2]

theorem Select_add_priority (env : Select_env) (l : Select_vars) (tk : mkv_track_t) :
    (Select_add env l tk).2.fmt.i_priority = Select_priority tk ∧
      priority_key (Select_add env l tk).2 = priority_key tk ∧
      (Select_add env l tk).1.out =
        l.out ++ es_out_query.ES_OUT_ADD (Select_add env l tk).2.fmt ::
          (if tk.b_default = true then
            [es_out_query.ES_OUT_SET_ES_DEFAULT (Select_add env l tk).2.p_es]
           else []) ∧
      (Select_add env l tk).1.b_has_default_video = l.b_has_default_video ∧
      (Select_add env l tk).1.b_has_default_audio = l.b_has_default_audio := by
  unfold Select_add
  dsimp only
  refine ⟨rfl, rfl, ?_, rfl, rfl⟩
  split <;> simp

theorem Select_dispatch_priority (env : Select_env) (r1 l' : Select_vars)
    (r2 tk' : mkv_track_t) (c : List Char)
    (h : (match Select_codec env r2 c with
      | none => none
      | some (false, tk) => some (r1, tk)
      | some (true, tk) => some (Select_add env r1 tk)) = some (l', tk'))
    (hadd : l'.out ≠ r1.out) :
    tk'.fmt.i_priority = Select_priority tk' ∧ priority_key tk' = priority_key r2 ∧
      ∃ rest, l'.out = r1.out ++ es_out_query.ES_OUT_ADD tk'.fmt :: rest := by
  split at h
  · cases h
  · cases h
    exact absurd rfl hadd
  · rename_i tk1 hc
    have hk := Select_codec_key env _ tk1 c hc
    obtain ⟨ha1, ha2, ha3, _, _⟩ := Select_add_priority env r1 tk1
    have h' := Option.some.inj h
    have hl : (Select_add env r1 tk1).1 = l' := congrArg Prod.fst h'
    have ht : (Select_add env r1 tk1).2 = tk' := congrArg Prod.snd h'
    subst hl ht
    refine ⟨?_, ha2.trans hk, _, ha3⟩
    rw [ha1]
    exact (Select_priority_congr _ _ ha2).symm

/-- C27: when the body of the second loop of `Select` hands a track to the ES output
(the queue of the output grows), the priority of its format is -2 if the track
is not enabled, else 2 if it is forced, else 1 if it is default, else 0, less 1
for a video track, so between -3 and 2; the flags enabled and forced and the
category are those the track came with, the default flag is the one it came
with or the promotion of the loop, and the format is queued with this
priority. -/
theorem Select_track_priority (env : Select_env) (l l' : Select_vars) (tk tk' : mkv_track_t)
    (h : Select_track env l tk = some (l', tk')) (hadd : l'.out ≠ l.out) :
    tk'.fmt.i_priority =
        (if tk'.b_enabled = false then -2
         else if tk'.b_forced = true then 2
         else if tk'.b_default = true then 1
         else 0) - (if tk'.fmt.i_cat = es_category.VIDEO_ES then 1 else 0) ∧
      -3 ≤ tk'.fmt.i_priority ∧ tk'.fmt.i_priority ≤ 2 ∧
      tk'.b_enabled = tk.b_enabled ∧ tk'.b_forced = tk.b_forced ∧
      tk'.fmt.i_cat = tk.fmt.i_cat ∧
      tk'.b_default =
        (tk.b_default ||
          (!l.b_has_default_video && decide (tk.fmt.i_cat = es_category.VIDEO_ES)) ||
          (!l.b_has_default_audio && decide (tk.fmt.i_cat = es_category.AUDIO_ES))) ∧
      ∃ rest, l'.out = l.out ++ es_out_query.ES_OUT_ADD tk'.fmt :: rest := by
  unfold Select_track at h
  split at h
  · cases h
    exact absurd rfl hadd
  · rename_i psz_codec _
    split at h
    · cases h
      exact absurd rfl hadd
    · dsimp only at h
      have hr := Select_priority_range tk'
      by_cases hv : ¬ l.b_has_default_video = true ∧ tk.fmt.i_cat = es_category.VIDEO_ES
      · rw [if_pos hv] at h
        obtain ⟨h1, h2, h3⟩ := Select_dispatch_priority env _ l' _ tk' psz_codec h hadd
        rw [← h1] at hr
        simp only [priority_key, Prod.mk.injEq] at h2
        refine ⟨hr.1, hr.2.1, hr.2.2, h2.1, h2.2.1, h2.2.2.2, ?_, h3⟩
        rw [h2.2.2.1]
        simp [hv.2, Bool.not_eq_true _ ▸ hv.1]
      · rw [if_neg hv] at h
        by_cases hau : ¬ l.b_has_default_audio = true ∧ tk.fmt.i_cat = es_category.AUDIO_ES
        · rw [if_pos hau] at h
          obtain ⟨h1, h2, h3⟩ := Select_dispatch_priority env _ l' _ tk' psz_codec h hadd
          rw [← h1] at hr
          simp only [priority_key, Prod.mk.injEq] at h2
          refine ⟨hr.1, hr.2.1, hr.2.2, h2.1, h2.2.1, h2.2.2.2, ?_, h3⟩
          rw [h2.2.2.1]
          simp [hau.2, Bool.not_eq_true _ ▸ hau.1]
        · rw [if_neg hau] at h
          obtain ⟨h1, h2, h3⟩ := Select_dispatch_priority env _ l' _ tk' psz_codec h hadd
          rw [← h1] at hr
          simp only [priority_key, Prod.mk.injEq] at h2
          refine ⟨hr.1, hr.2.1, hr.2.2, h2.1, h2.2.1, h2.2.2.2, ?_, h3⟩
          rw [h2.2.2.1]
          rw [not_and_or] at hv hau
          cases hlv : l.b_has_default_video <;> cases hla : l.b_has_default_audio <;>
            simp_all

/-- C27: a forced, enabled MPEG video track, met when a default video track is
known, is handed to the ES output with the priority 2 - 1 = 1. -/
theorem Select_track_priority_witness :
    ∃ l' tk', Select_track sample_select_env ⟨true, true, []⟩ sample_forced_video =
        some (l', tk') ∧
      tk'.fmt.i_priority = 1 ∧
      ∃ rest, l'.out = es_out_query.ES_OUT_ADD tk'.fmt :: rest := by
  have hs : (Select_track sample_select_env ⟨true, true, []⟩ sample_forced_video).isSome := by
    decide
  obtain ⟨⟨l', tk'⟩, h⟩ := Option.isSome_iff_exists.mp hs
  have hlen : (Select_track sample_select_env ⟨true, true, []⟩ sample_forced_video).map
      (fun r => r.1.out.length) = some 1 := by decide
  have hadd : l'.out ≠ (⟨true, true, []⟩ : Select_vars).out := by
    intro e
    rw [h] at hlen
    simp only [Option.map_some', Option.some.injEq] at hlen
    rw [e] at hlen
    simp at hlen
  obtain ⟨h1, _, _, h4, h5, h6, _, h8⟩ :=
    Select_track_priority sample_select_env ⟨true, true, []⟩ l' sample_forced_video tk' h hadd
  refine ⟨l', tk', h, ?_, ?_⟩
  · rw [h1, h4, h5, h6]
    have he : sample_forced_video.b_enabled = true := rfl
    have hf : sample_forced_video.b_forced = true := rfl
    have hc : sample_forced_video.fmt.i_cat = es_category.VIDEO_ES := rfl
    simp [he, hf, hc]
  · simpa using h8

theorem Select_codec_default (env : Select_env) (tk tk' : mkv_track_t) (c : List Char)
    (b : Bool) (h : Select_codec env tk c = some (b, tk')) : tk'.b_default = tk.b_default := by
  cases b with
  | true =>
    have hk := Select_codec_key env tk tk' c h
    simp only [priority_key, Prod.mk.injEq] at hk
    exact hk.2.2.1
  | false =>
    unfold Select_codec at h
    dsimp only at h
    split at h
    case h_10 =>
      obtain ⟨t, ht, hb⟩ := Option.map_eq_some'.mp h
      cases hb
    case h_24 =>
      have hk := Select_real_audio_key env tk tk' c false h
      simp only [priority_key, Prod.mk.injEq] at hk
      exact hk.2.2.1
    all_goals
      cases h <;> rfl

theorem Select_track_default (env : Select_env) (l l' : Select_vars) (tk tk' : mkv_track_t)
    (h : Select_track env l tk = some (l', tk')) :
    (tk'.b_default = true ↔ tk.b_default = true ∨
      (l.b_has_default_video = false ∧ Select_valid tk = true ∧
        tk.fmt.i_cat = es_category.VIDEO_ES) ∨
      (l.b_has_default_audio = false ∧ Select_valid tk = true ∧
        tk.fmt.i_cat = es_category.AUDIO_ES)) ∧
    (l'.b_has_default_video = true ↔ l.b_has_default_video = true ∨
      (Select_valid tk = true ∧ tk.fmt.i_cat = es_category.VIDEO_ES)) ∧
    (l'.b_has_default_audio = true ↔ l.b_has_default_audio = true ∨
      (Select_valid tk = true ∧ tk.fmt.i_cat = es_category.AUDIO_ES)) := by
  have hdisp : ∀ (r1 : Select_vars) (r2 : mkv_track_t) (c : List Char),
      (match Select_codec env r2 c with
        | none => none
        | some (false, tk) => some (r1, tk)
        | some (true, tk) => some (Select_add env r1 tk)) = some (l', tk') →
      tk'.b_default = r2.b_default ∧ l'.b_has_default_video = r1.b_has_default_video ∧
        l'.b_has_default_audio = r1.b_has_default_audio := by
    intro r1 r2 c hm
    split at hm
    · cases hm
    · rename_i tk1 hc
      have hd := Select_codec_default env _ _ c false hc
      cases hm
      exact ⟨hd, rfl, rfl⟩
    · rename_i tk1 hc
      have hd := Select_codec_default env _ _ c true hc
      obtain ⟨_, ha2, _, ha4, ha5⟩ := Select_add_priority env r1 tk1
      have h' := Option.some.inj hm
      have hl : (Select_add env r1 tk1).1 = l' := congrArg Prod.fst h'
      have ht : (Select_add env r1 tk1).2 = tk' := congrArg Prod.snd h'
      subst hl ht
      simp only [priority_key, Prod.mk.injEq] at ha2
      exact ⟨ha2.2.2.1.trans hd, ha4, ha5⟩
  unfold Select_track at h
  split at h
  · rename_i hnone
    cases h
    simp [Select_valid, hnone]
  · rename_i psz_codec hsome
    split at h
    · rename_i hcat
      cases h
      simp [Select_valid, hcat]
    · rename_i hcat
      have hvalid : Select_valid tk = true := by simp [Select_valid, hsome, hcat]
      dsimp only at h
      by_cases hv : ¬ l.b_has_default_video = true ∧ tk.fmt.i_cat = es_category.VIDEO_ES
      · rw [if_pos hv] at h
        obtain ⟨h1, h2, h3⟩ := hdisp _ _ _ h
        rw [h1, h2, h3]
        have hlv : l.b_has_default_video = false := by simpa using hv.1
        simp [hvalid, hv.2, hlv]
      · rw [if_neg hv] at h
        by_cases hau : ¬ l.b_has_default_audio = true ∧ tk.fmt.i_cat = es_category.AUDIO_ES
        · rw [if_pos hau] at h
          obtain ⟨h1, h2, h3⟩ := hdisp _ _ _ h
          rw [h1, h2, h3]
          have hla : l.b_has_default_audio = false := by simpa using hau.1
          simp [hvalid, hau.2, hla]
        · rw [if_neg hau] at h
          obtain ⟨h1, h2, h3⟩ := hdisp _ _ _ h
          rw [h1, h2, h3]
          rw [not_and_or] at hv hau
          cases hlv : l.b_has_default_video <;> cases hla : l.b_has_default_audio <;>
            simp_all

theorem first_valid_cons (tk : mkv_track_t) (rest : List mkv_track_t) (c : es_category)
    (i : Nat) :
    (first_valid (tk :: rest) c = some 0 ↔ (Select_valid tk = true ∧ tk.fmt.i_cat = c)) ∧
    (first_valid (tk :: rest) c = some (i + 1) ↔
      (¬ (Select_valid tk = true ∧ tk.fmt.i_cat = c) ∧ first_valid rest c = some i)) := by
  have e : first_valid (tk :: rest) c =
      if Select_valid tk = true ∧ tk.fmt.i_cat = c then some 0
      else (first_valid rest c).map fun i => i + 1 := rfl
  rw [e]
  by_cases hp : Select_valid tk = true ∧ tk.fmt.i_cat = c
  · simp [hp]
  · simp [hp]

theorem Select_tracks_default (env : Select_env) (tks : List mkv_track_t) :
    ∀ (l l' : Select_vars) (tks' : List mkv_track_t),
      Select_tracks env l tks = some (l', tks') →
      tks'.length = tks.length ∧
      ∀ (i : Nat) (tk tk' : mkv_track_t), tks[i]? = some tk → tks'[i]? = some tk' →
        (tk'.b_default = true ↔ tk.b_default = true ∨
          (l.b_has_default_video = false ∧ first_valid tks es_category.VIDEO_ES = some i) ∨
          (l.b_has_default_audio = false ∧ first_valid tks es_category.AUDIO_ES = some i)) := by
  induction tks with
  | nil =>
    intro l l' tks' h
    unfold Select_tracks at h
    cases h
    exact ⟨rfl, fun i tk tk' h1 _ => by simp at h1⟩
  | cons t rest ih =>
    intro l l' tks' h
    unfold Select_tracks at h
    split at h
    · cases h
    · rename_i l1 t1 ht
      split at h
      · cases h
      · rename_i l2 rest' hrest
        obtain ⟨hlen, hrec⟩ := ih l1 l2 rest' hrest
        have h' := Option.some.inj h
        have e2 : t1 :: rest' = tks' := congrArg Prod.snd h'
        subst e2
        obtain ⟨hd, hv, ha⟩ := Select_track_default env l l1 t t1 ht
        refine ⟨by simp [hlen], ?_⟩
        intro i tk tk' h1 h2
        cases i with
        | zero =>
          simp only [List.getElem?_cons_zero, Option.some.injEq] at h1 h2
          subst h1 h2
          rw [hd, (first_valid_cons t rest _ 0).1, (first_valid_cons t rest _ 0).1]
        | succ i =>
          simp only [List.getElem?_cons_succ] at h1 h2
          rw [hrec i tk tk' h1 h2, (first_valid_cons t rest _ i).2,
            (first_valid_cons t rest _ i).2]
          have hv' : l1.b_has_default_video = false ↔ l.b_has_default_video = false ∧
              ¬ (Select_valid t = true ∧ t.fmt.i_cat = es_category.VIDEO_ES) := by
            rw [← Bool.not_eq_true, hv, not_or, Bool.not_eq_true]
          have ha' : l1.b_has_default_audio = false ↔ l.b_has_default_audio = false ∧
              ¬ (Select_valid t = true ∧ t.fmt.i_cat = es_category.AUDIO_ES) := by
            rw [← Bool.not_eq_true, ha, not_or, Bool.not_eq_true]
          rw [hv', ha']
          simp only [and_assoc]

theorem has_default_iff (tracks : List mkv_track_t) (i_cat : es_category) :
    has_default tracks i_cat = true ↔
      ∃ tk ∈ tracks, tk.fmt.i_cat = i_cat ∧ tk.b_enabled = true ∧
        (tk.b_default = true ∨ tk.b_forced = true) := by
  unfold has_default
  simp [List.any_eq_true]

/-- C28: after `Select`, the default flag of the track at an index is set if and only
if it was set before, or the track is the first video track with a codec ID
and no enabled video track has the default or the forced flag, or it is the
first audio track with a codec ID and no enabled audio track has the default or
the forced flag; so the default flag of no other track changes. -/
theorem Select_default_promotion (env : Select_env) (s s' : matroska_segment_c)
    (i_start_time : Int) (h : Select env s i_start_time = some s') :
    s'.tracks.length = s.tracks.length ∧
    ∀ (i : Nat) (tk tk' : mkv_track_t), s.tracks[i]? = some tk → s'.tracks[i]? = some tk' →
      (tk'.b_default = true ↔ tk.b_default = true ∨
        ((¬ ∃ t ∈ s.tracks, t.fmt.i_cat = es_category.VIDEO_ES ∧ t.b_enabled = true ∧
            (t.b_default = true ∨ t.b_forced = true)) ∧
          first_valid s.tracks es_category.VIDEO_ES = some i) ∨
        ((¬ ∃ t ∈ s.tracks, t.fmt.i_cat = es_category.AUDIO_ES ∧ t.b_enabled = true ∧
            (t.b_default = true ∨ t.b_forced = true)) ∧
          first_valid s.tracks es_category.AUDIO_ES = some i)) := by
  unfold Select at h
  dsimp only at h
  split at h
  · cases h
  · rename_i l tracks ht
    cases h
    obtain ⟨hlen, hrec⟩ := Select_tracks_default env s.tracks _ l tracks ht
    refine ⟨hlen, ?_⟩
    intro i tk tk' h1 h2
    rw [hrec i tk tk' h1 h2, ← has_default_iff, ← has_default_iff, Bool.not_eq_true,
      Bool.not_eq_true]

/-- C28: of two video tracks, the first enabled with no flag and the second disabled
with the default flag, `Select` promotes the first one, since no enabled video
track has the default or the forced flag. -/
theorem Select_default_promotion_witness :
    ∃ s' tk', Select sample_select_env { tracks := sample_disabled_default } 0 = some s' ∧
      s'.tracks[0]? = some tk' ∧ tk'.b_default = true := by
  have hs : (Select sample_select_env { tracks := sample_disabled_default } 0).isSome := by
    decide
  obtain ⟨s', h⟩ := Option.isSome_iff_exists.mp hs
  obtain ⟨hlen, hrec⟩ :=
    Select_default_promotion sample_select_env { tracks := sample_disabled_default } s' 0 h
  have h0 : 0 < s'.tracks.length := by
    rw [hlen]
    decide
  refine ⟨s', s'.tracks[0], h, List.getElem?_eq_getElem h0, ?_⟩
  exact (hrec 0 _ _ rfl (List.getElem?_eq_getElem h0)).mpr
    (Or.inr (Or.inl ⟨by decide, by decide⟩))

/-- C28, as stated, fails: with a first video track that is enabled and has no flag
and a second video track that is disabled and has the default flag, `Select`
sets the default flag of the first track although a video track carries the
default flag; and when the first video track has no codec ID, `Select`
promotes the second video track, not the first. -/
theorem Select_promotes_despite_default :
    sample_disabled_default.map (fun tk => (tk.fmt.i_cat, tk.b_enabled, tk.b_default)) =
      [(es_category.VIDEO_ES, true, false), (es_category.VIDEO_ES, false, true)] ∧
    (Select sample_select_env { tracks := sample_disabled_default } 0).map
        (fun s' => s'.tracks.map fun tk => tk.b_default) = some [true, true] ∧
    sample_no_codec_first.map (fun tk => (tk.fmt.i_cat, tk.b_default, tk.b_forced)) =
      [(es_category.VIDEO_ES, false, false), (es_category.VIDEO_ES, false, false)] ∧
    (Select sample_select_env { tracks := sample_no_codec_first } 0).map
        (fun s' => s'.tracks.map fun tk => tk.b_default) = some [false, true] := by
  decide

/-! ## Tags: the name to metadata mapping -/

theorem metadata_lookup_rows (psz_tag_name : List Char) (target_type : Int)
    (last : metadata_entry) (hlast : last.key = none) :
    ∀ rows : List metadata_entry, (∀ e ∈ rows, e.key ≠ none) →
      metadata_lookup psz_tag_name target_type (rows ++ [last]) =
        ((rows ++ [last]).find? (metadata_match psz_tag_name target_type)).map
          fun e => e.type := by
  intro rows
  induction rows with
  | nil =>
    intro _
    simp [metadata_lookup, hlast, metadata_match, List.find?_cons]
  | cons e rest ih =>
    intro hk
    have hrest : ∀ e ∈ rest, e.key ≠ none := fun x hx => hk x (List.mem_cons_of_mem _ hx)
    rw [List.cons_append]
    unfold metadata_lookup
    cases hkey : e.key with
    | none => exact absurd hkey (hk e (List.mem_cons_self _ _))
    | some key =>
      have hcmp : strcmp psz_tag_name key = true ↔ some key = some (String.mk psz_tag_name) := by
        unfold strcmp
        constructor
        · intro h
          have h1 : psz_tag_name = key.toList := by simpa using h
          rw [h1]
          rfl
        · intro h
          have h1 : key = String.mk psz_tag_name := Option.some.inj h
          rw [h1]
          simp
      simp only [List.find?_cons]
      by_cases hc : strcmp psz_tag_name key = true ∧
          (e.target_type = 0 ∨ target_type = e.target_type)
      · have h1 := hcmp.mp hc.1
        have hb : metadata_match psz_tag_name target_type e = true := by
          unfold metadata_match
          rw [hkey]
          simpa [h1] using hc.2
        rw [if_pos hc, hb]
        rfl
      · have hb : metadata_match psz_tag_name target_type e = false := by
          rw [Bool.eq_false_iff]
          intro h
          unfold metadata_match at h
          rw [hkey] at h
          simp only [Bool.and_eq_true, Bool.or_eq_true, decide_eq_true_eq] at h
          exact hc ⟨hcmp.mpr h.1, h.2⟩
        rw [if_neg hc, ih hrest, hb]

theorem metadata_lookup_map (psz_tag_name : List Char) (target_type : Int) :
    metadata_lookup psz_tag_name target_type metadata_map =
      (metadata_map.find? (metadata_match psz_tag_name target_type)).map fun e => e.type := by
  have h : metadata_map = metadata_map.take 16 ++ [⟨.vlc_meta_Title, none, 0⟩] := by decide
  rw [h]
  exact metadata_lookup_rows psz_tag_name target_type _ rfl _ (by decide)

theorem ParseSimpleTags_loop_fields (target_type : Int) (cs : List EbmlElement) :
    ∀ (p : SimpleTag) (m : List meta_write),
      (ParseSimpleTags_loop target_type cs p m).1.psz_tag_name = tag_name cs p.psz_tag_name ∧
      (ParseSimpleTags_loop target_type cs p m).1.p_value = tag_value cs p.p_value ∧
      ((∀ el ∈ cs, el.id ≠ EbmlId.KaxTagSimple) →
        (ParseSimpleTags_loop target_type cs p m).2 = m) := by
  induction cs with
  | nil =>
    intro p m
    simp [ParseSimpleTags_loop, tag_name, tag_value]
  | cons el rest ih =>
    intro p m
    obtain ⟨id, pos, c⟩ := el
    have hmem : (∀ el ∈ EbmlElement.mk id pos c :: rest, el.id ≠ EbmlId.KaxTagSimple) →
        id ≠ EbmlId.KaxTagSimple ∧ ∀ el ∈ rest, el.id ≠ EbmlId.KaxTagSimple := fun h =>
      ⟨h _ (List.mem_cons_self _ _), fun x hx => h x (List.mem_cons_of_mem _ hx)⟩
    unfold tag_name tag_value
    rw [List.foldl_cons, List.foldl_cons]
    cases id <;>
      simp only [ParseSimpleTags_loop, EbmlElement.id] <;>
      first
        | exact ⟨(ih _ _).1, (ih _ _).2.1, fun h => (ih _ _).2.2 (hmem h).2⟩
        | (refine ⟨?_, ?_, fun h => absurd rfl (hmem h).1⟩
           · rw [(ih _ _).1]
             split <;> rfl
           · rw [(ih _ _).2.1]
             split <;> rfl)

/-- C29: for a tag element whose children give a name and a value, `ParseSimpleTags`
returns a tag and does exactly one operation on `sys.meta` after those of the
nested tags (none, when no child is a nested tag): `vlc_meta_Set` of the value
with the kind of the first row of `metadata_map` whose key is the name and whose
target type is 0 or that of the tag, or `vlc_meta_AddExtra` of the value under
the name when no row is such, as for every name that is the key of no row;
"TITLE" finds Album for the target type 50 and Title for any other; a tag
without a name or without a value returns `NULL` and does no operation. -/
theorem ParseSimpleTags_mapping (target_type : Int) (tag : EbmlElement)
    (p_meta : List meta_write) :
    (∀ name value : List Char, tag_name tag.children none = some name →
      tag_value tag.children none = some value →
      (ParseSimpleTags target_type tag p_meta).1.isSome = true ∧
      (ParseSimpleTags target_type tag p_meta).2 =
        (ParseSimpleTags_loop target_type tag.children new_SimpleTag p_meta).2 ++
          [match metadata_map.find? (metadata_match name target_type) with
            | some e => meta_write.vlc_meta_Set e.type value
            | none => meta_write.vlc_meta_AddExtra name value] ∧
      ((∀ el ∈ tag.children, el.id ≠ EbmlId.KaxTagSimple) →
        (ParseSimpleTags_loop target_type tag.children new_SimpleTag p_meta).2 = p_meta)) ∧
    ((tag_name tag.children none = none ∨ tag_value tag.children none = none) →
      ParseSimpleTags target_type tag p_meta =
        (none, (ParseSimpleTags_loop target_type tag.children new_SimpleTag p_meta).2)) ∧
    (∀ name : List Char, (∀ e ∈ metadata_map, e.key ≠ some (String.mk name)) →
      metadata_map.find? (metadata_match name target_type) = none) ∧
    (metadata_map.find? (metadata_match "TITLE".toList 50)).map (fun e => e.type) =
      some vlc_meta_type_t.vlc_meta_Album ∧
    (target_type ≠ 50 →
      (metadata_map.find? (metadata_match "TITLE".toList target_type)).map (fun e => e.type) =
        some vlc_meta_type_t.vlc_meta_Title) := by
  obtain ⟨id, pos, cs⟩ := tag
  have hf := ParseSimpleTags_loop_fields target_type cs new_SimpleTag p_meta
  have hn0 : new_SimpleTag.psz_tag_name = none := rfl
  have hv0 : new_SimpleTag.p_value = none := rfl
  rw [hn0, hv0] at hf
  have hP : ParseSimpleTags target_type (EbmlElement.mk id pos cs) p_meta =
      ParseSimpleTags_done target_type
        (ParseSimpleTags_loop target_type cs new_SimpleTag p_meta) := by
    rw [ParseSimpleTags]
  refine ⟨?_, ?_, ?_, ?_, ?_⟩
  · intro name value hn hv
    have hn' := hf.1.trans hn
    have hv' := hf.2.1.trans hv
    rw [hP]
    unfold ParseSimpleTags_done
    simp only [EbmlElement.children, hn', hv', metadata_lookup_map]
    refine ⟨?_, ?_, hf.2.2⟩
    · cases metadata_map.find? (metadata_match name target_type) <;> rfl
    · cases metadata_map.find? (metadata_match name target_type) <;> rfl
  · intro h
    rw [hP]
    unfold ParseSimpleTags_done
    simp only [EbmlElement.children]
    rcases h with h | h
    · have hn' := hf.1.trans h
      simp only [hn']
    · have hv' := hf.2.1.trans h
      simp only [hv']
      split
      · rename_i heq1 heq2
        exact absurd heq2 (by simp)
      · rfl
  · intro name hk
    rw [List.find?_eq_none]
    intro e he
    have := hk e he
    simp [metadata_match, this]
  · decide
  · intro hne
    have h0 : metadata_match "TITLE".toList target_type ⟨.vlc_meta_Album, some "TITLE", 50⟩ =
        false := by
      simp [metadata_match, hne]
    have h1 : metadata_match "TITLE".toList target_type ⟨.vlc_meta_Title, some "TITLE", 0⟩ =
        true := by
      simp [metadata_match]
    simp only [metadata_map, List.find?_cons, h0, h1]
    rfl

/-- C29: the tag TITLE = "Hits" sets the album for the target type 50 and the title
for the target type 30, and the tag MOOD = "calm" is added as extra metadata
under the name MOOD; each writes one entry. -/
theorem ParseSimpleTags_mapping_witness :
    (ParseSimpleTags 50 (sample_tag "TITLE" "Hits") []).2 =
      [meta_write.vlc_meta_Set vlc_meta_type_t.vlc_meta_Album "Hits".toList] ∧
    (ParseSimpleTags 30 (sample_tag "TITLE" "Hits") []).2 =
      [meta_write.vlc_meta_Set vlc_meta_type_t.vlc_meta_Title "Hits".toList] ∧
    (ParseSimpleTags 50 (sample_tag "MOOD" "calm") []).2 =
      [meta_write.vlc_meta_AddExtra "MOOD".toList "calm".toList] := by
  have hchildren : ∀ (n v : String) (el : EbmlElement), el ∈ (sample_tag n v).children →
      el.id ≠ EbmlId.KaxTagSimple := by
    intro n v el hel
    simp only [sample_tag, EbmlElement.children, List.mem_cons, List.mem_singleton,
      List.not_mem_nil, or_false] at hel
    rcases hel with h | h <;> (rw [h]; simp [EbmlElement.id])
  refine ⟨?_, ?_, ?_⟩
  · obtain ⟨_, h2, h3⟩ := (ParseSimpleTags_mapping 50 (sample_tag "TITLE" "Hits") []).1
      "TITLE".toList "Hits".toList rfl rfl
    rw [h2, h3 (hchildren _ _)]
    decide
  · obtain ⟨_, h2, h3⟩ := (ParseSimpleTags_mapping 30 (sample_tag "TITLE" "Hits") []).1
      "TITLE".toList "Hits".toList rfl rfl
    rw [h2, h3 (hchildren _ _)]
    decide
  · obtain ⟨_, h2, h3⟩ := (ParseSimpleTags_mapping 50 (sample_tag "MOOD" "calm") []).1
      "MOOD".toList "calm".toList rfl rfl
    rw [h2, h3 (hchildren _ _)]
    decide

/-! ## Segment linking -/

/-- C40: `CompareSegmentUIDs` returns false when one of the two items is null; for two
items of which the first has a segment UID it returns, and the result is true
if and only if that UID equals the previous-segment UID of the second item, or
the first item has a next-segment UID that equals the segment UID or the
previous-segment UID of the second item; a UID that the second item does not
have matches nothing. -/
theorem CompareSegmentUIDs_spec :
    (∀ b, CompareSegmentUIDs none b = some false) ∧
    (∀ a, CompareSegmentUIDs a none = some false) ∧
    (∀ (a b : matroska_segment_c) (uid : EbmlBinary), a.p_segment_uid = some uid →
      ∃ r, CompareSegmentUIDs (some a) (some b) = some r ∧
        (r = true ↔
          (b.p_prev_segment_uid = some uid ∨
            ∃ next, a.p_next_segment_uid = some next ∧
              (b.p_segment_uid = some next ∨ b.p_prev_segment_uid = some next)))) := by
  refine ⟨fun b => rfl, fun a => ?_, ?_⟩
  · cases a <;> rfl
  · intro a b uid ha
    unfold CompareSegmentUIDs
    simp only [ha]
    cases hn : a.p_next_segment_uid with
    | none =>
      cases hp : b.p_prev_segment_uid with
      | none => exact ⟨false, rfl, by simp⟩
      | some prev =>
        by_cases he : uid = prev
        · exact ⟨true, by simp [he], by simp [he]⟩
        · refine ⟨false, by simp [he], ?_⟩
          simp only [Bool.false_eq_true, Option.some.injEq, false_iff, not_or]
          exact ⟨fun h => he h.symm, by simp⟩
    | some next =>
      cases hp : b.p_prev_segment_uid with
      | none =>
        cases hs : b.p_segment_uid with
        | none => exact ⟨false, by simp, by simp⟩
        | some buid =>
          by_cases he : next = buid
          · exact ⟨true, by simp [he], by simp [he]⟩
          · refine ⟨false, by simp [he], ?_⟩
            simp only [Bool.false_eq_true, false_iff]
            rintro (h | ⟨n, hn1, h | h⟩)
            · cases h
            · cases hn1
              exact he (Option.some.inj h).symm
            · cases h
      | some prev =>
        by_cases he : uid = prev
        · exact ⟨true, by simp [he], by simp [he]⟩
        · cases hs : b.p_segment_uid with
          | none =>
            by_cases he2 : next = prev
            · exact ⟨true, by simp [he, he2], by simp [he2]⟩
            · refine ⟨false, by simp [he, he2], ?_⟩
              simp only [Bool.false_eq_true, false_iff]
              rintro (h | ⟨n, hn1, h | h⟩)
              · exact he (Option.some.inj h).symm
              · cases h
              · cases hn1
                exact he2 (Option.some.inj h).symm
          | some buid =>
            by_cases he1 : next = buid
            · exact ⟨true, by simp [he, he1], by simp [he1]⟩
            · by_cases he2 : next = prev
              · exact ⟨true, by simp [he, he1, he2], by simp [he2]⟩
              · refine ⟨false, by simp [he, he1, he2], ?_⟩
                simp only [Bool.false_eq_true, false_iff]
                rintro (h | ⟨n, hn1, h | h⟩)
                · exact he (Option.some.inj h).symm
                · cases hn1
                  exact he1 (Option.some.inj h).symm
                · cases hn1
                  exact he2 (Option.some.inj h).symm

/-- C40: a segment with UID 1 precedes a segment whose previous-segment UID is 1; a
segment with UID 1 and next-segment UID 2 is followed by the segment with UID
2; and a segment with UID 1 and no next-segment UID is not linked to a segment
with UID 2 and no previous-segment UID. -/
theorem CompareSegmentUIDs_spec_witness :
    CompareSegmentUIDs (some (sample_linked (some 1) none none))
        (some (sample_linked (some 5) (some 1) none)) = some true ∧
    CompareSegmentUIDs (some (sample_linked (some 1) none (some 2)))
        (some (sample_linked (some 2) none none)) = some true ∧
    CompareSegmentUIDs (some (sample_linked (some 1) none none))
        (some (sample_linked (some 2) none none)) = some false := by
  refine ⟨?_, ?_, ?_⟩
  · obtain ⟨r, h1, h2⟩ := CompareSegmentUIDs_spec.2.2 (sample_linked (some 1) none none)
      (sample_linked (some 5) (some 1) none) ⟨[1]⟩ rfl
    rw [h1, h2.mpr (Or.inl rfl)]
  · obtain ⟨r, h1, h2⟩ := CompareSegmentUIDs_spec.2.2 (sample_linked (some 1) none (some 2))
      (sample_linked (some 2) none none) ⟨[1]⟩ rfl
    rw [h1, h2.mpr (Or.inr ⟨⟨[2]⟩, rfl, Or.inl rfl⟩)]
  · obtain ⟨r, h1, h2⟩ := CompareSegmentUIDs_spec.2.2 (sample_linked (some 1) none none)
      (sample_linked (some 2) none none) ⟨[1]⟩ rfl
    rw [h1]
    cases r with
    | false => rfl
    | true =>
      exfalso
      rcases h2.mp rfl with h | ⟨n, hn, _⟩
      · cases h
      · cases hn

/-! ## Select: invalid tracks, PCM block align, ACM and VfW extradata -/

theorem Select_track_invalid (env : Select_env) (l : Select_vars) (tk : mkv_track_t)
    (h : tk.fmt.i_cat = es_category.UNKNOWN_ES ∨ tk.psz_codec = none) :
    Select_track env l tk = some (l, { tk with p_es := none }) := by
  unfold Select_track
  cases hc : tk.psz_codec with
  | none => rfl
  | some c =>
    rcases h with h | h
    · simp only [h, if_true]
    · rw [hc] at h
      cases h

theorem Select_tracks_invalid (env : Select_env) (tks : List mkv_track_t) :
    ∀ (l l' : Select_vars) (tks' : List mkv_track_t),
      Select_tracks env l tks = some (l', tks') →
      ∀ (i : Nat) (tk : mkv_track_t), tks[i]? = some tk →
        (tk.fmt.i_cat = es_category.UNKNOWN_ES ∨ tk.psz_codec = none) →
        tks'[i]? = some { tk with p_es := none } := by
  induction tks with
  | nil =>
    intro l l' tks' _ i tk h1
    simp at h1
  | cons t rest ih =>
    intro l l' tks' h i tk h1 hinv
    unfold Select_tracks at h
    split at h
    · cases h
    · rename_i l1 t1 ht
      split at h
      · cases h
      · rename_i l2 rest' hrest
        have h' := Option.some.inj h
        have e2 : t1 :: rest' = tks' := congrArg Prod.snd h'
        subst e2
        cases i with
        | zero =>
          simp only [List.getElem?_cons_zero, Option.some.injEq] at h1
          subst h1
          rw [Select_track_invalid env l t hinv] at ht
          have e1 : ({ t with p_es := none } : mkv_track_t) = t1 :=
            congrArg Prod.snd (Option.some.inj ht)
          rw [List.getElem?_cons_zero, e1]
        | succ i =>
          simp only [List.getElem?_cons_succ] at h1 ⊢
          exact ih l1 l2 rest' hrest i tk h1 hinv

/-- C34: a track whose category is unknown or whose codec ID is missing leaves the
body of the second loop of `Select` with a null stream handle and with no
other field changed (so its codec, default flag and priority), for every value
of the two default flags of the loop, which are not changed either, like the
queue of the ES output; and after `Select` the track at its index is this
track. -/
theorem Select_invalid_track (env : Select_env) (s s' : matroska_segment_c)
    (i_start_time : Int) (i : Nat) (tk : mkv_track_t)
    (h : Select env s i_start_time = some s') (hi : s.tracks[i]? = some tk)
    (hinv : tk.fmt.i_cat = es_category.UNKNOWN_ES ∨ tk.psz_codec = none) :
    s'.tracks[i]? = some { tk with p_es := none } ∧
    ∀ l : Select_vars, Select_track env l tk = some (l, { tk with p_es := none }) := by
  refine ⟨?_, fun l => Select_track_invalid env l tk hinv⟩
  unfold Select at h
  dsimp only at h
  split at h
  · cases h
  · rename_i l tracks ht
    cases h
    exact Select_tracks_invalid env s.tracks _ l tracks ht i tk hi hinv

/-- C34: of two video tracks with no flag, the first without a codec ID, `Select`
leaves the first one as it was, with a null handle, and hands only the second
one to the ES output. -/
theorem Select_invalid_track_witness :
    ∃ s', Select sample_select_env { tracks := sample_no_codec_first } 0 = some s' ∧
      s'.tracks[0]? = some { i_number := 1, fmt := { i_cat := es_category.VIDEO_ES } } ∧
      s'.sys.out.length = 3 := by
  have hs : (Select sample_select_env { tracks := sample_no_codec_first } 0).isSome := by
    decide
  obtain ⟨s', h⟩ := Option.isSome_iff_exists.mp hs
  have hlen : (Select sample_select_env { tracks := sample_no_codec_first } 0).map
      (fun s => s.sys.out.length) = some 3 := by decide
  rw [h] at hlen
  exact ⟨s', h,
    (Select_invalid_track sample_select_env { tracks := sample_no_codec_first } s' 0 0
      { i_number := 1, fmt := { i_cat := es_category.VIDEO_ES } } h rfl (Or.inr rfl)).1,
    Option.some.inj hlen⟩

/-- C33 (amended): the codec IDs "A_PCM/INT/BIG", "A_PCM/INT/LIT" and
"A_PCM/FLOAT/IEEE" take the PCM branch of `Select`; the codec is "twos" for the
first and "araw" for the other two; and when bits per sample + 7 and the
product below are less than 2^32, the block align is n × channels, where
n = (bits per sample + 7) / 8 is the least number of bytes that hold the bits
of a sample (8 (n - 1) < bits ≤ 8 n). -/
theorem Select_pcm_blockalign (env : Select_env) (tk : mkv_track_t) :
    (Select_codec env tk "A_PCM/INT/BIG".toList =
        some (true, Select_pcm tk "A_PCM/INT/BIG".toList) ∧
      Select_codec env tk "A_PCM/INT/LIT".toList =
        some (true, Select_pcm tk "A_PCM/INT/LIT".toList) ∧
      Select_codec env tk "A_PCM/FLOAT/IEEE".toList =
        some (true, Select_pcm tk "A_PCM/FLOAT/IEEE".toList)) ∧
    ((Select_pcm tk "A_PCM/INT/BIG".toList).fmt.i_codec = VLC_FOURCC 't' 'w' 'o' 's' ∧
      (Select_pcm tk "A_PCM/INT/LIT".toList).fmt.i_codec = VLC_FOURCC 'a' 'r' 'a' 'w' ∧
      (Select_pcm tk "A_PCM/FLOAT/IEEE".toList).fmt.i_codec = VLC_FOURCC 'a' 'r' 'a' 'w') ∧
    ∀ psz_codec : List Char,
      tk.fmt.audio_i_bitspersample + 7 < 2 ^ 32 →
      (tk.fmt.audio_i_bitspersample + 7) / 8 * tk.fmt.audio_i_channels < 2 ^ 32 →
      (Select_pcm tk psz_codec).fmt.audio_i_blockalign =
          (tk.fmt.audio_i_bitspersample + 7) / 8 * tk.fmt.audio_i_channels ∧
        tk.fmt.audio_i_bitspersample ≤ 8 * ((tk.fmt.audio_i_bitspersample + 7) / 8) ∧
        8 * ((tk.fmt.audio_i_bitspersample + 7) / 8) < tk.fmt.audio_i_bitspersample + 8 := by
  have hb : strcmp "A_PCM/INT/BIG".toList "A_PCM/INT/BIG" = true := by decide
  have hl : strcmp "A_PCM/INT/LIT".toList "A_PCM/INT/BIG" = false := by decide
  have hf : strcmp "A_PCM/FLOAT/IEEE".toList "A_PCM/INT/BIG" = false := by decide
  refine ⟨⟨?_, ?_, ?_⟩,
    ⟨by simp only [Select_pcm, hb, if_true],
     by simp only [Select_pcm, hl, Bool.false_eq_true, if_false],
     by simp only [Select_pcm, hf, Bool.false_eq_true, if_false]⟩, ?_⟩
  · have hc : Select_case "A_PCM/INT/BIG".toList = codec_case.A_PCM := by decide
    unfold Select_codec
    simp only [hc]
  · have hc : Select_case "A_PCM/INT/LIT".toList = codec_case.A_PCM := by decide
    unfold Select_codec
    simp only [hc]
  · have hc : Select_case "A_PCM/FLOAT/IEEE".toList = codec_case.A_PCM := by decide
    unfold Select_codec
    simp only [hc]
  · intro psz_codec h1 h2
    refine ⟨?_, by omega, by omega⟩
    unfold Select_pcm
    dsimp only
    rw [Nat.mod_eq_of_lt h1, Nat.mod_eq_of_lt h2]

/-- C33: a 24-bit PCM track with 6 channels gets the block align 3 × 6 = 18. -/
theorem Select_pcm_blockalign_witness :
    (Select_pcm (sample_pcm_track "A_PCM/INT/LIT" 24 6)
      "A_PCM/INT/LIT".toList).fmt.audio_i_blockalign = 18 :=
  ((Select_pcm_blockalign sample_select_env (sample_pcm_track "A_PCM/INT/LIT" 24 6)).2.2
    "A_PCM/INT/LIT".toList (by decide) (by decide)).1

/-- C33, as stated, fails: with 4294967295 bits per sample and one channel the sum
bits + 7 wraps to 6 in `unsigned` arithmetic and the block align is 0, not the
536870912 bytes that hold the bits of a sample. -/
theorem Select_pcm_wraps :
    (Select_pcm (sample_pcm_track "A_PCM/INT/LIT" 4294967295 1)
      "A_PCM/INT/LIT".toList).fmt.audio_i_blockalign = 0 ∧
    (Select_codec sample_select_env (sample_pcm_track "A_PCM/INT/LIT" 4294967295 1)
      "A_PCM/INT/LIT".toList).map (fun r => r.2.fmt.audio_i_blockalign) = some 0 ∧
    (4294967295 + 7) / 8 * 1 = 536870912 := by
  decide

/-- C37: an A_MS/ACM track whose codec-private data is a WAVEFORMATEX with
`cbSize = 4` followed by 2 bytes: `fmt.i_extra` is 4 and the copy of 4 bytes from
the end of the header reads 2 bytes outside the codec-private data, so the
branch has no defined result; with 4 bytes after the header the extradata is
these 4 bytes. -/
theorem Select_acm_reads_outside :
    (sample_wf 4 [9, 9]).length = 20 ∧
    GetWLE (sample_wf 4 [9, 9]) 16 = some 4 ∧
    copy_bytes (sample_wf 4 [9, 9]) sizeof_WAVEFORMATEX 4 = none ∧
    Select_acm sample_select_env
      (sample_codec_track es_category.AUDIO_ES "A_MS/ACM" (sample_wf 4 [9, 9])) = none ∧
    Select_codec sample_select_env
      (sample_codec_track es_category.AUDIO_ES "A_MS/ACM" (sample_wf 4 [9, 9]))
      "A_MS/ACM".toList = none ∧
    (Select_acm sample_select_env
      (sample_codec_track es_category.AUDIO_ES "A_MS/ACM" (sample_wf 4 [9, 8, 7, 6]))).map
        (fun tk => (tk.fmt.i_extra, tk.fmt.p_extra)) = some (4, [9, 8, 7, 6]) := by
  decide

/-- C38: a V_MS/VFW/FOURCC track with a complete header followed by 4 bytes: with
`biSize = 39` the extradata length `fmt.i_extra` after the branch is -1, with
`biSize = 16` it is -24, and no extradata is copied; with `biSize = 42` it is 2
and with `biSize = 100` it is 4, the number of bytes after the header. -/
theorem Select_vfw_negative_extra :
    (Select_vfw (sample_vfw_track (sample_bih 39 ++ [1, 2, 3, 4]))).fmt.i_extra = -1 ∧
    (Select_vfw (sample_vfw_track (sample_bih 16 ++ [1, 2, 3, 4]))).fmt.i_extra = -24 ∧
    (Select_vfw (sample_vfw_track (sample_bih 39 ++ [1, 2, 3, 4]))).fmt.p_extra = [] ∧
    (Select_vfw (sample_vfw_track (sample_bih 42 ++ [1, 2, 3, 4]))).fmt.i_extra = 2 ∧
    (Select_vfw (sample_vfw_track (sample_bih 100 ++ [1, 2, 3, 4]))).fmt.i_extra = 4 ∧
    (Select_codec sample_select_env (sample_vfw_track (sample_bih 39 ++ [1, 2, 3, 4]))
      "V_MS/VFW/FOURCC".toList).map (fun r => r.2.fmt.i_extra) = some (-1) := by
  decide

/-! ## The slots that LoadCues builds -/

theorem LoadCues_track_positions_fields (data_offset : Nat) (children : List EbmlElement) :
    ∀ idx : mkv_index_t,
      (LoadCues_track_positions data_offset idx children).i_time = idx.i_time ∧
      (LoadCues_track_positions data_offset idx children).b_key = idx.b_key ∧
      ((∀ x ∈ children, ∀ v, x.id ≠ EbmlId.KaxCueTrack v) →
        (LoadCues_track_positions data_offset idx children).i_track = idx.i_track) ∧
      ((∀ x ∈ children, ∀ v, x.id ≠ EbmlId.KaxCueBlockNumber v) →
        (LoadCues_track_positions data_offset idx children).i_block_number =
          idx.i_block_number) ∧
      ((∀ x ∈ children, ∀ v, x.id ≠ EbmlId.KaxCueClusterPosition v) →
        (LoadCues_track_positions data_offset idx children).i_position = idx.i_position) := by
  induction children with
  | nil => intro idx; exact ⟨rfl, rfl, fun _ => rfl, fun _ => rfl, fun _ => rfl⟩
  | cons x rest ih =>
    intro idx
    unfold LoadCues_track_positions at ih ⊢
    rw [List.foldl_cons]
    have hrest : ∀ (P : EbmlElement → Prop), (∀ y ∈ x :: rest, P y) → P x ∧ ∀ y ∈ rest, P y :=
      fun P h => ⟨h x (List.mem_cons_self _ _), fun y hy => h y (List.mem_cons_of_mem _ hy)⟩
    split
    · rename_i ctrack hid
      obtain ⟨h1, h2, _, h4, h5⟩ := ih { idx with i_track := ((ctrack % 2 ^ 16 : Nat) : Int) }
      refine ⟨h1, h2, fun h => absurd hid ((hrest _ h).1 ctrack), fun h => ?_, fun h => ?_⟩
      · exact h4 (hrest _ h).2
      · exact h5 (hrest _ h).2
    · rename_i ccpos hid
      obtain ⟨h1, h2, h3, h4, _⟩ := ih
        { idx with i_position := toInt64 (GetGlobalPosition data_offset (ccpos % 2 ^ 64)) }
      refine ⟨h1, h2, fun h => ?_, fun h => ?_, fun h => absurd hid ((hrest _ h).1 ccpos)⟩
      · exact h3 (hrest _ h).2
      · exact h4 (hrest _ h).2
    · rename_i cbnum hid
      obtain ⟨h1, h2, h3, _, h5⟩ := ih
        { idx with i_block_number := toInt32 ((cbnum % 2 ^ 32 : Nat) : Int) }
      refine ⟨h1, h2, fun h => ?_, fun h => absurd hid ((hrest _ h).1 cbnum), fun h => ?_⟩
      · exact h3 (hrest _ h).2
      · exact h5 (hrest _ h).2
    · obtain ⟨h1, h2, h3, h4, h5⟩ := ih idx
      exact ⟨h1, h2, fun h => h3 (hrest _ h).2, fun h => h4 (hrest _ h).2,
        fun h => h5 (hrest _ h).2⟩

theorem LoadCues_point_fields (i_timescale data_offset : Nat) (children : List EbmlElement) :
    ∀ idx : mkv_index_t,
      (LoadCues_point i_timescale data_offset idx children).b_key = idx.b_key ∧
      ((∀ e ∈ children, ∀ v, e.id ≠ EbmlId.KaxCueTime v) →
        (LoadCues_point i_timescale data_offset idx children).i_time = idx.i_time) ∧
      ((∀ e ∈ children, e.id = EbmlId.KaxCueTrackPositions →
          ∀ x ∈ e.children, ∀ v, x.id ≠ EbmlId.KaxCueTrack v) →
        (LoadCues_point i_timescale data_offset idx children).i_track = idx.i_track) ∧
      ((∀ e ∈ children, e.id = EbmlId.KaxCueTrackPositions →
          ∀ x ∈ e.children, ∀ v, x.id ≠ EbmlId.KaxCueBlockNumber v) →
        (LoadCues_point i_timescale data_offset idx children).i_block_number =
          idx.i_block_number) ∧
      ((∀ e ∈ children, e.id = EbmlId.KaxCueTrackPositions →
          ∀ x ∈ e.children, ∀ v, x.id ≠ EbmlId.KaxCueClusterPosition v) →
        (LoadCues_point i_timescale data_offset idx children).i_position = idx.i_position) := by
  induction children with
  | nil => intro idx; exact ⟨rfl, fun _ => rfl, fun _ => rfl, fun _ => rfl, fun _ => rfl⟩
  | cons e rest ih =>
    intro idx
    unfold LoadCues_point at ih ⊢
    rw [List.foldl_cons]
    have hrest : ∀ (P : EbmlElement → Prop), (∀ y ∈ e :: rest, P y) → P e ∧ ∀ y ∈ rest, P y :=
      fun P h => ⟨h e (List.mem_cons_self _ _), fun y hy => h y (List.mem_cons_of_mem _ hy)⟩
    split
    · rename_i ctime hid
      obtain ⟨h1, _, h3, h4, h5⟩ := ih (mkv_index_t.mk idx.i_track idx.i_block_number
        idx.i_position (toInt64 ((((ctime % 2 ^ 64) * i_timescale) % 2 ^ 64 / 1000 : Nat) : Int))
        idx.b_key)
      exact ⟨h1, fun h => absurd hid ((hrest _ h).1 ctime), fun h => h3 (hrest _ h).2,
        fun h => h4 (hrest _ h).2, fun h => h5 (hrest _ h).2⟩
    · rename_i hid
      obtain ⟨t1, t2, t3, t4, t5⟩ :=
        LoadCues_track_positions_fields data_offset e.children idx
      obtain ⟨h1, h2, h3, h4, h5⟩ := ih (LoadCues_track_positions data_offset idx e.children)
      refine ⟨h1.trans t2, fun h => (h2 (hrest _ h).2).trans t1, fun h => ?_, fun h => ?_,
        fun h => ?_⟩
      · exact (h3 (hrest _ h).2).trans (t3 ((hrest _ h).1 hid))
      · exact (h4 (hrest _ h).2).trans (t4 ((hrest _ h).1 hid))
      · exact (h5 (hrest _ h).2).trans (t5 ((hrest _ h).1 hid))
    · obtain ⟨h1, h2, h3, h4, h5⟩ := ih idx
      exact ⟨h1, fun h => h2 (hrest _ h).2, fun h => h3 (hrest _ h).2,
        fun h => h4 (hrest _ h).2, fun h => h5 (hrest _ h).2⟩

theorem LoadCues_point_time (i_timescale data_offset : Nat) (pre post c : List EbmlElement)
    (ctime pos : Nat) (idx : mkv_index_t)
    (hpost : ∀ e ∈ post, ∀ v, e.id ≠ EbmlId.KaxCueTime v) :
    (LoadCues_point i_timescale data_offset idx
        (pre ++ EbmlElement.mk (.KaxCueTime ctime) pos c :: post)).i_time =
      (((ctime % 2 ^ 64) * i_timescale % 2 ^ 64 / 1000 : Nat) : Int) := by
  have hlt : ((ctime % 2 ^ 64) * i_timescale) % 2 ^ 64 / 1000 < 2 ^ 63 := by
    have : ((ctime % 2 ^ 64) * i_timescale) % 2 ^ 64 < 2 ^ 64 := Nat.mod_lt _ (by norm_num)
    omega
  have hsplit : LoadCues_point i_timescale data_offset idx
      (pre ++ EbmlElement.mk (.KaxCueTime ctime) pos c :: post) =
      LoadCues_point i_timescale data_offset
        (mkv_index_t.mk (LoadCues_point i_timescale data_offset idx pre).i_track
          (LoadCues_point i_timescale data_offset idx pre).i_block_number
          (LoadCues_point i_timescale data_offset idx pre).i_position
          (toInt64 ((((ctime % 2 ^ 64) * i_timescale) % 2 ^ 64 / 1000 : Nat) : Int))
          (LoadCues_point i_timescale data_offset idx pre).b_key) post := by
    unfold LoadCues_point
    rw [List.foldl_append, List.foldl_cons]
    rfl
  rw [hsplit, (LoadCues_point_fields i_timescale data_offset post _).2.1 hpost]
  exact toInt64_of_lt _ hlt

/-- C32: `LoadCues` (with `b_cues` false) appends one slot for each CuePoint, built
from the children of the CuePoint: its keyframe flag is true; its time is
CueTime × timescale, taken modulo 2^64, divided by 1000, for the last CueTime
child, and 0 without a CueTime child; its track, block number and position are
-1 when no CueTrackPositions child holds a CueTrack, a CueBlockNumber, a
CueClusterPosition. -/
theorem LoadCues_slot_fields (data_offset : Nat) (s : matroska_segment_c) (cues : EbmlElement)
    (h : s.b_cues = false) :
    (LoadCues data_offset s cues).p_indexes =
        s.p_indexes ++
          ((cues.children.filter fun el => decide (el.id = EbmlId.KaxCuePoint)).map fun cp =>
            LoadCues_point s.i_timescale data_offset LoadCues_init cp.children) ∧
    ∀ cs : List EbmlElement,
      (LoadCues_point s.i_timescale data_offset LoadCues_init cs).b_key = true ∧
      (∀ (pre post c : List EbmlElement) (ctime pos : Nat),
        cs = pre ++ EbmlElement.mk (.KaxCueTime ctime) pos c :: post →
        (∀ e ∈ post, ∀ v, e.id ≠ EbmlId.KaxCueTime v) →
        (LoadCues_point s.i_timescale data_offset LoadCues_init cs).i_time =
          (((ctime % 2 ^ 64) * s.i_timescale % 2 ^ 64 / 1000 : Nat) : Int)) ∧
      ((∀ e ∈ cs, ∀ v, e.id ≠ EbmlId.KaxCueTime v) →
        (LoadCues_point s.i_timescale data_offset LoadCues_init cs).i_time = 0) ∧
      ((∀ e ∈ cs, e.id = EbmlId.KaxCueTrackPositions →
          ∀ x ∈ e.children, ∀ v, x.id ≠ EbmlId.KaxCueTrack v) →
        (LoadCues_point s.i_timescale data_offset LoadCues_init cs).i_track = -1) ∧
      ((∀ e ∈ cs, e.id = EbmlId.KaxCueTrackPositions →
          ∀ x ∈ e.children, ∀ v, x.id ≠ EbmlId.KaxCueBlockNumber v) →
        (LoadCues_point s.i_timescale data_offset LoadCues_init cs).i_block_number = -1) ∧
      ((∀ e ∈ cs, e.id = EbmlId.KaxCueTrackPositions →
          ∀ x ∈ e.children, ∀ v, x.id ≠ EbmlId.KaxCueClusterPosition v) →
        (LoadCues_point s.i_timescale data_offset LoadCues_init cs).i_position = -1) := by
  refine ⟨(LoadCues_slots data_offset s cues h).1, fun cs => ?_⟩
  obtain ⟨h1, h2, h3, h4, h5⟩ :=
    LoadCues_point_fields s.i_timescale data_offset cs LoadCues_init
  refine ⟨h1, ?_, h2, h3, h4, h5⟩
  intro pre post c ctime pos hcs hpost
  rw [hcs]
  exact LoadCues_point_time s.i_timescale data_offset pre post c ctime pos LoadCues_init hpost

/-- C32: with the timescale 1000000, a CuePoint whose only child is a CueTime of 5
ticks gives the slot of time 5000 with track, block number and position -1,
and a CuePoint without children gives the time 0. -/
theorem LoadCues_slot_fields_witness :
    (LoadCues 0 {} (EbmlElement.mk .KaxCues 50
      [sample_cue_point 5 [], EbmlElement.mk .KaxCuePoint 70 []])).p_indexes =
      [{ i_track := -1, i_block_number := -1, i_position := -1, i_time := 5000, b_key := true },
       { i_track := -1, i_block_number := -1, i_position := -1, i_time := 0, b_key := true }] := by
  rw [(LoadCues_slot_fields 0 {} (EbmlElement.mk .KaxCues 50
    [sample_cue_point 5 [], EbmlElement.mk .KaxCuePoint 70 []]) rfl).1]
  decide

/-! ## Preload without tracks -/

theorem Preload_element_no_track (env : Parse_env) (ep : EbmlParser) (s : matroska_segment_c)
    (el : EbmlElement) (h0 : s.tracks = [])
    (hnt : ∀ s1 : matroska_segment_c, s1.tracks = [] →
      (env.ParseSeekHead s1 el).tracks = [] ∧ (env.ParseInfo s1 el).tracks = [] ∧
      (env.ParseTracks s1 el).tracks = [] ∧ (env.ParseAttachments s1 el).tracks = [] ∧
      (env.ParseChapters s1 el).tracks = []) :
    (el.id = EbmlId.KaxTracks →
      ∃ s', Preload_element env ep s el = .stop false s' ∧ s'.tracks = []) ∧
    (el.id = EbmlId.KaxCluster → ∃ s', Preload_element env ep s el = .stop true s') ∧
    (el.id ≠ EbmlId.KaxTracks → el.id ≠ EbmlId.KaxCluster →
      ∃ s', Preload_element env ep s el = .next s' ∧ s'.tracks = []) := by
  refine ⟨?_, ?_, ?_⟩
  · intro hid
    unfold Preload_element
    simp only [hid]
    split
    · have ht := (hnt s h0).2.2.1
      simp only [ht, List.length_nil, if_true]
      exact ⟨_, rfl, ht⟩
    · simp only [h0, List.length_nil, if_true]
      exact ⟨_, rfl, h0⟩
  · intro hid
    unfold Preload_element
    simp only [hid]
    exact ⟨_, rfl⟩
  · intro hT hC
    unfold Preload_element
    split
    · split
      · exact ⟨_, rfl,
          (hnt { s with i_seekhead_position := toInt64 (env.getFilePointer el false) } h0).1⟩
      · exact ⟨_, rfl, h0⟩
    · split
      · exact ⟨_, rfl, (hnt s h0).2.1⟩
      · exact ⟨_, rfl, h0⟩
    · rename_i hid
      exact absurd hid hT
    · split
      · exact ⟨_, rfl, (LoadCues_positions env.data_offset s el).2.2.trans h0⟩
      · exact ⟨_, rfl, h0⟩
    · rename_i hid
      exact absurd hid hC
    · split
      · exact ⟨_, rfl, (hnt s h0).2.2.2.1⟩
      · exact ⟨_, rfl, h0⟩
    · split
      · exact ⟨_, rfl, (hnt s h0).2.2.2.2⟩
      · exact ⟨_, rfl, h0⟩
    · exact ⟨_, rfl, h0⟩
    · exact ⟨_, rfl, h0⟩

theorem Preload_loop_no_track (env : Parse_env) (els : List EbmlElement) :
    finds_no_track env els → ∀ s : matroska_segment_c, s.tracks = [] →
      ((Preload_loop env els s).1 = false ↔
        ∃ el ∈ els.takeWhile (fun e => decide (e.id ≠ EbmlId.KaxCluster)),
          el.id = EbmlId.KaxTracks) ∧
      ((Preload_loop env els s).1 = false → (Preload_loop env els s).2.tracks = []) := by
  induction els with
  | nil =>
    intro _ s _
    simp [Preload_loop]
  | cons el rest ih =>
    intro hnt s h0
    have hnt' : finds_no_track env rest := fun s1 h1 e he =>
      hnt s1 h1 e (List.mem_cons_of_mem _ he)
    have hel := Preload_element_no_track env ⟨[⟨s.segment, rest⟩], some el⟩
      { s with ep := some ⟨[⟨s.segment, rest⟩], some el⟩ } el h0
      (fun s1 h1 => hnt s1 h1 el (List.mem_cons_self _ _))
    rw [Preload_loop]
    by_cases hT : el.id = EbmlId.KaxTracks
    · have hC : el.id ≠ EbmlId.KaxCluster := by rw [hT]; decide
      obtain ⟨s', hstop⟩ := hel.1 hT
      rw [hstop.1]
      refine ⟨⟨fun _ => ⟨el, ?_, hT⟩, fun _ => rfl⟩, fun _ => hstop.2⟩
      simp [List.takeWhile_cons, hC]
    · by_cases hC : el.id = EbmlId.KaxCluster
      · obtain ⟨s', hs'⟩ := hel.2.1 hC
        rw [hs']
        refine ⟨⟨fun h => by simp at h, ?_⟩, fun h => by simp at h⟩
        rintro ⟨e, he, _⟩
        simp [List.takeWhile_cons, hC] at he
      · obtain ⟨s', hs', ht'⟩ := hel.2.2 hT hC
        rw [hs']
        dsimp only
        obtain ⟨ih1, ih2⟩ := ih hnt' s' ht'
        refine ⟨ih1.trans ⟨?_, ?_⟩, ih2⟩
        · rintro ⟨e, he, hid⟩
          refine ⟨e, ?_, hid⟩
          simp only [List.takeWhile_cons, ne_eq, hC, not_false_eq_true, decide_True, if_true,
            List.mem_cons]
          exact Or.inr (by simpa using he)
        · rintro ⟨e, he, hid⟩
          simp only [List.takeWhile_cons, ne_eq, hC, not_false_eq_true, decide_True, if_true,
            List.mem_cons] at he
          rcases he with rfl | he
          · exact absurd hid hT
          · exact ⟨e, by simpa using he, hid⟩

/-- C31 (amended): on a first call of `Preload` (parser present) with an empty track
list and parsers that find no track in the elements of level 1, `Preload`
returns, and it returns false if and only if a Tracks element stands before
the first Cluster at level 1; the track list is then still empty. Without
such a Tracks element it returns true although no track was found. -/
theorem Preload_no_tracks (env : Parse_env) (s : matroska_segment_c)
    (hnew : s.b_preloaded = false) (hep : s.ep ≠ none) (h0 : s.tracks = [])
    (hnt : finds_no_track env s.segment.children) :
    ∃ r s', Preload env s = some (r, s') ∧
      (r = false ↔
        ∃ el ∈ s.segment.children.takeWhile (fun e => decide (e.id ≠ EbmlId.KaxCluster)),
          el.id = EbmlId.KaxTracks) ∧
      (r = false → s'.tracks = []) := by
  obtain ⟨h1, h2⟩ := Preload_loop_no_track env s.segment.children hnt s h0
  unfold Preload
  simp only [hnew, Bool.false_eq_true, if_false]
  cases hp : s.ep with
  | none => exact absurd hp hep
  | some ep =>
    dsimp only
    cases hr : (Preload_loop env s.segment.children s).1 with
    | true =>
      refine ⟨true, _, if_pos rfl, ?_, by simp⟩
      rw [← h1, hr]
    | false =>
      refine ⟨false, _, if_neg (by simp), ?_, fun _ => h2 hr⟩
      rw [← h1, hr]

/-- C31: with a Tracks element without entries before the first Cluster, `Preload`
returns false. -/
theorem Preload_no_tracks_witness :
    ∃ s', Preload sample_parse_env
        (sample_fresh [EbmlElement.mk .KaxInfo 40 [], EbmlElement.mk .KaxTracks 80 [],
          EbmlElement.mk .KaxCluster 200 []]) = some (false, s') ∧
      s'.tracks = [] := by
  obtain ⟨r, s', h1, h2, h3⟩ := Preload_no_tracks sample_parse_env
    (sample_fresh [EbmlElement.mk .KaxInfo 40 [], EbmlElement.mk .KaxTracks 80 [],
      EbmlElement.mk .KaxCluster 200 []]) rfl (by simp [sample_fresh]) rfl
    (by
      intro s hs el hel
      simp only [sample_fresh, EbmlElement.children, List.mem_cons, List.mem_singleton,
        List.not_mem_nil, or_false] at hel
      rcases hel with h | h | h <;>
        (subst h; simp [sample_parse_env, hs, EbmlElement.children]))
  have hr : r = false := h2.mpr ⟨EbmlElement.mk .KaxTracks 80 [],
    by simp [sample_fresh, EbmlElement.children, EbmlElement.id, List.takeWhile_cons], rfl⟩
  subst hr
  exact ⟨s', h1, h3 rfl⟩

/-- C31, as stated, fails: on a segment whose level 1 holds an Info element and a
Cluster and no Tracks element, a first `Preload` returns true and the track
list is empty: no track was found. -/
theorem Preload_true_without_tracks :
    (Preload sample_parse_env
        (sample_fresh [EbmlElement.mk .KaxInfo 40 [], EbmlElement.mk .KaxCluster 200 []])).map
      (fun r => (r.1, r.2.tracks, r.2.b_preloaded)) = some (true, [], true) := by
  decide

/-! ## BlockGet: flags after a dropped BlockGroup -/

/-- C35: in `case 3` of `BlockGet` a ReferenceBlock met while the keyframe flag is true
clears that flag and leaves the discardable flag; met while the keyframe flag
is false it sets the discardable flag when its value is positive and leaves it
otherwise. A call that reads one BlockGroup of track 1 with the single
ReferenceBlock 1 returns keyframe false and discardable false; but when the
same BlockGroup follows a BlockGroup of the unknown track 7 that holds a
ReferenceBlock, the keyframe flag is already false at its ReferenceBlock and
the call returns it with discardable true. -/
theorem BlockGet_single_reference_after_drop :
    (∀ (s : matroska_segment_c) (v : BlockGet_vars) (ep : EbmlParser) (ref : Int) (pos : Nat)
        (cs : List EbmlElement),
      ∃ s' v', BlockGet_level3 s v ep (EbmlElement.mk (.KaxReferenceBlock ref) pos cs) =
          .again s' v' ∧
        v'.pb_key_picture = false ∧
        v'.pb_discardable_picture =
          (v.pb_discardable_picture || (!v.pb_key_picture && decide (ref > 0)))) ∧
    sample_flags [sample_group 150 1 [1]] = some (VLC_SUCCESS, some 1, false, false) ∧
    sample_flags [sample_group 110 7 [-1], sample_group 150 1 [1]] =
      some (VLC_SUCCESS, some 1, false, true) := by
  refine ⟨?_, by decide, by decide⟩
  intro s v ep ref pos cs
  refine ⟨_, _, rfl, ?_, ?_⟩
  · cases hk : v.pb_key_picture <;> by_cases hr : ref > 0 <;> simp [hk, hr]
  · cases hk : v.pb_key_picture <;> by_cases hr : ref > 0 <;> simp [hk, hr]

/-- C36: a call of `BlockGet` that reads one BlockGroup of track 1 without
ReferenceBlock returns keyframe true and discardable false; when the same
BlockGroup follows a BlockGroup of the unknown track 7 with the ReferenceBlocks
-1 and 1, which is dropped, the call returns it with keyframe false and
discardable true: the flags set by the dropped BlockGroup are not reset. -/
theorem BlockGet_flags_after_drop :
    sample_flags [sample_group 150 1 []] = some (VLC_SUCCESS, some 1, true, false) ∧
    sample_flags [sample_group 110 7 [-1, 1], sample_group 150 1 []] =
      some (VLC_SUCCESS, some 1, false, true) ∧
    sample_flags [sample_group 110 7 [-1], sample_group 150 1 []] =
      some (VLC_SUCCESS, some 1, false, false) := by
  decide

/-! ## Seek: the index accesses are in range -/

theorem Seek_search_reads_fst (i_cat : es_category) (i_time_offset : Int) (blockFuel : Nat)
    (fuel : Nat) :
    ∀ (s : matroska_segment_c) (l : Seek_vars),
      (Seek_search_reads i_cat i_time_offset blockFuel fuel s l).map Prod.fst =
        Seek_search i_cat i_time_offset blockFuel fuel s l := by
  induction fuel with
  | zero => intro s l; rfl
  | succ n ih =>
    intro s l
    rw [Seek_search_reads, Seek_search]
    cases hb : BlockGet blockFuel s l.i_block_duration with
    | none => rfl
    | some r =>
      obtain ⟨code, s1, v⟩ := r
      dsimp only
      split
      · rfl
      · split
        · exact ih _ _
        · split
          · rfl
          · rw [Option.map_map]
            exact ih _ _

theorem update_index_length (l : List mkv_index_t) (tc : Nat) (key : Bool) :
    (update_index l tc key).length = l.length := by
  have h := congrArg List.length (update_index_positions l tc key)
  simpa using h

theorem BlockGet_deliver_length (s : matroska_segment_c) (v : BlockGet_vars) :
    s.p_indexes.length ≤ (BlockGet_deliver s v).state.p_indexes.length := by
  unfold BlockGet_deliver
  split
  · exact Nat.le_refl _
  · exact Nat.le_of_eq (update_index_length _ _ _).symm

theorem BlockGet_parse_length (s : matroska_segment_c) (v : BlockGet_vars) (ep : EbmlParser)
    (el : Option EbmlElement) :
    s.p_indexes.length ≤ (BlockGet_parse s v ep el).state.p_indexes.length := by
  unfold BlockGet_parse
  split
  · dsimp only
    split <;> exact Nat.le_refl _
  · dsimp only
    split
    · unfold BlockGet_level1
      split <;> exact Nat.le_refl _
    · unfold BlockGet_level2
      split
      · dsimp only
        split
        · unfold IndexAppendCluster BlockGet_pass.state
          simp
        · exact Nat.le_refl _
      all_goals exact Nat.le_refl _
    · rw [BlockGet_level3_eq]; exact Nat.le_refl _
    all_goals exact Nat.le_refl _

theorem BlockGet_deliver_length_of_le (s : matroska_segment_c) (v : BlockGet_vars) (n : Nat)
    (h : n ≤ s.p_indexes.length) : n ≤ (BlockGet_deliver s v).state.p_indexes.length :=
  Nat.le_trans h (BlockGet_deliver_length s v)

theorem BlockGet_parse_length_of_le (s : matroska_segment_c) (v : BlockGet_vars)
    (ep : EbmlParser) (el : Option EbmlElement) (n : Nat) (h : n ≤ s.p_indexes.length) :
    n ≤ (BlockGet_parse s v ep el).state.p_indexes.length :=
  Nat.le_trans h (BlockGet_parse_length s v ep el)

theorem BlockGet_body_length (s : matroska_segment_c) (v : BlockGet_vars) :
    s.p_indexes.length ≤ (BlockGet_body s v).state.p_indexes.length := by
  unfold BlockGet_body
  split
  · exact Nat.le_refl _
  · split
    · exact BlockGet_deliver_length s v
    · dsimp only
      split
      · exact BlockGet_deliver_length_of_le _ v _ (Nat.le_refl _)
      · exact BlockGet_parse_length_of_le _ _ _ _ _ (Nat.le_refl _)

theorem BlockGet_loop_length (fuel : Nat) :
    ∀ (s : matroska_segment_c) (v : BlockGet_vars) (code : Int) (s' : matroska_segment_c)
      (v' : BlockGet_vars),
      BlockGet_loop fuel s v = some (code, s', v') →
      s.p_indexes.length ≤ s'.p_indexes.length := by
  induction fuel with
  | zero => intro s v code s' v' h; simp [BlockGet_loop] at h
  | succ n ih =>
    intro s v code s' v' h
    rw [BlockGet_loop] at h
    have hb := BlockGet_body_length s v
    cases hbody : BlockGet_body s v with
    | again s1 v1 =>
      rw [hbody] at h hb
      exact Nat.le_trans hb (ih s1 v1 code s' v' h)
    | ret c1 s1 v1 =>
      rw [hbody] at h hb
      simp only [Option.some.injEq, Prod.mk.injEq] at h
      obtain ⟨_, rfl, _⟩ := h
      exact hb

theorem Seek_search_reads_range (i_cat : es_category) (i_time_offset : Int) (blockFuel : Nat)
    (fuel : Nat) :
    ∀ (s : matroska_segment_c) (l : Seek_vars)
      (res : matroska_segment_c ⊕ (matroska_segment_c × Seek_vars)) (log : List (Nat × Nat)),
      (l.i_idx = 0 ∨ l.i_idx < s.p_indexes.length) →
      Seek_search_reads i_cat i_time_offset blockFuel fuel s l = some (res, log) →
      (∀ p ∈ log, 0 < p.1 ∧ p.1 < p.2) ∧ log.length ≤ l.i_idx := by
  induction fuel with
  | zero =>
    intro s l res log _ h
    simp [Seek_search_reads] at h
  | succ n ih =>
    intro s l res log hinv h
    rw [Seek_search_reads] at h
    cases hb : BlockGet blockFuel s l.i_block_duration with
    | none =>
      rw [hb] at h
      simp at h
    | some r =>
      obtain ⟨code, s1, v⟩ := r
      have hlen : s.p_indexes.length ≤ s1.p_indexes.length := by
        unfold BlockGet at hb
        exact BlockGet_loop_length blockFuel s _ code s1 v hb
      rw [hb] at h
      dsimp only at h
      split at h
      · simp only [Option.some.injEq, Prod.mk.injEq] at h
        rw [← h.2]
        simp
      · split at h
        · have hinv1 : l.i_idx = 0 ∨ l.i_idx < s1.p_indexes.length := by
            rcases hinv with h0 | hlt
            · exact Or.inl h0
            · exact Or.inr (Nat.lt_of_lt_of_le hlt hlen)
          have hih := fun hi => ih s1 _ res log hi h
          exact hih hinv1
        · split at h
          · simp only [Option.some.injEq, Prod.mk.injEq] at h
            rw [← h.2]
            simp
          · rename_i hnot
            have hpos : ¬ l.i_idx = 0 := fun h0 => hnot (Or.inr h0)
            have hlt : l.i_idx < s1.p_indexes.length := by
              rcases hinv with h0 | hlt
              · exact absurd h0 hpos
              · exact Nat.lt_of_lt_of_le hlt hlen
            obtain ⟨r, hr, hf⟩ := Option.map_eq_some'.mp h
            have hih := fun hi => ih _ _ r.1 r.2 hi hr
            have hr' := hih (Or.inr (by
              show l.i_idx - 1 < s1.p_indexes.length
              omega))
            simp only [Prod.mk.injEq] at hf
            rw [← hf.2]
            refine ⟨?_, ?_⟩
            · intro p hp
              rcases List.mem_cons.mp hp with rfl | hp
              · exact ⟨Nat.pos_of_ne_zero hpos, hlt⟩
              · exact hr'.1 p hp
            · have h2 : r.2.length ≤ l.i_idx - 1 := hr'.2
              rw [List.length_cons]
              omega

/-- C39: the index accesses of `Seek` are in range. With a non-empty index the slot
index `i_idx` of the lookup is below `i_index` and the seek position and time
are read from that slot; it is 0 when every slot has `time + t_offset` above
the target; with an empty index no slot is read and `i_idx` is 0. In the
keyframe search that starts from there, every step back is taken with
`0 < i_idx < i_index`, so that the reads of `p_indexes[i_idx].i_time` and of
`p_indexes[i_idx - 1].i_position` are in range, and there are at most `i_idx`
step backs (so at most `i_idx + 1` runs of the scan), none with an empty
index. The search with the record of the step backs is the search of `Seek`. -/
theorem Seek_index_in_range (s : matroska_segment_c) (i_date i_time_offset : Int)
    (fuel blockFuel : Nat) :
    (s.p_indexes ≠ [] →
      (Seek_lookup s i_date i_time_offset).1 < s.i_index ∧
      ∃ idx, s.p_indexes[(Seek_lookup s i_date i_time_offset).1]? = some idx ∧
        (Seek_lookup s i_date i_time_offset).2.1 = idx.i_position ∧
        (Seek_lookup s i_date i_time_offset).2.2 = idx.i_time) ∧
    (s.p_indexes ≠ [] → (∀ idx ∈ s.p_indexes, idx.i_time + i_time_offset > i_date) →
      (Seek_lookup s i_date i_time_offset).1 = 0) ∧
    (s.p_indexes = [] →
      Seek_lookup s i_date i_time_offset = (0, s.i_start_pos, s.i_start_time)) ∧
    (Seek_begin_search s i_date i_time_offset).2.2.i_idx =
      (Seek_lookup s i_date i_time_offset).1 ∧
    (Seek_begin_search s i_date i_time_offset).1.p_indexes = s.p_indexes ∧
    (∀ res log,
      Seek_search_reads (Seek_begin_search s i_date i_time_offset).2.1 i_time_offset blockFuel
          fuel (Seek_begin_search s i_date i_time_offset).1
          (Seek_begin_search s i_date i_time_offset).2.2 = some (res, log) →
      (∀ p ∈ log, 0 < p.1 ∧ p.1 < p.2) ∧
      log.length ≤ (Seek_lookup s i_date i_time_offset).1 ∧
      (s.p_indexes = [] → log = [])) ∧
    (Seek_search_reads (Seek_begin_search s i_date i_time_offset).2.1 i_time_offset blockFuel
        fuel (Seek_begin_search s i_date i_time_offset).1
        (Seek_begin_search s i_date i_time_offset).2.2).map Prod.fst =
      Seek_search (Seek_begin_search s i_date i_time_offset).2.1 i_time_offset blockFuel
        fuel (Seek_begin_search s i_date i_time_offset).1
        (Seek_begin_search s i_date i_time_offset).2.2 := by
  have hempty : s.p_indexes = [] →
      Seek_lookup s i_date i_time_offset = (0, s.i_start_pos, s.i_start_time) := by
    intro h
    unfold Seek_lookup
    simp [h]
  have hrange : s.p_indexes ≠ [] →
      (Seek_lookup s i_date i_time_offset).1 < s.p_indexes.length := by
    intro h
    have hlen : 0 < s.p_indexes.length := List.length_pos.mpr h
    have hk := @List.findIdx_le_length _
      (fun idx : mkv_index_t => decide (idx.i_time + i_time_offset > i_date)) s.p_indexes
    rw [(Seek_lookup_eq s i_date i_time_offset h).1]
    omega
  refine ⟨fun h => ⟨hrange h, (Seek_lookup_eq s i_date i_time_offset h).2⟩, ?_, hempty, rfl, rfl,
    ?_, Seek_search_reads_fst _ _ _ _ _ _⟩
  · intro h hall
    rw [(Seek_lookup_eq s i_date i_time_offset h).1]
    have h0 : (s.p_indexes.findIdx fun idx => decide (idx.i_time + i_time_offset > i_date)) =
        0 := by
      cases hl : s.p_indexes with
      | nil => exact absurd hl h
      | cons a rest =>
        have ha := hall a (by rw [hl]; exact List.mem_cons_self _ _)
        simp [List.findIdx_cons, ha]
    rw [h0]
  · intro res log hrun
    have hinv : (Seek_begin_search s i_date i_time_offset).2.2.i_idx = 0 ∨
        (Seek_begin_search s i_date i_time_offset).2.2.i_idx <
          (Seek_begin_search s i_date i_time_offset).1.p_indexes.length := by
      by_cases h : s.p_indexes = []
      · left
        show (Seek_lookup s i_date i_time_offset).1 = 0
        rw [hempty h]
      · right
        exact hrange h
    obtain ⟨h1, h2⟩ := Seek_search_reads_range _ _ _ _ _ _ res log hinv hrun
    refine ⟨h1, h2, ?_⟩
    intro h
    have h3 : log.length ≤ 0 := by
      have e : (Seek_begin_search s i_date i_time_offset).2.2.i_idx = 0 := by
        show (Seek_lookup s i_date i_time_offset).1 = 0
        rw [hempty h]
      rw [e] at h2
      exact h2
    exact List.length_eq_zero.mp (Nat.le_zero.mp h3)

/-- C39: the search to 1.5 s in the segment whose cluster at 1 s has no keyframe
starts at slot 1 of 2 and makes one step back, with `i_idx = 1` and
`i_index = 2`. -/
theorem Seek_index_in_range_witness :
    (Seek_lookup (sample_two_clusters false) 1500000 0).1 = 1 ∧
    ∃ res log,
      Seek_search_reads (Seek_begin_search (sample_two_clusters false) 1500000 0).2.1 0 20 20
        (Seek_begin_search (sample_two_clusters false) 1500000 0).1
        (Seek_begin_search (sample_two_clusters false) 1500000 0).2.2 = some (res, log) ∧
      log = [(1, 2)] ∧ (∀ p ∈ log, 0 < p.1 ∧ p.1 < p.2) := by
  refine ⟨by decide, ?_⟩
  have hs : (Seek_search_reads (Seek_begin_search (sample_two_clusters false) 1500000 0).2.1
      0 20 20 (Seek_begin_search (sample_two_clusters false) 1500000 0).1
      (Seek_begin_search (sample_two_clusters false) 1500000 0).2.2).map Prod.snd =
      some [(1, 2)] := by decide
  obtain ⟨⟨res, log⟩, hr, hlog⟩ := Option.map_eq_some'.mp hs
  exact ⟨res, log, hr, hlog,
    ((Seek_index_in_range (sample_two_clusters false) 1500000 0 20 20).2.2.2.2.2.1
      res log hr).1⟩

end Mkv
